import Mathlib

/-!
# NVMe driver: queue pair, PRP classifier, block-device adapter, discovery chain

A shallow embedding of `server/src/queue.h`, `server/src/ns.cc`,
`server/src/nvme_device.{h,cc}` and of the controller in `server/src/ctl.cc`:
bring-up, interrupt dispatch and the namespace discovery chain.

Conventions of the embedding.

* Machine integers are natural numbers; every assignment to an `l4_uint16_t`,
  `l4_uint32_t`, `unsigned` or `l4_uint64_t` / `l4_size_t` object is reduced
  modulo `2^16`, `2^32`, `2^32` or `2^64` (a 64-bit target, little endian).
* A ring in DMA memory is a list of entries; a pointer into the ring returned
  by `produce()` / `consume()` is the index of the entry, and a store through
  the pointer is an update of the list at that index.
* A method that changes the object returns the new object next to its result.
* MMIO register writes are recorded in a log of `(offset, value)` pairs.
-/

namespace Nvme

/-! ## Machine words and bit-fields -/

/-- Truncation of a value to an unsigned 16-bit object. -/
def u16 (x : Nat) : Nat := x % 2 ^ 16

/-- Truncation of a value to an unsigned 32-bit object. -/
def u32 (x : Nat) : Nat := x % 2 ^ 32

/-- Truncation of a value to an unsigned 64-bit object. -/
def u64 (x : Nat) : Nat := x % 2 ^ 64

/-- Read of a `CXX_BITFIELD_MEMBER(lsb, msb, ..)` view: bits `lsb..msb` of the
underlying word. -/
def bf_get (lsb msb word : Nat) : Nat := (word / 2 ^ lsb) % 2 ^ (msb - lsb + 1)

/-- Store through a `CXX_BITFIELD_MEMBER(lsb, msb, ..)` view: bits `lsb..msb`
of the word are replaced by the low bits of `v`, all other bits are kept. -/
def bf_set (lsb msb word v : Nat) : Nat :=
  word - bf_get lsb msb word * 2 ^ lsb + (v % 2 ^ (msb - lsb + 1)) * 2 ^ lsb

/-- The page size `L4_PAGESIZE` for a page shift `ps` (`L4_PAGESHIFT`). -/
def L4_PAGESIZE (ps : Nat) : Nat := 2 ^ ps

/-- The L4 helper `l4_trunc_page`: the address rounded down to a page
boundary. -/
def l4_trunc_page (ps x : Nat) : Nat := x / 2 ^ ps * 2 ^ ps

/-! ## Constants of `nvme_types.h` and of the L4 error header -/

/-- Modelled from the spec: `nvme_types.h` is not among the sources. I/O
command set opcode of Read (`opc=0x02` in scenario S1). -/
def Iocs.Read : Nat := 0x02

/-- Modelled from the spec: `nvme_types.h` is not among the sources. I/O
command set opcode of Write (NVM command set value). -/
def Iocs.Write : Nat := 0x01

/-- Modelled from the spec: `nvme_types.h` is not among the sources. I/O
command set opcode of Write Zeroes (NVM command set value). -/
def Iocs.Write_zeroes : Nat := 0x08

/-- Modelled from the spec: `nvme_types.h` is not among the sources. PSDT
value selecting PRPs (`psdt=0 (PRP)` in scenario S1). -/
def Psdt.Use_prps : Nat := 0

/-- Modelled from the spec: `nvme_types.h` is not among the sources. PSDT
value selecting SGLs. -/
def Psdt.Use_sgls : Nat := 1

/-- Modelled from the spec: `nvme_types.h` is not among the sources. SGL
descriptor type of a data block descriptor. -/
def Sgl_id.Data : Nat := 0x00

/-- Modelled from the spec: `nvme_types.h` is not among the sources. SGL
descriptor type of a last-segment descriptor addressed by `addr`. -/
def Sgl_id.Last_segment_addr : Nat := 0x30

/-- Modelled from the spec: `nvme_types.h` is not among the sources. The
size in bytes of one SGL descriptor (`sgl1.len = 2·16` in scenario S4). -/
def sizeof_Sgl_desc : Nat := 16

/-- Success code of the L4 error header. -/
def L4_EOK : Int := 0

/-- Resource-busy code of the L4 error header. -/
def L4_EBUSY : Int := 16

/-- Tunable of `queue.h`: number of entries per I/O queue. -/
def Ioq_size : Nat := 32

/-- Tunable of `queue.h`: number of SGL entries per I/O queue entry. -/
def Ioq_sgls : Nat := 32

/-! ## Queue entries (`queue.h`) -/

/-- Modelled from the spec: `Sgl_desc` is declared in `nvme_types.h`, which is
not among the sources. One SGL descriptor: address, length, descriptor type. -/
structure Sgl_desc where
  addr : Nat
  len : Nat
  sgl_id : Nat
deriving DecidableEq, Repr

/-- Submission queue entry. The 16-byte payload union is kept as the two
64-bit words `prp1`, `prp2`; the `sgl1` view of the same bytes is given by
`Sqe.sgl1_*` below. -/
structure Sqe where
  cdw0 : Nat
  nsid : Nat
  res : Nat
  mptr : Nat
  prp1 : Nat
  prp2 : Nat
  cdw10 : Nat
  cdw11 : Nat
  cdw12 : Nat
  cdw13 : Nat
  cdw14 : Nat
  cdw15 : Nat
deriving DecidableEq, Repr

instance : Inhabited Sqe := ⟨⟨0, 0, 0, 0, 0, 0, 0, 0, 0, 0, 0, 0⟩⟩

namespace Sqe

/-- Bit-field `opc` (bits 0..7 of `cdw0`). -/
def opc (e : Sqe) : Nat := bf_get 0 7 e.cdw0
/-- Bit-field `psdt` (bits 14..15 of `cdw0`). -/
def psdt (e : Sqe) : Nat := bf_get 14 15 e.cdw0
/-- Bit-field `cid` (bits 16..31 of `cdw0`). -/
def cid (e : Sqe) : Nat := bf_get 16 31 e.cdw0
/-- Bit-field `nlb` (bits 0..15 of `cdw12`). -/
def nlb (e : Sqe) : Nat := bf_get 0 15 e.cdw12
/-- Bit-field `deac` (bit 25 of `cdw12`). -/
def deac (e : Sqe) : Nat := bf_get 25 25 e.cdw12

/-- Store to `opc()`. -/
def set_opc (e : Sqe) (v : Nat) : Sqe := { e with cdw0 := bf_set 0 7 e.cdw0 v }
/-- Store to `psdt()`. -/
def set_psdt (e : Sqe) (v : Nat) : Sqe := { e with cdw0 := bf_set 14 15 e.cdw0 v }
/-- Store to `nlb()`. -/
def set_nlb (e : Sqe) (v : Nat) : Sqe := { e with cdw12 := bf_set 0 15 e.cdw12 v }
/-- Store to `deac()`. -/
def set_deac (e : Sqe) (v : Nat) : Sqe := { e with cdw12 := bf_set 25 25 e.cdw12 v }

/-- The `sgl1.addr` view of the payload union: bytes 0..7. -/
def sgl1_addr (e : Sqe) : Nat := e.prp1
/-- The `sgl1.len` view of the payload union: bytes 8..11. -/
def sgl1_len (e : Sqe) : Nat := bf_get 0 31 e.prp2
/-- The `sgl1.sgl_id` view of the payload union: byte 15. -/
def sgl1_sgl_id (e : Sqe) : Nat := bf_get 56 63 e.prp2

/-- Store to `sgl1.addr`. -/
def set_sgl1_addr (e : Sqe) (v : Nat) : Sqe := { e with prp1 := u64 v }
/-- Store to `sgl1.len`. -/
def set_sgl1_len (e : Sqe) (v : Nat) : Sqe := { e with prp2 := bf_set 0 31 e.prp2 v }
/-- Store to `sgl1.sgl_id`. -/
def set_sgl1_sgl_id (e : Sqe) (v : Nat) : Sqe := { e with prp2 := bf_set 56 63 e.prp2 v }

end Sqe

/-- Completion queue entry. -/
structure Cqe where
  dw0 : Nat
  dw1 : Nat
  dw2 : Nat
  dw3 : Nat
deriving DecidableEq, Repr

instance : Inhabited Cqe := ⟨⟨0, 0, 0, 0⟩⟩

namespace Cqe

/-- Bit-field `sqid` (bits 16..31 of `dw2`). -/
def sqid (e : Cqe) : Nat := bf_get 16 31 e.dw2
/-- Bit-field `sqhd` (bits 0..15 of `dw2`). -/
def sqhd (e : Cqe) : Nat := bf_get 0 15 e.dw2
/-- Bit-field `cid` (bits 0..15 of `dw3`). -/
def cid (e : Cqe) : Nat := bf_get 0 15 e.dw3
/-- Bit-field `p`, the phase tag (bit 16 of `dw3`). -/
def p (e : Cqe) : Nat := bf_get 16 16 e.dw3
/-- Bit-field `sf`, the status field (bits 17..31 of `dw3`). -/
def sf (e : Cqe) : Nat := bf_get 17 31 e.dw3

end Cqe

/-- The log of MMIO register writes: `(offset, value)` pairs, oldest first. -/
abbrev Mmio := List (Nat × Nat)

/-! ## Submission queue (`queue.h`) -/

/-- The state of a `Submission_queue` (with the members of its base class
`Queue`). `callbacks` is the storage that the unchecked accesses
`_callbacks[i]` reach, one slot per entry of the ring, with what each slot
holds; `callbacks_size` is the `size()` of that vector. `sgls` is the SGL scratch
area, as the list of `(byte offset, descriptor)` stores made to it, latest
first, and `sgls_phys` its bus address. -/
structure Submission_queue (κ : Type) where
  size : Nat
  y : Nat
  dstrd : Nat
  head : Nat
  entries : List Sqe
  callbacks : List (Option κ)
  callbacks_size : Nat
  has_sgls : Bool
  sgls_phys : Nat
  sgls : List (Nat × Sgl_desc)
  tail : Nat

namespace Submission_queue

variable {κ : Type}

/-- The method `Queue::wrap_around(l4_uint16_t i)`: `i % _size`. -/
def wrap_around (q : Submission_queue κ) (i : Nat) : Nat := u16 (u16 i % q.size)

/-- The entry written by the constructor in slot `i`: zeroed ring memory with
`cdw0 = i << 16`. -/
def init_entry (i : Nat) : Sqe := { (default : Sqe) with cdw0 := u32 (i * 2 ^ 16) }

/-- The constructor `Submission_queue(size, y, dstrd, regs, dma, sgls)`. The
ring is zeroed, slot `i` gets `cdw0 = i << 16`; the scratch area exists iff
`sgls != 0`, and its bus address is chosen by the DMA allocator
(`sgls_phys`). The callback vector has `reserve(_size)` applied and nothing
else: its `size()` is 0 and the storage reserved for the `size` slots holds no
constructed element. What an access `_callbacks[i]` finds in slot `i` of that
storage before the slot is first assigned is not determined by the program; it
is the parameter `raw i` (`none`: the slot reads as an empty `std::function`,
`some cb`: it reads as a non-empty one). -/
def mk_queue (size y dstrd sgls sgls_phys : Nat) (raw : Nat → Option κ) :
    Submission_queue κ :=
  { size := u16 size
    y := u32 y
    dstrd := u32 dstrd
    head := 0
    entries := (List.range (u16 size)).map init_entry
    callbacks := (List.range (u16 size)).map raw
    callbacks_size := 0
    has_sgls := decide (sgls ≠ 0)
    sgls_phys := sgls_phys
    sgls := []
    tail := 0 }

/-- The method `is_full()`: `_head == wrap_around(_tail + 1)`. -/
def is_full (q : Submission_queue κ) : Bool := q.head == q.wrap_around (q.tail + 1)

/-- The two `memset` calls of `produce()`: the low two bytes of `cdw0` and
everything after `cdw0` are cleared; the command identifier stays. -/
def clear_entry (e : Sqe) : Sqe :=
  { (default : Sqe) with cdw0 := e.cdw0 - e.cdw0 % 2 ^ 16 }

/-- The method `produce()`. Returns the index of the slot handed out (or
`none`) and the queue afterwards. -/
def produce (q : Submission_queue κ) : Option Nat × Submission_queue κ :=
  if q.is_full then (none, q)
  else if ((q.callbacks.getD q.tail none).isSome) then (none, q)
  else
    (some q.tail,
      { q with
        tail := q.wrap_around (q.tail + 1)
        entries := q.entries.set q.tail (clear_entry (q.entries.getD q.tail default)) })

/-- The doorbell offset `tdbl()`: `0x1000 + ((2 * _y) * (4 << _dstrd))` in
32-bit unsigned arithmetic. -/
def tdbl (q : Submission_queue κ) : Nat :=
  u32 (0x1000 + u32 (u32 (2 * q.y) * u32 (4 * 2 ^ q.dstrd)))

/-- The method `submit()`: writes `_tail` to the tail doorbell. -/
def submit (q : Submission_queue κ) (regs : Mmio) : Mmio := regs ++ [(q.tdbl, q.tail)]

/-- Store through an entry pointer: the entry at index `i` is replaced by
`f` of it. -/
def modify (q : Submission_queue κ) (i : Nat) (f : Sqe → Sqe) : Submission_queue κ :=
  { q with entries := q.entries.set i (f (q.entries.getD i default)) }

/-- The entry at index `i` of the ring. -/
def entry (q : Submission_queue κ) (i : Nat) : Sqe := q.entries.getD i default

/-- Assignment `_callbacks[i] = cb`. -/
def set_callback (q : Submission_queue κ) (i : Nat) (cb : Option κ) : Submission_queue κ :=
  { q with callbacks := q.callbacks.set i cb }

end Submission_queue

/-! ## Completion queue (`queue.h`) -/

/-- The state of a `Completion_queue` (with the members of its base class
`Queue`). -/
structure Completion_queue where
  size : Nat
  y : Nat
  dstrd : Nat
  head : Nat
  entries : List Cqe
  p : Bool
deriving DecidableEq, Repr

namespace Completion_queue

/-- The method `Queue::wrap_around(l4_uint16_t i)`: `i % _size`. -/
def wrap_around (q : Completion_queue) (i : Nat) : Nat := u16 (u16 i % q.size)

/-- The constructor `Completion_queue(size, y, dstrd, regs, dma)`: zeroed
ring, head 0, expected phase true. -/
def mk_queue (size y dstrd : Nat) : Completion_queue :=
  { size := u16 size
    y := u32 y
    dstrd := u32 dstrd
    head := 0
    entries := List.replicate (u16 size) default
    p := true }

/-- The method `consume()`. Returns the index of the entry consumed (or
`none`) and the queue afterwards. -/
def consume (q : Completion_queue) : Option Nat × Completion_queue :=
  let cqe := q.entries.getD q.head default
  if cqe.p = (if q.p then 1 else 0) then
    let head := q.wrap_around (q.head + 1)
    (some q.head, { q with head := head, p := if head = 0 then !q.p else q.p })
  else (none, q)

/-- The doorbell offset `hdbl()`: `0x1000 + ((2 * _y + 1) * (4 << _dstrd))`
in 32-bit unsigned arithmetic. -/
def hdbl (q : Completion_queue) : Nat :=
  u32 (0x1000 + u32 (u32 (u32 (2 * q.y) + 1) * u32 (4 * 2 ^ q.dstrd)))

/-- The method `complete()`: writes `_head` to the head doorbell. -/
def complete (q : Completion_queue) (regs : Mmio) : Mmio := regs ++ [(q.hdbl, q.head)]

end Completion_queue

/-! ## Namespace (`ns.cc`) -/

/-- The completion continuations installed on an I/O submission queue: the
lambda of `Nvme_device::inout_data`, capturing the caller callback and the
byte size `sz`, and the lambda of `Nvme_device::discard`, capturing the caller
callback. Caller callbacks are identified by a number. -/
inductive Callback where
  | inout (callback : Nat) (sz : Nat)
  | discard (callback : Nat)
deriving DecidableEq, Repr

/-- What a namespace reads from its controller: the process-wide gate
`Ctl::use_sgls`, the controller flag `_sgls`, `MDTS` and `CAP.MPSMIN`. -/
structure Ctl_info where
  use_sgls : Bool
  sgls : Bool
  mdts : Nat
  mpsmin : Nat
deriving DecidableEq, Repr

/-- The method `Ctl::supports_sgl()`: `use_sgls && _sgls`. -/
def Ctl_info.supports_sgl (c : Ctl_info) : Bool := c.use_sgls && c.sgls

/-- The state of a `Namespace` after initialisation. -/
structure Namespace where
  ctl : Ctl_info
  nsid : Nat
  lba_sz : Nat
  nsze : Nat
  ro : Bool
  iosq : Submission_queue Callback

/-- Modelled from the spec: `inout_buffer.h` is not among the sources. The
accessors `Inout_buffer::pget(offset)` / `get<T>(offset)` address the buffer
at a byte offset, as in `_buf->get<Sqe>(_tail * _entry_size)` of `queue.h`. -/
def Inout_buffer.pget (base offset : Nat) : Nat := base + offset

namespace Namespace

/-- The stores of `readwrite_prepare_prp` into the slot handed out. -/
def fill_prp (nsid : Nat) (read : Bool) (slba paddr prp2 : Nat) (e : Sqe) : Sqe :=
  let e := e.set_opc (if read then Iocs.Read else Iocs.Write)
  let e := { e with nsid := u32 nsid }
  let e := e.set_psdt Psdt.Use_prps
  let e := { e with prp1 := u64 paddr }
  let e := { e with prp2 := u64 prp2 }
  let e := { e with cdw10 := u32 (slba % 2 ^ 32) }
  let e := { e with cdw11 := u32 (slba / 2 ^ 32) }
  { e with cdw13 := 0, cdw14 := 0, cdw15 := 0 }

/-- The second half of `readwrite_prepare_prp`, from `_iosq->produce()` on,
with the final value of the local `prp2`. -/
def prepare_prp_slot (ns : Namespace) (read : Bool) (slba paddr prp2 : Nat) :
    Option Nat × Namespace :=
  match ns.iosq.produce with
  | (none, q) => (none, { ns with iosq := q })
  | (some i, q) =>
    (some i, { ns with iosq := q.modify i (fill_prp ns.nsid read slba paddr prp2) })

/-- The function `Namespace::readwrite_prepare_prp(read, slba, paddr, sz)` for
page shift `ps`. Returns the index of the prepared entry (or `none` for the
null pointer) and the namespace afterwards. -/
def readwrite_prepare_prp (ps : Nat) (ns : Namespace) (read : Bool) (slba paddr sz : Nat) :
    Option Nat × Namespace :=
  let prp2 := l4_trunc_page ps (u64 (paddr + sz + (2 ^ 64 - 1)))
  if l4_trunc_page ps paddr = prp2 then
    prepare_prp_slot ns read slba paddr 0
  else if l4_trunc_page ps paddr ≠ u64 (prp2 + (2 ^ 64 - 1)) then
    (none, ns)
  else
    prepare_prp_slot ns read slba paddr prp2

/-- The stores of `readwrite_prepare_sgl` into the slot handed out. -/
def fill_sgl (nsid : Nat) (read : Bool) (slba sgls_phys : Nat) (e : Sqe) : Sqe :=
  let e := e.set_opc (if read then Iocs.Read else Iocs.Write)
  let e := { e with nsid := u32 nsid }
  let e := e.set_psdt Psdt.Use_sgls
  let e := e.set_sgl1_sgl_id Sgl_id.Last_segment_addr
  let e := e.set_sgl1_addr (Inout_buffer.pget sgls_phys (e.cid * Ioq_sgls))
  let e := { e with cdw10 := u32 (slba % 2 ^ 32) }
  let e := { e with cdw11 := u32 (slba / 2 ^ 32) }
  { e with cdw13 := 0, cdw14 := 0, cdw15 := 0 }

/-- The function `Namespace::readwrite_prepare_sgl(read, slba, sglp)`. Returns
the index of the prepared entry (or `none`), the byte offset in the scratch
area stored to `*sglp`, and the namespace afterwards. -/
def readwrite_prepare_sgl (ns : Namespace) (read : Bool) (slba : Nat) :
    Option Nat × Nat × Namespace :=
  match ns.iosq.produce with
  | (none, q) => (none, 0, { ns with iosq := q })
  | (some i, q) =>
    let q := q.modify i (fill_sgl ns.nsid read slba q.sgls_phys)
    (some i, Inout_buffer.pget 0 ((q.entry i).cid * Ioq_sgls), { ns with iosq := q })

/-- The function `Namespace::readwrite_submit(sqe, nlb, blocks, cb)`; `i` is
the index of the entry `sqe` points to. -/
def readwrite_submit (ns : Namespace) (regs : Mmio) (i : Nat) (nlb blocks : Nat)
    (cb : Callback) : Namespace × Mmio :=
  let nlb := u16 nlb
  let q := ns.iosq
  let q := if (q.entry i).psdt = Psdt.Use_sgls then
      q.modify i (fun e => e.set_sgl1_len (blocks * sizeof_Sgl_desc))
    else q
  let q := q.modify i (fun e => e.set_nlb nlb)
  let q := q.set_callback (q.entry i).cid (some cb)
  ({ ns with iosq := q }, q.submit regs)

/-- The stores of `write_zeroes` into the slot handed out. -/
def fill_write_zeroes (nsid slba nlb : Nat) (dealloc : Bool) (e : Sqe) : Sqe :=
  let e := e.set_opc Iocs.Write_zeroes
  let e := { e with nsid := u32 nsid }
  let e := { e with cdw10 := u32 (slba % 2 ^ 32) }
  let e := { e with cdw11 := u32 (slba / 2 ^ 32) }
  let e := e.set_nlb nlb
  let e := e.set_deac (if dealloc then 1 else 0)
  { e with cdw14 := 0, cdw15 := 0 }

/-- The function `Namespace::write_zeroes(slba, nlb, dealloc, cb)`. -/
def write_zeroes (ns : Namespace) (regs : Mmio) (slba nlb : Nat) (dealloc : Bool)
    (cb : Callback) : Bool × Namespace × Mmio :=
  let nlb := u16 nlb
  match ns.iosq.produce with
  | (none, q) => (false, { ns with iosq := q }, regs)
  | (some i, q) =>
    let q := q.modify i (fill_write_zeroes ns.nsid slba nlb dealloc)
    let q := q.set_callback (q.entry i).cid (some cb)
    (true, { ns with iosq := q }, q.submit regs)

end Namespace

/-! ## Block-device adapter (`nvme_device.h`, `nvme_device.cc`) -/

/-- One `Block_device::Inout_block` of a request chain (the `next` link is
the rest of the list the block is in); `unmap` is the flag
`flags & Inout_f_unmap`. -/
structure Inout_block where
  sector : Nat
  dma_addr : Nat
  num_sectors : Nat
  unmap : Bool
deriving DecidableEq, Repr

namespace Nvme_device

/-- The method `sector_size()`. -/
def sector_size (ns : Namespace) : Nat := ns.lba_sz

/-- The method `max_size()` for page shift `ps`. -/
def max_size (ps : Nat) (ns : Namespace) : Nat :=
  if ns.ctl.supports_sgl then
    let max_size := 4 * 1024 * 1024
    if ns.ctl.mdts ≠ 0 then
      let pgsz := u64 (1 * 2 ^ (12 + ns.ctl.mpsmin))
      min max_size (u64 (pgsz * 2 ^ ns.ctl.mdts) / Ioq_sgls)
    else max_size
  else L4_PAGESIZE ps

/-- The method `max_segments()`. -/
def max_segments (ns : Namespace) : Nat := if ns.ctl.supports_sgl then Ioq_sgls else 1

/-- The loop of the SGL branch of `inout_data` over the chain `bs`, from
index `i`, with the running `sectors` and `blocks`; `off` is the byte offset
of the scratch descriptors of the command. Returns the final `sectors`,
`blocks` and scratch area. -/
def sgl_loop (lba_sz off : Nat) :
    List Inout_block → Nat → Nat → Nat → List (Nat × Sgl_desc) →
      Nat × Nat × List (Nat × Sgl_desc)
  | [], _, sectors, blocks, mem => (sectors, blocks, mem)
  | b :: bs, i, sectors, blocks, mem =>
    if i < Ioq_sgls then
      sgl_loop lba_sz off bs (u32 (i + 1)) (u64 (sectors + b.num_sectors)) (u64 (blocks + 1))
        ((off + i * sizeof_Sgl_desc,
          { sgl_id := Sgl_id.Data, addr := u64 b.dma_addr,
            len := u32 (b.num_sectors * lba_sz) }) :: mem)
    else (sectors, blocks, mem)

/-- The value of the local `sectors` of `inout_data` when the command is
handed to `readwrite_submit`: the number of sectors the command covers. -/
def inout_sectors (ps : Nat) (ns : Namespace) (block : Inout_block)
    (rest : List Inout_block) : Nat :=
  if ns.ctl.supports_sgl then
    (sgl_loop (sector_size ns) 0 (block :: rest) 0 0 0 []).1
  else min (u64 block.num_sectors) (max_size ps ns / sector_size ns)

/-- The function `Nvme_device::inout_data(sector, block, cb, dir)` for page
shift `ps`; `read` is `dir == From_device`, `block :: rest` is the request
chain and `cb` the caller callback. Returns the error code, the namespace and
the MMIO log afterwards. -/
def inout_data (ps : Nat) (ns : Namespace) (regs : Mmio) (sector : Nat)
    (block : Inout_block) (rest : List Inout_block) (cb : Nat) (read : Bool) :
    Int × Namespace × Mmio :=
  if ns.ctl.supports_sgl then
    match ns.readwrite_prepare_sgl read sector with
    | (none, _, ns1) => (- L4_EBUSY, ns1, regs)
    | (some i, off, ns1) =>
      let r := sgl_loop (sector_size ns1) off (block :: rest) 0 0 0 ns1.iosq.sgls
      let sectors := r.1
      let blocks := r.2.1
      let ns2 := { ns1 with iosq := { ns1.iosq with sgls := r.2.2 } }
      let sz := u64 (sectors * sector_size ns2)
      let s := ns2.readwrite_submit regs i (u64 (sectors + (2 ^ 64 - 1))) blocks
        (Callback.inout cb sz)
      (L4_EOK, s.1, s.2)
  else
    let sectors := min (u64 block.num_sectors) (max_size ps ns / sector_size ns)
    let blocks := 1
    match ns.readwrite_prepare_prp ps read sector block.dma_addr
        (u64 (sectors * sector_size ns)) with
    | (none, ns1) => (- L4_EBUSY, ns1, regs)
    | (some i, ns1) =>
      let sz := u64 (sectors * sector_size ns1)
      let s := ns1.readwrite_submit regs i (u64 (sectors + (2 ^ 64 - 1))) blocks
        (Callback.inout cb sz)
      (L4_EOK, s.1, s.2)

/-- The function `Nvme_device::discard(offset, block, cb, discard)`. The two
assertions make the call fail (`none`) when `discard` is set or the block has
a successor. -/
def discard (ns : Namespace) (regs : Mmio) (offset : Nat) (block : Inout_block)
    (rest : List Inout_block) (cb : Nat) (discard : Bool) :
    Option (Int × Namespace × Mmio) :=
  if discard then none
  else if rest ≠ [] then none
  else
    let r := ns.write_zeroes regs (u64 (offset + block.sector))
      (u32 (block.num_sectors + (2 ^ 32 - 1))) block.unmap (Callback.discard cb)
    if !r.1 then some (- L4_EBUSY, r.2.1, r.2.2)
    else some (L4_EOK, r.2.1, r.2.2)

end Nvme_device

/-! ## Operations on a submission queue over its lifetime -/

/-- The operations applied to a submission queue after its construction:
`produce()`, the interrupt handler's store to `_head`, an assignment to
`_callbacks[i]`, and stores through the entry pointer of slot `i` to any of
the fields other than the command identifier (the new contents are taken from
`e`, bits 16..31 of `cdw0` are kept). -/
inductive Sq_op (κ : Type) where
  | produce
  | set_head (h : Nat)
  | set_callback (i : Nat) (cb : Option κ)
  | store_fields (i : Nat) (e : Sqe)

/-- The effect of stores to the fields of `old` other than the command
identifier, with new contents `e`. -/
def store_fields (e old : Sqe) : Sqe :=
  { e with cdw0 := old.cid * 2 ^ 16 + e.cdw0 % 2 ^ 16 }

/-- Runs a sequence of operations; returns, oldest first, for each successful
`produce()` the slot handed out with the command identifier found in it, and
the queue afterwards. -/
def Submission_queue.run {κ : Type} :
    List (Sq_op κ) → Submission_queue κ → List (Nat × Nat) × Submission_queue κ
  | [], q => ([], q)
  | Sq_op.produce :: ops, q =>
    match q.produce with
    | (none, q1) => Submission_queue.run ops q1
    | (some i, q1) =>
      ((i, (q1.entry i).cid) :: (Submission_queue.run ops q1).1,
        (Submission_queue.run ops q1).2)
  | Sq_op.set_head h :: ops, q => Submission_queue.run ops { q with head := u16 h }
  | Sq_op.set_callback i cb :: ops, q => Submission_queue.run ops (q.set_callback i cb)
  | Sq_op.store_fields i e :: ops, q =>
    Submission_queue.run ops (q.modify i (store_fields e))

/-! ## The device side of a completion queue -/

/-- Modelled from the spec: the device is not part of the sources. The device
side of a completion queue, "a device that writes entries in order with
correct phase": the slot it writes next and its current phase tag. -/
structure Cq_device where
  tail : Nat
  phase : Bool
deriving DecidableEq, Repr

/-- Modelled from the spec: the device side of a freshly created completion
queue starts at slot 0 with phase tag 1. -/
def Cq_device.init : Cq_device := { tail := 0, phase := true }

/-- Modelled from the spec: the device posts the completion entry `e` in its
next slot with its current phase tag, and inverts the tag when it wraps. -/
def Cq_device.post (d : Cq_device) (q : Completion_queue) (e : Cqe) :
    Cq_device × Completion_queue :=
  let e := { e with dw3 := bf_set 16 16 e.dw3 (if d.phase then 1 else 0) }
  let tail := (d.tail + 1) % q.size
  ({ tail := tail, phase := if tail = 0 then !d.phase else d.phase },
    { q with entries := q.entries.set d.tail e })

/-- Rounds of "the device posts one entry, the host calls `consume()` once",
one round per entry of the list. Carries and returns the number of entries
`consume()` returned and the number of times the expected phase `_p`
changed. -/
def consume_rounds :
    List Cqe → Cq_device → Completion_queue → Nat → Nat →
      Cq_device × Completion_queue × Nat × Nat
  | [], d, q, consumed, flips => (d, q, consumed, flips)
  | e :: es, d, q, consumed, flips =>
    let dq := d.post q e
    let r := dq.2.consume
    consume_rounds es dq.1 r.2 (if r.1.isSome then consumed + 1 else consumed)
      (if r.2.p = dq.2.p then flips else flips + 1)

/-- The CID identity invariant of a submission queue with `N` slots: the ring
has `N` entries, the tail is a slot index, and slot `i` carries command
identifier `i`. -/
def Submission_queue.cid_inv {κ : Type} (N : Nat) (q : Submission_queue κ) : Prop :=
  q.size = N ∧ q.entries.length = N ∧ q.tail < N ∧ ∀ i, i < N → (q.entry i).cid = i

/-- The condition under which `readwrite_prepare_prp` leaves at the line
`return 0; // unsupported: would need a PRP list`. -/
def Namespace.prp_unsupported (ps paddr sz : Nat) : Bool :=
  decide (l4_trunc_page ps paddr ≠ l4_trunc_page ps (u64 (paddr + sz + (2 ^ 64 - 1)))) &&
  decide (l4_trunc_page ps paddr ≠
    u64 (l4_trunc_page ps (u64 (paddr + sz + (2 ^ 64 - 1))) + (2 ^ 64 - 1)))

/-- A namespace of the scenarios: namespace 1 with 512-byte blocks, PRP mode,
and an I/O submission queue of `Ioq_size` entries as constructed, with
continuation storage that reads as empty. -/
def Namespace.example_ns : Namespace :=
  { ctl := { use_sgls := false, sgls := false, mdts := 0, mpsmin := 0 }
    nsid := 1
    lba_sz := 512
    nsze := 1048576
    ro := false
    iosq := Submission_queue.mk_queue Ioq_size 1 0 0 0 (fun _ => none) }

/-- A namespace in SGL mode: as `Namespace.example_ns`, on a controller with
SGL support and the gate open, the I/O submission queue constructed with an
SGL scratch area. -/
def Namespace.example_ns_sgl : Namespace :=
  { ctl := { use_sgls := true, sgls := true, mdts := 0, mpsmin := 0 }
    nsid := 1
    lba_sz := 512
    nsze := 1048576
    ro := false
    iosq := Submission_queue.mk_queue Ioq_size 1 0 Ioq_sgls 0x500000000 (fun _ => none) }

/-! ## Controller: admin queue pair and the discovery chain (`ctl.cc`, `ns.cc`) -/

/-- Modelled from the spec: `nvme_types.h` is not among the sources. Admin
command set opcode of Create I/O Submission Queue. -/
def Acs.Create_iosq : Nat := 0x01

/-- Modelled from the spec: `nvme_types.h` is not among the sources. Admin
command set opcode of Create I/O Completion Queue. -/
def Acs.Create_iocq : Nat := 0x05

/-- Modelled from the spec: `nvme_types.h` is not among the sources. Admin
command set opcode of Identify. -/
def Acs.Identify : Nat := 0x06

/-- Modelled from the spec: `nvme_types.h` is not among the sources. CNS value
of Identify Namespace. -/
def Cns.Identify_namespace : Nat := 0

/-- Modelled from the spec: `nvme_types.h` is not among the sources. CNS value
of Identify Controller. -/
def Cns.Identify_controller : Nat := 1

/-- Modelled from the spec: `nvme_types.h` is not among the sources. The queue
identifier of the admin queue pair. -/
def Aq_id : Nat := 0

/-- The completion continuations installed on the admin submission queue, one
constructor per lambda of the sources with the values it captures: the lambda
of `Ctl::identify`, the lambda of `Ctl::identify_namespace` (capturing `nn`,
`n`), and the outer and inner lambda of `Namespace::async_loop_init`
(capturing `nsids` and, through `this`, the namespace identifier and LBA
size). The publish callback captured by all of them is the one lambda of
`device_discovery` in `main.cc`. -/
inductive Admin_cb where
  | identify
  | identify_namespace (nn n : Nat)
  | create_iocq (nsids nsid lba_sz : Nat)
  | create_iosq (nsids nsid lba_sz : Nat)
deriving DecidableEq, Repr

/-- What the discovery chain does, in the order it does it: admin commands
issued, namespaces handed to the publish callback, namespaces destroyed. -/
inductive Event where
  | identify_controller
  | identify_namespace (n : Nat)
  | create_iocq (qid size : Nat)
  | create_iosq (qid size sgls : Nat)
  | publish (nsid lba_sz : Nat)
  | destroy (nsid : Nat)
deriving DecidableEq, Repr

/-- The fields of an Identify Namespace buffer that the sources read. -/
structure Identify_ns where
  nsze : Nat
  nlbaf : Nat
  flbas : Nat
  lbaf : List Nat
deriving DecidableEq, Repr

/-- The value `std::string::npos` of the C++ library: the largest `size_t`. -/
def std_string_npos : Nat := 2 ^ 64 - 1

/-- The member `std::string::find(char ch)` of the C++ library on a string
given as the list of its bytes: the index of the first byte equal to `ch`, or
`npos` if there is none. -/
def std_string_find (s : List Nat) (ch : Nat) : Nat :=
  if ch ∈ s then s.indexOf ch else std_string_npos

/-- The member `std::string::erase(size_type index)` of the C++ library (the
count defaulted to `npos`): everything from `index` on is removed; if `index`
is greater than the length of the string the call throws `std::out_of_range`
(`none`). -/
def std_string_erase (s : List Nat) (index : Nat) : Option (List Nat) :=
  if index > s.length then none else some (s.take index)

/-- The two statements of the continuation of `Ctl::identify` that compute the
serial number from the bytes at `Cns_ic::Sn` of the Identify Controller data:
`_sn = std::string(ic->get<char>(Cns_ic::Sn), 20);` and
`_sn.erase(_sn.find(' '));`. Returns the new `_sn`, or `none` when `erase`
throws. -/
def Ctl.identify_sn (bytes : List Nat) : Option (List Nat) :=
  std_string_erase (bytes.take 20) (std_string_find (bytes.take 20) 0x20)

/-- Modelled from the spec: the device and the DMA allocator are not part of
the sources. The surroundings of a controller during discovery: the status
and data the device answers to Identify Controller (`ic_sn` the bytes of the
data from the serial number field on), to Identify Namespace for
each namespace identifier and to the queue creation commands for each queue
identifier (each value a "deterministic assignment of outcomes"), the bus
addresses the DMA allocator hands out, and what the storage reserved for the
continuation vector of the admin submission queue holds when the queue has
been constructed (`asq_raw`, the parameter `raw` of
`Submission_queue.mk_queue`). -/
structure World where
  ic_status : Nat
  ic_sn : List Nat
  ic_sgls : Nat
  ic_nn : Nat
  ns_status : Nat → Nat
  ns_data : Nat → Identify_ns
  iocq_status : Nat → Nat
  iosq_status : Nat → Nat
  buf_phys : Nat
  cq_phys : Nat → Nat
  sq_phys : Nat → Nat
  asq_raw : Nat → Option Admin_cb

/-- The state of a `Ctl` during discovery: the admin queue pair, the MMIO
write log, the SGL flags, the serial number `_sn`, the namespaces handed to
`add_ns`, the events so far (oldest first), whether the program has faulted (a
null entry pointer was dereferenced or an assertion failed), and whether a
C++ exception has left a continuation (`thrown`). -/
structure Ctl where
  asq : Submission_queue Admin_cb
  acq : Completion_queue
  regs : Mmio
  use_sgls : Bool
  sgls : Bool
  sn : List Nat
  nss : List Nat
  trace : List Event
  fault : Bool
  thrown : Bool

namespace Ctl

/-- The admin queues as the constructor `Ctl::Ctl` creates them: two entries
each (`aqa.acqs() + 1`, `aqa.asqs() + 1`), queue index `Aq_id`; `raw` is what
the storage reserved for the continuations of the admin submission queue
holds. -/
def init (dstrd : Nat) (use_sgls : Bool) (raw : Nat → Option Admin_cb) : Ctl :=
  { asq := Submission_queue.mk_queue (1 + 1) Aq_id dstrd 0 0 raw
    acq := Completion_queue.mk_queue (1 + 1) Aq_id dstrd
    regs := []
    use_sgls := use_sgls
    sgls := false
    sn := []
    nss := []
    trace := []
    fault := false
    thrown := false }

/-- The method `supports_sgl()`. -/
def supports_sgl (c : Ctl) : Bool := c.use_sgls && c.sgls

/-- The frame shared by the four functions that issue an admin command:
`auto *sqe = _asq->produce();`, the stores `fill` through `sqe` (a null `sqe`
is a fault), `_asq->_callbacks[sqe->cid()] = cb;` and `_asq->submit();`. -/
def admin_command (c : Ctl) (fill : Sqe → Sqe) (cb : Admin_cb) (ev : Event) : Ctl :=
  match c.asq.produce with
  | (none, q) => { c with asq := q, fault := true }
  | (some i, q) =>
    let q := q.modify i fill
    let q := q.set_callback (q.entry i).cid (some cb)
    { c with asq := q, regs := q.submit c.regs, trace := c.trace ++ [ev] }

/-- The stores of `Ctl::create_iocq` into the entry. -/
def fill_create_iocq (phys_base id size : Nat) (e : Sqe) : Sqe :=
  let e := e.set_opc Acs.Create_iocq
  let e := { e with nsid := 0 }
  let e := e.set_psdt Psdt.Use_prps
  let e := { e with prp1 := u64 phys_base }
  let e := { e with prp2 := 0 }
  let e := { e with cdw10 := bf_set 0 15 e.cdw10 id }
  let e := { e with cdw10 := bf_set 16 31 e.cdw10 (u16 size + (2 ^ 16 - 1)) }
  let e := { e with cdw11 := bf_set 1 1 e.cdw11 1 }
  { e with cdw11 := bf_set 0 0 e.cdw11 1 }

/-- The function `Ctl::create_iocq(id, size, cb)`. -/
def create_iocq (w : World) (c : Ctl) (id size : Nat) (cb : Admin_cb) : Ctl :=
  c.admin_command (fill_create_iocq (w.cq_phys (u16 id)) (u16 id) size) cb
    (Event.create_iocq (u16 id) size)

/-- The stores of `Ctl::create_iosq` into the entry. -/
def fill_create_iosq (phys_base id size : Nat) (e : Sqe) : Sqe :=
  let e := e.set_opc Acs.Create_iosq
  let e := { e with nsid := 0 }
  let e := e.set_psdt Psdt.Use_prps
  let e := { e with prp1 := u64 phys_base }
  let e := { e with prp2 := 0 }
  let e := { e with cdw10 := bf_set 0 15 e.cdw10 id }
  let e := { e with cdw10 := bf_set 16 31 e.cdw10 (u16 size + (2 ^ 16 - 1)) }
  let e := { e with cdw11 := bf_set 0 0 e.cdw11 1 }
  let e := { e with cdw11 := bf_set 16 31 e.cdw11 id }
  { e with cdw12 := 0 }

/-- The function `Ctl::create_iosq(id, size, sgls, cb)`. -/
def create_iosq (w : World) (c : Ctl) (id size sgls : Nat) (cb : Admin_cb) : Ctl :=
  c.admin_command (fill_create_iosq (w.sq_phys (u16 id)) (u16 id) size) cb
    (Event.create_iosq (u16 id) size sgls)

/-- The stores of `Ctl::identify_namespace` into the entry. -/
def fill_identify_namespace (phys n : Nat) (e : Sqe) : Sqe :=
  let e := e.set_opc Acs.Identify
  let e := { e with nsid := u32 n }
  let e := e.set_psdt Psdt.Use_prps
  let e := { e with prp1 := u64 phys }
  let e := { e with prp2 := 0 }
  let e := { e with cdw10 := bf_set 16 31 e.cdw10 0 }
  let e := { e with cdw10 := bf_set 0 7 e.cdw10 Cns.Identify_namespace }
  { e with cdw11 := bf_set 0 15 e.cdw11 0 }

/-- The function `Ctl::identify_namespace(nn, n, callback)` up to its return:
the Identify command for namespace `n` is issued with the lambda as its
continuation. -/
def identify_namespace (w : World) (c : Ctl) (nn n : Nat) : Ctl :=
  c.admin_command (fill_identify_namespace w.buf_phys n)
    (Admin_cb.identify_namespace (u32 nn) (u32 n)) (Event.identify_namespace (u32 n))

/-- The stores of `Ctl::identify` into the entry. -/
def fill_identify (phys : Nat) (e : Sqe) : Sqe :=
  let e := e.set_opc Acs.Identify
  let e := e.set_psdt Psdt.Use_prps
  let e := { e with prp1 := u64 phys }
  let e := { e with prp2 := 0 }
  let e := { e with cdw10 := bf_set 16 31 e.cdw10 0 }
  let e := { e with cdw10 := bf_set 0 7 e.cdw10 Cns.Identify_controller }
  { e with cdw11 := bf_set 0 15 e.cdw11 0 }

/-- The function `Ctl::identify(callback)` up to its return. -/
def identify (w : World) (c : Ctl) : Ctl :=
  c.admin_command (fill_identify w.buf_phys) Admin_cb.identify Event.identify_controller

/-- The function `Namespace::async_loop_init(nsids, callback)` up to its
return, for the namespace `nsid` with LBA size `lba_sz`; `qid()` is the
namespace identifier. -/
def async_loop_init (w : World) (c : Ctl) (nsids nsid lba_sz : Nat) : Ctl :=
  c.create_iocq w nsid Ioq_size (Admin_cb.create_iocq nsids nsid lba_sz)

/-- The lambda of `device_discovery` in `main.cc`, the publish callback:
`add_disk` and `add_ns`. -/
def publish (c : Ctl) (nsid lba_sz : Nat) : Ctl :=
  { c with nss := c.nss ++ [nsid], trace := c.trace ++ [Event.publish nsid lba_sz] }

/-- Self-destruction of a namespace under initialisation. -/
def destroy (c : Ctl) (nsid : Nat) : Ctl :=
  { c with trace := c.trace ++ [Event.destroy nsid] }

/-- The bodies of the four continuations, run with the status field of the
completion entry. In the continuation of `Ctl::identify` the exception of
`_sn.erase(...)` leaves the continuation (nothing in it catches); `_sn` then
keeps the 20 bytes that the statement before assigned to it. -/
def run_cb (w : World) (c : Ctl) : Admin_cb → Nat → Ctl
  | Admin_cb.identify, status =>
    if status ≠ 0 then c
    else
      match identify_sn w.ic_sn with
      | none => { c with sn := w.ic_sn.take 20, thrown := true }
      | some sn =>
        let c := { c with sn := sn }
        let c := { c with sgls := decide ((u32 w.ic_sgls) % 4 ≠ 0) }
        let nn := u32 w.ic_nn
        c.identify_namespace w nn 1
  | Admin_cb.identify_namespace nn n, status =>
    if status ≠ 0 then c
    else
      let d := w.ns_data n
      let nsze := u64 d.nsze
      let nlbaf := d.nlbaf % 2 ^ 8
      let flbas := d.flbas % 2 ^ 8
      if nsze ≠ 0 then
        if flbas % 16 ≤ nlbaf then
          let lbaf := u32 (d.lbaf.getD (flbas % 16) 0)
          if lbaf % 2 ^ 16 = 0 then
            let lba_sz := u64 (1 * 2 ^ ((lbaf / 2 ^ 16) % 2 ^ 8))
            c.async_loop_init w nn n lba_sz
          else if u32 (n + 1) < nn then c.identify_namespace w nn (u32 (n + 1)) else c
        else if u32 (n + 1) < nn then c.identify_namespace w nn (u32 (n + 1)) else c
      else if u32 (n + 1) < nn then c.identify_namespace w nn (u32 (n + 1)) else c
  | Admin_cb.create_iocq nsids nsid lba_sz, status =>
    if status ≠ 0 then
      let c := if u32 (nsid + 1) < nsids then c.identify_namespace w nsids (u32 (nsid + 1))
        else c
      c.destroy nsid
    else
      c.create_iosq w nsid Ioq_size (if c.supports_sgl then Ioq_sgls else 0)
        (Admin_cb.create_iosq nsids nsid lba_sz)
  | Admin_cb.create_iosq nsids nsid lba_sz, status =>
    let c := if u32 (nsid + 1) < nsids then c.identify_namespace w nsids (u32 (nsid + 1))
      else c
    if status ≠ 0 then c.destroy nsid
    else c.publish nsid lba_sz

/-- The admin part of `Ctl::handle_irq()`: one admin completion entry is
consumed if present, the head of the admin submission queue is set to its
`SQHD`, the continuation of its `CID` is taken out of the slot and run with
its status field, and the head doorbell is written; an exception leaving the
continuation leaves `handle_irq()` too, before `_acq->complete()`. (The
namespaces in `_nss` have no command outstanding during discovery.) -/
def handle_irq (w : World) (c : Ctl) : Ctl :=
  match c.acq.consume with
  | (none, acq) => { c with acq := acq }
  | (some i, acq) =>
    let cqe := acq.entries.getD i default
    if cqe.sqid ≠ Aq_id then { c with acq := acq, fault := true }
    else
      let asq := { c.asq with head := u16 cqe.sqhd }
      match asq.callbacks.getD cqe.cid none with
      | none => { c with acq := acq, asq := asq, fault := true }
      | some cb =>
        let asq := asq.set_callback cqe.cid none
        let c := run_cb w { c with acq := acq, asq := asq } cb cqe.sf
        if c.thrown then c else { c with regs := c.acq.complete c.regs }

end Ctl

/-- Modelled from the spec: the device is not part of the sources. The status
with which the device completes the admin command in entry `e`. -/
def World.command_status (w : World) (e : Sqe) : Nat :=
  if e.opc = Acs.Identify then
    if bf_get 0 7 e.cdw10 = Cns.Identify_controller then w.ic_status else w.ns_status e.nsid
  else if e.opc = Acs.Create_iocq then w.iocq_status (bf_get 0 15 e.cdw10)
  else if e.opc = Acs.Create_iosq then w.iosq_status (bf_get 0 15 e.cdw10)
  else 0

/-- A controller together with the device side of its admin queue pair: the
submission slot the device fetches next and its side of the completion
queue. -/
structure Machine where
  ctl : Ctl
  dev_sq_head : Nat
  dev_cq : Cq_device

namespace Machine

/-- Modelled from the spec: a well-behaved device ("each admin command
completed once"). If a submitted command is outstanding, the device fetches
it, and posts one completion entry carrying the command identifier, the
admin queue identifier, the status, and as `SQHD` the index following the
slot of the command. Returns `none` when no command is outstanding. -/
def device_step (w : World) (m : Machine) : Option Machine :=
  if m.ctl.fault then none
  else if m.dev_sq_head = m.ctl.asq.tail then none
  else
    let e := m.ctl.asq.entry m.dev_sq_head
    let sqhd := (m.dev_sq_head + 1) % m.ctl.asq.size
    let cqe : Cqe :=
      { dw0 := 0, dw1 := 0
        dw2 := sqhd + Aq_id * 2 ^ 16
        dw3 := e.cid + (w.command_status e % 2 ^ 15) * 2 ^ 17 }
    let dq := m.dev_cq.post m.ctl.acq cqe
    some { ctl := { m.ctl with acq := dq.2 }, dev_sq_head := sqhd, dev_cq := dq.1 }

/-- Rounds of "the device completes the outstanding admin command and raises
the interrupt, `handle_irq()` runs", until no command is outstanding or the
fuel is used up. -/
def run (w : World) : Nat → Machine → Machine
  | 0, m => m
  | fuel + 1, m =>
    match m.device_step w with
    | none => m
    | some m1 => run w fuel { m1 with ctl := m1.ctl.handle_irq w }

/-- Discovery: `ct->identify(...)` on a controller fresh from bring-up, then
the interrupt-driven chain, for at most `fuel` admin completions. -/
def discover (w : World) (dstrd : Nat) (use_sgls : Bool) (fuel : Nat) : Machine :=
  run w fuel
    { ctl := (Ctl.init dstrd use_sgls w.asq_raw).identify w, dev_sq_head := 0
      dev_cq := Cq_device.init }

end Machine

/-- Identify Namespace data of an active, metadata-free namespace with one
LBA format of 512-byte blocks. -/
def Identify_ns.healthy : Identify_ns :=
  { nsze := 1048576, nlbaf := 0, flbas := 0, lbaf := [9 * 2 ^ 16] }

/-- Identify Namespace data of an inactive namespace (`NSZE = 0`). -/
def Identify_ns.inactive : Identify_ns :=
  { nsze := 0, nlbaf := 0, flbas := 0, lbaf := [9 * 2 ^ 16] }

/-- Identify Namespace data of a namespace whose LBA format carries eight
bytes of metadata. -/
def Identify_ns.metadata : Identify_ns :=
  { nsze := 1048576, nlbaf := 0, flbas := 0, lbaf := [9 * 2 ^ 16 + 8] }

/-- A world in which every command succeeds, with `nn` namespaces whose
Identify data are given by `data`; the serial number field is `SN1` padded
with spaces; the continuation storage of the admin submission queue reads as
empty. -/
def World.ok (nn : Nat) (data : Nat → Identify_ns) : World :=
  { ic_status := 0, ic_sn := [0x53, 0x4e, 0x31] ++ List.replicate 17 0x20, ic_sgls := 0
    ic_nn := nn
    ns_status := fun _ => 0
    ns_data := data
    iocq_status := fun _ => 0
    iosq_status := fun _ => 0
    buf_phys := 0x600000000
    cq_phys := fun qid => 0x700000000 + qid * 0x1000
    sq_phys := fun qid => 0x800000000 + qid * 0x1000
    asq_raw := fun _ => none }

/-! ## Completion continuations, scratch area reads, further scenarios -/

/-- I/O error code of the L4 error header. -/
def L4_EIO : Int := 5

/-- Invocation of an installed continuation with the status of the completion:
the bodies of the lambdas of `Nvme_device::inout_data`
(`callback(status ? -L4_EIO : L4_EOK, status ? 0 : sz)`) and of
`Nvme_device::discard` (`callback(status ? -L4_EIO : L4_EOK, 0)`). Returns the
calls made to caller callbacks: the callback called, the error code and the
size passed. -/
def Callback.invoke : Callback → Nat → List (Nat × Int × Nat)
  | Callback.inout callback sz, status =>
    [(callback, (if status ≠ 0 then - L4_EIO else L4_EOK), (if status ≠ 0 then 0 else sz))]
  | Callback.discard callback, status =>
    [(callback, (if status ≠ 0 then - L4_EIO else L4_EOK), 0)]

/-- The queue after a successful `produce()`: the slot at the tail is cleared
except for its command identifier and the tail is advanced. -/
def Submission_queue.produced {κ : Type} (q : Submission_queue κ) : Submission_queue κ :=
  { q.modify q.tail Submission_queue.clear_entry with tail := q.wrap_around (q.tail + 1) }

/-- The descriptor found at byte offset `off` of an SGL scratch area: the
latest store made to that offset. -/
def sgl_read (mem : List (Nat × Sgl_desc)) (off : Nat) : Option Sgl_desc :=
  (mem.find? (fun w => w.1 == off)).map (fun w => w.2)

/-- The page-size test of the constructor `Ctl::Ctl` for page shift `ps`:
`cc.mps() = L4_PAGESHIFT - 12` (a four-bit field), and bring-up fails if
`_cap.mpsmin() > cc.mps()` or `_cap.mpsmax() < cc.mps()`. True when bring-up
goes on. -/
def Ctl.mps_supported (ps mpsmin mpsmax : Nat) : Bool :=
  !(decide (mpsmin > (ps - 12) % 2 ^ 4) || decide (mpsmax < (ps - 12) % 2 ^ 4))

/-- The world of scenario S6: `NN = 3`, namespace 1 metadata-free and healthy,
namespace 2 with `NSZE = 0`, namespace 3 with metadata; every command
succeeds. -/
def World.s6 : World :=
  World.ok 3 (fun n =>
    if n = 2 then Identify_ns.inactive
    else if n = 3 then Identify_ns.metadata
    else Identify_ns.healthy)

/-- The Identify Namespace commands in a list of events, in order. -/
def identified : List Event → List Nat
  | [] => []
  | Event.identify_namespace n :: es => n :: identified es
  | _ :: es => identified es

/-- The SGL-mode scenario namespace with the tail of its submission queue at
slot 1. -/
def Namespace.example_ns_sgl_tail1 : Namespace :=
  { Namespace.example_ns_sgl with iosq := { Namespace.example_ns_sgl.iosq with tail := 1 } }

/-- The SGL-mode scenario namespace on a controller reporting the given
`MDTS`. -/
def Namespace.example_ns_mdts (mdts : Nat) : Namespace :=
  { Namespace.example_ns_sgl with
    ctl := { use_sgls := true, sgls := true, mdts := mdts, mpsmin := 0 } }

/-- The format index `f = FLBAS & 0xF` of Identify Namespace data. -/
def Identify_ns.f (d : Identify_ns) : Nat := d.flbas % 16

/-- The metadata size `MS` of the selected LBA format: the low 16 bits of
LBA-format entry `f`. -/
def Identify_ns.ms (d : Identify_ns) : Nat := d.lbaf.getD d.f 0 % 2 ^ 16

/-- The LBA data size exponent `LBADS` of the selected LBA format: byte 2
(bits 16..23) of LBA-format entry `f`. -/
def Identify_ns.lbads (d : Identify_ns) : Nat := d.lbaf.getD d.f 0 / 2 ^ 16 % 2 ^ 8

/-- A world with `NN = 3` healthy namespaces in which the Identify Namespace
command for namespace 1 completes with status 1 and every other command
succeeds. -/
def World.ns1_fails : World :=
  { World.ok 3 (fun _ => Identify_ns.healthy) with ns_status := fun n => if n = 1 then 1 else 0 }

/-- Repeated `produce()`: `k` calls one after the other, nothing else touching
the queue in between (the head does not advance); returns the results in
order and the queue afterwards. -/
def Submission_queue.produce_seq {κ : Type} :
    Nat → Submission_queue κ → List (Option Nat) × Submission_queue κ
  | 0, q => ([], q)
  | k + 1, q =>
    (q.produce.1 :: (Submission_queue.produce_seq k q.produce.2).1,
      (Submission_queue.produce_seq k q.produce.2).2)

namespace Sqe

/-- Bit-field `qid` (bits 0..15 of `cdw10`): queue identifier. -/
def qid (e : Sqe) : Nat := bf_get 0 15 e.cdw10
/-- Bit-field `qsize` (bits 16..31 of `cdw10`): queue size. -/
def qsize (e : Sqe) : Nat := bf_get 16 31 e.cdw10
/-- Bit-field `pc` (bit 0 of `cdw11`): physically contiguous. -/
def pc (e : Sqe) : Nat := bf_get 0 0 e.cdw11
/-- Bit-field `ien` (bit 1 of `cdw11`): interrupt enable. -/
def ien (e : Sqe) : Nat := bf_get 1 1 e.cdw11
/-- Bit-field `cqid` (bits 16..31 of `cdw11`): completion queue identifier. -/
def cqid (e : Sqe) : Nat := bf_get 16 31 e.cdw11

end Sqe

/-- The admin completion entry that `handle_irq()` looks at: the entry at the
head of the admin completion queue. -/
def Ctl.head_cqe (c : Ctl) : Cqe := c.acq.entries.getD c.acq.head default

/-- The controller state in which `handle_irq()` invokes the continuation of a
valid admin completion entry: the entry is consumed, the head of the admin
submission queue is the entry's `SQHD`, and the slot of the entry's `CID` in
the continuation vector has been emptied. -/
def Ctl.detached (c : Ctl) : Ctl :=
  { c with
    acq := c.acq.consume.2
    asq := ({ c.asq with head := u16 c.head_cqe.sqhd }).set_callback c.head_cqe.cid none }

/-- The constructor `Nvme_device(ns)`: the hardware identifier
`_hid = _ns->ctl().sn() + ":n" + std::to_string(_ns->nsid())`, as bytes. -/
def Nvme_device.hid (sn : List Nat) (nsid : Nat) : List Nat :=
  sn ++ [0x3a, 0x6e] ++ (Nat.toDigits 10 nsid).map Char.toNat

/-- A world like `World.ok` with one healthy namespace, in which the serial
number field of the Identify Controller data holds twenty characters and no
space: `ABCDEFGHIJ0123456789`. -/
def World.full_sn : World :=
  { World.ok 1 (fun _ => Identify_ns.healthy) with
    ic_sn := [0x41, 0x42, 0x43, 0x44, 0x45, 0x46, 0x47, 0x48, 0x49, 0x4a,
      0x30, 0x31, 0x32, 0x33, 0x34, 0x35, 0x36, 0x37, 0x38, 0x39] }

/-- The controller of scenario S6 at its first interrupt: `Ctl::identify` has
been called on a controller fresh from bring-up and the device has posted the
completion entry of the Identify Controller command. -/
def Ctl.example_irq : Ctl :=
  match (Machine.discover World.s6 0 false 0).device_step World.s6 with
  | some m => m.ctl
  | none => Ctl.init 0 false (fun _ => none)

/-! ## Controller bring-up (`Ctl::Ctl`) -/

/-- Error code `ENOSYS` of the L4 error header. -/
def L4_ENOSYS : Int := 38

/-- Modelled from the spec: `nvme_types.h` is not among the sources. Offset of
the controller configuration register `CC`. -/
def Regs.Ctl.Cc : Nat := 0x14

/-- Modelled from the spec: `nvme_types.h` is not among the sources. Offset of
the admin queue attributes register `AQA`. -/
def Regs.Ctl.Aqa : Nat := 0x24

/-- Modelled from the spec: `nvme_types.h` is not among the sources. Offset of
the admin submission queue base address register `ASQ`. -/
def Regs.Ctl.Asq : Nat := 0x28

/-- Modelled from the spec: `nvme_types.h` is not among the sources. Offset of
the admin completion queue base address register `ACQ`. -/
def Regs.Ctl.Acq : Nat := 0x30

/-- Modelled from the spec: `nvme_types.h` is not among the sources. Field
`CSS` (command sets supported) of the capability word `CAP`, bits 37..44. -/
def Ctl_cap.css (cap : Nat) : Nat := bf_get 37 44 cap

/-- Modelled from the spec: `nvme_types.h` is not among the sources. Field
`DSTRD` (doorbell stride) of `CAP`, bits 32..35. -/
def Ctl_cap.dstrd (cap : Nat) : Nat := bf_get 32 35 cap

/-- Modelled from the spec: `nvme_types.h` is not among the sources. Field
`MPSMIN` (memory page size minimum) of `CAP`, bits 48..51. -/
def Ctl_cap.mpsmin (cap : Nat) : Nat := bf_get 48 51 cap

/-- Modelled from the spec: `nvme_types.h` is not among the sources. Field
`MPSMAX` (memory page size maximum) of `CAP`, bits 52..55. -/
def Ctl_cap.mpsmax (cap : Nat) : Nat := bf_get 52 55 cap

/-- Modelled from the spec: `nvme_types.h` is not among the sources. The
configuration word built by the constructor before the page-size test: the
fields `IOCQES = 4` (bits 20..23), `IOSQES = 6` (bits 16..19), `AMS` round
robin (bits 11..13, value 0) and `MPS` (bits 7..10) of a zero `CC`. -/
def Ctl_cc.configured (mps : Nat) : Nat :=
  let cc := bf_set 20 23 0 4
  let cc := bf_set 16 19 cc 6
  let cc := bf_set 11 13 cc 0
  bf_set 7 10 cc mps

/-- Modelled from the spec: `nvme_types.h` is not among the sources. The
configuration word that enables the controller: `CSS` NVM command set (bits
4..6, value 0) and `EN = 1` (bit 0) set in the configured word. -/
def Ctl_cc.enabled (cc : Nat) : Nat := bf_set 0 0 (bf_set 4 6 cc 0) 1

/-- Modelled from the spec: `nvme_types.h` is not among the sources. The
admin queue attributes word with `ACQS = 1` (bits 16..27) and `ASQS = 1` (bits
0..11): two entries each. -/
def Ctl_aqa.two_entries : Nat := bf_set 0 11 (bf_set 16 27 0 1) 1

/-- Modelled from the spec: the PCI device, the vbus and the DMA allocator
are not part of the sources. The surroundings of the constructor `Ctl::Ctl`:
the return code of `_dev.cfg_read` and `_dev.cfg_write` for each configuration
space register (negative: an error), the value read from each, the value of
the capability word `CAP`, the value of the `k`-th read of `CSTS`, the bus
addresses of the two admin queues, and what the storage reserved for the
continuation vector of the admin submission queue holds (`asq_raw`). -/
structure Pci_env where
  cfg_read_status : Nat → Int
  cfg_write_status : Nat → Int
  cfg : Nat → Nat
  cap : Nat
  csts : Nat → Nat
  acq_phys : Nat
  asq_phys : Nat
  asq_raw : Nat → Option Admin_cb

/-- The outcome of the constructor `Ctl::Ctl`: the controller is constructed
(with the register writes made in its log and the writes made to the PCI
configuration space), or an exception carrying an error code left the
constructor after the given register writes, or the constructor is still in
its loop `while (!Ctl_csts(...).rdy())` after the given register writes. -/
inductive Bringup where
  | ready (c : Ctl) (cfg_writes : List (Nat × Nat))
  | failed (err : Int) (regs : Mmio)
  | spinning (regs : Mmio)

/-- The loop `while (!Ctl_csts(_regs.r<32>(Regs::Ctl::Csts).read()).rdy());`:
`RDY` is bit 0 of `CSTS`. Returns the index of the read that found the
controller ready, `none` if `fuel` reads did not. -/
def Ctl.wait_ready (csts : Nat → Nat) : Nat → Nat → Option Nat
  | 0, _ => none
  | fuel + 1, k =>
    if bf_get 0 0 (u32 (csts k)) = 1 then some k else Ctl.wait_ready csts fuel (k + 1)

/-- The constructor `Ctl::Ctl(dev, dma)` for host page shift `ps`
(`L4_PAGESHIFT`) and the value `use_sgls` of the static gate. `cfg_read`,
`cfg_read_16` and `cfg_write_16` pass the return code of the access to
`L4Re::chksys`, which throws when it is negative; the mapping of the register
window and the allocation of the admin queues are taken to succeed. -/
def Ctl.bring_up (env : Pci_env) (ps : Nat) (use_sgls : Bool) (fuel : Nat) : Bringup :=
  if env.cfg_read_status 0x14 < 0 then Bringup.failed (env.cfg_read_status 0x14) []
  else if env.cfg_read_status 0x10 < 0 then Bringup.failed (env.cfg_read_status 0x10) []
  else
    let cap := u64 env.cap
    if Ctl_cap.css cap % 2 = 0 then Bringup.failed (- L4_ENOSYS) []
    else
      let regs : Mmio := [(Regs.Ctl.Cc, 0), (Regs.Ctl.Aqa, Ctl_aqa.two_entries)]
      let acq := Completion_queue.mk_queue (bf_get 16 27 Ctl_aqa.two_entries + 1) Aq_id
        (Ctl_cap.dstrd cap)
      let asq : Submission_queue Admin_cb :=
        Submission_queue.mk_queue (bf_get 0 11 Ctl_aqa.two_entries + 1) Aq_id
          (Ctl_cap.dstrd cap) 0 0 env.asq_raw
      let regs := regs ++
        [(Regs.Ctl.Acq, u32 (u64 env.acq_phys % 2 ^ 32)),
         (Regs.Ctl.Acq + 4, u32 (u64 env.acq_phys / 2 ^ 32)),
         (Regs.Ctl.Asq, u32 (u64 env.asq_phys % 2 ^ 32)),
         (Regs.Ctl.Asq + 4, u32 (u64 env.asq_phys / 2 ^ 32))]
      let cc := Ctl_cc.configured (ps - 12)
      if Ctl.mps_supported ps (Ctl_cap.mpsmin cap) (Ctl_cap.mpsmax cap) = false then
        Bringup.failed (- L4_ENOSYS) regs
      else
        let regs := regs ++ [(Regs.Ctl.Cc, Ctl_cc.enabled cc)]
        match Ctl.wait_ready env.csts fuel 0 with
        | none => Bringup.spinning regs
        | some _ =>
          if env.cfg_read_status 0x04 < 0 then Bringup.failed (env.cfg_read_status 0x04) regs
          else
            let cmd := u16 (env.cfg 0x04)
            let c : Ctl :=
              { asq := asq, acq := acq, regs := regs, use_sgls := use_sgls, sgls := false
                sn := [], nss := [], trace := [], fault := false, thrown := false }
            if cmd / 4 % 2 = 0 then
              if env.cfg_write_status 0x04 < 0 then
                Bringup.failed (env.cfg_write_status 0x04) regs
              else Bringup.ready c [(0x04, u16 (cmd + 4))]
            else Bringup.ready c []

/-- A controller that supports the NVM command set (`CSS` bit 0), pages of 4
KiB only (`MPSMIN = MPSMAX = 0`), doorbell stride 0, and is ready at the third
read of `CSTS`; every configuration space access succeeds and the bus master
bit is clear. -/
def Pci_env.example_env : Pci_env :=
  { cfg_read_status := fun _ => 0
    cfg_write_status := fun _ => 0
    cfg := fun _ => 0
    cap := 2 ^ 37
    csts := fun k => if k < 2 then 0 else 1
    acq_phys := 0x100000000
    asq_phys := 0x100001000
    asq_raw := fun _ => none }

/-- The controller of `Pci_env.example_env` behind a vbus on which the read of
the configuration space register `0x10` (the low word of the BAR) fails with
`-L4_EIO`. -/
def Pci_env.cfg_fails : Pci_env :=
  { Pci_env.example_env with cfg_read_status := fun r => if r = 0x10 then - L4_EIO else 0 }

/-! ## The discovery chain as a whole: rounds, idle and busy admin queue -/

/-- The number of commands outstanding on a submission queue: the number of
slots whose continuation entry is non-empty. -/
def Submission_queue.outstanding {κ : Type} (q : Submission_queue κ) : Nat :=
  (q.callbacks.filter Option.isSome).length

/-- One round of `Machine.run`: the device completes the outstanding admin
command and `handle_irq()` runs; `none` when no command is outstanding. -/
def Machine.round (w : World) (m : Machine) : Option Machine :=
  match m.device_step w with
  | none => none
  | some m1 => some { m1 with ctl := m1.ctl.handle_irq w }

/-- The status field with which the device completes the command in the slot
it fetches next (the status field has 15 bits). -/
def Machine.status (w : World) (m : Machine) : Nat :=
  w.command_status (m.ctl.asq.entry m.dev_sq_head) % 2 ^ 15

/-- The controller state in which `handle_irq()` runs the continuation of the
command the device completes next. -/
def Machine.irq_ctl (w : World) (m : Machine) : Ctl :=
  match m.device_step w with
  | none => m.ctl
  | some m1 => m1.ctl.detached

/-- An admin submission queue of two entries with nothing outstanding: the
head has caught up with the tail, both continuation entries are empty, slot
`i` carries command identifier `i`, and nothing has faulted. -/
def Ctl.Idle (c : Ctl) : Prop :=
  c.asq.cid_inv 2 ∧ c.asq.callbacks = [none, none] ∧ c.asq.head = c.asq.tail ∧
  c.fault = false

/-- What a continuation started on the idle controller `c` leaves behind in
`r`: nothing faulted, the admin completion queue untouched, and either the
admin submission queue still idle at the same tail, or exactly one command
issued: the tail advanced by one and one continuation stored, in the slot of
the old tail. -/
def Ctl.Issued (c r : Ctl) : Prop :=
  r.fault = false ∧ r.acq = c.acq ∧ r.asq.cid_inv 2 ∧
  ((r.asq.tail = c.asq.tail ∧ r.asq.callbacks = [none, none]) ∨
   (r.asq.tail = (c.asq.tail + 1) % 2 ∧
    ∃ cb, r.asq.callbacks = ([none, none] : List (Option Admin_cb)).set c.asq.tail (some cb)))

/-- The invariant of the discovery chain between two interrupts: the admin
queues have two entries, slot `i` of the submission queue carries command
identifier `i`, the host side and the device side of the completion queue
agree on position and phase, nothing has faulted, and either no command is
outstanding (the device has fetched up to the tail, both continuation entries
are empty) or exactly one is: the tail is one past the slot the device
fetches next, and that slot holds the only continuation. -/
def Machine.Inv (m : Machine) : Prop :=
  m.ctl.asq.cid_inv 2 ∧ m.ctl.acq.size = 2 ∧ m.ctl.acq.entries.length = 2 ∧
  m.ctl.acq.head = m.dev_cq.tail ∧ m.ctl.acq.p = m.dev_cq.phase ∧ m.dev_cq.tail < 2 ∧
  m.ctl.fault = false ∧ m.dev_sq_head < 2 ∧
  ((m.ctl.asq.tail = m.dev_sq_head ∧ m.ctl.asq.callbacks = [none, none]) ∨
   (m.ctl.asq.tail = (m.dev_sq_head + 1) % 2 ∧
    ∃ cb, m.ctl.asq.callbacks
      = ([none, none] : List (Option Admin_cb)).set m.dev_sq_head (some cb)))

/-- The value of the variable `skipped` at the end of the continuation of
`Ctl::identify_namespace` (status 0) for the Identify data `d`: false exactly
when `nsze` is nonzero, `(flbas & 0xf) <= nlbaf` and `(lbaf & 0xffff) == 0`. -/
def Identify_ns.skipped (d : Identify_ns) : Bool :=
  !(decide (u64 d.nsze ≠ 0) && decide (d.flbas % 2 ^ 8 % 16 ≤ d.nlbaf % 2 ^ 8) &&
    decide (u32 (d.lbaf.getD (d.flbas % 2 ^ 8 % 16) 0) % 2 ^ 16 = 0))

/-- The value `lba_sz = (1ULL << ((lbaf >> 16) & 0xffu))` that the continuation
of `Ctl::identify_namespace` computes for the Identify data `d`. -/
def Identify_ns.lba_sz (d : Identify_ns) : Nat :=
  u64 (1 * 2 ^ (u32 (d.lbaf.getD (d.flbas % 2 ^ 8 % 16) 0) / 2 ^ 16 % 2 ^ 8))

/-- A world with `nn` namespaces in which namespace 1 has the Identify data
`d1` and its Create I/O CQ and Create I/O SQ commands complete with the
statuses `cq` and `sq`; the other namespaces are healthy and every other
command succeeds. -/
def World.outcome (nn : Nat) (d1 : Identify_ns) (cq sq : Nat) : World :=
  { World.ok nn (fun n => if n = 1 then d1 else Identify_ns.healthy) with
    iocq_status := fun q => if q = 1 then cq else 0
    iosq_status := fun q => if q = 1 then sq else 0 }

/-! ## The SGL gate (`Ctl::use_sgls`, `parse_args`) -/

/-- The initial value of the static member `Ctl::use_sgls`: the definition
`bool Ctl::use_sgls = false;` of `ctl.cc`. -/
def Ctl.use_sgls_init : Bool := false

/-- The results of `getopt_long` in the loop of `parse_args`, one constructor
per case of its `switch`: `'v'`, `'q'`, `OPT_CLIENT` (with the result of
`opts.add_client(&drv)`), `OPT_DEVICE`, `OPT_DS_MAX`, `OPT_READONLY`,
`OPT_NOSGL`, `'d'` (with whether the dataspace capability was found, else
`L4Re::chkcap` throws) and the `default` case. -/
inductive Getopt where
  | verbose
  | quiet
  | client (added : Bool)
  | device
  | ds_max
  | readonly
  | nosgl
  | register_ds (found : Bool)
  | other
deriving DecidableEq, Repr

/-- The function `parse_args` of `main.cc`, as far as the static
`Ctl::use_sgls` is concerned: for the options that `getopt_long` returns one
after the other and the value of `Ctl::use_sgls` at the call, the value when
the function is left (at its end, at a `return` inside the loop, or by the
exception of `chkcap`). The only case that assigns to it is `OPT_NOSGL`:
`Nvme::Ctl::use_sgls = false;`. -/
def parse_args : List Getopt → Bool → Bool
  | [], use_sgls => use_sgls
  | Getopt.nosgl :: opts, _ => parse_args opts false
  | Getopt.client false :: _, use_sgls => use_sgls
  | Getopt.register_ds false :: _, use_sgls => use_sgls
  | Getopt.other :: _, use_sgls => use_sgls
  | _ :: opts, use_sgls => parse_args opts use_sgls

/-- The world of scenario S6 on a host where slot `i` of the storage reserved
for the continuations of the admin submission queue does not read as an empty
`std::function` (which continuation it reads as is immaterial: `produce()`
only tests it); the other slot reads as empty. -/
def World.s6_raw (i : Nat) : World :=
  { World.s6 with asq_raw := fun j => if j = i then some Admin_cb.identify else none }

/-! ## Auxiliary lemmas -/

theorem getD_set_same {α : Type} (l : List α) (i : Nat) (x d : α) (h : i < l.length) :
    (l.set i x).getD i d = x := by
  simp [List.getD_eq_getElem?_getD, List.getElem?_set, h]

theorem getD_set_other {α : Type} (l : List α) (i j : Nat) (x d : α) (h : i ≠ j) :
    (l.set i x).getD j d = l.getD j d := by
  simp [List.getD_eq_getElem?_getD, List.getElem?_set, h]

namespace Submission_queue

variable {κ : Type}

theorem sq_wrap_around_eq (q : Submission_queue κ) (i : Nat) (hi : i < 2 ^ 16)
    (hN : 1 ≤ q.size) : q.wrap_around i = i % q.size := by
  unfold wrap_around u16
  have h1 : i % 2 ^ 16 = i := Nat.mod_eq_of_lt hi
  have h2 : i % q.size < q.size := Nat.mod_lt _ hN
  have h3 : i % q.size ≤ i := Nat.mod_le _ _
  rw [h1]
  exact Nat.mod_eq_of_lt (by omega)

theorem produce_full (q : Submission_queue κ) (h : q.is_full = true) :
    q.produce = (none, q) := by
  simp [produce, h]

theorem produce_free (q : Submission_queue κ) (hf : q.is_full = false)
    (hc : q.callbacks.getD q.tail none = none) :
    q.produce = (some q.tail,
      { q with
        tail := q.wrap_around (q.tail + 1)
        entries := q.entries.set q.tail (clear_entry (q.entries.getD q.tail default)) }) := by
  rw [produce, if_neg (by simp [hf]), if_neg (by rw [hc]; simp)]

theorem entry_modify_same (q : Submission_queue κ) (i : Nat) (f : Sqe → Sqe)
    (h : i < q.entries.length) : (q.modify i f).entry i = f (q.entry i) := by
  show (q.entries.set i (f (q.entries.getD i default))).getD i default = _
  exact getD_set_same _ _ _ _ h

theorem entry_modify_other (q : Submission_queue κ) (i j : Nat) (f : Sqe → Sqe)
    (h : i ≠ j) : (q.modify i f).entry j = q.entry j := by
  show (q.entries.set i (f (q.entries.getD i default))).getD j default = _
  exact getD_set_other _ _ _ _ _ h

end Submission_queue

/-! ## Fullness (`Submission_queue::is_full`, `produce`) -/

/-- C5: for a submission queue of size `N >= 1` (a 16-bit size) with head and
tail in `[0, N)`, `is_full()` holds iff `head == (tail + 1) mod N`, and
`produce()` on a full queue returns none and leaves the queue (tail, entries,
continuations) unchanged. -/
theorem Submission_queue.is_full_iff_and_produce_full {κ : Type}
    (q : Submission_queue κ) (hN : 1 ≤ q.size) (hN16 : q.size < 2 ^ 16)
    (_hH : q.head < q.size) (hT : q.tail < q.size) :
    (q.is_full = true ↔ q.head = (q.tail + 1) % q.size) ∧
    (q.is_full = true →
      q.produce.1 = none ∧ q.produce.2 = q ∧ q.produce.2.tail = q.tail ∧
      q.produce.2.entries = q.entries ∧ q.produce.2.callbacks = q.callbacks) := by
  have hw : q.wrap_around (q.tail + 1) = (q.tail + 1) % q.size :=
    q.sq_wrap_around_eq _ (by omega) hN
  refine ⟨?_, ?_⟩
  · simp [Submission_queue.is_full, hw]
  · intro hf
    simp [q.produce_full hf]

/-- Witness of C5: a queue of size 4 with head 2 and tail 1 is full. -/
theorem Submission_queue.is_full_iff_and_produce_full_witness :
    let q : Submission_queue Nat :=
      { (Submission_queue.mk_queue 4 1 0 0 0 (fun _ => none) : Submission_queue Nat) with head := 2, tail := 1 }
    (q.is_full = true ↔ q.head = (q.tail + 1) % q.size) ∧
    (q.is_full = true →
      q.produce.1 = none ∧ q.produce.2 = q ∧ q.produce.2.tail = q.tail ∧
      q.produce.2.entries = q.entries ∧ q.produce.2.callbacks = q.callbacks) :=
  Submission_queue.is_full_iff_and_produce_full _ (by decide) (by decide) (by decide) (by decide)

/-! ## Doorbell arithmetic (`tdbl`, `hdbl`, `submit`, `complete`) -/

theorem u32_of_lt {x : Nat} (h : x < 2 ^ 32) : u32 x = x := Nat.mod_eq_of_lt h

theorem tdbl_eq {κ : Type} (sq : Submission_queue κ)
    (hs : 0x1000 + 2 * sq.y * (4 <<< sq.dstrd) < 2 ^ 32) :
    sq.tdbl = 0x1000 + 2 * sq.y * (4 <<< sq.dstrd) := by
  rw [Nat.shiftLeft_eq] at hs ⊢
  unfold Submission_queue.tdbl
  have hpos : 1 ≤ 4 * 2 ^ sq.dstrd := by
    have : 0 < 2 ^ sq.dstrd := Nat.pos_of_ne_zero (by positivity)
    omega
  rcases Nat.eq_zero_or_pos sq.y with hy | hy
  · simp [hy, u32]
  · have h1 : 2 * sq.y ≤ 2 * sq.y * (4 * 2 ^ sq.dstrd) := Nat.le_mul_of_pos_right _ (by omega)
    have h2 : 4 * 2 ^ sq.dstrd ≤ 2 * sq.y * (4 * 2 ^ sq.dstrd) :=
      Nat.le_mul_of_pos_left _ (by omega)
    rw [u32_of_lt (x := 2 * sq.y) (by omega), u32_of_lt (x := 4 * 2 ^ sq.dstrd) (by omega),
      u32_of_lt (x := 2 * sq.y * (4 * 2 ^ sq.dstrd)) (by omega), u32_of_lt hs]

theorem hdbl_eq (cq : Completion_queue)
    (hc : 0x1000 + (2 * cq.y + 1) * (4 <<< cq.dstrd) < 2 ^ 32) :
    cq.hdbl = 0x1000 + (2 * cq.y + 1) * (4 <<< cq.dstrd) := by
  rw [Nat.shiftLeft_eq] at hc ⊢
  unfold Completion_queue.hdbl
  have hpos : 1 ≤ 4 * 2 ^ cq.dstrd := by
    have : 0 < 2 ^ cq.dstrd := Nat.pos_of_ne_zero (by positivity)
    omega
  have h1 : 2 * cq.y + 1 ≤ (2 * cq.y + 1) * (4 * 2 ^ cq.dstrd) :=
    Nat.le_mul_of_pos_right _ (by omega)
  have h2 : 4 * 2 ^ cq.dstrd ≤ (2 * cq.y + 1) * (4 * 2 ^ cq.dstrd) :=
    Nat.le_mul_of_pos_left _ (by omega)
  rw [u32_of_lt (x := 2 * cq.y) (by omega), u32_of_lt (x := 2 * cq.y + 1) (by omega),
    u32_of_lt (x := 4 * 2 ^ cq.dstrd) (by omega),
    u32_of_lt (x := (2 * cq.y + 1) * (4 * 2 ^ cq.dstrd)) (by omega), u32_of_lt hc]

/-- C8: for a submission queue and a completion queue with index `y` and
stride field `DSTRD` such that the offsets do not overflow 32 bits, `tdbl()`
is `0x1000 + 2*y*(4 << DSTRD)` and `hdbl()` is `0x1000 + (2*y + 1)*(4 << DSTRD)`;
`submit()` writes the current tail to the former and `complete()` writes the
current head to the latter. -/
theorem doorbell_offsets {κ : Type} (sq : Submission_queue κ) (cq : Completion_queue)
    (regs : Mmio)
    (hs : 0x1000 + 2 * sq.y * (4 <<< sq.dstrd) < 2 ^ 32)
    (hc : 0x1000 + (2 * cq.y + 1) * (4 <<< cq.dstrd) < 2 ^ 32) :
    sq.tdbl = 0x1000 + 2 * sq.y * (4 <<< sq.dstrd) ∧
    cq.hdbl = 0x1000 + (2 * cq.y + 1) * (4 <<< cq.dstrd) ∧
    sq.submit regs = regs ++ [(0x1000 + 2 * sq.y * (4 <<< sq.dstrd), sq.tail)] ∧
    cq.complete regs = regs ++ [(0x1000 + (2 * cq.y + 1) * (4 <<< cq.dstrd), cq.head)] := by
  refine ⟨tdbl_eq sq hs, hdbl_eq cq hc, ?_, ?_⟩
  · simp [Submission_queue.submit, tdbl_eq sq hs]
  · simp [Completion_queue.complete, hdbl_eq cq hc]

/-- Witness of C8: the I/O queue pair with index 3 and `DSTRD = 2`, with the
submission tail at 5 and the completion head at 7. -/
theorem doorbell_offsets_witness :
    let sq : Submission_queue Nat :=
      { (Submission_queue.mk_queue 32 3 2 0 0 (fun _ => none) : Submission_queue Nat) with tail := 5 }
    let cq : Completion_queue := { Completion_queue.mk_queue 32 3 2 with head := 7 }
    sq.tdbl = 0x1060 ∧ cq.hdbl = 0x1070 ∧
    sq.submit [] = [(0x1060, 5)] ∧ cq.complete [] = [(0x1070, 7)] :=
  doorbell_offsets
    ({ (Submission_queue.mk_queue 32 3 2 0 0 (fun _ => none) : Submission_queue Nat) with tail := 5 })
    ({ Completion_queue.mk_queue 32 3 2 with head := 7 }) [] (by decide) (by decide)

/-! ## Phase rule (`Completion_queue::consume`) -/

namespace Completion_queue

theorem cq_wrap_around_eq (q : Completion_queue) (i : Nat) (hi : i < 2 ^ 16)
    (hN : 1 ≤ q.size) : q.wrap_around i = i % q.size := by
  unfold wrap_around u16
  have h1 : i % 2 ^ 16 = i := Nat.mod_eq_of_lt hi
  have h2 : i % q.size < q.size := Nat.mod_lt _ hN
  have h3 : i % q.size ≤ i := Nat.mod_le _ _
  rw [h1]
  exact Nat.mod_eq_of_lt (by omega)

theorem consume_valid (q : Completion_queue)
    (h : (q.entries.getD q.head default).p = (if q.p then 1 else 0)) :
    q.consume = (some q.head,
      { q with
        head := q.wrap_around (q.head + 1)
        p := if q.wrap_around (q.head + 1) = 0 then !q.p else q.p }) := by
  unfold consume
  simp only [h, if_true]

theorem consume_stale (q : Completion_queue)
    (h : (q.entries.getD q.head default).p ≠ (if q.p then 1 else 0)) :
    q.consume = (none, q) := by
  unfold consume
  simp only [h, if_false]

end Completion_queue

theorem phase_get_set (w : Nat) (b : Bool) :
    bf_get 16 16 (bf_set 16 16 w (if b then 1 else 0)) = (if b then 1 else 0) := by
  unfold bf_set bf_get
  norm_num
  cases b <;> simp <;> omega

theorem succ_mod_wrap (k n : Nat) : (k % n + 1) % n = (k + 1) % n := by
  rw [Nat.add_mod k 1 n, Nat.add_mod (k % n) 1 n, Nat.mod_mod]

theorem succ_div_wrap (k n : Nat) :
    (k + 1) / n = if (k + 1) % n = 0 then k / n + 1 else k / n := by
  rw [Nat.succ_div]
  by_cases h : (k + 1) % n = 0
  · simp [h, Nat.dvd_of_mod_eq_zero h]
  · have : ¬ n ∣ k + 1 := fun hd => h (Nat.mod_eq_zero_of_dvd hd)
    simp [h, this]

theorem consume_rounds_inv (es : List Cqe) :
    ∀ (d : Cq_device) (q : Completion_queue) (c f k : Nat),
      1 ≤ q.size → q.size < 2 ^ 16 → q.entries.length = q.size →
      d.tail = q.head → d.phase = q.p → q.head = k % q.size →
      c = k → f = k / q.size →
      (consume_rounds es d q c f).2.2.1 = k + es.length ∧
      (consume_rounds es d q c f).2.1.head = (k + es.length) % q.size ∧
      (consume_rounds es d q c f).2.2.2 = (k + es.length) / q.size := by
  induction es with
  | nil =>
    intro d q c f k _ _ _ _ _ hh hc hf
    simp [consume_rounds, hh, hc, hf]
  | cons e es ih =>
    intro d q c f k hN hN16 hlen hd hp hh hc hf
    have hlt : q.head < q.size := by rw [hh]; exact Nat.mod_lt _ hN
    -- the queue after the device posted its entry
    have hvalid : ((d.post q e).2.entries.getD (d.post q e).2.head default).p
        = (if (d.post q e).2.p then 1 else 0) := by
      show ((q.entries.set d.tail _).getD q.head default).p = (if q.p then 1 else 0)
      rw [hd, getD_set_same _ _ _ _ (by omega)]
      show bf_get 16 16 (bf_set 16 16 e.dw3 (if d.phase then 1 else 0)) = _
      rw [phase_get_set, hp]
    have hw : q.wrap_around (q.head + 1) = (k + 1) % q.size := by
      rw [q.cq_wrap_around_eq _ (by omega) hN, hh, succ_mod_wrap]
    have hcons := Completion_queue.consume_valid (d.post q e).2 hvalid
    have hw2 : (d.post q e).2.wrap_around ((d.post q e).2.head + 1) = (k + 1) % q.size := hw
    rw [hw2] at hcons
    have hstep : consume_rounds (e :: es) d q c f =
        consume_rounds es (d.post q e).1 (d.post q e).2.consume.2
          (if (d.post q e).2.consume.1.isSome then c + 1 else c)
          (if (d.post q e).2.consume.2.p = (d.post q e).2.p then f else f + 1) := rfl
    rw [hstep, hcons]
    have hd1 : (d.post q e).1.tail = (k + 1) % q.size := by
      show (d.tail + 1) % q.size = _
      rw [hd, hh, succ_mod_wrap]
    have hp1 : (d.post q e).1.phase =
        (if (k + 1) % q.size = 0 then !q.p else q.p) := by
      show (if (d.tail + 1) % q.size = 0 then !d.phase else d.phase) = _
      rw [hd, hh, succ_mod_wrap, hp]
    have hpq : (d.post q e).2.p = q.p := rfl
    have hq2size : (d.post q e).2.size = q.size := rfl
    have hq2len : (d.post q e).2.entries.length = q.size := by
      show (q.entries.set d.tail _).length = q.size
      rw [List.length_set, hlen]
    have := ih (d.post q e).1
      { (d.post q e).2 with
        head := (k + 1) % q.size
        p := if (k + 1) % q.size = 0 then !(d.post q e).2.p else (d.post q e).2.p }
      (c + 1)
      (if (if (k + 1) % q.size = 0 then !(d.post q e).2.p else (d.post q e).2.p)
          = (d.post q e).2.p then f else f + 1)
      (k + 1) hN hN16 hq2len hd1 (by rw [hp1, hpq]) rfl (by omega)
      (by
        show _ = (k + 1) / q.size
        rw [succ_div_wrap k q.size, hpq]
        by_cases h0 : (k + 1) % q.size = 0
        · cases hqp : q.p <;> simp [h0, hf]
        · simp [h0, hf])
    simp only [Option.isSome_some, if_true]
    have hlen2 : k + (e :: es).length = k + 1 + es.length := by
      simp [List.length_cons]; omega
    rw [hlen2]
    exact this

/-- C7: a completion queue is constructed with head 0 and expected phase
true. For a completion queue of size `N >= 1` (a 16-bit size) with head in
`[0, N)`, `consume()` returns the entry at head iff the phase bit of that entry
equals the expected phase, and returns none with the queue unchanged otherwise;
on success head becomes `(head + 1) mod N` and the expected phase changes
exactly when head wraps from `N - 1` to 0. Against a device that posts its
entries in order with the correct phase, after `k` rounds all `k` entries were
consumed, head is `k mod N` and the expected phase has flipped `k / N`
times. -/
theorem consume_phase_rule (q : Completion_queue) (N y dstrd : Nat) (es : List Cqe)
    (hq : 1 ≤ q.size) (hq16 : q.size < 2 ^ 16) (hh : q.head < q.size)
    (hN : 1 ≤ N) (hN16 : N < 2 ^ 16) :
    ((Completion_queue.mk_queue N y dstrd).head = 0 ∧
      (Completion_queue.mk_queue N y dstrd).p = true) ∧
    (q.consume.1 = some q.head ↔
      (q.entries.getD q.head default).p = (if q.p then 1 else 0)) ∧
    ((q.entries.getD q.head default).p ≠ (if q.p then 1 else 0) → q.consume = (none, q)) ∧
    ((q.entries.getD q.head default).p = (if q.p then 1 else 0) →
      q.consume.2.head = (q.head + 1) % q.size ∧
      (q.consume.2.p ≠ q.p ↔ (q.head = q.size - 1 ∧ q.consume.2.head = 0))) ∧
    ((consume_rounds es Cq_device.init (Completion_queue.mk_queue N y dstrd) 0 0).2.2.1
        = es.length ∧
      (consume_rounds es Cq_device.init (Completion_queue.mk_queue N y dstrd) 0 0).2.1.head
        = es.length % N ∧
      (consume_rounds es Cq_device.init (Completion_queue.mk_queue N y dstrd) 0 0).2.2.2
        = es.length / N) := by
  have hw : q.wrap_around (q.head + 1) = (q.head + 1) % q.size :=
    q.cq_wrap_around_eq _ (by omega) hq
  refine ⟨⟨rfl, rfl⟩, ?_, ?_, ?_, ?_⟩
  · constructor
    · intro h
      by_contra hne
      rw [Completion_queue.consume_stale q hne] at h
      simp at h
    · intro h
      rw [Completion_queue.consume_valid q h]
  · exact Completion_queue.consume_stale q
  · intro h
    rw [Completion_queue.consume_valid q h]
    simp only [hw]
    refine ⟨trivial, ?_⟩
    have hm : (q.head + 1) % q.size = 0 ↔ q.head = q.size - 1 := by
      constructor
      · intro h0
        have hd : q.size ∣ q.head + 1 := Nat.dvd_of_mod_eq_zero h0
        have := Nat.le_of_dvd (by omega) hd
        omega
      · intro h1
        have : q.head + 1 = q.size := by omega
        rw [this, Nat.mod_self]
    by_cases h0 : (q.head + 1) % q.size = 0
    · have := hm.mp h0
      cases hp : q.p <;> simp [h0, this]
    · have : ¬ q.head = q.size - 1 := fun h1 => h0 (hm.mpr h1)
      simp [h0, this]
  · have hsz : (Completion_queue.mk_queue N y dstrd).size = N := Nat.mod_eq_of_lt hN16
    have hlen : (Completion_queue.mk_queue N y dstrd).entries.length
        = (Completion_queue.mk_queue N y dstrd).size := by
      simp [Completion_queue.mk_queue]
    have := consume_rounds_inv es Cq_device.init (Completion_queue.mk_queue N y dstrd) 0 0 0
      (by rw [hsz]; exact hN) (by rw [hsz]; exact hN16) hlen rfl rfl
      (by simp [Completion_queue.mk_queue]) rfl (by simp)
    rw [hsz] at this
    simpa using this

/-- Witness of C7: a completion queue of size 4; after 4, 5 and 8 rounds the
expected phase has flipped 1, 1 and 2 times. -/
theorem consume_phase_rule_witness :
    (consume_rounds (List.replicate 4 default) Cq_device.init
        (Completion_queue.mk_queue 4 1 0) 0 0).2.2.2 = 1 ∧
    (consume_rounds (List.replicate 5 default) Cq_device.init
        (Completion_queue.mk_queue 4 1 0) 0 0).2.2.2 = 1 ∧
    (consume_rounds (List.replicate 8 default) Cq_device.init
        (Completion_queue.mk_queue 4 1 0) 0 0).2.2.2 = 2 :=
  ⟨(consume_phase_rule (Completion_queue.mk_queue 4 1 0) 4 1 0 (List.replicate 4 default)
      (by decide) (by decide) (by decide) (by decide) (by decide)).2.2.2.2.2.2,
   (consume_phase_rule (Completion_queue.mk_queue 4 1 0) 4 1 0 (List.replicate 5 default)
      (by decide) (by decide) (by decide) (by decide) (by decide)).2.2.2.2.2.2,
   (consume_phase_rule (Completion_queue.mk_queue 4 1 0) 4 1 0 (List.replicate 8 default)
      (by decide) (by decide) (by decide) (by decide) (by decide)).2.2.2.2.2.2⟩

/-! ## CID identity (`Submission_queue` constructor and `produce`) -/

theorem cid_clear_entry (e : Sqe) : (Submission_queue.clear_entry e).cid = e.cid := by
  unfold Submission_queue.clear_entry Sqe.cid bf_get
  norm_num
  omega

theorem cid_store_fields (e old : Sqe) : (store_fields e old).cid = old.cid := by
  unfold store_fields Sqe.cid bf_get
  norm_num
  omega

theorem cid_init_entry (i : Nat) (hi : i < 2 ^ 16) :
    (Submission_queue.init_entry i).cid = i := by
  unfold Submission_queue.init_entry Sqe.cid bf_get u32
  norm_num at hi ⊢
  omega

namespace Submission_queue

variable {κ : Type}

theorem entry_mk_queue (N y d sg ph i : Nat) (raw : Nat → Option κ) (hN16 : N < 2 ^ 16) (hi : i < N) :
    ((mk_queue N y d sg ph raw : Submission_queue κ).entry i) = init_entry i := by
  have hu : u16 N = N := Nat.mod_eq_of_lt hN16
  simp [mk_queue, entry, hu, List.getD_eq_getElem?_getD, List.getElem?_range, hi]

theorem entry_modify_cid (q : Submission_queue κ) (i j : Nat) (f : Sqe → Sqe)
    (hf : ∀ e, (f e).cid = e.cid) : ((q.modify i f).entry j).cid = (q.entry j).cid := by
  by_cases hij : i = j
  · subst hij
    by_cases hlt : i < q.entries.length
    · rw [entry_modify_same q i f hlt, hf]
    · have : q.entries.set i (f (q.entries.getD i default)) = q.entries :=
        List.set_eq_of_length_le (by omega)
      show ((q.entries.set i (f (q.entries.getD i default))).getD i default).cid = _
      rw [this]
      rfl
  · rw [entry_modify_other q i j f hij]

theorem produce_cases (q : Submission_queue κ) :
    q.produce = (none, q) ∨
    q.produce = (some q.tail, { q.modify q.tail clear_entry with
      tail := q.wrap_around (q.tail + 1) }) := by
  unfold produce
  by_cases h1 : q.is_full = true
  · left; simp [h1]
  · by_cases h2 : ((q.callbacks.getD q.tail none).isSome) = true
    · left; rw [if_neg h1, if_pos h2]
    · right; rw [if_neg h1, if_neg h2]; rfl

theorem wrap_around_lt (q : Submission_queue κ) (i : Nat) (hN : 1 ≤ q.size) :
    q.wrap_around i < q.size := by
  unfold wrap_around u16
  have h2 : i % 2 ^ 16 % q.size < q.size := Nat.mod_lt _ hN
  have h3 : i % 2 ^ 16 % q.size % 2 ^ 16 ≤ i % 2 ^ 16 % q.size := Nat.mod_le _ _
  omega

theorem cid_inv_modify (N : Nat) (q : Submission_queue κ) (i : Nat) (f : Sqe → Sqe)
    (hf : ∀ e, (f e).cid = e.cid) (h : q.cid_inv N) : (q.modify i f).cid_inv N := by
  obtain ⟨h1, h2, h3, h4⟩ := h
  refine ⟨h1, ?_, h3, ?_⟩
  · show (q.entries.set i _).length = N
    rw [List.length_set, h2]
  · intro j hj
    rw [entry_modify_cid q i j f hf, h4 j hj]

theorem cid_inv_run (N : Nat) (hN : 1 ≤ N) (ops : List (Sq_op κ)) :
    ∀ q : Submission_queue κ, q.cid_inv N →
      (run ops q).2.cid_inv N ∧ ∀ s ∈ (run ops q).1, s.1 < N ∧ s.2 = s.1 := by
  induction ops with
  | nil => intro q h; exact ⟨h, by simp [run]⟩
  | cons op ops ih =>
    intro q h
    cases op with
    | produce =>
      rcases q.produce_cases with hp | hp
      · have : run (Sq_op.produce :: ops) q = run ops q := by
          simp only [run, hp]
        rw [this]; exact ih q h
      · have hq1 : ({ q.modify q.tail clear_entry with
            tail := q.wrap_around (q.tail + 1) } : Submission_queue κ).cid_inv N := by
          have hm := cid_inv_modify N q q.tail clear_entry cid_clear_entry h
          obtain ⟨h1, h2, _, h4⟩ := hm
          refine ⟨h1, h2, ?_, h4⟩
          show q.wrap_around (q.tail + 1) < N
          have := q.wrap_around_lt (q.tail + 1) (by rw [h.1]; exact hN)
          rw [h.1] at this
          exact this
        have hrun : run (Sq_op.produce :: ops) q =
            ((q.tail, (({ q.modify q.tail clear_entry with
                tail := q.wrap_around (q.tail + 1) } : Submission_queue κ).entry q.tail).cid)
              :: (run ops { q.modify q.tail clear_entry with
                tail := q.wrap_around (q.tail + 1) }).1,
             (run ops { q.modify q.tail clear_entry with
                tail := q.wrap_around (q.tail + 1) }).2) := by
          simp only [run, hp]
        rw [hrun]
        obtain ⟨ih1, ih2⟩ := ih _ hq1
        refine ⟨ih1, ?_⟩
        intro s hs
        rcases List.mem_cons.mp hs with rfl | hs
        · exact ⟨h.2.2.1, hq1.2.2.2 q.tail h.2.2.1⟩
        · exact ih2 s hs
    | set_head hd =>
      have : run (Sq_op.set_head hd :: ops) q = run ops { q with head := u16 hd } := rfl
      rw [this]; exact ih _ h
    | set_callback i cb =>
      have : run (Sq_op.set_callback i cb :: ops) q = run ops (q.set_callback i cb) := rfl
      rw [this]; exact ih _ h
    | store_fields i e =>
      have : run (Sq_op.store_fields i e :: ops) q
          = run ops (q.modify i (store_fields e)) := rfl
      rw [this]
      exact ih _ (cid_inv_modify N q i (store_fields e) (cid_store_fields e) h)

theorem cid_inv_mk_queue (N y d sg ph : Nat) (raw : Nat → Option κ) (hN : 1 ≤ N) (hN16 : N < 2 ^ 16) :
    (mk_queue N y d sg ph raw : Submission_queue κ).cid_inv N := by
  have hu : u16 N = N := Nat.mod_eq_of_lt hN16
  refine ⟨hu, ?_, hN, ?_⟩
  · simp [mk_queue, hu]
  · intro i hi
    rw [entry_mk_queue N y d sg ph i raw hN16 hi]
    exact cid_init_entry i (by omega)

end Submission_queue

theorem clear_entry_fields (e : Sqe) :
    (Submission_queue.clear_entry e).cdw0 % 2 ^ 16 = 0 ∧
    (Submission_queue.clear_entry e).opc = 0 ∧
    (Submission_queue.clear_entry e).psdt = 0 := by
  unfold Submission_queue.clear_entry Sqe.opc Sqe.psdt bf_get
  norm_num
  refine ⟨?_, ?_, ?_⟩ <;> omega

/-- C6: after construction of a submission queue of size `N` (`1 <= N`, a
16-bit size) slot `i` has command identifier `i` for every `i < N`; a successful
`produce()` returns the slot at the old tail with its command identifier
unchanged and with the low 16 bits of `cdw0` (so opcode and PSDT), `nsid`, the
reserved word, `mptr`, the PRP/SGL payload and `cdw10..cdw15` all zero; and
after any sequence of `produce()` calls, interleaved with stores to `_head`,
assignments to `_callbacks[i]` and stores to entry fields other than the
command identifier, slot `i` still has command identifier `i` and every slot
handed out has an index in `[0, N)` equal to its command identifier. -/
theorem cid_identity {κ : Type} (N y dstrd sgls sgls_phys : Nat) (raw : Nat → Option κ)
    (ops : List (Sq_op κ))
    (q : Submission_queue κ) (hN : 1 ≤ N) (hN16 : N < 2 ^ 16)
    (hq : q.tail < q.entries.length) :
    (∀ i, i < N →
      ((Submission_queue.mk_queue N y dstrd sgls sgls_phys raw : Submission_queue κ).entry i).cid
        = i) ∧
    (∀ i, q.produce.1 = some i →
      i = q.tail ∧ (q.produce.2.entry i).cid = (q.entry i).cid ∧
      (q.produce.2.entry i).cdw0 % 2 ^ 16 = 0 ∧
      (q.produce.2.entry i).opc = 0 ∧ (q.produce.2.entry i).psdt = 0 ∧
      (q.produce.2.entry i).nsid = 0 ∧ (q.produce.2.entry i).res = 0 ∧
      (q.produce.2.entry i).mptr = 0 ∧
      (q.produce.2.entry i).prp1 = 0 ∧ (q.produce.2.entry i).prp2 = 0 ∧
      (q.produce.2.entry i).cdw10 = 0 ∧ (q.produce.2.entry i).cdw11 = 0 ∧
      (q.produce.2.entry i).cdw12 = 0 ∧ (q.produce.2.entry i).cdw13 = 0 ∧
      (q.produce.2.entry i).cdw14 = 0 ∧ (q.produce.2.entry i).cdw15 = 0) ∧
    ((∀ i, i < N →
      (((Submission_queue.mk_queue N y dstrd sgls sgls_phys raw : Submission_queue κ).run ops).2.entry
        i).cid = i) ∧
     (∀ s ∈ ((Submission_queue.mk_queue N y dstrd sgls sgls_phys raw : Submission_queue κ).run
        ops).1, s.1 < N ∧ s.2 = s.1)) := by
  have hinit := Submission_queue.cid_inv_mk_queue (κ := κ) N y dstrd sgls sgls_phys raw hN hN16
  refine ⟨hinit.2.2.2, ?_, ?_⟩
  · intro i hi
    rcases q.produce_cases with hp | hp
    · rw [hp] at hi; simp at hi
    · rw [hp] at hi ⊢
      have hi2 : q.tail = i := by simpa using hi
      subst hi2
      have he : (({ q.modify q.tail Submission_queue.clear_entry with
          tail := q.wrap_around (q.tail + 1) } : Submission_queue κ).entry q.tail)
          = Submission_queue.clear_entry (q.entry q.tail) :=
        Submission_queue.entry_modify_same q q.tail _ hq
      simp only [he]
      obtain ⟨c1, c2, c3⟩ := clear_entry_fields (q.entry q.tail)
      exact ⟨trivial, cid_clear_entry _, c1, c2, c3, rfl, rfl, rfl, rfl, rfl, rfl, rfl, rfl, rfl,
        rfl, rfl⟩
  · have := Submission_queue.cid_inv_run N hN ops _ hinit
    exact ⟨this.1.2.2.2, this.2⟩

/-- Witness of C6: a queue of four slots; three commands are produced while
the first is filled and the head moves. -/
theorem cid_identity_witness :
    (∀ i, i < 4 →
      (((Submission_queue.mk_queue 4 1 0 0 0 (fun _ => none) : Submission_queue Nat).run
        [Sq_op.produce, Sq_op.store_fields 0 ⟨2, 1, 0, 0, 4096, 0, 7, 0, 0, 0, 0, 0⟩,
          Sq_op.produce, Sq_op.set_head 2, Sq_op.produce]).2.entry i).cid = i) ∧
    (∀ s ∈ ((Submission_queue.mk_queue 4 1 0 0 0 (fun _ => none) : Submission_queue Nat).run
        [Sq_op.produce, Sq_op.store_fields 0 ⟨2, 1, 0, 0, 4096, 0, 7, 0, 0, 0, 0, 0⟩,
          Sq_op.produce, Sq_op.set_head 2, Sq_op.produce]).1, s.1 < 4 ∧ s.2 = s.1) :=
  (cid_identity 4 1 0 0 0 (fun _ => none)
    [Sq_op.produce, Sq_op.store_fields 0 ⟨2, 1, 0, 0, 4096, 0, 7, 0, 0, 0, 0, 0⟩,
      Sq_op.produce, Sq_op.set_head 2, Sq_op.produce]
    (Submission_queue.mk_queue 4 1 0 0 0 (fun _ => none) : Submission_queue Nat)
    (by decide) (by decide) (by decide)).2.2

/-! ## PRP classifier (`Namespace::readwrite_prepare_prp`) -/

theorem last_byte_eq (paddr sz : Nat) (hsz : 0 < sz) :
    u64 (paddr + sz + (2 ^ 64 - 1)) = u64 (paddr + sz - 1) := by
  unfold u64
  norm_num
  omega

theorem trunc_page_le (ps x : Nat) : l4_trunc_page ps x ≤ x := by
  unfold l4_trunc_page
  exact Nat.div_mul_le_self x (2 ^ ps)

theorem trunc_page_even (ps x : Nat) (hps : 0 < ps) : ∃ m, l4_trunc_page ps x = 2 * m := by
  obtain ⟨k, rfl⟩ : ∃ k, ps = k + 1 := ⟨ps - 1, by omega⟩
  refine ⟨x / 2 ^ (k + 1) * 2 ^ k, ?_⟩
  unfold l4_trunc_page
  rw [pow_succ]
  ring

theorem trunc_page_ne_pred (ps a b : Nat) (hps : 0 < ps) :
    l4_trunc_page ps a ≠ u64 (l4_trunc_page ps b + (2 ^ 64 - 1)) := by
  obtain ⟨m, hm⟩ := trunc_page_even ps a hps
  obtain ⟨n, hn⟩ := trunc_page_even ps b hps
  rw [hm, hn]
  unfold u64
  norm_num
  omega

theorem u64_lt (x : Nat) : u64 x < 2 ^ 64 := Nat.mod_lt _ (by norm_num)

namespace Namespace

theorem prp_unsupported_iff (ps paddr sz : Nat) (hps : 0 < ps) :
    prp_unsupported ps paddr sz = true ↔
      l4_trunc_page ps paddr ≠ l4_trunc_page ps (u64 (paddr + sz + (2 ^ 64 - 1))) := by
  unfold prp_unsupported
  have := trunc_page_ne_pred ps paddr (u64 (paddr + sz + (2 ^ 64 - 1))) hps
  simp only [Bool.and_eq_true, decide_eq_true_eq]
  exact ⟨fun h => h.1, fun h => ⟨h, this⟩⟩

theorem readwrite_prepare_prp_unsupported (ps : Nat) (ns : Namespace) (read : Bool)
    (slba paddr sz : Nat) (h : prp_unsupported ps paddr sz = true) :
    ns.readwrite_prepare_prp ps read slba paddr sz = (none, ns) := by
  unfold prp_unsupported at h
  simp only [Bool.and_eq_true, decide_eq_true_eq] at h
  unfold readwrite_prepare_prp
  simp only [if_neg h.1, if_pos h.2]

theorem prepare_prp_slot_free (ns : Namespace) (read : Bool) (slba paddr prp2 : Nat)
    (hf : ns.iosq.is_full = false)
    (hc : ns.iosq.callbacks.getD ns.iosq.tail none = none)
    (ht : ns.iosq.tail < ns.iosq.entries.length) :
    (ns.prepare_prp_slot read slba paddr prp2).1 = some ns.iosq.tail ∧
    (ns.prepare_prp_slot read slba paddr prp2).2.iosq.entry ns.iosq.tail =
      fill_prp ns.nsid read slba paddr prp2
        (Submission_queue.clear_entry (ns.iosq.entry ns.iosq.tail)) ∧
    (ns.prepare_prp_slot read slba paddr prp2).2.iosq.entries.length
      = ns.iosq.entries.length := by
  unfold prepare_prp_slot
  rw [ns.iosq.produce_free hf hc]
  refine ⟨rfl, ?_, ?_⟩
  · show ((ns.iosq.entries.set ns.iosq.tail _).set ns.iosq.tail _).getD ns.iosq.tail default = _
    rw [getD_set_same _ _ _ _ (by rw [List.length_set]; exact ht)]
    congr 1
    exact getD_set_same _ _ _ _ ht
  · show ((ns.iosq.entries.set ns.iosq.tail _).set ns.iosq.tail _).length = _
    rw [List.length_set, List.length_set]

end Namespace

/-- C1 (behaviour of the code): for a page size of at least two bytes, whenever
the buffer covers two adjacent pages, `trunc_page(paddr + sz - 1) ==
trunc_page(paddr) + page_size`, `readwrite_prepare_prp` returns none and leaves
the namespace unchanged; no entry with `prp2 = trunc_page(paddr + sz - 1)` is
prepared, whatever the state of the submission queue. -/
theorem readwrite_prepare_prp_two_pages (ps : Nat) (ns : Namespace) (read : Bool)
    (slba paddr sz : Nat) (hps : 0 < ps) (hsz : 0 < sz)
    (h2 : l4_trunc_page ps (u64 (paddr + sz - 1)) = l4_trunc_page ps paddr + L4_PAGESIZE ps) :
    ns.readwrite_prepare_prp ps read slba paddr sz = (none, ns) := by
  apply Namespace.readwrite_prepare_prp_unsupported
  rw [Namespace.prp_unsupported_iff ps paddr sz hps, last_byte_eq paddr sz hsz, h2]
  have : 0 < L4_PAGESIZE ps := Nat.pos_of_ne_zero (by unfold L4_PAGESIZE; positivity)
  omega

/-- Witness of C1 (scenario S2, 4 KiB pages): `paddr = 0x4_0000_0F00`,
`sz = 0x200` on a namespace whose queue has all slots free. -/
theorem readwrite_prepare_prp_two_pages_witness :
    (Namespace.example_ns.iosq.produce.1 = some 0 ∧
      l4_trunc_page 12 (u64 (0x400000F00 + 0x200 - 1))
        = l4_trunc_page 12 0x400000F00 + L4_PAGESIZE 12) ∧
    Namespace.example_ns.readwrite_prepare_prp 12 true 0x1000 0x400000F00 0x200
      = (none, Namespace.example_ns) :=
  ⟨⟨by decide, by decide⟩,
   readwrite_prepare_prp_two_pages 12 Namespace.example_ns true 0x1000 0x400000F00 0x200
    (by decide) (by decide) (by decide)⟩

/-- C3: for a page size of at least two bytes, whenever the byte range covers
more than two pages or two pages that are not adjacent
(`trunc_page(paddr + sz - 1)` is neither `trunc_page(paddr)` nor
`trunc_page(paddr) + page_size`), `readwrite_prepare_prp` returns none and
leaves the I/O submission queue unchanged: tail, entries and continuations
are as before. -/
theorem readwrite_prepare_prp_rejected (ps : Nat) (ns : Namespace) (read : Bool)
    (slba paddr sz : Nat) (hps : 0 < ps) (hsz : 0 < sz)
    (h1 : l4_trunc_page ps (u64 (paddr + sz - 1)) ≠ l4_trunc_page ps paddr)
    (_h2 : l4_trunc_page ps (u64 (paddr + sz - 1)) ≠ l4_trunc_page ps paddr + L4_PAGESIZE ps) :
    (ns.readwrite_prepare_prp ps read slba paddr sz).1 = none ∧
    (ns.readwrite_prepare_prp ps read slba paddr sz).2 = ns ∧
    (ns.readwrite_prepare_prp ps read slba paddr sz).2.iosq.tail = ns.iosq.tail ∧
    (ns.readwrite_prepare_prp ps read slba paddr sz).2.iosq.entries = ns.iosq.entries ∧
    (ns.readwrite_prepare_prp ps read slba paddr sz).2.iosq.callbacks = ns.iosq.callbacks := by
  have : ns.readwrite_prepare_prp ps read slba paddr sz = (none, ns) := by
    apply Namespace.readwrite_prepare_prp_unsupported
    rw [Namespace.prp_unsupported_iff ps paddr sz hps, last_byte_eq paddr sz hsz]
    exact fun h => h1 h.symm
  rw [this]
  exact ⟨rfl, rfl, rfl, rfl, rfl⟩

/-- Witness of C3 (scenario S3, 4 KiB pages): `paddr = 0x4_0000_0F00`,
`sz = 0x2100` spans three pages. -/
theorem readwrite_prepare_prp_rejected_witness :
    (Namespace.example_ns.readwrite_prepare_prp 12 true 0 0x400000F00 0x2100).1 = none ∧
    (Namespace.example_ns.readwrite_prepare_prp 12 true 0 0x400000F00 0x2100).2.iosq.tail
      = Namespace.example_ns.iosq.tail :=
  ⟨(readwrite_prepare_prp_rejected 12 Namespace.example_ns true 0 0x400000F00 0x2100
      (by decide) (by decide) (by decide) (by decide)).1,
   (readwrite_prepare_prp_rejected 12 Namespace.example_ns true 0 0x400000F00 0x2100
      (by decide) (by decide) (by decide) (by decide)).2.2.1⟩

theorem fill_prp_cdw0 (nsid : Nat) (read : Bool) (slba paddr prp2 : Nat) (e : Sqe) :
    (Namespace.fill_prp nsid read slba paddr prp2 (Submission_queue.clear_entry e)).opc
      = (if read then Iocs.Read else Iocs.Write) ∧
    (Namespace.fill_prp nsid read slba paddr prp2 (Submission_queue.clear_entry e)).psdt
      = Psdt.Use_prps ∧
    (Namespace.fill_prp nsid read slba paddr prp2 (Submission_queue.clear_entry e)).cid
      = e.cid := by
  unfold Namespace.fill_prp Submission_queue.clear_entry Sqe.opc Sqe.psdt Sqe.cid
    Sqe.set_opc Sqe.set_psdt bf_set bf_get Iocs.Read Iocs.Write Psdt.Use_prps
  cases read <;> norm_num <;> refine ⟨?_, ?_, ?_⟩ <;> omega

theorem fill_prp_words (nsid : Nat) (read : Bool) (slba paddr prp2 : Nat) (e : Sqe) :
    (Namespace.fill_prp nsid read slba paddr prp2 e).nsid = u32 nsid ∧
    (Namespace.fill_prp nsid read slba paddr prp2 e).prp1 = u64 paddr ∧
    (Namespace.fill_prp nsid read slba paddr prp2 e).prp2 = u64 prp2 ∧
    (Namespace.fill_prp nsid read slba paddr prp2 e).cdw10 = u32 (slba % 2 ^ 32) ∧
    (Namespace.fill_prp nsid read slba paddr prp2 e).cdw11 = u32 (slba / 2 ^ 32) :=
  ⟨rfl, rfl, rfl, rfl, rfl⟩

/-- C2: for every 64-bit starting LBA `slba` and physical address `paddr`, every
byte size `sz > 0` with `trunc_page(paddr) == trunc_page(paddr + sz - 1)`, and
an I/O submission queue with a free slot (not full, the continuation of the
tail slot empty), `readwrite_prepare_prp` returns the entry at the tail with
opcode Read (when `read`) or Write (otherwise), `nsid` the namespace id, PSDT =
PRP, `prp1 = paddr`, `prp2 = 0`, `cdw10` the low and `cdw11` the high 32 bits of
`slba`, so that `cdw10 + 2^32 * cdw11 == slba`. -/
theorem readwrite_prepare_prp_single_page (ps : Nat) (ns : Namespace) (read : Bool)
    (slba paddr sz : Nat) (hslba : slba < 2 ^ 64) (hpaddr : paddr < 2 ^ 64)
    (hnsid : ns.nsid < 2 ^ 32) (hsz : 0 < sz)
    (hpage : l4_trunc_page ps paddr = l4_trunc_page ps (u64 (paddr + sz - 1)))
    (hf : ns.iosq.is_full = false)
    (hc : ns.iosq.callbacks.getD ns.iosq.tail none = none)
    (ht : ns.iosq.tail < ns.iosq.entries.length) :
    (ns.readwrite_prepare_prp ps read slba paddr sz).1 = some ns.iosq.tail ∧
    ((ns.readwrite_prepare_prp ps read slba paddr sz).2.iosq.entry ns.iosq.tail).opc
      = (if read then Iocs.Read else Iocs.Write) ∧
    ((ns.readwrite_prepare_prp ps read slba paddr sz).2.iosq.entry ns.iosq.tail).nsid
      = ns.nsid ∧
    ((ns.readwrite_prepare_prp ps read slba paddr sz).2.iosq.entry ns.iosq.tail).psdt
      = Psdt.Use_prps ∧
    ((ns.readwrite_prepare_prp ps read slba paddr sz).2.iosq.entry ns.iosq.tail).prp1
      = paddr ∧
    ((ns.readwrite_prepare_prp ps read slba paddr sz).2.iosq.entry ns.iosq.tail).prp2 = 0 ∧
    ((ns.readwrite_prepare_prp ps read slba paddr sz).2.iosq.entry ns.iosq.tail).cdw10
      = slba % 2 ^ 32 ∧
    ((ns.readwrite_prepare_prp ps read slba paddr sz).2.iosq.entry ns.iosq.tail).cdw11
      = slba / 2 ^ 32 ∧
    ((ns.readwrite_prepare_prp ps read slba paddr sz).2.iosq.entry ns.iosq.tail).cdw10
      + 2 ^ 32 *
        ((ns.readwrite_prepare_prp ps read slba paddr sz).2.iosq.entry ns.iosq.tail).cdw11
      = slba := by
  have hrw : ns.readwrite_prepare_prp ps read slba paddr sz
      = ns.prepare_prp_slot read slba paddr 0 := by
    unfold Namespace.readwrite_prepare_prp
    rw [last_byte_eq paddr sz hsz]
    simp only [if_pos hpage]
  obtain ⟨r1, r2, _⟩ := Namespace.prepare_prp_slot_free ns read slba paddr 0 hf hc ht
  obtain ⟨c1, c2, _⟩ := fill_prp_cdw0 ns.nsid read slba paddr 0 (ns.iosq.entry ns.iosq.tail)
  obtain ⟨w1, w2, w3, w4, w5⟩ := fill_prp_words ns.nsid read slba paddr 0
    (Submission_queue.clear_entry (ns.iosq.entry ns.iosq.tail))
  rw [hrw, r2]
  have e1 : u32 ns.nsid = ns.nsid := Nat.mod_eq_of_lt hnsid
  have e2 : u64 paddr = paddr := Nat.mod_eq_of_lt hpaddr
  have e3 : u32 (slba % 2 ^ 32) = slba % 2 ^ 32 :=
    Nat.mod_eq_of_lt (Nat.mod_lt _ (by norm_num))
  have e4 : u32 (slba / 2 ^ 32) = slba / 2 ^ 32 :=
    Nat.mod_eq_of_lt (by norm_num at hslba ⊢; omega)
  have e5 : slba % 2 ^ 32 + 2 ^ 32 * (slba / 2 ^ 32) = slba := Nat.mod_add_div slba (2 ^ 32)
  refine ⟨r1, c1, by rw [w1, e1], c2, by rw [w2, e2], by rw [w3]; rfl, by rw [w4, e3],
    by rw [w5, e4], by rw [w4, w5, e3, e4, e5]⟩

/-- Witness of C2 (scenario S1, 4 KiB pages): `slba = 0x1000`,
`paddr = 0x4_0000_0100`, `sz = 128`, read. -/
theorem readwrite_prepare_prp_single_page_witness :
    (Namespace.example_ns.readwrite_prepare_prp 12 true 0x1000 0x400000100 128).1 = some 0 ∧
    ((Namespace.example_ns.readwrite_prepare_prp 12 true 0x1000 0x400000100
      128).2.iosq.entry 0).opc = 0x02 ∧
    ((Namespace.example_ns.readwrite_prepare_prp 12 true 0x1000 0x400000100
      128).2.iosq.entry 0).nsid = 1 ∧
    ((Namespace.example_ns.readwrite_prepare_prp 12 true 0x1000 0x400000100
      128).2.iosq.entry 0).psdt = 0 ∧
    ((Namespace.example_ns.readwrite_prepare_prp 12 true 0x1000 0x400000100
      128).2.iosq.entry 0).prp1 = 0x400000100 ∧
    ((Namespace.example_ns.readwrite_prepare_prp 12 true 0x1000 0x400000100
      128).2.iosq.entry 0).prp2 = 0 ∧
    ((Namespace.example_ns.readwrite_prepare_prp 12 true 0x1000 0x400000100
      128).2.iosq.entry 0).cdw10 = 0x1000 ∧
    ((Namespace.example_ns.readwrite_prepare_prp 12 true 0x1000 0x400000100
      128).2.iosq.entry 0).cdw11 = 0 :=
  have h := readwrite_prepare_prp_single_page 12 Namespace.example_ns true 0x1000 0x400000100
    128 (by decide) (by decide) (by decide) (by decide) (by decide) (by decide) (by decide)
    (by decide)
  ⟨h.1, h.2.1, h.2.2.1, h.2.2.2.1, h.2.2.2.2.1, h.2.2.2.2.2.1, h.2.2.2.2.2.2.1,
    h.2.2.2.2.2.2.2.1⟩

/-! ## Synchronous failures of `Nvme_device::inout_data` in PRP mode -/

namespace Namespace

theorem prepare_prp_slot_fst (ns : Namespace) (read : Bool) (slba paddr prp2 : Nat) :
    (ns.prepare_prp_slot read slba paddr prp2).1 = ns.iosq.produce.1 := by
  unfold prepare_prp_slot
  rcases h : ns.iosq.produce with ⟨_ | i, q⟩ <;> simp

theorem readwrite_prepare_prp_supported (ps : Nat) (ns : Namespace) (read : Bool)
    (slba paddr sz : Nat) (h : prp_unsupported ps paddr sz = false) :
    ∃ prp2, ns.readwrite_prepare_prp ps read slba paddr sz
      = ns.prepare_prp_slot read slba paddr prp2 := by
  unfold prp_unsupported at h
  unfold readwrite_prepare_prp
  by_cases h1 : l4_trunc_page ps paddr = l4_trunc_page ps (u64 (paddr + sz + (2 ^ 64 - 1)))
  · exact ⟨0, by simp only [if_pos h1]⟩
  · have h2 : ¬ (l4_trunc_page ps paddr ≠
        u64 (l4_trunc_page ps (u64 (paddr + sz + (2 ^ 64 - 1))) + (2 ^ 64 - 1))) := by
      intro h2
      simp only [Bool.and_eq_false_iff, decide_eq_false_iff_not] at h
      rcases h with h | h
      · exact h h1
      · exact h h2
    exact ⟨l4_trunc_page ps (u64 (paddr + sz + (2 ^ 64 - 1))),
      by simp only [if_neg h1, if_neg h2]⟩

theorem readwrite_prepare_prp_none_iff (ps : Nat) (ns : Namespace) (read : Bool)
    (slba paddr sz : Nat) :
    (ns.readwrite_prepare_prp ps read slba paddr sz).1 = none ↔
      (prp_unsupported ps paddr sz = true ∨ ns.iosq.produce.1 = none) := by
  cases h : prp_unsupported ps paddr sz
  · obtain ⟨prp2, hp⟩ := readwrite_prepare_prp_supported ps ns read slba paddr sz h
    rw [hp, prepare_prp_slot_fst]
    simp
  · rw [readwrite_prepare_prp_unsupported ps ns read slba paddr sz h]
    simp

end Namespace

theorem inout_data_prp_code (ps : Nat) (ns : Namespace) (regs : Mmio) (sector : Nat)
    (block : Inout_block) (rest : List Inout_block) (cb : Nat) (read : Bool)
    (hprp : ns.ctl.supports_sgl = false) :
    (Nvme_device.inout_data ps ns regs sector block rest cb read).1 =
      if (ns.readwrite_prepare_prp ps read sector block.dma_addr
          (u64 (Nvme_device.inout_sectors ps ns block rest * Nvme_device.sector_size ns))).1
          = none
      then - L4_EBUSY else L4_EOK := by
  unfold Nvme_device.inout_data Nvme_device.inout_sectors
  simp only [hprp, Bool.false_eq_true, if_false]
  rcases h : ns.readwrite_prepare_prp ps read sector block.dma_addr
      (u64 (min (u64 block.num_sectors) (Nvme_device.max_size ps ns / Nvme_device.sector_size ns)
        * Nvme_device.sector_size ns)) with ⟨_ | i, ns1⟩ <;> simp

/-- C4 (as amended): in PRP mode `inout_data` has one synchronous failure
result. It returns the Busy error exactly when `readwrite_prepare_prp` returns
none, that is when the PRP classifier rejects the buffer or when no
submission-queue slot could be obtained from `produce()`; in every other case
it returns OK. No distinct Unsupported error is returned. -/
theorem inout_data_prp_busy (ps : Nat) (ns : Namespace) (regs : Mmio) (sector : Nat)
    (block : Inout_block) (rest : List Inout_block) (cb : Nat) (read : Bool)
    (hprp : ns.ctl.supports_sgl = false) :
    ((Nvme_device.inout_data ps ns regs sector block rest cb read).1 = - L4_EBUSY ↔
      (Namespace.prp_unsupported ps block.dma_addr
          (u64 (Nvme_device.inout_sectors ps ns block rest * Nvme_device.sector_size ns)) = true ∨
        ns.iosq.produce.1 = none)) ∧
    ((Nvme_device.inout_data ps ns regs sector block rest cb read).1 = - L4_EBUSY ∨
      (Nvme_device.inout_data ps ns regs sector block rest cb read).1 = L4_EOK) := by
  rw [inout_data_prp_code ps ns regs sector block rest cb read hprp,
    ← Namespace.readwrite_prepare_prp_none_iff ps ns read sector]
  by_cases h : (ns.readwrite_prepare_prp ps read sector block.dma_addr
      (u64 (Nvme_device.inout_sectors ps ns block rest * Nvme_device.sector_size ns))).1 = none
  · simp [h]
  · simp [h, L4_EOK, L4_EBUSY]

/-- Witness of C4 (as amended): a one-sector read at `0x4_0000_0100` on the
scenario namespace is accepted and returns OK. -/
theorem inout_data_prp_busy_witness :
    (Nvme_device.inout_data 12 Namespace.example_ns [] 0x1000 ⟨0, 0x400000100, 1, false⟩ []
        7 true).1 = L4_EOK ∧
    Namespace.prp_unsupported 12 0x400000100 512 = false ∧
    Namespace.example_ns.iosq.produce.1 = some 0 :=
  have h := inout_data_prp_busy 12 Namespace.example_ns [] 0x1000 ⟨0, 0x400000100, 1, false⟩ []
    7 true (by decide)
  ⟨h.2.resolve_left (fun hb => by
      have := h.1.mp hb
      revert this
      decide), by decide, by decide⟩

/-- Counterexample to C4 as stated: with every slot of the submission queue
free (`produce()` would hand out slot 0), a request that the PRP classifier
rejects makes `inout_data` return the Busy error, not an Unsupported error:
a one-sector buffer at `0x4_0000_0F00` that crosses a page boundary, and a
request on a namespace whose block size exceeds the page size. -/
theorem inout_data_prp_busy_counterexample :
    (Namespace.example_ns.iosq.produce.1 = some 0 ∧
      Namespace.prp_unsupported 12 0x400000F00 512 = true ∧
      (Nvme_device.inout_data 12 Namespace.example_ns [] 0 ⟨0, 0x400000F00, 1, false⟩ []
        7 true).1 = - L4_EBUSY) ∧
    (({ Namespace.example_ns with lba_sz := 8192 } : Namespace).iosq.produce.1 = some 0 ∧
      Namespace.prp_unsupported 12 0x400001000 0 = true ∧
      (Nvme_device.inout_data 12 { Namespace.example_ns with lba_sz := 8192 } [] 0
        ⟨0, 0x400001000, 1, false⟩ [] 7 true).1 = - L4_EBUSY) := by
  decide

/-! ## NLB encoding (`readwrite_submit`, `write_zeroes`, `inout_data`, `discard`) -/

theorem nlb_set_nlb (e : Sqe) (v : Nat) : (e.set_nlb v).nlb = v % 2 ^ 16 := by
  unfold Sqe.set_nlb Sqe.nlb bf_set bf_get
  norm_num
  omega

theorem nlb_fill_write_zeroes (nsid slba nlb : Nat) (dealloc : Bool) (e : Sqe) :
    (Namespace.fill_write_zeroes nsid slba nlb dealloc e).nlb = nlb % 2 ^ 16 := by
  unfold Namespace.fill_write_zeroes Sqe.set_deac Sqe.set_nlb Sqe.set_opc Sqe.nlb bf_set bf_get
  norm_num
  cases dealloc <;> simp <;> omega

namespace Submission_queue

variable {κ : Type}

theorem produce_some (q q1 : Submission_queue κ) (i : Nat) (h : q.produce = (some i, q1)) :
    i = q.tail ∧ q1.entries.length = q.entries.length := by
  rcases q.produce_cases with hp | hp
  · rw [hp] at h; simp at h
  · rw [hp] at h
    simp only [Prod.mk.injEq, Option.some.injEq] at h
    obtain ⟨h1, h2⟩ := h
    subst h2
    refine ⟨h1.symm, ?_⟩
    show (q.entries.set q.tail _).length = _
    rw [List.length_set]

theorem length_modify (q : Submission_queue κ) (i : Nat) (f : Sqe → Sqe) :
    (q.modify i f).entries.length = q.entries.length := by
  show (q.entries.set i _).length = _
  rw [List.length_set]

end Submission_queue

namespace Namespace

theorem readwrite_submit_nlb (ns : Namespace) (regs : Mmio) (i nlb blocks : Nat)
    (cb : Callback) (hi : i < ns.iosq.entries.length) :
    ((ns.readwrite_submit regs i nlb blocks cb).1.iosq.entry i).nlb = nlb % 2 ^ 16 := by
  unfold readwrite_submit
  by_cases hp : (ns.iosq.entry i).psdt = Psdt.Use_sgls
  · simp only [if_pos hp]
    show (((ns.iosq.modify i _).modify i (fun e => e.set_nlb (u16 nlb))).entry i).nlb = _
    rw [Submission_queue.entry_modify_same _ _ _
      (by rw [Submission_queue.length_modify]; exact hi), nlb_set_nlb]
    unfold u16
    exact Nat.mod_mod _ _
  · simp only [if_neg hp]
    show ((ns.iosq.modify i (fun e => e.set_nlb (u16 nlb))).entry i).nlb = _
    rw [Submission_queue.entry_modify_same _ _ _ hi, nlb_set_nlb]
    unfold u16
    exact Nat.mod_mod _ _

theorem prepare_prp_slot_some (ns ns1 : Namespace) (read : Bool) (slba paddr prp2 i : Nat)
    (h : ns.prepare_prp_slot read slba paddr prp2 = (some i, ns1)) :
    i = ns.iosq.tail ∧ ns1.iosq.entries.length = ns.iosq.entries.length ∧
      ns1.lba_sz = ns.lba_sz := by
  unfold prepare_prp_slot at h
  rcases hp : ns.iosq.produce with ⟨_ | j, q⟩
  · rw [hp] at h; simp at h
  · rw [hp] at h
    simp only [Prod.mk.injEq, Option.some.injEq] at h
    obtain ⟨h1, h2⟩ := h
    obtain ⟨p1, p2⟩ := Submission_queue.produce_some _ _ _ hp
    subst h1 h2
    exact ⟨p1, by rw [← p2]; exact Submission_queue.length_modify _ _ _, rfl⟩

theorem readwrite_prepare_prp_some (ps : Nat) (ns ns1 : Namespace) (read : Bool)
    (slba paddr sz i : Nat)
    (h : ns.readwrite_prepare_prp ps read slba paddr sz = (some i, ns1)) :
    i = ns.iosq.tail ∧ ns1.iosq.entries.length = ns.iosq.entries.length ∧
      ns1.lba_sz = ns.lba_sz := by
  cases hu : prp_unsupported ps paddr sz
  · obtain ⟨prp2, hp⟩ := readwrite_prepare_prp_supported ps ns read slba paddr sz hu
    rw [hp] at h
    exact prepare_prp_slot_some ns ns1 read slba paddr prp2 i h
  · rw [readwrite_prepare_prp_unsupported ps ns read slba paddr sz hu] at h
    simp at h

theorem readwrite_prepare_sgl_some (ns ns1 : Namespace) (read : Bool) (slba i off : Nat)
    (h : ns.readwrite_prepare_sgl read slba = (some i, off, ns1)) :
    i = ns.iosq.tail ∧ ns1.iosq.entries.length = ns.iosq.entries.length ∧
      ns1.lba_sz = ns.lba_sz := by
  unfold readwrite_prepare_sgl at h
  rcases hp : ns.iosq.produce with ⟨_ | j, q⟩
  · rw [hp] at h; simp at h
  · rw [hp] at h
    simp only [Prod.mk.injEq, Option.some.injEq] at h
    obtain ⟨h1, _, h2⟩ := h
    obtain ⟨p1, p2⟩ := Submission_queue.produce_some _ _ _ hp
    subst h1 h2
    exact ⟨p1, by rw [← p2]; exact Submission_queue.length_modify _ _ _, rfl⟩

theorem write_zeroes_nlb (ns : Namespace) (regs : Mmio) (slba nlb : Nat) (dealloc : Bool)
    (cb : Callback) (ht : ns.iosq.tail < ns.iosq.entries.length)
    (hok : (ns.write_zeroes regs slba nlb dealloc cb).1 = true) :
    (((ns.write_zeroes regs slba nlb dealloc cb).2.1.iosq.entry ns.iosq.tail).nlb)
      = nlb % 2 ^ 16 := by
  unfold write_zeroes at hok ⊢
  rcases hp : ns.iosq.produce with ⟨_ | j, q⟩
  · rw [hp] at hok; simp at hok
  · obtain ⟨p1, p2⟩ := Submission_queue.produce_some _ _ _ hp
    subst p1
    simp only []
    show ((q.modify ns.iosq.tail _).entry ns.iosq.tail).nlb = _
    rw [Submission_queue.entry_modify_same _ _ _ (by rw [p2]; exact ht),
      nlb_fill_write_zeroes]
    unfold u16
    exact Nat.mod_mod _ _

end Namespace

theorem sgl_loop_sectors (lba_sz off off2 : Nat) (bs : List Inout_block) :
    ∀ (i sectors blocks blocks2 : Nat) (mem mem2 : List (Nat × Sgl_desc)),
      (Nvme_device.sgl_loop lba_sz off bs i sectors blocks mem).1
        = (Nvme_device.sgl_loop lba_sz off2 bs i sectors blocks2 mem2).1 := by
  induction bs with
  | nil => intro i sectors blocks blocks2 mem mem2; rfl
  | cons b bs ih =>
    intro i sectors blocks blocks2 mem mem2
    unfold Nvme_device.sgl_loop
    by_cases hi : i < Ioq_sgls
    · simp only [if_pos hi]
      exact ih _ _ _ _ _ _
    · simp only [if_neg hi]

theorem nlb_word (n : Nat) : u64 (n + (2 ^ 64 - 1)) % 2 ^ 16 = (n + 65535) % 65536 := by
  unfold u64
  norm_num
  omega

theorem nlb_word32 (n : Nat) : u32 (n + (2 ^ 32 - 1)) % 2 ^ 16 = (n + 65535) % 65536 := by
  unfold u32
  norm_num
  omega

theorem inout_data_nlb (ps : Nat) (ns : Namespace) (regs : Mmio) (sector : Nat)
    (block : Inout_block) (rest : List Inout_block) (cb : Nat) (read : Bool)
    (ht : ns.iosq.tail < ns.iosq.entries.length)
    (hok : (Nvme_device.inout_data ps ns regs sector block rest cb read).1 = L4_EOK) :
    ((Nvme_device.inout_data ps ns regs sector block rest cb read).2.1.iosq.entry
        ns.iosq.tail).nlb
      = (Nvme_device.inout_sectors ps ns block rest + 65535) % 65536 := by
  unfold Nvme_device.inout_data Nvme_device.inout_sectors at *
  cases hs : ns.ctl.supports_sgl
  · simp only [hs, Bool.false_eq_true, if_false] at hok ⊢
    rcases hp : ns.readwrite_prepare_prp ps read sector block.dma_addr
        (u64 (min (u64 block.num_sectors)
          (Nvme_device.max_size ps ns / Nvme_device.sector_size ns)
          * Nvme_device.sector_size ns)) with ⟨_ | i, ns1⟩
    · rw [hp] at hok
      simp [L4_EOK, L4_EBUSY] at hok
    · obtain ⟨p1, p2, _⟩ := Namespace.readwrite_prepare_prp_some _ _ _ _ _ _ _ _ hp
      subst p1
      simp only []
      rw [Namespace.readwrite_submit_nlb _ _ _ _ _ _ (by rw [p2]; exact ht), nlb_word]
  · simp only [hs, if_true] at hok ⊢
    rcases hp : ns.readwrite_prepare_sgl read sector with ⟨_ | i, off, ns1⟩
    · rw [hp] at hok
      simp [L4_EOK, L4_EBUSY] at hok
    · obtain ⟨p1, p2, p3⟩ := Namespace.readwrite_prepare_sgl_some _ _ _ _ _ _ hp
      subst p1
      simp only []
      rw [Namespace.readwrite_submit_nlb _ _ _ _ _ _ (by exact (p2 ▸ ht)), nlb_word]
      have hl : Nvme_device.sector_size ns1 = Nvme_device.sector_size ns := p3
      rw [hl, sgl_loop_sectors (Nvme_device.sector_size ns) off 0 (block :: rest) 0 0 0 0
        ns1.iosq.sgls []]

theorem discard_nlb (ns : Namespace) (regs : Mmio) (offset : Nat) (block : Inout_block)
    (rest : List Inout_block) (cb : Nat) (flag : Bool) (r : Int × Namespace × Mmio)
    (ht : ns.iosq.tail < ns.iosq.entries.length)
    (hr : Nvme_device.discard ns regs offset block rest cb flag = some r)
    (hok : r.1 = L4_EOK) :
    (r.2.1.iosq.entry ns.iosq.tail).nlb = (block.num_sectors + 65535) % 65536 := by
  unfold Nvme_device.discard at hr
  by_cases hd : flag = true
  · simp [hd] at hr
  · by_cases hn : rest ≠ []
    · simp [hd, hn] at hr
    · simp only [hd, hn, if_false, Bool.false_eq_true] at hr
      cases hw : (ns.write_zeroes regs (u64 (offset + block.sector))
          (u32 (block.num_sectors + (2 ^ 32 - 1))) block.unmap (Callback.discard cb)).1
      · simp only [hw, Bool.not_false, if_true, Option.some.injEq] at hr
        rw [← hr] at hok
        simp [L4_EOK, L4_EBUSY] at hok
      · simp only [hw, Bool.not_true, Bool.false_eq_true, if_false, Option.some.injEq] at hr
        rw [← hr]
        simp only []
        rw [Namespace.write_zeroes_nlb ns regs _ _ _ _ ht hw, nlb_word32]

/-- C9 (as amended): for every Read or Write command that `inout_data` submits
successfully (PRP or SGL mode) and every Write-Zeroes command that `discard`
submits successfully, the 16-bit field `cdw12.NLB` of the submitted entry is
`(sector_count - 1) mod 2^16`, and so equals `sector_count - 1` whenever
`1 <= sector_count <= 65536`; `sector_count` is the count whose byte size is
reported to the completion callback for `inout_data` and `block.num_sectors`
for `discard`. -/
theorem nlb_encoding (ps : Nat) (ns : Namespace) (regs : Mmio) (sector offset : Nat)
    (block : Inout_block) (rest : List Inout_block) (cb : Nat) (read : Bool)
    (ht : ns.iosq.tail < ns.iosq.entries.length) :
    ((Nvme_device.inout_data ps ns regs sector block rest cb read).1 = L4_EOK →
      ((Nvme_device.inout_data ps ns regs sector block rest cb read).2.1.iosq.entry
          ns.iosq.tail).nlb
        = (Nvme_device.inout_sectors ps ns block rest + 65535) % 65536 ∧
      (1 ≤ Nvme_device.inout_sectors ps ns block rest →
        Nvme_device.inout_sectors ps ns block rest ≤ 65536 →
        ((Nvme_device.inout_data ps ns regs sector block rest cb read).2.1.iosq.entry
            ns.iosq.tail).nlb
          = Nvme_device.inout_sectors ps ns block rest - 1)) ∧
    (∀ r, Nvme_device.discard ns regs offset block rest cb false = some r → r.1 = L4_EOK →
      (r.2.1.iosq.entry ns.iosq.tail).nlb = (block.num_sectors + 65535) % 65536 ∧
      (1 ≤ block.num_sectors → block.num_sectors ≤ 65536 →
        (r.2.1.iosq.entry ns.iosq.tail).nlb = block.num_sectors - 1)) := by
  refine ⟨?_, ?_⟩
  · intro hok
    have h := inout_data_nlb ps ns regs sector block rest cb read ht hok
    refine ⟨h, ?_⟩
    intro h1 h2
    rw [h]
    omega
  · intro r hr hok
    have h := discard_nlb ns regs offset block rest cb false r ht hr hok
    refine ⟨h, ?_⟩
    intro h1 h2
    rw [h]
    omega

/-- Witness of C9 (as amended): an eight-sector read and a 16-sector
write-zeroes on the scenario namespace. -/
theorem nlb_encoding_witness :
    (Nvme_device.inout_data 12 Namespace.example_ns [] 0x1000 ⟨0, 0x400000000, 8, false⟩ []
        7 true).1 = L4_EOK ∧
    ((Nvme_device.inout_data 12 Namespace.example_ns [] 0x1000 ⟨0, 0x400000000, 8, false⟩ []
        7 true).2.1.iosq.entry 0).nlb = 7 :=
  have h := nlb_encoding 12 Namespace.example_ns [] 0x1000 0 ⟨0, 0x400000000, 8, false⟩ []
    7 true (by decide)
  ⟨by decide, (h.1 (by decide)).2 (by decide) (by decide)⟩

/-- Counterexample to C9 as stated: on a namespace whose block size (8192)
exceeds the page size, in PRP mode, a one-sector request is submitted
successfully with a sector count of 0 and `cdw12.NLB = 0xFFFF`; in SGL mode a
chain of nine segments of 8192 sectors (4 MiB each at 512-byte blocks) is
submitted successfully with a sector count of 73728 and `cdw12.NLB = 8191`;
and a write-zeroes of 65537 sectors is submitted with `cdw12.NLB = 0`. -/
theorem nlb_encoding_counterexample :
    ((Nvme_device.inout_data 12 { Namespace.example_ns with lba_sz := 8192 } [] 0
        ⟨0, 0x400000100, 1, false⟩ [] 7 true).1 = L4_EOK ∧
      Nvme_device.inout_sectors 12 { Namespace.example_ns with lba_sz := 8192 }
        ⟨0, 0x400000100, 1, false⟩ [] = 0 ∧
      ((Nvme_device.inout_data 12 { Namespace.example_ns with lba_sz := 8192 } [] 0
        ⟨0, 0x400000100, 1, false⟩ [] 7 true).2.1.iosq.entry 0).nlb = 65535) ∧
    ((Nvme_device.inout_data 12
        Namespace.example_ns_sgl [] 0
        ⟨0, 0x400000000, 8192, false⟩
        (List.replicate 8 ⟨0, 0x400000000, 8192, false⟩) 7 true).1 = L4_EOK ∧
      Nvme_device.inout_sectors 12
        Namespace.example_ns_sgl
        ⟨0, 0x400000000, 8192, false⟩
        (List.replicate 8 ⟨0, 0x400000000, 8192, false⟩) = 73728 ∧
      ((Nvme_device.inout_data 12
        Namespace.example_ns_sgl [] 0
        ⟨0, 0x400000000, 8192, false⟩
        (List.replicate 8 ⟨0, 0x400000000, 8192, false⟩) 7 true).2.1.iosq.entry 0).nlb
        = 8191) ∧
    ((Nvme_device.discard Namespace.example_ns [] 0 ⟨0, 0, 65537, false⟩ [] 7 false).map
        (fun r => (r.1, (r.2.1.iosq.entry 0).nlb)) = some (L4_EOK, 0)) := by
  decide

/-! ## Discovery (`Ctl::identify`, `Ctl::identify_namespace`, `async_loop_init`) -/

/-- C10 (behaviour of the code at the failing input): a controller reports
`NN = 2`; both namespaces are active and metadata-free and every admin
command succeeds. Discovery issues Identify Namespace for namespace 1 only,
creates its queues and publishes namespace 1; no command is outstanding
afterwards, nothing faulted, and namespace 2 is neither identified nor
published. -/
theorem discover_two_healthy_namespaces :
    (Machine.discover (World.ok 2 (fun _ => Identify_ns.healthy)) 0 false 16).ctl.nss = [1] ∧
    (Machine.discover (World.ok 2 (fun _ => Identify_ns.healthy)) 0 false 16).ctl.trace
      = [Event.identify_controller, Event.identify_namespace 1, Event.create_iocq 1 32,
          Event.create_iosq 1 32 0, Event.publish 1 512] ∧
    (Machine.discover (World.ok 2 (fun _ => Identify_ns.healthy)) 0 false 16).ctl.fault
      = false ∧
    ((Machine.discover (World.ok 2 (fun _ => Identify_ns.healthy)) 0 false 16).device_step
      (World.ok 2 (fun _ => Identify_ns.healthy))).isNone = true := by
  decide

/-! ## A free slot: explicit results of `produce()` and of the preparers -/

namespace Submission_queue

variable {κ : Type}

theorem produce_free_produced (q : Submission_queue κ) (hf : q.is_full = false)
    (hc : q.callbacks.getD q.tail none = none) :
    q.produce = (some q.tail, q.produced) :=
  q.produce_free hf hc

theorem produce_none (q : Submission_queue κ) (h : q.produce.1 = none) :
    q.produce = (none, q) := by
  rcases q.produce_cases with hp | hp
  · exact hp
  · rw [hp] at h; simp at h

theorem produce_fst_ne_none (q : Submission_queue κ) (h : q.produce.1 ≠ none) :
    q.is_full = false ∧ q.callbacks.getD q.tail none = none := by
  unfold produce at h
  by_cases h1 : q.is_full = true
  · simp [h1] at h
  · by_cases h2 : ((q.callbacks.getD q.tail none).isSome) = true
    · rw [if_neg h1, if_pos h2] at h; simp at h
    · refine ⟨by simpa using h1, ?_⟩
      cases hq : q.callbacks.getD q.tail none with
      | none => rfl
      | some x => rw [hq] at h2; simp at h2

theorem entry_produced (q : Submission_queue κ) (ht : q.tail < q.entries.length) :
    q.produced.entry q.tail = clear_entry (q.entry q.tail) :=
  entry_modify_same q q.tail clear_entry ht

theorem length_produced (q : Submission_queue κ) :
    q.produced.entries.length = q.entries.length :=
  length_modify q q.tail clear_entry

theorem getD_callbacks_set (q : Submission_queue κ) (i : Nat) (cb : Option κ)
    (h : i < q.callbacks.length) : (q.set_callback i cb).callbacks.getD i none = cb :=
  getD_set_same _ _ _ _ h

end Submission_queue

/-! ## Local capacity exhaustion -/

namespace Namespace

theorem iosq_eta (ns : Namespace) : ({ ns with iosq := ns.iosq } : Namespace) = ns := rfl

theorem prepare_prp_slot_none (ns : Namespace) (read : Bool) (slba paddr prp2 : Nat)
    (h : ns.iosq.produce.1 = none) :
    ns.prepare_prp_slot read slba paddr prp2 = (none, ns) := by
  unfold prepare_prp_slot
  rw [ns.iosq.produce_none h]

theorem readwrite_prepare_prp_none (ps : Nat) (ns : Namespace) (read : Bool)
    (slba paddr sz : Nat) (h : ns.iosq.produce.1 = none) :
    ns.readwrite_prepare_prp ps read slba paddr sz = (none, ns) := by
  cases hu : prp_unsupported ps paddr sz
  · obtain ⟨prp2, hp⟩ := readwrite_prepare_prp_supported ps ns read slba paddr sz hu
    rw [hp, prepare_prp_slot_none ns read slba paddr prp2 h]
  · exact readwrite_prepare_prp_unsupported ps ns read slba paddr sz hu

theorem readwrite_prepare_sgl_none (ns : Namespace) (read : Bool) (slba : Nat)
    (h : ns.iosq.produce.1 = none) :
    ns.readwrite_prepare_sgl read slba = (none, 0, ns) := by
  unfold readwrite_prepare_sgl
  rw [ns.iosq.produce_none h]

theorem write_zeroes_none (ns : Namespace) (regs : Mmio) (slba nlb : Nat) (dealloc : Bool)
    (cb : Callback) (h : ns.iosq.produce.1 = none) :
    ns.write_zeroes regs slba nlb dealloc cb = (false, ns, regs) := by
  unfold write_zeroes
  rw [ns.iosq.produce_none h]

end Namespace

theorem inout_data_none (ps : Nat) (ns : Namespace) (regs : Mmio) (sector : Nat)
    (block : Inout_block) (rest : List Inout_block) (cb : Nat) (read : Bool)
    (h : ns.iosq.produce.1 = none) :
    Nvme_device.inout_data ps ns regs sector block rest cb read = (- L4_EBUSY, ns, regs) := by
  unfold Nvme_device.inout_data
  cases hs : ns.ctl.supports_sgl
  · simp only [Bool.false_eq_true, if_false]
    rw [Namespace.readwrite_prepare_prp_none ps ns read _ _ _ h]
  · simp only [if_true]
    rw [Namespace.readwrite_prepare_sgl_none ns read _ h]

theorem discard_none (ns : Namespace) (regs : Mmio) (offset : Nat) (block : Inout_block)
    (cb : Nat) (h : ns.iosq.produce.1 = none) :
    Nvme_device.discard ns regs offset block [] cb false = some (- L4_EBUSY, ns, regs) := by
  unfold Nvme_device.discard
  simp only [Bool.false_eq_true, if_false, ne_eq, not_true_eq_false]
  rw [Namespace.write_zeroes_none ns regs _ _ _ _ h]
  rfl

/-- C20: whenever `produce()` returns none (the queue is full or the
continuation of the tail slot is still outstanding), `produce()` itself,
`Namespace::write_zeroes`, `Namespace::readwrite_prepare_prp`,
`Nvme_device::inout_data` (PRP and SGL mode) and `Nvme_device::discard` report
failure (false, none, Busy) and leave the namespace with its submission queue
(tail, head, every entry, every installed continuation) and the MMIO write log
(so the tail doorbell) exactly as before; no continuation capturing the
caller's callback is installed. -/
theorem capacity_exhaustion_atomic (ps : Nat) (ns : Namespace) (regs : Mmio)
    (sector offset slba nlb paddr sz : Nat) (block : Inout_block) (rest : List Inout_block)
    (cb : Nat) (cbk : Callback) (dealloc read : Bool)
    (h : ns.iosq.produce.1 = none) :
    ns.iosq.produce = (none, ns.iosq) ∧
    ns.write_zeroes regs slba nlb dealloc cbk = (false, ns, regs) ∧
    ns.readwrite_prepare_prp ps read slba paddr sz = (none, ns) ∧
    Nvme_device.inout_data ps ns regs sector block rest cb read = (- L4_EBUSY, ns, regs) ∧
    Nvme_device.discard ns regs offset block [] cb false = some (- L4_EBUSY, ns, regs) :=
  ⟨ns.iosq.produce_none h,
   Namespace.write_zeroes_none ns regs slba nlb dealloc cbk h,
   Namespace.readwrite_prepare_prp_none ps ns read slba paddr sz h,
   inout_data_none ps ns regs sector block rest cb read h,
   discard_none ns regs offset block cb h⟩

/-- Witness of C20: the scenario namespace with the head at 1 and the tail at
0 is full; and with an outstanding continuation in the tail slot `produce()`
returns none as well. -/
theorem capacity_exhaustion_atomic_witness :
    (({ Namespace.example_ns with
        iosq := { Namespace.example_ns.iosq with head := 1 } } : Namespace).iosq.produce.1
      = none ∧
     Nvme_device.inout_data 12
        { Namespace.example_ns with iosq := { Namespace.example_ns.iosq with head := 1 } }
        [(0x1008, 0)] 0x1000 ⟨0, 0x400000000, 8, false⟩ [] 7 true
      = (- L4_EBUSY,
        { Namespace.example_ns with iosq := { Namespace.example_ns.iosq with head := 1 } },
        [(0x1008, 0)])) ∧
    (({ Namespace.example_ns with
        iosq := Namespace.example_ns.iosq.set_callback 0 (some (Callback.discard 3)) }
          : Namespace).iosq.produce.1 = none ∧
     ({ Namespace.example_ns with
        iosq := Namespace.example_ns.iosq.set_callback 0 (some (Callback.discard 3)) }
          : Namespace).write_zeroes [] 0x1000 15 false (Callback.discard 7)
      = (false,
        { Namespace.example_ns with
          iosq := Namespace.example_ns.iosq.set_callback 0 (some (Callback.discard 3)) },
        [])) :=
  ⟨⟨by decide,
    (capacity_exhaustion_atomic 12
      { Namespace.example_ns with iosq := { Namespace.example_ns.iosq with head := 1 } }
      [(0x1008, 0)] 0x1000 0 0 0 0 0 ⟨0, 0x400000000, 8, false⟩ [] 7 (Callback.discard 7)
      false true (by decide)).2.2.2.1⟩,
   ⟨by decide,
    (capacity_exhaustion_atomic 12
      { Namespace.example_ns with
        iosq := Namespace.example_ns.iosq.set_callback 0 (some (Callback.discard 3)) }
      [] 0 0 0x1000 15 0 0 ⟨0, 0, 1, false⟩ [] 7 (Callback.discard 7)
      false true (by decide)).2.1⟩⟩

/-! ## Write-Zeroes (`Namespace::write_zeroes`, `Nvme_device::discard`) -/

theorem fill_write_zeroes_cdw0 (nsid slba nlb : Nat) (dealloc : Bool) (e : Sqe) :
    (Namespace.fill_write_zeroes nsid slba nlb dealloc (Submission_queue.clear_entry e)).opc
      = Iocs.Write_zeroes ∧
    (Namespace.fill_write_zeroes nsid slba nlb dealloc (Submission_queue.clear_entry e)).psdt
      = 0 ∧
    (Namespace.fill_write_zeroes nsid slba nlb dealloc (Submission_queue.clear_entry e)).cid
      = e.cid ∧
    (Namespace.fill_write_zeroes nsid slba nlb dealloc (Submission_queue.clear_entry e)).cdw0
      % 2 ^ 16 = Iocs.Write_zeroes := by
  unfold Namespace.fill_write_zeroes Submission_queue.clear_entry Sqe.opc Sqe.psdt Sqe.cid
    Sqe.set_opc Sqe.set_nlb Sqe.set_deac bf_set bf_get Iocs.Write_zeroes
  norm_num
  refine ⟨?_, ?_, ?_, ?_⟩ <;> omega

theorem fill_write_zeroes_cdw12 (nsid slba nlb : Nat) (dealloc : Bool) (e : Sqe)
    (hnlb : nlb < 2 ^ 16) :
    (Namespace.fill_write_zeroes nsid slba nlb dealloc (Submission_queue.clear_entry e)).nlb
      = nlb ∧
    (Namespace.fill_write_zeroes nsid slba nlb dealloc (Submission_queue.clear_entry e)).deac
      = (if dealloc then 1 else 0) ∧
    (Namespace.fill_write_zeroes nsid slba nlb dealloc (Submission_queue.clear_entry e)).cdw12
      = nlb + (if dealloc then 2 ^ 25 else 0) := by
  have hd : (default : Sqe).cdw12 = 0 := rfl
  unfold Namespace.fill_write_zeroes Submission_queue.clear_entry Sqe.nlb Sqe.deac
    Sqe.set_opc Sqe.set_nlb Sqe.set_deac bf_set bf_get
  simp only [hd]
  norm_num at hnlb ⊢
  cases dealloc <;> simp <;> refine ⟨?_, ?_⟩ <;> omega

theorem fill_write_zeroes_words (nsid slba nlb : Nat) (dealloc : Bool) (e : Sqe) :
    (Namespace.fill_write_zeroes nsid slba nlb dealloc (Submission_queue.clear_entry e)).nsid
      = u32 nsid ∧
    (Namespace.fill_write_zeroes nsid slba nlb dealloc (Submission_queue.clear_entry e)).cdw10
      = u32 (slba % 2 ^ 32) ∧
    (Namespace.fill_write_zeroes nsid slba nlb dealloc (Submission_queue.clear_entry e)).cdw11
      = u32 (slba / 2 ^ 32) ∧
    (Namespace.fill_write_zeroes nsid slba nlb dealloc (Submission_queue.clear_entry e)).res
      = 0 ∧
    (Namespace.fill_write_zeroes nsid slba nlb dealloc (Submission_queue.clear_entry e)).mptr
      = 0 ∧
    (Namespace.fill_write_zeroes nsid slba nlb dealloc (Submission_queue.clear_entry e)).prp1
      = 0 ∧
    (Namespace.fill_write_zeroes nsid slba nlb dealloc (Submission_queue.clear_entry e)).prp2
      = 0 ∧
    (Namespace.fill_write_zeroes nsid slba nlb dealloc (Submission_queue.clear_entry e)).cdw13
      = 0 ∧
    (Namespace.fill_write_zeroes nsid slba nlb dealloc (Submission_queue.clear_entry e)).cdw14
      = 0 ∧
    (Namespace.fill_write_zeroes nsid slba nlb dealloc (Submission_queue.clear_entry e)).cdw15
      = 0 :=
  ⟨rfl, rfl, rfl, rfl, rfl, rfl, rfl, rfl, rfl, rfl⟩

theorem write_zeroes_free (ns : Namespace) (regs : Mmio) (slba nlb : Nat) (dealloc : Bool)
    (cb : Callback) (hf : ns.iosq.is_full = false)
    (hc : ns.iosq.callbacks.getD ns.iosq.tail none = none) :
    ns.write_zeroes regs slba nlb dealloc cb =
      (true,
       { ns with iosq :=
          ((ns.iosq.produced.modify ns.iosq.tail
            (Namespace.fill_write_zeroes ns.nsid slba (u16 nlb) dealloc)).set_callback
            ((ns.iosq.produced.modify ns.iosq.tail
              (Namespace.fill_write_zeroes ns.nsid slba (u16 nlb) dealloc)).entry
                ns.iosq.tail).cid (some cb)) },
       ((ns.iosq.produced.modify ns.iosq.tail
            (Namespace.fill_write_zeroes ns.nsid slba (u16 nlb) dealloc)).set_callback
            ((ns.iosq.produced.modify ns.iosq.tail
              (Namespace.fill_write_zeroes ns.nsid slba (u16 nlb) dealloc)).entry
                ns.iosq.tail).cid (some cb)).submit regs) := by
  unfold Namespace.write_zeroes
  rw [ns.iosq.produce_free_produced hf hc]

/-- C19: for every 64-bit `slba`, 16-bit `nlb` and deallocate flag,
`Namespace::write_zeroes` on a queue with a free slot (not full, the
continuation of the tail slot empty) returns true; the entry at the old tail
has opcode Write Zeroes, `nsid` the namespace id, `cdw10` the low and `cdw11`
the high 32 bits of `slba`, `cdw12.NLB = nlb`, `cdw12.DEAC` (bit 25) the
deallocate flag, its command identifier unchanged and every other field zero
(the rest of the low 16 bits of `cdw0`, the reserved word, `mptr`, the
payload, the rest of `cdw12`, `cdw13..cdw15`); the continuation is installed
at the command identifier of the entry, the tail is advanced and the new tail
is written to the tail doorbell. When `produce()` returns none it returns
false and `Nvme_device::discard` returns Busy. -/
theorem write_zeroes_submits (ns : Namespace) (regs : Mmio) (slba nlb offset : Nat)
    (dealloc : Bool) (cb : Callback) (block : Inout_block) (cbn : Nat)
    (hslba : slba < 2 ^ 64) (hnlb : nlb < 2 ^ 16) (hnsid : ns.nsid < 2 ^ 32)
    (ht : ns.iosq.tail < ns.iosq.entries.length)
    (hcid : (ns.iosq.entry ns.iosq.tail).cid < ns.iosq.callbacks.length) :
    (ns.iosq.is_full = false → ns.iosq.callbacks.getD ns.iosq.tail none = none →
      (ns.write_zeroes regs slba nlb dealloc cb).1 = true ∧
      ((ns.write_zeroes regs slba nlb dealloc cb).2.1.iosq.entry ns.iosq.tail).opc
        = Iocs.Write_zeroes ∧
      ((ns.write_zeroes regs slba nlb dealloc cb).2.1.iosq.entry ns.iosq.tail).nsid
        = ns.nsid ∧
      ((ns.write_zeroes regs slba nlb dealloc cb).2.1.iosq.entry ns.iosq.tail).cdw10
        = slba % 2 ^ 32 ∧
      ((ns.write_zeroes regs slba nlb dealloc cb).2.1.iosq.entry ns.iosq.tail).cdw11
        = slba / 2 ^ 32 ∧
      ((ns.write_zeroes regs slba nlb dealloc cb).2.1.iosq.entry ns.iosq.tail).nlb = nlb ∧
      ((ns.write_zeroes regs slba nlb dealloc cb).2.1.iosq.entry ns.iosq.tail).deac
        = (if dealloc then 1 else 0) ∧
      ((ns.write_zeroes regs slba nlb dealloc cb).2.1.iosq.entry ns.iosq.tail).cid
        = (ns.iosq.entry ns.iosq.tail).cid ∧
      (((ns.write_zeroes regs slba nlb dealloc cb).2.1.iosq.entry ns.iosq.tail).cdw0 % 2 ^ 16
          = Iocs.Write_zeroes ∧
        ((ns.write_zeroes regs slba nlb dealloc cb).2.1.iosq.entry ns.iosq.tail).psdt = 0 ∧
        ((ns.write_zeroes regs slba nlb dealloc cb).2.1.iosq.entry ns.iosq.tail).res = 0 ∧
        ((ns.write_zeroes regs slba nlb dealloc cb).2.1.iosq.entry ns.iosq.tail).mptr = 0 ∧
        ((ns.write_zeroes regs slba nlb dealloc cb).2.1.iosq.entry ns.iosq.tail).prp1 = 0 ∧
        ((ns.write_zeroes regs slba nlb dealloc cb).2.1.iosq.entry ns.iosq.tail).prp2 = 0 ∧
        ((ns.write_zeroes regs slba nlb dealloc cb).2.1.iosq.entry ns.iosq.tail).cdw12
          = nlb + (if dealloc then 2 ^ 25 else 0) ∧
        ((ns.write_zeroes regs slba nlb dealloc cb).2.1.iosq.entry ns.iosq.tail).cdw13 = 0 ∧
        ((ns.write_zeroes regs slba nlb dealloc cb).2.1.iosq.entry ns.iosq.tail).cdw14 = 0 ∧
        ((ns.write_zeroes regs slba nlb dealloc cb).2.1.iosq.entry ns.iosq.tail).cdw15 = 0) ∧
      (ns.write_zeroes regs slba nlb dealloc cb).2.1.iosq.callbacks.getD
          (ns.iosq.entry ns.iosq.tail).cid none = some cb ∧
      (ns.write_zeroes regs slba nlb dealloc cb).2.1.iosq.tail
        = ns.iosq.wrap_around (ns.iosq.tail + 1) ∧
      (ns.write_zeroes regs slba nlb dealloc cb).2.2
        = regs ++ [(ns.iosq.tdbl, ns.iosq.wrap_around (ns.iosq.tail + 1))]) ∧
    (ns.iosq.produce.1 = none →
      (ns.write_zeroes regs slba nlb dealloc cb).1 = false ∧
      (Nvme_device.discard ns regs offset block [] cbn false).map (fun r => r.1)
        = some (- L4_EBUSY)) := by
  refine ⟨?_, ?_⟩
  · intro hf hc
    rw [write_zeroes_free ns regs slba nlb dealloc cb hf hc]
    have hu : u16 nlb = nlb := Nat.mod_eq_of_lt hnlb
    have he : (ns.iosq.produced.modify ns.iosq.tail
        (Namespace.fill_write_zeroes ns.nsid slba (u16 nlb) dealloc)).entry ns.iosq.tail
        = Namespace.fill_write_zeroes ns.nsid slba nlb dealloc
            (Submission_queue.clear_entry (ns.iosq.entry ns.iosq.tail)) := by
      rw [Submission_queue.entry_modify_same _ _ _
        (by rw [Submission_queue.length_produced]; exact ht),
        Submission_queue.entry_produced _ ht, hu]
    obtain ⟨a1, a2, a3, a4⟩ :=
      fill_write_zeroes_cdw0 ns.nsid slba nlb dealloc (ns.iosq.entry ns.iosq.tail)
    obtain ⟨b1, b2, b3⟩ :=
      fill_write_zeroes_cdw12 ns.nsid slba nlb dealloc (ns.iosq.entry ns.iosq.tail) hnlb
    obtain ⟨w1, w2, w3, w4, w5, w6, w7, w8, w9, w10⟩ :=
      fill_write_zeroes_words ns.nsid slba nlb dealloc (ns.iosq.entry ns.iosq.tail)
    have e1 : u32 ns.nsid = ns.nsid := Nat.mod_eq_of_lt hnsid
    have e3 : u32 (slba % 2 ^ 32) = slba % 2 ^ 32 :=
      Nat.mod_eq_of_lt (Nat.mod_lt _ (by norm_num))
    have e4 : u32 (slba / 2 ^ 32) = slba / 2 ^ 32 :=
      Nat.mod_eq_of_lt (by norm_num at hslba ⊢; omega)
    -- the entry of the final queue is the filled entry
    have hfin : ∀ c : Nat, ((ns.iosq.produced.modify ns.iosq.tail
        (Namespace.fill_write_zeroes ns.nsid slba (u16 nlb) dealloc)).set_callback c
          (some cb)).entry ns.iosq.tail
        = Namespace.fill_write_zeroes ns.nsid slba nlb dealloc
            (Submission_queue.clear_entry (ns.iosq.entry ns.iosq.tail)) := fun c => he
    simp only [hfin, he]
    refine ⟨trivial, a1, by rw [w1, e1], by rw [w2, e3], by rw [w3, e4], b1, b2, a3,
      ⟨a4, a2, w4, w5, w6, w7, b3, w8, w9, w10⟩, ?_, rfl, rfl⟩
    rw [a3]
    exact Submission_queue.getD_callbacks_set _ _ _ hcid
  · intro hn
    rw [Namespace.write_zeroes_none ns regs slba nlb dealloc cb hn,
      discard_none ns regs offset block cbn hn]
    exact ⟨rfl, rfl⟩

/-- Witness of C19: a write-zeroes of 16 sectors at LBA `0x1_0000_2000` with
the deallocate hint on the scenario namespace. -/
theorem write_zeroes_submits_witness :
    (Namespace.example_ns.write_zeroes [] 0x100002000 15 true (Callback.discard 7)).1 = true ∧
    ((Namespace.example_ns.write_zeroes [] 0x100002000 15 true
      (Callback.discard 7)).2.1.iosq.entry 0).cdw10 = 0x2000 ∧
    ((Namespace.example_ns.write_zeroes [] 0x100002000 15 true
      (Callback.discard 7)).2.1.iosq.entry 0).cdw11 = 1 ∧
    ((Namespace.example_ns.write_zeroes [] 0x100002000 15 true
      (Callback.discard 7)).2.1.iosq.entry 0).cdw12 = 15 + 2 ^ 25 ∧
    (Namespace.example_ns.write_zeroes [] 0x100002000 15 true
      (Callback.discard 7)).2.2 = [(0x1008, 1)] :=
  have h := (write_zeroes_submits Namespace.example_ns [] 0x100002000 15 0 true
    (Callback.discard 7) ⟨0, 0, 16, true⟩ 7 (by decide) (by decide) (by decide) (by decide)
    (by decide)).1 (by decide) (by decide)
  ⟨h.1, h.2.2.2.1, h.2.2.2.2.1, h.2.2.2.2.2.2.2.2.1.2.2.2.2.2.2.1, h.2.2.2.2.2.2.2.2.2.2.2⟩

/-! ## Successful submissions: explicit results -/

namespace Namespace

theorem prepare_prp_slot_free_eq (ns : Namespace) (read : Bool) (slba paddr prp2 : Nat)
    (hf : ns.iosq.is_full = false)
    (hc : ns.iosq.callbacks.getD ns.iosq.tail none = none) :
    ns.prepare_prp_slot read slba paddr prp2 =
      (some ns.iosq.tail,
       { ns with iosq :=
          (ns.iosq.produced.modify ns.iosq.tail (fill_prp ns.nsid read slba paddr prp2)) }) := by
  unfold prepare_prp_slot
  rw [ns.iosq.produce_free_produced hf hc]

theorem readwrite_prepare_sgl_free_eq (ns : Namespace) (read : Bool) (slba : Nat)
    (hf : ns.iosq.is_full = false)
    (hc : ns.iosq.callbacks.getD ns.iosq.tail none = none) :
    ns.readwrite_prepare_sgl read slba =
      (some ns.iosq.tail,
       Inout_buffer.pget 0
        (((ns.iosq.produced.modify ns.iosq.tail
          (fill_sgl ns.nsid read slba ns.iosq.sgls_phys)).entry ns.iosq.tail).cid * Ioq_sgls),
       { ns with iosq :=
          (ns.iosq.produced.modify ns.iosq.tail
            (fill_sgl ns.nsid read slba ns.iosq.sgls_phys)) }) := by
  unfold readwrite_prepare_sgl
  rw [ns.iosq.produce_free_produced hf hc]
  rfl

theorem readwrite_submit_callback (ns : Namespace) (regs : Mmio) (i nlb blocks : Nat)
    (cb : Callback) (hc : (ns.iosq.entry i).cid < ns.iosq.callbacks.length) :
    (ns.readwrite_submit regs i nlb blocks cb).1.iosq.callbacks.getD (ns.iosq.entry i).cid none
      = some cb := by
  unfold readwrite_submit
  have key : ∀ q : Submission_queue Callback, (q.entry i).cid = (ns.iosq.entry i).cid →
      q.callbacks = ns.iosq.callbacks →
      ((q.modify i (fun e => e.set_nlb (u16 nlb))).set_callback
          ((q.modify i (fun e => e.set_nlb (u16 nlb))).entry i).cid
            (some cb)).callbacks.getD (ns.iosq.entry i).cid none = some cb := by
    intro q h1 h2
    have hcid : ((q.modify i (fun e => e.set_nlb (u16 nlb))).entry i).cid
        = (ns.iosq.entry i).cid := by
      rw [Submission_queue.entry_modify_cid q i i (fun e => e.set_nlb (u16 nlb))
        (fun e => rfl), h1]
    rw [hcid]
    apply Submission_queue.getD_callbacks_set
    show (ns.iosq.entry i).cid < q.callbacks.length
    rw [h2]; exact hc
  by_cases hp : (ns.iosq.entry i).psdt = Psdt.Use_sgls
  · simp only [if_pos hp]
    exact key _ (Submission_queue.entry_modify_cid ns.iosq i i
      (fun e => e.set_sgl1_len (blocks * sizeof_Sgl_desc)) (fun e => rfl)) rfl
  · simp only [if_neg hp]
    exact key _ rfl rfl

end Namespace

theorem fill_sgl_cdw0 (nsid : Nat) (read : Bool) (slba phys : Nat) (e : Sqe) :
    (Namespace.fill_sgl nsid read slba phys (Submission_queue.clear_entry e)).opc
      = (if read then Iocs.Read else Iocs.Write) ∧
    (Namespace.fill_sgl nsid read slba phys (Submission_queue.clear_entry e)).psdt
      = Psdt.Use_sgls ∧
    (Namespace.fill_sgl nsid read slba phys (Submission_queue.clear_entry e)).cid = e.cid := by
  unfold Namespace.fill_sgl Submission_queue.clear_entry Sqe.opc Sqe.psdt Sqe.cid
    Sqe.set_opc Sqe.set_psdt Sqe.set_sgl1_sgl_id Sqe.set_sgl1_addr bf_set bf_get
    Iocs.Read Iocs.Write Psdt.Use_sgls
  cases read <;> norm_num <;> refine ⟨?_, ?_, ?_⟩ <;> omega

theorem fill_sgl_payload (nsid : Nat) (read : Bool) (slba phys : Nat) (e : Sqe) :
    (Namespace.fill_sgl nsid read slba phys (Submission_queue.clear_entry e)).prp1
      = u64 (phys + e.cid * Ioq_sgls) ∧
    (Namespace.fill_sgl nsid read slba phys (Submission_queue.clear_entry e)).prp2
      = Sgl_id.Last_segment_addr * 2 ^ 56 := by
  have hd : (default : Sqe).prp2 = 0 := rfl
  have hc : (Sqe.set_sgl1_sgl_id (Sqe.set_psdt
      ({ Sqe.set_opc (Submission_queue.clear_entry e) (if read then Iocs.Read else Iocs.Write)
          with nsid := u32 nsid }) Psdt.Use_sgls) Sgl_id.Last_segment_addr).cid = e.cid := by
    unfold Submission_queue.clear_entry Sqe.cid Sqe.set_opc Sqe.set_psdt Sqe.set_sgl1_sgl_id
      bf_set bf_get Iocs.Read Iocs.Write Psdt.Use_sgls
    cases read <;> norm_num <;> omega
  refine ⟨?_, ?_⟩
  · show u64 (Inout_buffer.pget phys (_ * Ioq_sgls)) = _
    rw [hc]
    rfl
  · show bf_set 56 63 (default : Sqe).prp2 Sgl_id.Last_segment_addr = _
    rw [hd]
    unfold bf_set bf_get Sgl_id.Last_segment_addr
    norm_num

/-! ## Completion continuation of `Nvme_device::inout_data` -/

theorem installed_after_submit (ns ns1 : Namespace) (regs : Mmio) (t nlb blocks : Nat)
    (cb : Callback) (h1 : (ns1.iosq.entry t).cid = (ns.iosq.entry t).cid)
    (h2 : ns1.iosq.callbacks = ns.iosq.callbacks)
    (hcid : (ns.iosq.entry t).cid < ns.iosq.callbacks.length) :
    (ns1.readwrite_submit regs t nlb blocks cb).1.iosq.callbacks.getD (ns.iosq.entry t).cid none
      = some cb := by
  rw [← h1]
  apply Namespace.readwrite_submit_callback
  rw [h1, h2]
  exact hcid

theorem inout_data_ok_free (ps : Nat) (ns : Namespace) (regs : Mmio) (sector : Nat)
    (block : Inout_block) (rest : List Inout_block) (cb : Nat) (read : Bool)
    (hok : (Nvme_device.inout_data ps ns regs sector block rest cb read).1 = L4_EOK) :
    ns.iosq.is_full = false ∧ ns.iosq.callbacks.getD ns.iosq.tail none = none := by
  apply Submission_queue.produce_fst_ne_none
  intro hn
  rw [inout_data_none ps ns regs sector block rest cb read hn] at hok
  simp [L4_EOK, L4_EBUSY] at hok

theorem inout_data_installed (ps : Nat) (ns : Namespace) (regs : Mmio) (sector : Nat)
    (block : Inout_block) (rest : List Inout_block) (cb : Nat) (read : Bool)
    (ht : ns.iosq.tail < ns.iosq.entries.length)
    (hcid : (ns.iosq.entry ns.iosq.tail).cid < ns.iosq.callbacks.length)
    (hok : (Nvme_device.inout_data ps ns regs sector block rest cb read).1 = L4_EOK) :
    (Nvme_device.inout_data ps ns regs sector block rest cb read).2.1.iosq.callbacks.getD
        (ns.iosq.entry ns.iosq.tail).cid none
      = some (Callback.inout cb
          (u64 (Nvme_device.inout_sectors ps ns block rest * Nvme_device.sector_size ns))) := by
  obtain ⟨hf, hc⟩ := inout_data_ok_free ps ns regs sector block rest cb read hok
  have hlen : ns.iosq.tail < ns.iosq.produced.entries.length := by
    rw [Submission_queue.length_produced]; exact ht
  cases hs : ns.ctl.supports_sgl
  · -- PRP mode
    have hcode := inout_data_prp_code ps ns regs sector block rest cb read hs
    rw [hok] at hcode
    have hsome : (ns.readwrite_prepare_prp ps read sector block.dma_addr
        (u64 (Nvme_device.inout_sectors ps ns block rest * Nvme_device.sector_size ns))).1
        ≠ none := by
      intro hn
      rw [if_pos hn] at hcode
      simp [L4_EOK, L4_EBUSY] at hcode
    have hu : Namespace.prp_unsupported ps block.dma_addr
        (u64 (Nvme_device.inout_sectors ps ns block rest * Nvme_device.sector_size ns))
        = false := by
      cases hq : Namespace.prp_unsupported ps block.dma_addr
        (u64 (Nvme_device.inout_sectors ps ns block rest * Nvme_device.sector_size ns))
      · rfl
      · exact absurd ((Namespace.readwrite_prepare_prp_none_iff ps ns read sector _ _).mpr
          (Or.inl hq)) hsome
    obtain ⟨prp2, hp⟩ := Namespace.readwrite_prepare_prp_supported ps ns read sector _ _ hu
    rw [Namespace.prepare_prp_slot_free_eq ns read sector block.dma_addr prp2 hf hc] at hp
    unfold Nvme_device.inout_sectors at hp ⊢
    unfold Nvme_device.inout_data
    simp only [hs, Bool.false_eq_true, if_false] at hp ⊢
    rw [hp]
    simp only []
    refine installed_after_submit ns _ regs ns.iosq.tail _ _ _ ?_ ?_ hcid
    swap
    · rfl
    show ((ns.iosq.produced.modify ns.iosq.tail _).entry ns.iosq.tail).cid = _
    rw [Submission_queue.entry_modify_same _ _ _ hlen, Submission_queue.entry_produced _ ht]
    exact (fill_prp_cdw0 ns.nsid read sector block.dma_addr prp2 _).2.2
  · -- SGL mode
    unfold Nvme_device.inout_sectors
    unfold Nvme_device.inout_data
    simp only [hs, if_true]
    rw [Namespace.readwrite_prepare_sgl_free_eq ns read sector hf hc]
    simp only []
    rw [sgl_loop_sectors (Nvme_device.sector_size ns) 0 _ (block :: rest) 0 0 0 0 []
      (ns.iosq.produced.modify ns.iosq.tail
        (Namespace.fill_sgl ns.nsid read sector ns.iosq.sgls_phys)).sgls]
    refine installed_after_submit ns _ regs ns.iosq.tail _ _ _ ?_ ?_ hcid
    swap
    · rfl
    show ((ns.iosq.produced.modify ns.iosq.tail _).entry ns.iosq.tail).cid = _
    rw [Submission_queue.entry_modify_same _ _ _ hlen, Submission_queue.entry_produced _ ht]
    exact (fill_sgl_cdw0 ns.nsid read sector ns.iosq.sgls_phys _).2.2

/-- C18: for every successful `inout_data` submission (PRP or SGL mode), with
`sz` the product `sectors * lba_size` as an `l4_size_t`, the continuation
installed at the command identifier of the submitted slot is the lambda
capturing the caller's callback and `sz`; invoked with a device status `s` it
calls the caller's callback exactly once, with `(OK, sz)` if `s == 0` and with
`(-L4_EIO, 0)` otherwise; `sz` is `sectors * lba_size` whenever that product
fits 64 bits; and in PRP mode `sectors == min(block.num_sectors, max_size /
lba_size)`. -/
theorem inout_data_continuation (ps : Nat) (ns : Namespace) (regs : Mmio) (sector : Nat)
    (block : Inout_block) (rest : List Inout_block) (cb : Nat) (read : Bool)
    (ht : ns.iosq.tail < ns.iosq.entries.length)
    (hcid : (ns.iosq.entry ns.iosq.tail).cid < ns.iosq.callbacks.length)
    (hnum : block.num_sectors < 2 ^ 32)
    (hok : (Nvme_device.inout_data ps ns regs sector block rest cb read).1 = L4_EOK) :
    (Nvme_device.inout_data ps ns regs sector block rest cb read).2.1.iosq.callbacks.getD
        (ns.iosq.entry ns.iosq.tail).cid none
      = some (Callback.inout cb
          (u64 (Nvme_device.inout_sectors ps ns block rest * Nvme_device.sector_size ns))) ∧
    (∀ s : Nat,
      (Callback.inout cb
          (u64 (Nvme_device.inout_sectors ps ns block rest * Nvme_device.sector_size ns))).invoke s
        = [(cb, (if s = 0 then L4_EOK else - L4_EIO),
            (if s = 0 then
              u64 (Nvme_device.inout_sectors ps ns block rest * Nvme_device.sector_size ns)
             else 0))]) ∧
    (Nvme_device.inout_sectors ps ns block rest * Nvme_device.sector_size ns < 2 ^ 64 →
      u64 (Nvme_device.inout_sectors ps ns block rest * Nvme_device.sector_size ns)
        = Nvme_device.inout_sectors ps ns block rest * ns.lba_sz) ∧
    (ns.ctl.supports_sgl = false →
      Nvme_device.inout_sectors ps ns block rest
        = min block.num_sectors (Nvme_device.max_size ps ns / ns.lba_sz)) := by
  refine ⟨inout_data_installed ps ns regs sector block rest cb read ht hcid hok, ?_, ?_, ?_⟩
  · intro s
    by_cases h0 : s = 0
    · simp [Callback.invoke, h0]
    · simp [Callback.invoke, h0]
  · intro hlt
    exact Nat.mod_eq_of_lt hlt
  · intro hs
    have hu : u64 block.num_sectors = block.num_sectors :=
      Nat.mod_eq_of_lt (by norm_num at hnum ⊢; omega)
    unfold Nvme_device.inout_sectors
    simp only [hs, Bool.false_eq_true, if_false, hu]
    rfl

/-- Witness of C18: an eight-sector read on the scenario namespace; the
continuation reports 4096 bytes on success and an I/O error with 0 bytes
otherwise. -/
theorem inout_data_continuation_witness :
    (Nvme_device.inout_data 12 Namespace.example_ns [] 0x1000 ⟨0, 0x400000000, 8, false⟩ []
        7 true).2.1.iosq.callbacks.getD 0 none = some (Callback.inout 7 4096) ∧
    (Callback.inout 7 4096).invoke 0 = [(7, L4_EOK, 4096)] ∧
    (Callback.inout 7 4096).invoke 2 = [(7, - L4_EIO, 0)] :=
  have h := inout_data_continuation 12 Namespace.example_ns [] 0x1000
    ⟨0, 0x400000000, 8, false⟩ [] 7 true (by decide) (by decide) (by decide) (by decide)
  ⟨h.1, h.2.1 0, h.2.1 2⟩

/-! ## SGL mode (`readwrite_prepare_sgl`, the SGL branch of `inout_data`) -/

theorem sgl_read_cons (o o2 : Nat) (d : Sgl_desc) (mem : List (Nat × Sgl_desc)) :
    sgl_read ((o2, d) :: mem) o = if o2 = o then some d else sgl_read mem o := by
  unfold sgl_read
  by_cases h : o2 = o
  · simp [List.find?_cons, h]
  · simp [List.find?_cons, h]

theorem sgl_loop_spec (lba_sz off : Nat) (bs : List Inout_block) :
    ∀ (i sectors blocks : Nat) (mem : List (Nat × Sgl_desc)),
      i + bs.length ≤ Ioq_sgls →
      sectors + (bs.map (fun b => b.num_sectors)).sum < 2 ^ 64 →
      blocks + bs.length < 2 ^ 64 →
      (Nvme_device.sgl_loop lba_sz off bs i sectors blocks mem).1
        = sectors + (bs.map (fun b => b.num_sectors)).sum ∧
      (Nvme_device.sgl_loop lba_sz off bs i sectors blocks mem).2.1 = blocks + bs.length ∧
      (∀ j blk, bs[j]? = some blk →
        sgl_read (Nvme_device.sgl_loop lba_sz off bs i sectors blocks mem).2.2
            (off + (i + j) * sizeof_Sgl_desc)
          = some { sgl_id := Sgl_id.Data, addr := u64 blk.dma_addr,
                   len := u32 (blk.num_sectors * lba_sz) }) ∧
      (∀ o, (∀ j, j < bs.length → o ≠ off + (i + j) * sizeof_Sgl_desc) →
        sgl_read (Nvme_device.sgl_loop lba_sz off bs i sectors blocks mem).2.2 o
          = sgl_read mem o) := by
  induction bs with
  | nil =>
    intro i sectors blocks mem _ _ _
    refine ⟨by simp [Nvme_device.sgl_loop], by simp [Nvme_device.sgl_loop], ?_, ?_⟩
    · intro j blk h
      simp at h
    · intro o _
      rfl
  | cons b bs ih =>
    intro i sectors blocks mem hi hs hb
    simp only [List.length_cons, List.map_cons, List.sum_cons] at hi hs hb
    have hi32 : i < Ioq_sgls := by omega
    have hu1 : u32 (i + 1) = i + 1 := by
      unfold Ioq_sgls at hi32
      exact Nat.mod_eq_of_lt (by norm_num; omega)
    have hu2 : u64 (sectors + b.num_sectors) = sectors + b.num_sectors :=
      Nat.mod_eq_of_lt (by omega)
    have hu3 : u64 (blocks + 1) = blocks + 1 := Nat.mod_eq_of_lt (by omega)
    have hstep : Nvme_device.sgl_loop lba_sz off (b :: bs) i sectors blocks mem
        = Nvme_device.sgl_loop lba_sz off bs (i + 1) (sectors + b.num_sectors) (blocks + 1)
            ((off + i * sizeof_Sgl_desc,
              { sgl_id := Sgl_id.Data, addr := u64 b.dma_addr,
                len := u32 (b.num_sectors * lba_sz) }) :: mem) := by
      rw [Nvme_device.sgl_loop, if_pos hi32, hu1, hu2, hu3]
    rw [hstep]
    obtain ⟨r1, r2, r3, r4⟩ := ih (i + 1) (sectors + b.num_sectors) (blocks + 1)
      ((off + i * sizeof_Sgl_desc,
        { sgl_id := Sgl_id.Data, addr := u64 b.dma_addr,
          len := u32 (b.num_sectors * lba_sz) }) :: mem) (by omega) (by omega) (by omega)
    refine ⟨by rw [r1]; simp only [List.map_cons, List.sum_cons]; omega,
      by rw [r2]; simp only [List.length_cons]; omega, ?_, ?_⟩
    · intro j blk h
      cases j with
      | zero =>
        simp only [List.getElem?_cons_zero, Option.some.injEq] at h
        subst h
        rw [r4 _ (by
          intro j _
          unfold sizeof_Sgl_desc
          omega), sgl_read_cons]
        simp
      | succ j =>
        simp only [List.getElem?_cons_succ] at h
        have := r3 j blk h
        have e : off + (i + 1 + j) * sizeof_Sgl_desc = off + (i + (j + 1)) * sizeof_Sgl_desc := by
          congr 2
          omega
        rw [← e]
        exact this
    · intro o ho
      rw [r4 o (by
        intro j hj
        have := ho (j + 1) (by simp only [List.length_cons]; omega)
        have e : off + (i + 1 + j) * sizeof_Sgl_desc = off + (i + (j + 1)) * sizeof_Sgl_desc := by
          congr 2
          omega
        rw [e]
        exact this), sgl_read_cons]
      have h0 := ho 0 (by simp)
      simp only [Nat.add_zero] at h0
      rw [if_neg (fun h => h0 h.symm)]

namespace Namespace

theorem readwrite_submit_entry_sgl (ns : Namespace) (regs : Mmio) (i nlb blocks : Nat)
    (cb : Callback) (hi : i < ns.iosq.entries.length)
    (hp : (ns.iosq.entry i).psdt = Psdt.Use_sgls) :
    (ns.readwrite_submit regs i nlb blocks cb).1.iosq.entry i
      = ((ns.iosq.entry i).set_sgl1_len (blocks * sizeof_Sgl_desc)).set_nlb (u16 nlb) := by
  unfold readwrite_submit
  simp only [if_pos hp]
  show ((ns.iosq.modify i (fun e => e.set_sgl1_len (blocks * sizeof_Sgl_desc))).modify i
    (fun e => e.set_nlb (u16 nlb))).entry i = _
  rw [Submission_queue.entry_modify_same _ _ _
    (by rw [Submission_queue.length_modify]; exact hi),
    Submission_queue.entry_modify_same _ _ _ hi]

theorem readwrite_submit_sgls (ns : Namespace) (regs : Mmio) (i nlb blocks : Nat)
    (cb : Callback) :
    (ns.readwrite_submit regs i nlb blocks cb).1.iosq.sgls = ns.iosq.sgls := by
  unfold readwrite_submit
  by_cases hp : (ns.iosq.entry i).psdt = Psdt.Use_sgls
  · simp only [if_pos hp]; rfl
  · simp only [if_neg hp]; rfl

end Namespace

theorem sgl_entry_fields (e : Sqe) (blocks nlb : Nat) (hb : blocks * sizeof_Sgl_desc < 2 ^ 32)
    (h2 : e.prp2 = Sgl_id.Last_segment_addr * 2 ^ 56) :
    ((e.set_sgl1_len (blocks * sizeof_Sgl_desc)).set_nlb nlb).sgl1_sgl_id
      = Sgl_id.Last_segment_addr ∧
    ((e.set_sgl1_len (blocks * sizeof_Sgl_desc)).set_nlb nlb).sgl1_len
      = sizeof_Sgl_desc * blocks ∧
    ((e.set_sgl1_len (blocks * sizeof_Sgl_desc)).set_nlb nlb).psdt = e.psdt ∧
    ((e.set_sgl1_len (blocks * sizeof_Sgl_desc)).set_nlb nlb).prp1 = e.prp1 := by
  refine ⟨?_, ?_, rfl, rfl⟩
  · show bf_get 56 63 (bf_set 0 31 e.prp2 (blocks * sizeof_Sgl_desc)) = _
    rw [h2]
    unfold bf_set bf_get Sgl_id.Last_segment_addr sizeof_Sgl_desc at *
    norm_num at hb ⊢
    omega
  · show bf_get 0 31 (bf_set 0 31 e.prp2 (blocks * sizeof_Sgl_desc)) = _
    rw [h2]
    unfold bf_set bf_get Sgl_id.Last_segment_addr sizeof_Sgl_desc at *
    norm_num at hb ⊢
    omega

theorem inout_data_sgl_eq (ps : Nat) (ns : Namespace) (regs : Mmio) (sector : Nat)
    (block : Inout_block) (rest : List Inout_block) (cb : Nat) (read : Bool)
    (hs : ns.ctl.supports_sgl = true) (hf : ns.iosq.is_full = false)
    (hc : ns.iosq.callbacks.getD ns.iosq.tail none = none) (ns1 : Namespace)
    (h1 : ns1 = { ns with iosq :=
      (ns.iosq.produced.modify ns.iosq.tail
        (Namespace.fill_sgl ns.nsid read sector ns.iosq.sgls_phys)) })
    (off : Nat) (hoff : off = Inout_buffer.pget 0 ((ns1.iosq.entry ns.iosq.tail).cid * Ioq_sgls))
    (r : Nat × Nat × List (Nat × Sgl_desc))
    (hr : r = Nvme_device.sgl_loop ns.lba_sz off (block :: rest) 0 0 0 ns1.iosq.sgls) :
    Nvme_device.inout_data ps ns regs sector block rest cb read =
      (L4_EOK,
       (({ ns1 with iosq := { ns1.iosq with sgls := r.2.2 } } : Namespace).readwrite_submit regs
          ns.iosq.tail (u64 (r.1 + (2 ^ 64 - 1))) r.2.1
          (Callback.inout cb (u64 (r.1 * ns.lba_sz)))).1,
       (({ ns1 with iosq := { ns1.iosq with sgls := r.2.2 } } : Namespace).readwrite_submit regs
          ns.iosq.tail (u64 (r.1 + (2 ^ 64 - 1))) r.2.1
          (Callback.inout cb (u64 (r.1 * ns.lba_sz)))).2) := by
  subst h1 hoff hr
  unfold Nvme_device.inout_data
  simp only [hs, if_true]
  rw [Namespace.readwrite_prepare_sgl_free_eq ns read sector hf hc]
  rfl

/-- C15 (as amended): in SGL mode, for every chain of `k` segments with
`1 <= k <= Ioq_sgls` and LBA size `L`, `inout_data` with a free slot returns OK
and writes, for each `i < k`, descriptor `i` of the scratch region of the
command (the region at the pointer `readwrite_prepare_sgl` returned) as
`{sgl_id = Data, addr = segment_i.dma_addr, len = segment_i.num_sectors * L mod
2^32}`, sets `sgl1.sgl_id = Last_segment`, PSDT = SGL and `sgl1.len = 16 * k`,
and sets `cdw12.NLB = (sum - 1) mod 2^16` for `sum` the sum of `num_sectors`
over the segments: `NLB = sum - 1` whenever `1 <= sum <= 65536`, and `len =
num_sectors * L` whenever that product fits 32 bits. -/
theorem inout_data_sgl (ps : Nat) (ns : Namespace) (regs : Mmio) (sector : Nat)
    (block : Inout_block) (rest : List Inout_block) (cb : Nat) (read : Bool)
    (hs : ns.ctl.supports_sgl = true) (hf : ns.iosq.is_full = false)
    (hc : ns.iosq.callbacks.getD ns.iosq.tail none = none)
    (ht : ns.iosq.tail < ns.iosq.entries.length)
    (hk : (block :: rest).length ≤ Ioq_sgls)
    (hsum : ((block :: rest).map (fun b => b.num_sectors)).sum < 2 ^ 64) :
    (Nvme_device.inout_data ps ns regs sector block rest cb read).1 = L4_EOK ∧
    (∀ j blk, (block :: rest)[j]? = some blk →
      sgl_read (Nvme_device.inout_data ps ns regs sector block rest cb read).2.1.iosq.sgls
          ((ns.iosq.entry ns.iosq.tail).cid * Ioq_sgls + j * sizeof_Sgl_desc)
        = some { sgl_id := Sgl_id.Data, addr := u64 blk.dma_addr,
                 len := u32 (blk.num_sectors * ns.lba_sz) } ∧
      (blk.dma_addr < 2 ^ 64 → blk.num_sectors * ns.lba_sz < 2 ^ 32 →
        sgl_read (Nvme_device.inout_data ps ns regs sector block rest cb read).2.1.iosq.sgls
            ((ns.iosq.entry ns.iosq.tail).cid * Ioq_sgls + j * sizeof_Sgl_desc)
          = some { sgl_id := Sgl_id.Data, addr := blk.dma_addr,
                   len := blk.num_sectors * ns.lba_sz })) ∧
    ((Nvme_device.inout_data ps ns regs sector block rest cb read).2.1.iosq.entry
        ns.iosq.tail).sgl1_sgl_id = Sgl_id.Last_segment_addr ∧
    ((Nvme_device.inout_data ps ns regs sector block rest cb read).2.1.iosq.entry
        ns.iosq.tail).psdt = Psdt.Use_sgls ∧
    ((Nvme_device.inout_data ps ns regs sector block rest cb read).2.1.iosq.entry
        ns.iosq.tail).sgl1_len = sizeof_Sgl_desc * (block :: rest).length ∧
    ((Nvme_device.inout_data ps ns regs sector block rest cb read).2.1.iosq.entry
        ns.iosq.tail).nlb
      = (((block :: rest).map (fun b => b.num_sectors)).sum + 65535) % 65536 ∧
    (1 ≤ ((block :: rest).map (fun b => b.num_sectors)).sum →
      ((block :: rest).map (fun b => b.num_sectors)).sum ≤ 65536 →
      ((Nvme_device.inout_data ps ns regs sector block rest cb read).2.1.iosq.entry
          ns.iosq.tail).nlb
        = ((block :: rest).map (fun b => b.num_sectors)).sum - 1) := by
  have hlen : ns.iosq.tail < ns.iosq.produced.entries.length := by
    rw [Submission_queue.length_produced]; exact ht
  have hk32 : rest.length + 1 ≤ 32 := by simpa [Ioq_sgls] using hk
  -- the namespace after `readwrite_prepare_sgl`
  obtain ⟨ns1, h1⟩ : ∃ ns1 : Namespace, ns1 = { ns with iosq :=
      (ns.iosq.produced.modify ns.iosq.tail
        (Namespace.fill_sgl ns.nsid read sector ns.iosq.sgls_phys)) } := ⟨_, rfl⟩
  have he1 : ns1.iosq.entry ns.iosq.tail
      = Namespace.fill_sgl ns.nsid read sector ns.iosq.sgls_phys
          (Submission_queue.clear_entry (ns.iosq.entry ns.iosq.tail)) := by
    rw [h1]
    show (ns.iosq.produced.modify ns.iosq.tail _).entry ns.iosq.tail = _
    rw [Submission_queue.entry_modify_same _ _ _ hlen, Submission_queue.entry_produced _ ht]
  have hlen1 : ns.iosq.tail < ns1.iosq.entries.length := by
    rw [h1]
    show ns.iosq.tail < (ns.iosq.produced.modify ns.iosq.tail _).entries.length
    rw [Submission_queue.length_modify]; exact hlen
  obtain ⟨c1, c2, c3⟩ := fill_sgl_cdw0 ns.nsid read sector ns.iosq.sgls_phys
    (ns.iosq.entry ns.iosq.tail)
  obtain ⟨_, p2⟩ := fill_sgl_payload ns.nsid read sector ns.iosq.sgls_phys
    (ns.iosq.entry ns.iosq.tail)
  have hcid1 : (ns1.iosq.entry ns.iosq.tail).cid = (ns.iosq.entry ns.iosq.tail).cid := by
    rw [he1, c3]
  -- the loop
  obtain ⟨off, hoff⟩ : ∃ off, off
      = Inout_buffer.pget 0 ((ns1.iosq.entry ns.iosq.tail).cid * Ioq_sgls) := ⟨_, rfl⟩
  obtain ⟨r, hr⟩ : ∃ r, r
      = Nvme_device.sgl_loop ns.lba_sz off (block :: rest) 0 0 0 ns1.iosq.sgls := ⟨_, rfl⟩
  have hoff2 : off = (ns.iosq.entry ns.iosq.tail).cid * Ioq_sgls := by
    rw [hoff, hcid1]
    unfold Inout_buffer.pget
    omega
  obtain ⟨l1, l2, l3, _⟩ := sgl_loop_spec ns.lba_sz off (block :: rest) 0 0 0 ns1.iosq.sgls
    (by omega) (by omega) (by simp only [List.length_cons]; omega)
  rw [← hr] at l1 l2 l3
  simp only [Nat.zero_add] at l1 l2 l3
  rw [inout_data_sgl_eq ps ns regs sector block rest cb read hs hf hc ns1 h1 off hoff r hr]
  -- the entry after `readwrite_submit`
  have hent := Namespace.readwrite_submit_entry_sgl
    ({ ns1 with iosq := { ns1.iosq with sgls := r.2.2 } } : Namespace) regs ns.iosq.tail
    (u64 (r.1 + (2 ^ 64 - 1))) r.2.1 (Callback.inout cb (u64 (r.1 * ns.lba_sz))) hlen1
    (by
      show (ns1.iosq.entry ns.iosq.tail).psdt = _
      rw [he1, c2])
  have hent2 : ({ ns1 with iosq := { ns1.iosq with sgls := r.2.2 } } : Namespace).iosq.entry
      ns.iosq.tail = ns1.iosq.entry ns.iosq.tail := rfl
  rw [hent2, he1] at hent
  have hsg := Namespace.readwrite_submit_sgls
    ({ ns1 with iosq := { ns1.iosq with sgls := r.2.2 } } : Namespace) regs ns.iosq.tail
    (u64 (r.1 + (2 ^ 64 - 1))) r.2.1 (Callback.inout cb (u64 (r.1 * ns.lba_sz)))
  have hsg2 : ({ ns1 with iosq := { ns1.iosq with sgls := r.2.2 } } : Namespace).iosq.sgls
      = r.2.2 := rfl
  rw [hsg2] at hsg
  simp only [hent, hsg]
  obtain ⟨f1, f2, f3, _⟩ := sgl_entry_fields
    (Namespace.fill_sgl ns.nsid read sector ns.iosq.sgls_phys
      (Submission_queue.clear_entry (ns.iosq.entry ns.iosq.tail))) r.2.1
    (u16 (u64 (r.1 + (2 ^ 64 - 1))))
    (by
      rw [l2]
      unfold sizeof_Sgl_desc
      simp only [List.length_cons]
      omega) p2
  have hnlb : (((Namespace.fill_sgl ns.nsid read sector ns.iosq.sgls_phys
      (Submission_queue.clear_entry (ns.iosq.entry ns.iosq.tail))).set_sgl1_len
        (r.2.1 * sizeof_Sgl_desc)).set_nlb (u16 (u64 (r.1 + (2 ^ 64 - 1))))).nlb
      = (((block :: rest).map (fun b => b.num_sectors)).sum + 65535) % 65536 := by
    rw [nlb_set_nlb, l1]
    unfold u16
    rw [Nat.mod_mod, nlb_word]
  refine ⟨trivial, ?_, f1, by rw [f3, c2], by rw [f2, l2], hnlb, ?_⟩
  · intro j blk hj
    have hrd := l3 j blk hj
    rw [hoff2] at hrd
    refine ⟨hrd, ?_⟩
    intro ha hl
    have e1 : u64 blk.dma_addr = blk.dma_addr := Nat.mod_eq_of_lt ha
    rw [hrd, e1, u32_of_lt hl]
  · intro h1 h2
    rw [hnlb]
    omega

/-- Witness of C15 (scenario S4): segments `(0xA000, 8)` and `(0xB000, 4)` at
512-byte blocks give the descriptors `{Data, 0xA000, 4096}` and
`{Data, 0xB000, 2048}`, `sgl1.len = 32` and `NLB = 11`. -/
theorem inout_data_sgl_witness :
    (Nvme_device.inout_data 12 Namespace.example_ns_sgl [] 0x1000 ⟨0, 0xA000, 8, false⟩
        [⟨0, 0xB000, 4, false⟩] 7 true).1 = L4_EOK ∧
    sgl_read (Nvme_device.inout_data 12 Namespace.example_ns_sgl [] 0x1000
        ⟨0, 0xA000, 8, false⟩ [⟨0, 0xB000, 4, false⟩] 7 true).2.1.iosq.sgls 0
      = some { sgl_id := Sgl_id.Data, addr := 0xA000, len := 4096 } ∧
    sgl_read (Nvme_device.inout_data 12 Namespace.example_ns_sgl [] 0x1000
        ⟨0, 0xA000, 8, false⟩ [⟨0, 0xB000, 4, false⟩] 7 true).2.1.iosq.sgls 16
      = some { sgl_id := Sgl_id.Data, addr := 0xB000, len := 2048 } ∧
    ((Nvme_device.inout_data 12 Namespace.example_ns_sgl [] 0x1000 ⟨0, 0xA000, 8, false⟩
        [⟨0, 0xB000, 4, false⟩] 7 true).2.1.iosq.entry 0).sgl1_sgl_id
      = Sgl_id.Last_segment_addr ∧
    ((Nvme_device.inout_data 12 Namespace.example_ns_sgl [] 0x1000 ⟨0, 0xA000, 8, false⟩
        [⟨0, 0xB000, 4, false⟩] 7 true).2.1.iosq.entry 0).sgl1_len = 32 ∧
    ((Nvme_device.inout_data 12 Namespace.example_ns_sgl [] 0x1000 ⟨0, 0xA000, 8, false⟩
        [⟨0, 0xB000, 4, false⟩] 7 true).2.1.iosq.entry 0).nlb = 11 :=
  have h := inout_data_sgl 12 Namespace.example_ns_sgl [] 0x1000 ⟨0, 0xA000, 8, false⟩
    [⟨0, 0xB000, 4, false⟩] 7 true (by decide) (by decide) (by decide) (by decide)
    (by decide) (by decide)
  ⟨h.1, (h.2.1 0 ⟨0, 0xA000, 8, false⟩ rfl).1, (h.2.1 1 ⟨0, 0xB000, 4, false⟩ rfl).1,
    h.2.2.1, h.2.2.2.2.1, h.2.2.2.2.2.2 (by decide) (by decide)⟩

/-- Counterexample to C15 as stated: 32 segments of 8192 sectors each (4 MiB
per segment at 512-byte blocks) are submitted successfully in SGL mode; the
sum of `num_sectors` is 262144 and `cdw12.NLB` is 65535, not 262143. -/
theorem inout_data_sgl_counterexample :
    (Nvme_device.inout_data 12 Namespace.example_ns_sgl [] 0 ⟨0, 0x400000000, 8192, false⟩
        (List.replicate 31 ⟨0, 0x400000000, 8192, false⟩) 7 true).1 = L4_EOK ∧
    ((⟨0, 0x400000000, 8192, false⟩ ::
        List.replicate 31 (⟨0, 0x400000000, 8192, false⟩ : Inout_block)).map
          (fun b => b.num_sectors)).sum = 262144 ∧
    ((Nvme_device.inout_data 12 Namespace.example_ns_sgl [] 0 ⟨0, 0x400000000, 8192, false⟩
        (List.replicate 31 ⟨0, 0x400000000, 8192, false⟩) 7 true).2.1.iosq.entry 0).nlb
      = 65535 := by
  decide

namespace Namespace

theorem readwrite_prepare_sgl_entry (ns : Namespace) (read : Bool) (slba : Nat)
    (hf : ns.iosq.is_full = false)
    (hc : ns.iosq.callbacks.getD ns.iosq.tail none = none)
    (ht : ns.iosq.tail < ns.iosq.entries.length) :
    (ns.readwrite_prepare_sgl read slba).2.2.iosq.entry ns.iosq.tail
      = fill_sgl ns.nsid read slba ns.iosq.sgls_phys
          (Submission_queue.clear_entry (ns.iosq.entry ns.iosq.tail)) := by
  rw [readwrite_prepare_sgl_free_eq ns read slba hf hc]
  show (ns.iosq.produced.modify ns.iosq.tail _).entry ns.iosq.tail = _
  rw [Submission_queue.entry_modify_same _ _ _
    (by rw [Submission_queue.length_produced]; exact ht),
    Submission_queue.entry_produced _ ht]

end Namespace

/-- C16 (behaviour of the code): for a slot with command identifier `cid`,
`readwrite_prepare_sgl` with a free slot sets `sgl1.addr` to `SGL_table_phys +
cid * Ioq_sgls` and returns as the descriptor pointer the virtual address at
the same byte offset `cid * Ioq_sgls` of the scratch table: the offset is not
multiplied by `sizeof(Sgl_desc)`. -/
theorem readwrite_prepare_sgl_scratch (ns : Namespace) (read : Bool) (slba : Nat)
    (hf : ns.iosq.is_full = false)
    (hc : ns.iosq.callbacks.getD ns.iosq.tail none = none)
    (ht : ns.iosq.tail < ns.iosq.entries.length) :
    (ns.readwrite_prepare_sgl read slba).1 = some ns.iosq.tail ∧
    ((ns.readwrite_prepare_sgl read slba).2.2.iosq.entry ns.iosq.tail).sgl1_addr
      = u64 (ns.iosq.sgls_phys + (ns.iosq.entry ns.iosq.tail).cid * Ioq_sgls) ∧
    (ns.readwrite_prepare_sgl read slba).2.1 = (ns.iosq.entry ns.iosq.tail).cid * Ioq_sgls := by
  have he := Namespace.readwrite_prepare_sgl_entry ns read slba hf hc ht
  obtain ⟨p1, _⟩ := fill_sgl_payload ns.nsid read slba ns.iosq.sgls_phys
    (ns.iosq.entry ns.iosq.tail)
  obtain ⟨_, _, c3⟩ := fill_sgl_cdw0 ns.nsid read slba ns.iosq.sgls_phys
    (ns.iosq.entry ns.iosq.tail)
  refine ⟨?_, ?_, ?_⟩
  · rw [Namespace.readwrite_prepare_sgl_free_eq ns read slba hf hc]
  · rw [he]
    exact p1
  · have hq : (ns.readwrite_prepare_sgl read slba).2.1
        = Inout_buffer.pget 0
            (((ns.readwrite_prepare_sgl read slba).2.2.iosq.entry ns.iosq.tail).cid
              * Ioq_sgls) := by
      rw [Namespace.readwrite_prepare_sgl_free_eq ns read slba hf hc]
    rw [hq, he, c3]
    unfold Inout_buffer.pget
    omega

/-- Witness of C16: with the scratch table at `0x5_0000_0000`, the slot with
command identifier 1 gets `sgl1.addr = 0x5_0000_0020` and byte offset 32, not
`0x5_0000_0200` and 512; and with two three-segment commands in flight
(command identifiers 0 and 1) the first descriptor of the second command has
replaced the third descriptor of the first. -/
theorem readwrite_prepare_sgl_scratch_witness :
    (((Namespace.example_ns_sgl_tail1.readwrite_prepare_sgl true 0).2.2.iosq.entry
        1).sgl1_addr = 0x500000020 ∧
     (Namespace.example_ns_sgl_tail1.readwrite_prepare_sgl true 0).2.1 = 32) ∧
    (sgl_read (Nvme_device.inout_data 12 Namespace.example_ns_sgl [] 0
        ⟨0, 0xA000, 8, false⟩ [⟨0, 0xB000, 8, false⟩, ⟨0, 0xC000, 8, false⟩] 7
        true).2.1.iosq.sgls 32
      = some { sgl_id := Sgl_id.Data, addr := 0xC000, len := 4096 } ∧
     sgl_read (Nvme_device.inout_data 12
        (Nvme_device.inout_data 12 Namespace.example_ns_sgl [] 0
          ⟨0, 0xA000, 8, false⟩ [⟨0, 0xB000, 8, false⟩, ⟨0, 0xC000, 8, false⟩] 7 true).2.1
        [] 64 ⟨0, 0x1A000, 1, false⟩ [⟨0, 0x1B000, 1, false⟩, ⟨0, 0x1C000, 1, false⟩] 8
        true).2.1.iosq.sgls 32
      = some { sgl_id := Sgl_id.Data, addr := 0x1A000, len := 512 }) :=
  have h := readwrite_prepare_sgl_scratch Namespace.example_ns_sgl_tail1 true 0
    (by decide) (by decide) (by decide)
  ⟨⟨h.2.1, h.2.2⟩, by decide⟩

/-! ## Maximum transfer size (`Nvme_device::max_size`) -/

theorem shift_no_wrap (a b : Nat) (h : a + b < 64) :
    u64 (u64 (1 * 2 ^ a) * 2 ^ b) = 2 ^ a <<< b := by
  have h1 : 2 ^ a < 2 ^ 64 := Nat.pow_lt_pow_right (by norm_num) (by omega)
  have h2 : 2 ^ a * 2 ^ b < 2 ^ 64 := by
    rw [← pow_add]
    exact Nat.pow_lt_pow_right (by norm_num) h
  rw [Nat.one_mul, Nat.shiftLeft_eq]
  unfold u64
  rw [Nat.mod_eq_of_lt h1, Nat.mod_eq_of_lt h2]

theorem mps_supported_4k (mpsmin mpsmax : Nat) (h : Ctl.mps_supported 12 mpsmin mpsmax = true) :
    mpsmin = 0 := by
  unfold Ctl.mps_supported at h
  simp at h
  omega

/-- C17 (as amended): when SGL is active and `MDTS != 0`, `max_size()` is
`min(4 MiB, ((2^(12 + CAP.MPSMIN) << MDTS) mod 2^64) / Ioq_sgls)`: the shifted
page size is the controller's minimum page size and the shift is taken in 64
bits. So it is `min(4 MiB, (2^(12 + MPSMIN) << MDTS) / Ioq_sgls)` when `12 +
MPSMIN + MDTS < 64`, and `min(4 MiB, (host_page_size << MDTS) / Ioq_sgls)` when
moreover the host page size is `2^(12 + MPSMIN)`, as it is on every controller
that passed bring-up with 4 KiB host pages. When SGL is active and `MDTS ==
0` it is 4 MiB; when SGL is inactive it is exactly one host page. -/
theorem max_size_cases (ps : Nat) (ns : Namespace) (mpsmax : Nat) :
    (ns.ctl.supports_sgl = true → ns.ctl.mdts ≠ 0 →
      Nvme_device.max_size ps ns
        = min (4 * 1024 * 1024)
            (u64 (u64 (1 * 2 ^ (12 + ns.ctl.mpsmin)) * 2 ^ ns.ctl.mdts) / Ioq_sgls) ∧
      (12 + ns.ctl.mpsmin + ns.ctl.mdts < 64 →
        Nvme_device.max_size ps ns
          = min (4 * 1024 * 1024) ((2 ^ (12 + ns.ctl.mpsmin) <<< ns.ctl.mdts) / Ioq_sgls)) ∧
      (ps = 12 + ns.ctl.mpsmin → ps + ns.ctl.mdts < 64 →
        Nvme_device.max_size ps ns
          = min (4 * 1024 * 1024) ((L4_PAGESIZE ps <<< ns.ctl.mdts) / Ioq_sgls)) ∧
      (ps = 12 → Ctl.mps_supported ps ns.ctl.mpsmin mpsmax = true → ps + ns.ctl.mdts < 64 →
        Nvme_device.max_size ps ns
          = min (4 * 1024 * 1024) ((L4_PAGESIZE ps <<< ns.ctl.mdts) / Ioq_sgls))) ∧
    (ns.ctl.supports_sgl = true → ns.ctl.mdts = 0 →
      Nvme_device.max_size ps ns = 4 * 1024 * 1024) ∧
    (ns.ctl.supports_sgl = false → Nvme_device.max_size ps ns = L4_PAGESIZE ps) := by
  refine ⟨?_, ?_, ?_⟩
  · intro hs hm
    have hbase : Nvme_device.max_size ps ns
        = min (4 * 1024 * 1024)
            (u64 (u64 (1 * 2 ^ (12 + ns.ctl.mpsmin)) * 2 ^ ns.ctl.mdts) / Ioq_sgls) := by
      unfold Nvme_device.max_size
      simp only [hs, if_true, hm, ne_eq, not_false_eq_true]
    have hhost : ∀ q : Nat, q = 12 + ns.ctl.mpsmin → q + ns.ctl.mdts < 64 →
        Nvme_device.max_size q ns
          = min (4 * 1024 * 1024) ((L4_PAGESIZE q <<< ns.ctl.mdts) / Ioq_sgls) := by
      intro q hq hlt
      have : Nvme_device.max_size q ns
          = min (4 * 1024 * 1024)
              (u64 (u64 (1 * 2 ^ (12 + ns.ctl.mpsmin)) * 2 ^ ns.ctl.mdts) / Ioq_sgls) := by
        unfold Nvme_device.max_size
        simp only [hs, if_true, hm, ne_eq, not_false_eq_true]
      rw [this, shift_no_wrap _ _ (by omega), ← hq]
      rfl
    refine ⟨hbase, ?_, hhost ps, ?_⟩
    · intro hlt
      rw [hbase, shift_no_wrap _ _ hlt]
    · intro h12 hsup hlt
      have h0 : ns.ctl.mpsmin = 0 := by
        subst h12
        exact mps_supported_4k _ _ hsup
      exact hhost ps (by omega) hlt
  · intro hs hm
    unfold Nvme_device.max_size
    simp only [hs, if_true, hm, ne_eq, not_true_eq_false, if_false]
  · intro hs
    unfold Nvme_device.max_size
    simp only [hs, Bool.false_eq_true, if_false]

/-- Witness of C17 (as amended): with 4 KiB host pages, SGL active and
`MDTS = 5`, the cap is `(4096 << 5) / 32 = 4096` bytes. -/
theorem max_size_cases_witness :
    Nvme_device.max_size 12 (Namespace.example_ns_mdts 5)
      = min (4 * 1024 * 1024) ((L4_PAGESIZE 12 <<< 5) / Ioq_sgls) ∧
    Nvme_device.max_size 12 (Namespace.example_ns_mdts 5) = 4096 :=
  ⟨(max_size_cases 12 (Namespace.example_ns_mdts 5) 0).1 (by decide) (by decide)
      |>.2.2.2 (by decide) (by decide) (by decide),
   by decide⟩

/-- Counterexample to C17 as stated: on a host with 16 KiB pages a controller
with `MPSMIN = 0`, `MPSMAX = 4` passes the page-size test of bring-up; with SGL
active and `MDTS = 5`, `max_size()` is 4096 while `min(4 MiB, (host_page_size
<< MDTS) / Ioq_sgls)` is 16384. And with 4 KiB host pages, SGL active and
`MDTS = 52`, `max_size()` is 0 while the formula gives 4 MiB. -/
theorem max_size_cases_counterexample :
    (Ctl.mps_supported 14 0 4 = true ∧
      (Namespace.example_ns_mdts 5).ctl.supports_sgl = true ∧
      Nvme_device.max_size 14 (Namespace.example_ns_mdts 5) = 4096 ∧
      min (4 * 1024 * 1024) ((L4_PAGESIZE 14 <<< 5) / Ioq_sgls) = 16384) ∧
    (Ctl.mps_supported 12 0 0 = true ∧
      (Namespace.example_ns_mdts 52).ctl.supports_sgl = true ∧
      Nvme_device.max_size 12 (Namespace.example_ns_mdts 52) = 0 ∧
      min (4 * 1024 * 1024) ((L4_PAGESIZE 12 <<< 52) / Ioq_sgls) = 4 * 1024 * 1024) := by
  decide

/-! ## The continuations of the discovery chain -/

namespace Ctl

theorem admin_command_free (c : Ctl) (fill : Sqe → Sqe) (cb : Admin_cb) (ev : Event)
    (hf : c.asq.is_full = false) (hc : c.asq.callbacks.getD c.asq.tail none = none) :
    c.admin_command fill cb ev =
      { c with
        asq := ((c.asq.produced.modify c.asq.tail fill).set_callback
          ((c.asq.produced.modify c.asq.tail fill).entry c.asq.tail).cid (some cb))
        regs := ((c.asq.produced.modify c.asq.tail fill).set_callback
          ((c.asq.produced.modify c.asq.tail fill).entry c.asq.tail).cid (some cb)).submit c.regs
        trace := c.trace ++ [ev] } := by
  unfold admin_command
  rw [c.asq.produce_free_produced hf hc]

theorem admin_command_nss (c : Ctl) (fill : Sqe → Sqe) (cb : Admin_cb) (ev : Event) :
    (c.admin_command fill cb ev).nss = c.nss := by
  unfold admin_command
  rcases h : c.asq.produce with ⟨_ | i, q⟩ <;> rfl

theorem admin_command_trace_free (c : Ctl) (fill : Sqe → Sqe) (cb : Admin_cb) (ev : Event)
    (hf : c.asq.is_full = false) (hc : c.asq.callbacks.getD c.asq.tail none = none) :
    (c.admin_command fill cb ev).trace = c.trace ++ [ev] ∧
    (c.admin_command fill cb ev).fault = c.fault ∧
    (c.admin_command fill cb ev).asq.tail = c.asq.wrap_around (c.asq.tail + 1) := by
  rw [admin_command_free c fill cb ev hf hc]
  exact ⟨rfl, rfl, rfl⟩

theorem admin_command_installed (c : Ctl) (fill : Sqe → Sqe) (cb : Admin_cb) (ev : Event)
    (hf : c.asq.is_full = false) (hc : c.asq.callbacks.getD c.asq.tail none = none)
    (ht : c.asq.tail < c.asq.entries.length)
    (hfill : ∀ e, (fill e).cid = e.cid)
    (hcid : (c.asq.entry c.asq.tail).cid < c.asq.callbacks.length) :
    (c.admin_command fill cb ev).asq.callbacks.getD (c.asq.entry c.asq.tail).cid none
      = some cb := by
  rw [admin_command_free c fill cb ev hf hc]
  have he : ((c.asq.produced.modify c.asq.tail fill).entry c.asq.tail).cid
      = (c.asq.entry c.asq.tail).cid := by
    rw [Submission_queue.entry_modify_same _ _ _
      (by rw [Submission_queue.length_produced]; exact ht),
      Submission_queue.entry_produced _ ht, hfill, cid_clear_entry]
  show ((c.asq.produced.modify c.asq.tail fill).set_callback _ (some cb)).callbacks.getD _ none
    = _
  rw [he]
  exact Submission_queue.getD_callbacks_set _ _ _ hcid

end Ctl

theorem fill_admin_cid (phys id size n : Nat) (e : Sqe) :
    (Ctl.fill_create_iocq phys id size e).cid = e.cid ∧
    (Ctl.fill_create_iosq phys id size e).cid = e.cid ∧
    (Ctl.fill_identify_namespace phys n e).cid = e.cid ∧
    (Ctl.fill_identify phys e).cid = e.cid := by
  refine ⟨?_, ?_, ?_, ?_⟩
  · unfold Ctl.fill_create_iocq Sqe.cid Sqe.set_opc Sqe.set_psdt bf_set bf_get
      Acs.Create_iocq Psdt.Use_prps
    norm_num
    omega
  · unfold Ctl.fill_create_iosq Sqe.cid Sqe.set_opc Sqe.set_psdt bf_set bf_get
      Acs.Create_iosq Psdt.Use_prps
    norm_num
    omega
  · unfold Ctl.fill_identify_namespace Sqe.cid Sqe.set_opc Sqe.set_psdt bf_set bf_get
      Acs.Identify Psdt.Use_prps
    norm_num
    omega
  · unfold Ctl.fill_identify Sqe.cid Sqe.set_opc Sqe.set_psdt bf_set bf_get
      Acs.Identify Psdt.Use_prps
    norm_num
    omega

namespace Ctl

theorem run_cb_identify_namespace_ok (w : World) (c : Ctl) (nn n : Nat) :
    run_cb w c (Admin_cb.identify_namespace nn n) 0 =
      if u64 (w.ns_data n).nsze ≠ 0 ∧
          (w.ns_data n).flbas % 2 ^ 8 % 16 ≤ (w.ns_data n).nlbaf % 2 ^ 8 ∧
          u32 ((w.ns_data n).lbaf.getD ((w.ns_data n).flbas % 2 ^ 8 % 16) 0) % 2 ^ 16 = 0 then
        c.async_loop_init w nn n
          (u64 (1 * 2 ^ (u32 ((w.ns_data n).lbaf.getD ((w.ns_data n).flbas % 2 ^ 8 % 16) 0)
            / 2 ^ 16 % 2 ^ 8)))
      else if u32 (n + 1) < nn then c.identify_namespace w nn (u32 (n + 1)) else c := by
  simp only [run_cb, ne_eq, not_true_eq_false, if_false]
  by_cases h1 : u64 (w.ns_data n).nsze = 0
  · simp [h1]
  · by_cases h2 : (w.ns_data n).flbas % 2 ^ 8 % 16 ≤ (w.ns_data n).nlbaf % 2 ^ 8
    · by_cases h3 :
          u32 ((w.ns_data n).lbaf.getD ((w.ns_data n).flbas % 2 ^ 8 % 16) 0) % 2 ^ 16 = 0
      · simp only [h1, h2, h3, not_false_eq_true, and_self, if_true]
      · simp only [h1, h2, h3, not_false_eq_true, and_false, and_true, if_true, if_false]
    · simp only [h1, h2, not_false_eq_true, false_and, and_false, if_true, if_false]

end Ctl

theorem identify_fields (d : Identify_ns) (hz : d.nsze < 2 ^ 64) (hl : d.nlbaf < 2 ^ 8) :
    (u64 d.nsze ≠ 0 ∧ d.flbas % 2 ^ 8 % 16 ≤ d.nlbaf % 2 ^ 8 ∧
        u32 (d.lbaf.getD (d.flbas % 2 ^ 8 % 16) 0) % 2 ^ 16 = 0
      ↔ ¬ (d.nsze = 0 ∨ d.f > d.nlbaf ∨ d.ms ≠ 0)) ∧
    u32 (d.lbaf.getD (d.flbas % 2 ^ 8 % 16) 0) / 2 ^ 16 % 2 ^ 8 = d.lbads := by
  have e1 : u64 d.nsze = d.nsze := Nat.mod_eq_of_lt hz
  have e2 : d.nlbaf % 2 ^ 8 = d.nlbaf := Nat.mod_eq_of_lt hl
  have e3 : d.flbas % 2 ^ 8 % 16 = d.f := by
    unfold Identify_ns.f
    omega
  rw [e1, e2, e3]
  unfold Identify_ns.ms Identify_ns.lbads u32
  refine ⟨?_, by omega⟩
  have e4 : d.lbaf.getD d.f 0 % 2 ^ 32 % 2 ^ 16 = d.lbaf.getD d.f 0 % 2 ^ 16 := by omega
  rw [e4]
  constructor
  · rintro ⟨a, b, c⟩
    intro h
    rcases h with h | h | h
    · exact a h
    · omega
    · exact h c
  · intro h
    refine ⟨fun a => h (Or.inl a), ?_, ?_⟩
    · by_contra hb
      exact h (Or.inr (Or.inl (by omega)))
    · by_contra hc
      exact h (Or.inr (Or.inr hc))

theorem append_singleton_ne {α : Type} (l : List α) (a b : α) (h : a ≠ b) :
    l ++ [a] ≠ l ++ [b] := by
  intro he
  have := List.append_cancel_left he
  simp at this
  exact h this

theorem ne_append_singleton {α : Type} (l : List α) (b : α) : l ≠ l ++ [b] := by
  intro he
  have := congrArg List.length he
  simp at this

/-- C13: for every Identify Namespace result with status 0 (`NSZE` a 64-bit
and `NLBAF` an 8-bit value), with `f = FLBAS & 0xF`: if `NSZE == 0`, or `f >
NLBAF`, or the low 16 bits `MS` of LBA-format entry `f` are nonzero, the
continuation constructs no namespace and requests no queue creation: it only
issues Identify Namespace for the next namespace when its test `n + 1 < nn`
holds. Otherwise it constructs a namespace with LBA size `2^LBADS` (as an
`l4_size_t`, exactly `2^LBADS` when `LBADS < 64`), `LBADS` being bits 16..23 of
LBA-format entry `f`, and starts its queue creation with `create_iocq`. With a
free admin slot the Create I/O CQ command is issued if and only if none of the
three skip conditions holds, and its continuation carries that LBA size. -/
theorem identify_namespace_admission (w : World) (c : Ctl) (nn n : Nat)
    (hz : (w.ns_data n).nsze < 2 ^ 64) (hl : (w.ns_data n).nlbaf < 2 ^ 8) :
    (((w.ns_data n).nsze = 0 ∨ (w.ns_data n).f > (w.ns_data n).nlbaf ∨ (w.ns_data n).ms ≠ 0) →
      Ctl.run_cb w c (Admin_cb.identify_namespace nn n) 0
        = if u32 (n + 1) < nn then c.identify_namespace w nn (u32 (n + 1)) else c) ∧
    (¬ ((w.ns_data n).nsze = 0 ∨ (w.ns_data n).f > (w.ns_data n).nlbaf ∨
          (w.ns_data n).ms ≠ 0) →
      Ctl.run_cb w c (Admin_cb.identify_namespace nn n) 0
        = c.async_loop_init w nn n (u64 (2 ^ (w.ns_data n).lbads)) ∧
      c.async_loop_init w nn n (u64 (2 ^ (w.ns_data n).lbads))
        = c.create_iocq w n Ioq_size
            (Admin_cb.create_iocq nn n (u64 (2 ^ (w.ns_data n).lbads))) ∧
      ((w.ns_data n).lbads < 64 →
        u64 (2 ^ (w.ns_data n).lbads) = 2 ^ (w.ns_data n).lbads)) ∧
    (c.asq.is_full = false → c.asq.callbacks.getD c.asq.tail none = none →
      (((w.ns_data n).nsze = 0 ∨ (w.ns_data n).f > (w.ns_data n).nlbaf ∨
          (w.ns_data n).ms ≠ 0) ↔
        (Ctl.run_cb w c (Admin_cb.identify_namespace nn n) 0).trace
          ≠ c.trace ++ [Event.create_iocq (u16 n) Ioq_size]) ∧
      (c.asq.tail < c.asq.entries.length →
        (c.asq.entry c.asq.tail).cid < c.asq.callbacks.length →
        ¬ ((w.ns_data n).nsze = 0 ∨ (w.ns_data n).f > (w.ns_data n).nlbaf ∨
            (w.ns_data n).ms ≠ 0) →
        (Ctl.run_cb w c (Admin_cb.identify_namespace nn n) 0).asq.callbacks.getD
            (c.asq.entry c.asq.tail).cid none
          = some (Admin_cb.create_iocq nn n (u64 (2 ^ (w.ns_data n).lbads))))) := by
  obtain ⟨hcond, hlb⟩ := identify_fields (w.ns_data n) hz hl
  have hrun := Ctl.run_cb_identify_namespace_ok w c nn n
  rw [hlb, Nat.one_mul] at hrun
  have hskip : ((w.ns_data n).nsze = 0 ∨ (w.ns_data n).f > (w.ns_data n).nlbaf ∨
      (w.ns_data n).ms ≠ 0) →
      Ctl.run_cb w c (Admin_cb.identify_namespace nn n) 0
        = if u32 (n + 1) < nn then c.identify_namespace w nn (u32 (n + 1)) else c := by
    intro h
    rw [hrun, if_neg (fun hh => (hcond.mp hh) h)]
  have hadm : ¬ ((w.ns_data n).nsze = 0 ∨ (w.ns_data n).f > (w.ns_data n).nlbaf ∨
      (w.ns_data n).ms ≠ 0) →
      Ctl.run_cb w c (Admin_cb.identify_namespace nn n) 0
        = c.async_loop_init w nn n (u64 (2 ^ (w.ns_data n).lbads)) := by
    intro h
    rw [hrun, if_pos (hcond.mpr h)]
  refine ⟨hskip, ?_, ?_⟩
  · intro h
    refine ⟨hadm h, rfl, ?_⟩
    intro h64
    exact Nat.mod_eq_of_lt (Nat.pow_lt_pow_right (by norm_num) h64)
  · intro hf hc
    refine ⟨?_, ?_⟩
    · constructor
      · intro h
        rw [hskip h]
        by_cases hnext : u32 (n + 1) < nn
        · rw [if_pos hnext]
          unfold Ctl.identify_namespace
          rw [(Ctl.admin_command_trace_free c _ _ _ hf hc).1]
          exact append_singleton_ne _ _ _ (by simp)
        · rw [if_neg hnext]
          exact ne_append_singleton _ _
      · intro h
        by_contra hns
        apply h
        rw [hadm hns]
        unfold Ctl.async_loop_init Ctl.create_iocq
        exact (Ctl.admin_command_trace_free c _ _ _ hf hc).1
    · intro ht hcid hns
      rw [hadm hns]
      unfold Ctl.async_loop_init Ctl.create_iocq
      exact Ctl.admin_command_installed c _ _ _ hf hc ht
        (fun e => (fill_admin_cid _ _ _ 0 e).1) hcid

/-- Witness of C13: on a controller fresh from bring-up, in the world of
scenario S6, the Identify data of namespace 1 (active, format 0 with `MS = 0`,
`LBADS = 9`) start the queue creation of a namespace with 512-byte blocks, and
the Identify data of namespace 2 (`NSZE = 0`) create nothing. -/
theorem identify_namespace_admission_witness :
    (Ctl.run_cb World.s6 (Ctl.init 0 false (fun _ => none)) (Admin_cb.identify_namespace 3 1) 0
        = (Ctl.init 0 false (fun _ => none)).async_loop_init World.s6 3 1 (u64 (2 ^ 9)) ∧
      u64 (2 ^ 9) = 512) ∧
    Ctl.run_cb World.s6 (Ctl.init 0 false (fun _ => none)) (Admin_cb.identify_namespace 3 2) 0
      = Ctl.init 0 false (fun _ => none) :=
  ⟨⟨((identify_namespace_admission World.s6 (Ctl.init 0 false (fun _ => none)) 3 1 (by decide)
        (by decide)).2.1 (by decide)).1, by decide⟩,
   (identify_namespace_admission World.s6 (Ctl.init 0 false (fun _ => none)) 3 2 (by decide)
        (by decide)).1 (by decide)⟩

namespace Ctl

theorem identify_namespace_nss (w : World) (c : Ctl) (nn n : Nat) :
    (c.identify_namespace w nn n).nss = c.nss :=
  admin_command_nss c _ _ _

theorem identify_namespace_trace_free (w : World) (c : Ctl) (nn n : Nat)
    (hf : c.asq.is_full = false) (hc : c.asq.callbacks.getD c.asq.tail none = none) :
    (c.identify_namespace w nn n).trace = c.trace ++ [Event.identify_namespace (u32 n)] :=
  (admin_command_trace_free c _ _ _ hf hc).1

end Ctl

/-- C14 (behaviour of the code): in the I/O-SQ-creation continuation of
`async_loop_init`, for every status value: when the test `nsid + 1 < nsids`
of the continuation holds, Identify Namespace for `nsid + 1` is issued (with a
free admin slot: the command is the next event, its continuation is installed
and the tail advances) before the status is examined and whatever its value;
after that the namespace is handed to the publish callback (appended to the
controller's namespaces) if and only if the status is zero, and is destroyed
without being published otherwise. When the test fails, which includes the
existing next namespace `nsid + 1 = nsids`, nothing is issued, the admin
submission queue is untouched and the only event is the publication or the
destruction. -/
theorem create_iosq_continuation (w : World) (c : Ctl) (nsids nsid lba_sz s : Nat) :
    (Ctl.run_cb w c (Admin_cb.create_iosq nsids nsid lba_sz) s).nss
      = (if s = 0 then c.nss ++ [nsid] else c.nss) ∧
    (¬ u32 (nsid + 1) < nsids →
      (Ctl.run_cb w c (Admin_cb.create_iosq nsids nsid lba_sz) s).trace
        = c.trace ++ [if s = 0 then Event.publish nsid lba_sz else Event.destroy nsid] ∧
      (Ctl.run_cb w c (Admin_cb.create_iosq nsids nsid lba_sz) s).asq = c.asq) ∧
    (u32 (nsid + 1) < nsids → c.asq.is_full = false →
      c.asq.callbacks.getD c.asq.tail none = none →
      (Ctl.run_cb w c (Admin_cb.create_iosq nsids nsid lba_sz) s).trace
        = c.trace ++ [Event.identify_namespace (u32 (nsid + 1)),
            (if s = 0 then Event.publish nsid lba_sz else Event.destroy nsid)] ∧
      (Ctl.run_cb w c (Admin_cb.create_iosq nsids nsid lba_sz) s).asq.tail
        = c.asq.wrap_around (c.asq.tail + 1) ∧
      (c.asq.tail < c.asq.entries.length →
        (c.asq.entry c.asq.tail).cid < c.asq.callbacks.length →
        (Ctl.run_cb w c (Admin_cb.create_iosq nsids nsid lba_sz) s).asq.callbacks.getD
            (c.asq.entry c.asq.tail).cid none
          = some (Admin_cb.identify_namespace (u32 nsids) (u32 (nsid + 1))))) := by
  have hu : u32 (u32 (nsid + 1)) = u32 (nsid + 1) := by
    unfold u32
    exact Nat.mod_mod _ _
  refine ⟨?_, ?_, ?_⟩
  · by_cases hn : u32 (nsid + 1) < nsids <;> by_cases h0 : s = 0 <;>
      simp [Ctl.run_cb, hn, h0, Ctl.publish, Ctl.destroy, Ctl.identify_namespace_nss]
  · intro hn
    by_cases h0 : s = 0 <;> simp [Ctl.run_cb, hn, h0, Ctl.publish, Ctl.destroy]
  · intro hn hf hc
    have htr := Ctl.identify_namespace_trace_free w c nsids (u32 (nsid + 1)) hf hc
    rw [hu] at htr
    have htl := (Ctl.admin_command_trace_free c
      (Ctl.fill_identify_namespace w.buf_phys (u32 (nsid + 1)))
      (Admin_cb.identify_namespace (u32 nsids) (u32 (u32 (nsid + 1))))
      (Event.identify_namespace (u32 (u32 (nsid + 1)))) hf hc).2.2
    refine ⟨?_, ?_, ?_⟩
    · by_cases h0 : s = 0
      · simp [Ctl.run_cb, hn, h0, Ctl.publish, htr]
      · simp [Ctl.run_cb, hn, h0, Ctl.destroy, htr]
    · by_cases h0 : s = 0
      · simp only [Ctl.run_cb, hn, h0, if_true, ne_eq, not_true_eq_false, if_false,
          Ctl.publish]
        exact htl
      · simp only [Ctl.run_cb, hn, h0, if_true, ne_eq, not_false_eq_true, Ctl.destroy]
        exact htl
    · intro ht hcid
      have hin : (Ctl.identify_namespace w c nsids (u32 (nsid + 1))).asq.callbacks.getD
          (c.asq.entry c.asq.tail).cid none
          = some (Admin_cb.identify_namespace (u32 nsids) (u32 (u32 (nsid + 1)))) :=
        Ctl.admin_command_installed c
          (Ctl.fill_identify_namespace w.buf_phys (u32 (nsid + 1)))
          (Admin_cb.identify_namespace (u32 nsids) (u32 (u32 (nsid + 1))))
          (Event.identify_namespace (u32 (u32 (nsid + 1)))) hf hc ht
          (fun e => (fill_admin_cid 0 0 0 _ e).2.2.1) hcid
      rw [hu] at hin
      by_cases h0 : s = 0
      · simp only [Ctl.run_cb, hn, h0, if_true, ne_eq, not_true_eq_false, if_false,
          Ctl.publish]
        exact hin
      · simp only [Ctl.run_cb, hn, h0, if_true, ne_eq, not_false_eq_true, Ctl.destroy]
        exact hin

/-- Witness of C14: on a controller fresh from bring-up with `NN = 3`, the
continuation of namespace 1 issues Identify Namespace 2 and then publishes
namespace 1 on status 0, and issues Identify Namespace 2 and then destroys
namespace 1 on status 5. With `NN = 2` the continuation of namespace 1 only
publishes namespace 1: Identify Namespace 2 is not issued and the admin
submission queue is as before. -/
theorem create_iosq_continuation_witness :
    ((Ctl.run_cb World.s6 (Ctl.init 0 false (fun _ => none)) (Admin_cb.create_iosq 3 1 512) 0).nss = [1] ∧
      (Ctl.run_cb World.s6 (Ctl.init 0 false (fun _ => none)) (Admin_cb.create_iosq 3 1 512) 0).trace
        = [Event.identify_namespace 2, Event.publish 1 512]) ∧
    ((Ctl.run_cb World.s6 (Ctl.init 0 false (fun _ => none)) (Admin_cb.create_iosq 3 1 512) 5).nss = [] ∧
      (Ctl.run_cb World.s6 (Ctl.init 0 false (fun _ => none)) (Admin_cb.create_iosq 3 1 512) 5).trace
        = [Event.identify_namespace 2, Event.destroy 1]) ∧
    ((Ctl.run_cb (World.ok 2 (fun _ => Identify_ns.healthy)) (Ctl.init 0 false (fun _ => none))
        (Admin_cb.create_iosq 2 1 512) 0).trace = [Event.publish 1 512] ∧
      (Ctl.run_cb (World.ok 2 (fun _ => Identify_ns.healthy)) (Ctl.init 0 false (fun _ => none))
        (Admin_cb.create_iosq 2 1 512) 0).asq = (Ctl.init 0 false (fun _ => none)).asq) :=
  ⟨⟨(create_iosq_continuation World.s6 (Ctl.init 0 false (fun _ => none)) 3 1 512 0).1,
    ((create_iosq_continuation World.s6 (Ctl.init 0 false (fun _ => none)) 3 1 512 0).2.2 (by decide)
      (by decide) (by decide)).1⟩,
   ⟨(create_iosq_continuation World.s6 (Ctl.init 0 false (fun _ => none)) 3 1 512 5).1,
    ((create_iosq_continuation World.s6 (Ctl.init 0 false (fun _ => none)) 3 1 512 5).2.2 (by decide)
      (by decide) (by decide)).1⟩,
   (create_iosq_continuation (World.ok 2 (fun _ => Identify_ns.healthy)) (Ctl.init 0 false (fun _ => none))
      2 1 512 0).2.1 (by decide)⟩

/-! ## Failure of Identify Namespace -/

namespace Ctl

theorem handle_irq_valid (w : World) (c : Ctl) (cb : Admin_cb)
    (hv : c.head_cqe.p = (if c.acq.p then 1 else 0))
    (hq : c.head_cqe.sqid = Aq_id)
    (hcb : c.asq.callbacks.getD c.head_cqe.cid none = some cb) :
    handle_irq w c =
      if (run_cb w c.detached cb c.head_cqe.sf).thrown then run_cb w c.detached cb c.head_cqe.sf
      else
        { run_cb w c.detached cb c.head_cqe.sf with
          regs := (run_cb w c.detached cb c.head_cqe.sf).acq.complete
            (run_cb w c.detached cb c.head_cqe.sf).regs } := by
  unfold head_cqe at hv hq hcb
  unfold handle_irq detached head_cqe
  rw [Completion_queue.consume_valid c.acq hv]
  simp only []
  rw [if_neg (by simpa using hq)]
  have hcb2 : ({ c.asq with
      head := u16 (c.acq.entries.getD c.acq.head default).sqhd }
        : Submission_queue Admin_cb).callbacks.getD
      (c.acq.entries.getD c.acq.head default).cid none = some cb := hcb
  rw [hcb2]

end Ctl

/-- C12 (as amended): when the Identify Namespace command for namespace `n`
completes with a nonzero status, the continuation returns at once, whether or
not `n` is the last namespace: the controller state is unchanged, so namespace
`n` is not published and no Identify Namespace for `n + 1` (no admin command at
all) is issued. In `handle_irq()` the completion only frees the slot: the
events and the published namespaces are as before, the tail of the admin
submission queue does not move and nothing faults. -/
theorem identify_namespace_failure (w : World) (c : Ctl) (nn n s : Nat) (hs : s ≠ 0) :
    Ctl.run_cb w c (Admin_cb.identify_namespace nn n) s = c ∧
    ((c.acq.entries.getD c.acq.head default).p = (if c.acq.p then 1 else 0) →
      (c.acq.entries.getD c.acq.head default).sqid = Aq_id →
      c.asq.callbacks.getD (c.acq.entries.getD c.acq.head default).cid none
        = some (Admin_cb.identify_namespace nn n) →
      (c.acq.entries.getD c.acq.head default).sf = s →
      (Ctl.handle_irq w c).trace = c.trace ∧
      (Ctl.handle_irq w c).nss = c.nss ∧
      (Ctl.handle_irq w c).asq.tail = c.asq.tail ∧
      (Ctl.handle_irq w c).fault = c.fault ∧
      (Ctl.handle_irq w c).asq.callbacks
        = c.asq.callbacks.set (c.acq.entries.getD c.acq.head default).cid none) := by
  have hrun : ∀ c2 : Ctl, Ctl.run_cb w c2 (Admin_cb.identify_namespace nn n) s = c2 := by
    intro c2
    simp [Ctl.run_cb, hs]
  refine ⟨hrun c, ?_⟩
  intro hv hq hcb hsf
  have hsf2 : c.head_cqe.sf = s := hsf
  rw [Ctl.handle_irq_valid w c _ hv hq hcb, hsf2, hrun]
  split <;> exact ⟨rfl, rfl, rfl, rfl, rfl⟩

/-- Witness of C12 (as amended): the continuation of Identify Namespace 1 on a
controller fresh from bring-up, run with status 1, changes nothing. -/
theorem identify_namespace_failure_witness :
    (Ctl.run_cb World.ns1_fails (Ctl.init 0 false (fun _ => none)) (Admin_cb.identify_namespace 3 1) 1).trace
      = [] ∧
    (Ctl.run_cb World.ns1_fails (Ctl.init 0 false (fun _ => none)) (Admin_cb.identify_namespace 3 1) 1).nss
      = [] :=
  ⟨congrArg Ctl.trace
      (identify_namespace_failure World.ns1_fails (Ctl.init 0 false (fun _ => none)) 3 1 1 (by decide)).1,
   congrArg Ctl.nss
      (identify_namespace_failure World.ns1_fails (Ctl.init 0 false (fun _ => none)) 3 1 1 (by decide)).1⟩

/-- Counterexample to C12 as stated: a controller reports `NN = 3` healthy
namespaces and the Identify Namespace command for namespace 1 (not the last
namespace) completes with status 1. Discovery issues Identify Controller and
Identify Namespace 1 and then stops: Identify Namespace 2 is never issued,
nothing is published, no command is outstanding and nothing faulted. -/
theorem identify_namespace_failure_counterexample :
    (Machine.discover World.ns1_fails 0 false 16).ctl.trace
      = [Event.identify_controller, Event.identify_namespace 1] ∧
    (Machine.discover World.ns1_fails 0 false 16).ctl.nss = [] ∧
    (Machine.discover World.ns1_fails 0 false 16).ctl.fault = false ∧
    ((Machine.discover World.ns1_fails 0 false 16).device_step World.ns1_fails).isNone
      = true := by
  decide

/-! ## The Identify Namespace commands of a discovery -/

/-- C11 (behaviour of the code at the failing input): in the world of scenario
S6 (`NN = 3`, namespace 1 healthy, namespace 2 with `NSZE = 0`, namespace 3 with
metadata, every command completing with status 0) discovery issues Identify
Namespace for namespaces 1 and 2 only, in that order; namespace 3 is never
identified. Namespace 1 is published, no command is outstanding afterwards and
nothing faulted. -/
theorem discover_s6_identifies :
    identified (Machine.discover World.s6 0 false 16).ctl.trace = [1, 2] ∧
    (Machine.discover World.s6 0 false 16).ctl.trace
      = [Event.identify_controller, Event.identify_namespace 1, Event.create_iocq 1 32,
          Event.create_iosq 1 32 0, Event.identify_namespace 2, Event.publish 1 512] ∧
    (Machine.discover World.s6 0 false 16).ctl.nss = [1] ∧
    (Machine.discover World.s6 0 false 16).ctl.fault = false ∧
    ((Machine.discover World.s6 0 false 16).device_step World.s6).isNone = true := by
  decide

/-! ## Slot reuse and usable slots (`Submission_queue::produce`) -/

/-- C21: for every submission queue of size `N >= 1` (a 16-bit size) with the
tail in `[0, N)`: if the queue is not full but the continuation entry at index
`tail` is non-empty, `produce()` returns none and leaves the queue, so its
tail, unchanged; if the queue is not full and that entry is empty, `produce()`
returns the slot at `tail` and the tail becomes `(tail + 1) mod N`, the head
and the continuation entries staying as they are. -/
theorem Submission_queue.produce_slot_reuse {κ : Type} (q : Submission_queue κ)
    (hN : 1 ≤ q.size) (hN16 : q.size < 2 ^ 16) (hT : q.tail < q.size) :
    (q.is_full = false → (q.callbacks.getD q.tail none).isSome = true →
      q.produce.1 = none ∧ q.produce.2 = q ∧ q.produce.2.tail = q.tail) ∧
    (q.is_full = false → q.callbacks.getD q.tail none = none →
      q.produce.1 = some q.tail ∧ q.produce.2.tail = (q.tail + 1) % q.size ∧
      q.produce.2.head = q.head ∧ q.produce.2.callbacks = q.callbacks) := by
  have hw : q.wrap_around (q.tail + 1) = (q.tail + 1) % q.size :=
    q.sq_wrap_around_eq _ (by omega) hN
  refine ⟨?_, ?_⟩
  · intro hf hc
    have hp : q.produce = (none, q) := by
      unfold Submission_queue.produce
      rw [if_neg (by simp [hf]), if_pos hc]
    rw [hp]
    exact ⟨rfl, rfl, rfl⟩
  · intro hf hc
    rw [q.produce_free hf hc]
    exact ⟨rfl, hw, rfl, rfl⟩

/-- Witness of C21: a queue of size 4 with head 0 and tail 0 is not full; with
a continuation stored in slot 0 `produce()` returns none and the tail stays 0,
and with slot 0 empty `produce()` returns slot 0 and the tail becomes 1. -/
theorem Submission_queue.produce_slot_reuse_witness :
    let q1 : Submission_queue Nat :=
      (Submission_queue.mk_queue 4 1 0 0 0 (fun _ => none) : Submission_queue Nat).set_callback 0 (some 7)
    let q2 : Submission_queue Nat := Submission_queue.mk_queue 4 1 0 0 0 (fun _ => none)
    (q1.produce.1 = none ∧ q1.produce.2 = q1 ∧ q1.produce.2.tail = q1.tail) ∧
    (q2.produce.1 = some q2.tail ∧ q2.produce.2.tail = (q2.tail + 1) % q2.size ∧
      q2.produce.2.head = q2.head ∧ q2.produce.2.callbacks = q2.callbacks) :=
  ⟨(Submission_queue.produce_slot_reuse _ (by decide) (by decide) (by decide)).1
      (by decide) (by decide),
   (Submission_queue.produce_slot_reuse _ (by decide) (by decide) (by decide)).2
      (by decide) (by decide)⟩

theorem add_mod_cancel_lt (t a b N : Nat) (ha : a < N) (hb : b < N)
    (h : (t + a) % N = (t + b) % N) : a = b := by
  have h1 : a ≡ b [MOD N] := Nat.ModEq.add_left_cancel' t h
  have h2 : a % N = b % N := h1
  rwa [Nat.mod_eq_of_lt ha, Nat.mod_eq_of_lt hb] at h2

theorem Submission_queue.produce_seq_spec {κ : Type} (N t : Nat) (hN : 2 ≤ N)
    (hN16 : N < 2 ^ 16) (ht : t < N) :
    ∀ (k j : Nat) (q : Submission_queue κ), j + k ≤ N - 1 → q.size = N → q.head = t →
      q.tail = (t + j) % N → (∀ i, q.callbacks.getD i none = none) →
      (q.produce_seq k).1 = (List.range k).map (fun i => some ((t + j + i) % N)) ∧
      (q.produce_seq k).2.size = N ∧ (q.produce_seq k).2.head = t ∧
      (q.produce_seq k).2.tail = (t + j + k) % N ∧
      (∀ i, (q.produce_seq k).2.callbacks.getD i none = none) := by
  intro k
  induction k with
  | zero =>
    intro j q _ hs hh htl hc
    exact ⟨rfl, hs, hh, htl, hc⟩
  | succ k ih =>
    intro j q hjk hs hh htl hc
    have htN : q.tail < N := by rw [htl]; exact Nat.mod_lt _ (by omega)
    have hw : q.wrap_around (q.tail + 1) = (t + (j + 1)) % N := by
      rw [q.sq_wrap_around_eq _ (by omega) (by omega), hs, htl, succ_mod_wrap]
      rfl
    have hf : q.is_full = false := by
      unfold Submission_queue.is_full
      rw [hw, hh]
      apply beq_false_of_ne
      intro he
      have h0 : (t + 0) % N = (t + (j + 1)) % N := by
        rw [Nat.add_zero, Nat.mod_eq_of_lt ht]; exact he
      have := add_mod_cancel_lt t 0 (j + 1) N (by omega) (by omega) h0
      omega
    have hp := q.produce_free hf (hc q.tail)
    have hseq : q.produce_seq (k + 1)
        = (q.produce.1 :: (Submission_queue.produce_seq k q.produce.2).1,
            (Submission_queue.produce_seq k q.produce.2).2) := rfl
    rw [hseq, hp]
    obtain ⟨i1, i2, i3, i4, i5⟩ := ih (j + 1)
      { q with
        tail := q.wrap_around (q.tail + 1)
        entries := q.entries.set q.tail
          (Submission_queue.clear_entry (q.entries.getD q.tail default)) }
      (by omega) hs hh hw hc
    refine ⟨?_, i2, i3, ?_, i5⟩
    · show some q.tail :: _ = _
      rw [i1, List.range_succ_eq_map, List.map_cons, List.map_map, htl]
      simp only [Nat.add_zero, List.cons.injEq, true_and]
      apply List.map_congr_left
      intro a _
      show some ((t + (j + 1) + a) % N) = some ((t + j + (a + 1)) % N)
      rw [show t + (j + 1) + a = t + j + (a + 1) by omega]
    · rw [i4, show t + (j + 1) + k = t + j + (k + 1) by omega]

/-- C29: a submission queue of size `N` with `2 <= N < 2^16` has exactly
`N - 1` usable slots. Starting from an empty queue (head equal to the tail,
every continuation entry empty) and with the head not advancing, the first
`N - 1` calls to `produce()` return the slots `tail, tail + 1, ...` (modulo
`N`), which are pairwise distinct, and the `N`-th call returns none; indeed
after those `N - 1` calls `produce()` returns none on every queue with that
size, head and tail, whatever its entries and continuations. For the admin
queue (`N = 2`): the first call returns a slot and a second call, before the
head has moved, returns none, so one command can be outstanding. -/
theorem Submission_queue.usable_slots {κ : Type} (q : Submission_queue κ) (N : Nat)
    (hN : 2 ≤ N) (hN16 : N < 2 ^ 16) (hs : q.size = N) (hT : q.tail < N)
    (hH : q.head = q.tail) (hc : ∀ i, q.callbacks.getD i none = none) :
    (q.produce_seq (N - 1)).1 = (List.range (N - 1)).map (fun j => some ((q.tail + j) % N)) ∧
    (q.produce_seq (N - 1)).1.Nodup ∧
    (q.produce_seq N).1
      = (List.range (N - 1)).map (fun j => some ((q.tail + j) % N)) ++ [none] ∧
    (∀ q2 : Submission_queue κ, q2.size = N → q2.head = q.head →
      q2.tail = (q.produce_seq (N - 1)).2.tail → q2.produce.1 = none) ∧
    (N = 2 → q.produce.1 = some q.tail ∧ q.produce.2.produce.1 = none) := by
  obtain ⟨h1, h2, h3, h4, _⟩ :=
    Submission_queue.produce_seq_spec N q.tail hN hN16 hT (N - 1) 0 q (by omega) hs hH
      (by rw [Nat.add_zero, Nat.mod_eq_of_lt hT]) hc
  simp only [Nat.add_zero] at h1 h4
  have hfull : ∀ q2 : Submission_queue κ, q2.size = N → q2.head = q.head →
      q2.tail = (q.produce_seq (N - 1)).2.tail → q2.produce.1 = none := by
    intro q2 hs2 hh2 ht2
    have htl : q2.tail = (q.tail + (N - 1)) % N := by rw [ht2, h4]
    have htN : q2.tail < N := by rw [htl]; exact Nat.mod_lt _ (by omega)
    have hw : q2.wrap_around (q2.tail + 1) = q.tail := by
      rw [q2.sq_wrap_around_eq _ (by omega) (by omega), hs2, htl, succ_mod_wrap,
        show q.tail + (N - 1) + 1 = q.tail + N by omega, Nat.add_mod_right,
        Nat.mod_eq_of_lt hT]
    have hf : q2.is_full = true := by
      unfold Submission_queue.is_full
      rw [hw, hh2, hH]
      exact beq_self_eq_true _
    rw [q2.produce_full hf]
  have hlast : (q.produce_seq (N - 1)).2.produce.1 = none :=
    hfull _ h2 (by rw [h3, hH]) rfl
  have hsnoc : ∀ (k : Nat) (p : Submission_queue κ),
      (p.produce_seq (k + 1)).1 = (p.produce_seq k).1 ++ [(p.produce_seq k).2.produce.1] := by
    intro k
    induction k with
    | zero => intro p; rfl
    | succ k ih =>
      intro p
      show p.produce.1 :: (Submission_queue.produce_seq (k + 1) p.produce.2).1 = _
      rw [ih p.produce.2]
      rfl
  refine ⟨h1, ?_, ?_, hfull, ?_⟩
  · rw [h1]
    apply List.Nodup.map_on _ (List.nodup_range _)
    intro a ha b hb hab
    rw [List.mem_range] at ha hb
    have := Option.some.inj hab
    exact add_mod_cancel_lt q.tail a b N (by omega) (by omega) this
  · have hN1 : N = (N - 1) + 1 := by omega
    rw [hN1, hsnoc (N - 1) q, ← hN1, h1, hlast]
  · intro h2N
    subst h2N
    have hq1 : q.produce_seq 1 = ([q.produce.1], q.produce.2) := rfl
    have ha : (q.produce_seq (2 - 1)).1 = [q.produce.1] := by
      show (q.produce_seq 1).1 = _
      rw [hq1]
    have hb : (q.produce_seq (2 - 1)).2 = q.produce.2 := by
      show (q.produce_seq 1).2 = _
      rw [hq1]
    rw [hb] at hlast
    refine ⟨?_, hlast⟩
    rw [ha] at h1
    have h10 : (List.range (2 - 1)).map (fun j => some ((q.tail + j) % 2))
        = [some (q.tail % 2)] := rfl
    rw [h10] at h1
    have := List.head_eq_of_cons_eq h1
    rw [this, Nat.mod_eq_of_lt hT]

/-- Witness of C29: the admin submission queue as constructed (size 2, head
and tail 0, no continuation stored): one call to `produce()` returns slot 0,
the second returns none. -/
theorem Submission_queue.usable_slots_witness :
    let q : Submission_queue Admin_cb := Submission_queue.mk_queue 2 0 0 0 0 (fun _ => none)
    (q.produce_seq (2 - 1)).1 = (List.range (2 - 1)).map (fun j => some ((q.tail + j) % 2)) ∧
    (q.produce_seq 2).1 = (List.range (2 - 1)).map (fun j => some ((q.tail + j) % 2)) ++ [none] ∧
    q.produce.1 = some q.tail ∧ q.produce.2.produce.1 = none :=
  have h := Submission_queue.usable_slots
    (Submission_queue.mk_queue 2 0 0 0 0 (fun _ => none) : Submission_queue Admin_cb) 2 (by decide) (by decide)
    rfl (by decide) rfl (by
      intro i
      match i with
      | 0 => rfl
      | 1 => rfl
      | i + 2 => rfl)
  ⟨h.1, h.2.2.1, (h.2.2.2.2 rfl).1, (h.2.2.2.2 rfl).2⟩

/-! ## The continuation vector (`Submission_queue` constructor) -/

theorem Submission_queue.callbacks_size_produce {κ : Type} (q : Submission_queue κ) :
    q.produce.2.callbacks_size = q.callbacks_size := by
  rcases q.produce_cases with hp | hp
  · rw [hp]
  · rw [hp]
    rfl

theorem Submission_queue.callbacks_size_run {κ : Type} (ops : List (Sq_op κ)) :
    ∀ q : Submission_queue κ, (q.run ops).2.callbacks_size = q.callbacks_size := by
  induction ops with
  | nil => intro q; rfl
  | cons op ops ih =>
    intro q
    cases op with
    | produce =>
      have hsz := q.callbacks_size_produce
      rcases hp : q.produce with ⟨_ | i, q1⟩
      · have : Submission_queue.run (Sq_op.produce :: ops) q = Submission_queue.run ops q1 := by
          simp only [Submission_queue.run, hp]
        rw [this, ih q1, ← hsz, hp]
      · have : (Submission_queue.run (Sq_op.produce :: ops) q).2
            = (Submission_queue.run ops q1).2 := by
          simp only [Submission_queue.run, hp]
        rw [this, ih q1, ← hsz, hp]
    | set_head hd =>
      have : Submission_queue.run (Sq_op.set_head hd :: ops) q
          = Submission_queue.run ops { q with head := u16 hd } := rfl
      rw [this, ih]
    | set_callback i cb =>
      have : Submission_queue.run (Sq_op.set_callback i cb :: ops) q
          = Submission_queue.run ops (q.set_callback i cb) := rfl
      rw [this, ih]
      rfl
    | store_fields i e =>
      have : Submission_queue.run (Sq_op.store_fields i e :: ops) q
          = Submission_queue.run ops (q.modify i (store_fields e)) := rfl
      rw [this, ih]
      rfl

/-- C22 (behaviour of the code): the constructor of a `Submission_queue` of
size `N` applies `reserve(_size)` to the continuation vector, so storage for
`N` continuations exists but the vector has length `size() = 0`, not `N`, and
the slots of that storage hold what they held before (`raw`), not empty
continuations; no later operation on the queue (`produce()`, the store to the
head, an assignment `_callbacks[i] = cb`, stores to an entry) changes that
length, so no index `i` of an access `_callbacks[i]` is ever below `size()`:
already the index 0 is outside the bounds of the vector. -/
theorem Submission_queue.callbacks_reserved {κ : Type} (N y dstrd sgls sgls_phys : Nat)
    (raw : Nat → Option κ) (ops : List (Sq_op κ)) :
    (Submission_queue.mk_queue N y dstrd sgls sgls_phys raw :
      Submission_queue κ).callbacks_size = 0 ∧
    (Submission_queue.mk_queue N y dstrd sgls sgls_phys raw : Submission_queue κ).callbacks.length
      = u16 N ∧
    (Submission_queue.mk_queue N y dstrd sgls sgls_phys raw : Submission_queue κ).callbacks
      = (List.range (u16 N)).map raw ∧
    ((Submission_queue.mk_queue N y dstrd sgls sgls_phys raw : Submission_queue κ).run
      ops).2.callbacks_size = 0 ∧
    (∀ i, ¬ i < ((Submission_queue.mk_queue N y dstrd sgls sgls_phys raw : Submission_queue κ).run
      ops).2.callbacks_size) := by
  have h := Submission_queue.callbacks_size_run ops
    (Submission_queue.mk_queue N y dstrd sgls sgls_phys raw : Submission_queue κ)
  have h0 : (Submission_queue.mk_queue N y dstrd sgls sgls_phys raw :
      Submission_queue κ).callbacks_size = 0 := rfl
  refine ⟨h0, ?_, rfl, ?_, ?_⟩
  · simp [Submission_queue.mk_queue]
  · rw [h, h0]
  · intro i
    rw [h, h0]
    exact Nat.not_lt_zero i

/-! ## The queue creation commands (`Ctl::create_iocq`, `Ctl::create_iosq`) -/

theorem Ctl.admin_command_entry (c : Ctl) (fill : Sqe → Sqe) (cb : Admin_cb) (ev : Event)
    (hf : c.asq.is_full = false) (hc : c.asq.callbacks.getD c.asq.tail none = none)
    (ht : c.asq.tail < c.asq.entries.length) :
    (c.admin_command fill cb ev).asq.entry c.asq.tail
      = fill (Submission_queue.clear_entry (c.asq.entry c.asq.tail)) ∧
    (c.admin_command fill cb ev).regs
      = c.regs ++ [(c.asq.tdbl, c.asq.wrap_around (c.asq.tail + 1))] := by
  rw [Ctl.admin_command_free c fill cb ev hf hc]
  refine ⟨?_, rfl⟩
  show (c.asq.produced.modify c.asq.tail fill).entry c.asq.tail = _
  rw [Submission_queue.entry_modify_same _ _ _
    (by rw [Submission_queue.length_produced]; exact ht),
    Submission_queue.entry_produced _ ht]

theorem fill_create_iocq_fields (phys id size : Nat) (e : Sqe) (hid : id < 2 ^ 16)
    (hN : 1 ≤ size) (hN16 : size < 2 ^ 16) :
    (Ctl.fill_create_iocq phys id size (Submission_queue.clear_entry e)).opc
      = Acs.Create_iocq ∧
    (Ctl.fill_create_iocq phys id size (Submission_queue.clear_entry e)).prp1 = u64 phys ∧
    (Ctl.fill_create_iocq phys id size (Submission_queue.clear_entry e)).qid = id ∧
    (Ctl.fill_create_iocq phys id size (Submission_queue.clear_entry e)).qsize = size - 1 ∧
    (Ctl.fill_create_iocq phys id size (Submission_queue.clear_entry e)).ien = 1 ∧
    (Ctl.fill_create_iocq phys id size (Submission_queue.clear_entry e)).pc = 1 := by
  have hd10 : (default : Sqe).cdw10 = 0 := rfl
  have hd11 : (default : Sqe).cdw11 = 0 := rfl
  have hu : u16 size = size := Nat.mod_eq_of_lt hN16
  unfold Ctl.fill_create_iocq Submission_queue.clear_entry Sqe.opc Sqe.qid Sqe.qsize Sqe.ien
    Sqe.pc Sqe.set_opc Sqe.set_psdt bf_set bf_get Acs.Create_iocq Psdt.Use_prps
  simp only [hd10, hd11, hu]
  norm_num at hid hN16 ⊢
  repeat' apply And.intro
  all_goals omega

theorem fill_create_iosq_fields (phys id size : Nat) (e : Sqe) (hid : id < 2 ^ 16)
    (hN : 1 ≤ size) (hN16 : size < 2 ^ 16) :
    (Ctl.fill_create_iosq phys id size (Submission_queue.clear_entry e)).opc
      = Acs.Create_iosq ∧
    (Ctl.fill_create_iosq phys id size (Submission_queue.clear_entry e)).prp1 = u64 phys ∧
    (Ctl.fill_create_iosq phys id size (Submission_queue.clear_entry e)).qid = id ∧
    (Ctl.fill_create_iosq phys id size (Submission_queue.clear_entry e)).qsize = size - 1 ∧
    (Ctl.fill_create_iosq phys id size (Submission_queue.clear_entry e)).pc = 1 ∧
    (Ctl.fill_create_iosq phys id size (Submission_queue.clear_entry e)).cqid = id := by
  have hd10 : (default : Sqe).cdw10 = 0 := rfl
  have hd11 : (default : Sqe).cdw11 = 0 := rfl
  have hu : u16 size = size := Nat.mod_eq_of_lt hN16
  unfold Ctl.fill_create_iosq Submission_queue.clear_entry Sqe.opc Sqe.qid Sqe.qsize Sqe.cqid
    Sqe.pc Sqe.set_opc Sqe.set_psdt bf_set bf_get Acs.Create_iosq Psdt.Use_prps
  simp only [hd10, hd11, hu]
  norm_num at hid hN16 ⊢
  repeat' apply And.intro
  all_goals omega

/-- C25: for every 16-bit queue id `id` and queue size `N` (`1 <= N < 2^16`),
on a controller whose admin submission queue has a free slot at its tail:
`Ctl::create_iocq` leaves in that slot an entry with opcode Create I/O CQ,
`PRP1` the bus address of the new completion queue, `QID = id`,
`QSIZE = N - 1`, `IEN = 1` and `PC = 1`, and rings the admin tail doorbell;
`Ctl::create_iosq` leaves an entry with opcode Create I/O SQ, `PRP1` the bus
address of the new submission queue, `QID = id`, `QSIZE = N - 1`, `PC = 1` and
`CQID = id`, and rings the doorbell. For a namespace `nsid`,
`async_loop_init` is `create_iocq` with queue id `nsid` (as a 16-bit value)
and size `Ioq_size`, its continuation on status 0 is `create_iosq` with the
same id and size, and the `CQID` of that Create I/O SQ entry equals its `QID`
and the `QID` of the Create I/O CQ entry. -/
theorem create_io_queue_entries (w : World) (c : Ctl) (id size sgls nsids nsid lba_sz : Nat)
    (cb : Admin_cb)
    (hf : c.asq.is_full = false) (hc : c.asq.callbacks.getD c.asq.tail none = none)
    (ht : c.asq.tail < c.asq.entries.length)
    (hid : id < 2 ^ 16) (hN : 1 ≤ size) (hN16 : size < 2 ^ 16) :
    (((c.create_iocq w id size cb).asq.entry c.asq.tail).opc = Acs.Create_iocq ∧
      ((c.create_iocq w id size cb).asq.entry c.asq.tail).prp1 = u64 (w.cq_phys id) ∧
      ((c.create_iocq w id size cb).asq.entry c.asq.tail).qid = id ∧
      ((c.create_iocq w id size cb).asq.entry c.asq.tail).qsize = size - 1 ∧
      ((c.create_iocq w id size cb).asq.entry c.asq.tail).ien = 1 ∧
      ((c.create_iocq w id size cb).asq.entry c.asq.tail).pc = 1 ∧
      (c.create_iocq w id size cb).regs
        = c.regs ++ [(c.asq.tdbl, c.asq.wrap_around (c.asq.tail + 1))]) ∧
    (((c.create_iosq w id size sgls cb).asq.entry c.asq.tail).opc = Acs.Create_iosq ∧
      ((c.create_iosq w id size sgls cb).asq.entry c.asq.tail).prp1 = u64 (w.sq_phys id) ∧
      ((c.create_iosq w id size sgls cb).asq.entry c.asq.tail).qid = id ∧
      ((c.create_iosq w id size sgls cb).asq.entry c.asq.tail).qsize = size - 1 ∧
      ((c.create_iosq w id size sgls cb).asq.entry c.asq.tail).pc = 1 ∧
      ((c.create_iosq w id size sgls cb).asq.entry c.asq.tail).cqid = id ∧
      (c.create_iosq w id size sgls cb).regs
        = c.regs ++ [(c.asq.tdbl, c.asq.wrap_around (c.asq.tail + 1))]) ∧
    (c.async_loop_init w nsids nsid lba_sz
        = c.create_iocq w nsid Ioq_size (Admin_cb.create_iocq nsids nsid lba_sz) ∧
      Ctl.run_cb w c (Admin_cb.create_iocq nsids nsid lba_sz) 0
        = c.create_iosq w nsid Ioq_size (if c.supports_sgl then Ioq_sgls else 0)
            (Admin_cb.create_iosq nsids nsid lba_sz) ∧
      ((c.async_loop_init w nsids nsid lba_sz).asq.entry c.asq.tail).qid = u16 nsid ∧
      ((Ctl.run_cb w c (Admin_cb.create_iocq nsids nsid lba_sz) 0).asq.entry c.asq.tail).qid
        = u16 nsid ∧
      ((Ctl.run_cb w c (Admin_cb.create_iocq nsids nsid lba_sz) 0).asq.entry c.asq.tail).cqid
        = u16 nsid) := by
  have hu : u16 id = id := Nat.mod_eq_of_lt hid
  have h16 : u16 nsid < 2 ^ 16 := Nat.mod_lt _ (by norm_num)
  have hcq : ∀ (i s : Nat) (k : Admin_cb),
      (c.create_iocq w i s k).asq.entry c.asq.tail
        = Ctl.fill_create_iocq (w.cq_phys (u16 i)) (u16 i) s
            (Submission_queue.clear_entry (c.asq.entry c.asq.tail)) ∧
      (c.create_iocq w i s k).regs
        = c.regs ++ [(c.asq.tdbl, c.asq.wrap_around (c.asq.tail + 1))] := by
    intro i s k
    exact Ctl.admin_command_entry c _ _ _ hf hc ht
  have hsq : ∀ (i s g : Nat) (k : Admin_cb),
      (c.create_iosq w i s g k).asq.entry c.asq.tail
        = Ctl.fill_create_iosq (w.sq_phys (u16 i)) (u16 i) s
            (Submission_queue.clear_entry (c.asq.entry c.asq.tail)) ∧
      (c.create_iosq w i s g k).regs
        = c.regs ++ [(c.asq.tdbl, c.asq.wrap_around (c.asq.tail + 1))] := by
    intro i s g k
    exact Ctl.admin_command_entry c _ _ _ hf hc ht
  have hrun : Ctl.run_cb w c (Admin_cb.create_iocq nsids nsid lba_sz) 0
      = c.create_iosq w nsid Ioq_size (if c.supports_sgl then Ioq_sgls else 0)
          (Admin_cb.create_iosq nsids nsid lba_sz) := by
    simp [Ctl.run_cb]
  refine ⟨?_, ?_, rfl, hrun, ?_, ?_, ?_⟩
  · rw [(hcq id size cb).1, (hcq id size cb).2, hu]
    obtain ⟨a1, a2, a3, a4, a5, a6⟩ :=
      fill_create_iocq_fields (w.cq_phys id) id size (c.asq.entry c.asq.tail) hid hN hN16
    exact ⟨a1, a2, a3, a4, a5, a6, rfl⟩
  · rw [(hsq id size sgls cb).1, (hsq id size sgls cb).2, hu]
    obtain ⟨a1, a2, a3, a4, a5, a6⟩ :=
      fill_create_iosq_fields (w.sq_phys id) id size (c.asq.entry c.asq.tail) hid hN hN16
    exact ⟨a1, a2, a3, a4, a5, a6, rfl⟩
  · show ((c.create_iocq w nsid Ioq_size _).asq.entry c.asq.tail).qid = _
    rw [(hcq nsid Ioq_size _).1]
    exact (fill_create_iocq_fields _ (u16 nsid) Ioq_size _ h16 (by decide) (by decide)).2.2.1
  · rw [hrun, (hsq nsid Ioq_size _ _).1]
    exact (fill_create_iosq_fields _ (u16 nsid) Ioq_size _ h16 (by decide) (by decide)).2.2.1
  · rw [hrun, (hsq nsid Ioq_size _ _).1]
    exact (fill_create_iosq_fields _ (u16 nsid) Ioq_size _ h16 (by decide)
      (by decide)).2.2.2.2.2

/-- Witness of C25: on a controller fresh from bring-up, the queue pair of
namespace 1 with `Ioq_size = 32` entries: the Create I/O CQ entry in admin
slot 0 has `QID = 1`, `QSIZE = 31`, `IEN = 1`, `PC = 1`, and the Create I/O SQ
entry has `QID = 1`, `QSIZE = 31`, `PC = 1`, `CQID = 1`. -/
theorem create_io_queue_entries_witness :
    ((((Ctl.init 0 false (fun _ => none)).create_iocq World.s6 1 32 Admin_cb.identify).asq.entry 0).qid = 1 ∧
      (((Ctl.init 0 false (fun _ => none)).create_iocq World.s6 1 32 Admin_cb.identify).asq.entry 0).qsize
        = 32 - 1 ∧
      (((Ctl.init 0 false (fun _ => none)).create_iocq World.s6 1 32 Admin_cb.identify).asq.entry 0).ien = 1 ∧
      (((Ctl.init 0 false (fun _ => none)).create_iocq World.s6 1 32 Admin_cb.identify).asq.entry 0).pc = 1) ∧
    ((((Ctl.init 0 false (fun _ => none)).create_iosq World.s6 1 32 0 Admin_cb.identify).asq.entry 0).qid = 1 ∧
      (((Ctl.init 0 false (fun _ => none)).create_iosq World.s6 1 32 0 Admin_cb.identify).asq.entry 0).qsize
        = 32 - 1 ∧
      (((Ctl.init 0 false (fun _ => none)).create_iosq World.s6 1 32 0 Admin_cb.identify).asq.entry 0).pc = 1 ∧
      (((Ctl.init 0 false (fun _ => none)).create_iosq World.s6 1 32 0 Admin_cb.identify).asq.entry 0).cqid
        = 1) :=
  have h := create_io_queue_entries World.s6 (Ctl.init 0 false (fun _ => none)) 1 32 0 3 1 512
    Admin_cb.identify (by decide) (by decide) (by decide) (by decide) (by decide) (by decide)
  ⟨⟨h.1.2.2.1, h.1.2.2.2.1, h.1.2.2.2.2.1, h.1.2.2.2.2.2.1⟩,
   ⟨h.2.1.2.2.1, h.2.1.2.2.2.1, h.2.1.2.2.2.2.1, h.2.1.2.2.2.2.2.1⟩⟩

/-! ## The serial number (`Ctl::identify`, `Nvme_device::Nvme_device`) -/

theorem take_indexOf_eq_takeWhile (a : Nat) :
    ∀ s : List Nat, s.take (s.indexOf a) = s.takeWhile (fun b => b != a) := by
  intro s
  induction s with
  | nil => rfl
  | cons x xs ih =>
    by_cases hx : x = a
    · subst hx
      simp [List.indexOf_cons, List.takeWhile_cons]
    · have hne : (x == a) = false := beq_false_of_ne hx
      have hne2 : (x != a) = true := by simp [bne, hne]
      rw [List.indexOf_cons, hne, List.takeWhile_cons, hne2]
      simp only [cond_false, List.take_succ_cons, if_true]
      rw [ih]

theorem Ctl.admin_command_sn (c : Ctl) (fill : Sqe → Sqe) (cb : Admin_cb) (ev : Event) :
    (c.admin_command fill cb ev).sn = c.sn ∧
    (c.admin_command fill cb ev).thrown = c.thrown ∧
    (c.admin_command fill cb ev).acq = c.acq := by
  unfold Ctl.admin_command
  rcases h : c.asq.produce with ⟨_ | i, q⟩ <;> exact ⟨rfl, rfl, rfl⟩

/-- C26 (behaviour of the code): the continuation of `Ctl::identify` computes
the serial number from the first 20 bytes of the field as
`_sn.erase(_sn.find(' '))`. If one of the 20 bytes is a space, the statements
yield the prefix before the first space, which the continuation stores in
`_sn` before it goes on. If none of the 20 bytes is a space, `find` returns
`npos` and `erase(npos)` throws `std::out_of_range`: `_sn` is left holding the
20 bytes assigned by the statement before, and the exception leaves the
continuation before the SGL flag is set and before Identify Namespace is
issued, so the parsing does fail and no device identifier is ever built from
that serial number. -/
theorem identify_sn_cases (w : World) (c : Ctl) :
    (0x20 ∈ w.ic_sn.take 20 →
      Ctl.identify_sn w.ic_sn = some ((w.ic_sn.take 20).takeWhile (fun b => b != 0x20)) ∧
      (Ctl.run_cb w c Admin_cb.identify 0).sn
        = (w.ic_sn.take 20).takeWhile (fun b => b != 0x20) ∧
      (Ctl.run_cb w c Admin_cb.identify 0).thrown = c.thrown) ∧
    (0x20 ∉ w.ic_sn.take 20 →
      Ctl.identify_sn w.ic_sn = none ∧
      Ctl.run_cb w c Admin_cb.identify 0
        = { c with sn := w.ic_sn.take 20, thrown := true }) := by
  refine ⟨?_, ?_⟩
  · intro h
    have hs : Ctl.identify_sn w.ic_sn
        = some ((w.ic_sn.take 20).takeWhile (fun b => b != 0x20)) := by
      unfold Ctl.identify_sn std_string_find std_string_erase
      rw [if_pos h, if_neg (by
        have := List.indexOf_le_length (a := 0x20) (l := w.ic_sn.take 20)
        omega), take_indexOf_eq_takeWhile]
    refine ⟨hs, ?_, ?_⟩
    · simp only [Ctl.run_cb, ne_eq, not_true_eq_false, if_false, hs, Ctl.identify_namespace]
      rw [(Ctl.admin_command_sn _ _ _ _).1]
    · simp only [Ctl.run_cb, ne_eq, not_true_eq_false, if_false, hs, Ctl.identify_namespace]
      rw [(Ctl.admin_command_sn _ _ _ _).2.1]
  · intro h
    have hs : Ctl.identify_sn w.ic_sn = none := by
      unfold Ctl.identify_sn std_string_find std_string_erase std_string_npos
      rw [if_neg h, if_pos (by
        have : (w.ic_sn.take 20).length ≤ 20 := by
          rw [List.length_take]; exact Nat.min_le_left _ _
        omega)]
    refine ⟨hs, ?_⟩
    simp only [Ctl.run_cb, ne_eq, not_true_eq_false, if_false, hs]

/-- Witness of C26: with the serial number field `SN1` padded with spaces the
stored serial number is `SN1` and the hardware identifier of namespace 1 is
`SN1:n1`; with the field `ABCDEFGHIJ0123456789` (no space) the statements
throw, the continuation is left with the 20 bytes in `_sn`, and discovery
ends after Identify Controller: no Identify Namespace is issued and nothing
is published. -/
theorem identify_sn_cases_witness :
    ((Ctl.run_cb World.s6 (Ctl.init 0 false (fun _ => none)) Admin_cb.identify 0).sn
        = [0x53, 0x4e, 0x31] ∧
      Nvme_device.hid
          (Ctl.run_cb World.s6 (Ctl.init 0 false (fun _ => none)) Admin_cb.identify 0).sn 1
        = [0x53, 0x4e, 0x31, 0x3a, 0x6e, 0x31]) ∧
    (Ctl.identify_sn World.full_sn.ic_sn = none ∧
      Ctl.run_cb World.full_sn (Ctl.init 0 false (fun _ => none)) Admin_cb.identify 0
        = { Ctl.init 0 false (fun _ => none) with
            sn := World.full_sn.ic_sn, thrown := true }) ∧
    ((Machine.discover World.full_sn 0 false 16).ctl.trace = [Event.identify_controller] ∧
      (Machine.discover World.full_sn 0 false 16).ctl.thrown = true ∧
      (Machine.discover World.full_sn 0 false 16).ctl.sn = World.full_sn.ic_sn ∧
      (Machine.discover World.full_sn 0 false 16).ctl.nss = []) :=
  ⟨⟨((identify_sn_cases World.s6 (Ctl.init 0 false (fun _ => none))).1 (by decide)).2.1,
    by
      rw [((identify_sn_cases World.s6 (Ctl.init 0 false (fun _ => none))).1 (by decide)).2.1]
      decide⟩,
   (identify_sn_cases World.full_sn (Ctl.init 0 false (fun _ => none))).2 (by decide),
   by decide⟩

/-! ## Interrupt dispatch (`Ctl::handle_irq`) -/

theorem Ctl.run_cb_acq (w : World) (c : Ctl) (cb : Admin_cb) (s : Nat) :
    (Ctl.run_cb w c cb s).acq = c.acq := by
  cases cb with
  | identify =>
    simp only [Ctl.run_cb]
    split
    · rfl
    · split
      · rfl
      · exact (Ctl.admin_command_sn _ _ _ _).2.2
  | identify_namespace nn n =>
    simp only [Ctl.run_cb]
    repeat' split
    all_goals first
      | rfl
      | exact (Ctl.admin_command_sn _ _ _ _).2.2
  | create_iocq nsids nsid lba_sz =>
    simp only [Ctl.run_cb]
    repeat' split
    all_goals first
      | rfl
      | exact (Ctl.admin_command_sn _ _ _ _).2.2
  | create_iosq nsids nsid lba_sz =>
    simp only [Ctl.run_cb]
    repeat' split
    all_goals first
      | rfl
      | exact (Ctl.admin_command_sn _ _ _ _).2.2

/-- C23: `Ctl::handle_irq()` looks at one admin completion entry, the one at
the head of the admin completion queue. If its phase tag is not the expected
one, no entry is present and the controller, so both admin queues, is left
unchanged. If the entry is valid, belongs to the admin queue and a
continuation is stored in the slot of its `CID` (the two assertions of the
handler): the continuation runs once, on the state in which the entry is
consumed (the completion queue head advanced by one), the head of the admin
submission queue is the entry's `SQHD`, and the slot of the `CID` has already
been emptied (tail, entries, doorbell log and events still as before); it is
run with the entry's status field; and when it returns, the handler writes
the advanced head to the admin completion-queue head doorbell, as the last
register write. Exactly one entry has been consumed afterwards. If an
exception leaves the continuation, the handler is left without the doorbell
write. -/
theorem handle_irq_dispatch (w : World) (c : Ctl) (cb : Admin_cb) :
    (c.head_cqe.p ≠ (if c.acq.p then 1 else 0) → Ctl.handle_irq w c = c) ∧
    (c.head_cqe.p = (if c.acq.p then 1 else 0) → c.head_cqe.sqid = Aq_id →
      c.asq.callbacks.getD c.head_cqe.cid none = some cb →
      (c.detached.acq.head = c.acq.wrap_around (c.acq.head + 1) ∧
        c.detached.asq.head = c.head_cqe.sqhd ∧
        c.detached.asq.callbacks = c.asq.callbacks.set c.head_cqe.cid none ∧
        c.detached.asq.callbacks.getD c.head_cqe.cid none = none ∧
        c.detached.asq.tail = c.asq.tail ∧ c.detached.asq.entries = c.asq.entries ∧
        c.detached.regs = c.regs ∧ c.detached.trace = c.trace) ∧
      ((Ctl.run_cb w c.detached cb c.head_cqe.sf).thrown = false →
        Ctl.handle_irq w c =
          { Ctl.run_cb w c.detached cb c.head_cqe.sf with
            regs := (Ctl.run_cb w c.detached cb c.head_cqe.sf).regs
              ++ [(c.acq.hdbl, c.acq.wrap_around (c.acq.head + 1))] }) ∧
      ((Ctl.run_cb w c.detached cb c.head_cqe.sf).thrown = true →
        Ctl.handle_irq w c = Ctl.run_cb w c.detached cb c.head_cqe.sf) ∧
      (Ctl.handle_irq w c).acq = c.acq.consume.2 ∧
      (Ctl.handle_irq w c).acq.head = c.acq.wrap_around (c.acq.head + 1)) := by
  refine ⟨?_, ?_⟩
  · intro hp
    unfold Ctl.handle_irq
    rw [Completion_queue.consume_stale c.acq hp]
  · intro hv hq hcb
    have hcons : c.acq.consume.2.head = c.acq.wrap_around (c.acq.head + 1) := by
      rw [Completion_queue.consume_valid c.acq hv]
    have hacq : (Ctl.run_cb w c.detached cb c.head_cqe.sf).acq = c.acq.consume.2 :=
      Ctl.run_cb_acq w c.detached cb c.head_cqe.sf
    have hirq := Ctl.handle_irq_valid w c cb hv hq hcb
    have hsq : u16 c.head_cqe.sqhd = c.head_cqe.sqhd := by
      unfold Cqe.sqhd bf_get u16
      norm_num
    have hnone : (c.asq.callbacks.set c.head_cqe.cid none).getD c.head_cqe.cid none
        = none := by
      by_cases hl : c.head_cqe.cid < c.asq.callbacks.length
      · exact getD_set_same _ _ _ _ hl
      · simp [List.getD_eq_getElem?_getD, List.getElem?_set, hl]
    have hdoor : (Ctl.run_cb w c.detached cb c.head_cqe.sf).thrown = false →
        Ctl.handle_irq w c =
          { Ctl.run_cb w c.detached cb c.head_cqe.sf with
            regs := (Ctl.run_cb w c.detached cb c.head_cqe.sf).regs
              ++ [(c.acq.hdbl, c.acq.wrap_around (c.acq.head + 1))] } := by
      intro ht
      rw [hirq, if_neg (by rw [ht]; simp)]
      have hh : c.acq.consume.2.hdbl = c.acq.hdbl := by
        rw [Completion_queue.consume_valid c.acq hv]
        rfl
      unfold Completion_queue.complete
      rw [hacq, hcons, hh]
    have hthrow : (Ctl.run_cb w c.detached cb c.head_cqe.sf).thrown = true →
        Ctl.handle_irq w c = Ctl.run_cb w c.detached cb c.head_cqe.sf := by
      intro ht
      rw [hirq, if_pos ht]
    have hres : (Ctl.handle_irq w c).acq = c.acq.consume.2 := by
      cases ht : (Ctl.run_cb w c.detached cb c.head_cqe.sf).thrown
      · rw [hdoor ht]
        exact hacq
      · rw [hthrow ht]
        exact hacq
    refine ⟨⟨hcons, hsq, rfl, hnone, rfl, rfl, rfl, rfl⟩, hdoor, hthrow, hres, ?_⟩
    rw [hres, hcons]

/-- Witness of C23: the first interrupt of the discovery of scenario S6. The
completion entry of Identify Controller (slot and `CID` 0, `SQHD = 1`, status
0) is at the head of the admin completion queue. The continuation of
`Ctl::identify` runs with slot 0 emptied and the submission queue head 1, it
issues Identify Namespace 1 (tail doorbell := 0), and after it the handler
writes 1 to the head doorbell of the admin completion queue (offset
`0x1004`). -/
theorem handle_irq_dispatch_witness :
    (Ctl.example_irq.detached.asq.head = 1 ∧
      Ctl.example_irq.detached.asq.callbacks = [none, none]) ∧
    ((Ctl.handle_irq World.s6 Ctl.example_irq).regs = [(0x1000, 1), (0x1000, 0), (0x1004, 1)] ∧
      (Ctl.handle_irq World.s6 Ctl.example_irq).trace
        = [Event.identify_controller, Event.identify_namespace 1] ∧
      (Ctl.handle_irq World.s6 Ctl.example_irq).asq.callbacks
        = [none, some (Admin_cb.identify_namespace 3 1)]) ∧
    (Ctl.handle_irq World.s6 Ctl.example_irq).acq.head = 1 :=
  have h := (handle_irq_dispatch World.s6 Ctl.example_irq Admin_cb.identify).2
    (by decide) (by decide) (by decide)
  ⟨⟨h.1.2.1, h.1.2.2.1⟩,
   ⟨(congrArg Ctl.regs (h.2.1 (by decide))).trans (by decide),
    (congrArg Ctl.trace (h.2.1 (by decide))).trans (by decide),
    (congrArg (fun x => x.asq.callbacks) (h.2.1 (by decide))).trans (by decide)⟩,
   h.2.2.2.2⟩

/-! ## Controller bring-up (`Ctl::Ctl`): when it fails -/

theorem mps_supported_false_iff (ps a b : Nat) (h : ps - 12 < 16) :
    Ctl.mps_supported ps a b = false ↔ (ps - 12 < a ∨ b < ps - 12) := by
  unfold Ctl.mps_supported
  have e : (ps - 12) % 2 ^ 4 = ps - 12 := Nat.mod_eq_of_lt (by norm_num; exact h)
  rw [e]
  simp
  constructor
  · intro h
    by_cases ha : a ≤ ps - 12
    · exact Or.inr (h ha)
    · exact Or.inl (by omega)
  · rintro (h | h) ha
    · omega
    · exact h

theorem Ctl.wait_ready_some (csts : Nat → Nat) :
    ∀ (fuel start k : Nat), start ≤ k → k < start + fuel →
      bf_get 0 0 (u32 (csts k)) = 1 → ∃ j, Ctl.wait_ready csts fuel start = some j := by
  intro fuel
  induction fuel with
  | zero => intro start k h1 h2 _; omega
  | succ fuel ih =>
    intro start k h1 h2 h3
    unfold Ctl.wait_ready
    by_cases hr : bf_get 0 0 (u32 (csts start)) = 1
    · exact ⟨start, by rw [if_pos hr]⟩
    · rw [if_neg hr]
      have hne : start ≠ k := by
        intro he
        rw [he] at hr
        exact hr h3
      exact ih (start + 1) k (by omega) (by omega) h3

theorem aqa_two_entries : Ctl_aqa.two_entries = 0x10001 ∧
    bf_get 16 27 Ctl_aqa.two_entries + 1 = 1 + 1 ∧
    bf_get 0 11 Ctl_aqa.two_entries + 1 = 1 + 1 := by
  unfold Ctl_aqa.two_entries bf_set bf_get
  norm_num

theorem Ctl.bring_up_css (env : Pci_env) (ps : Nat) (use_sgls : Bool) (fuel : Nat)
    (h14 : 0 ≤ env.cfg_read_status 0x14) (h10 : 0 ≤ env.cfg_read_status 0x10)
    (hcss : Ctl_cap.css (u64 env.cap) % 2 = 0) :
    Ctl.bring_up env ps use_sgls fuel = Bringup.failed (- L4_ENOSYS) [] := by
  unfold Ctl.bring_up
  rw [if_neg (by omega), if_neg (by omega)]
  simp only [hcss, if_true]

theorem Ctl.bring_up_mps (env : Pci_env) (ps : Nat) (use_sgls : Bool) (fuel : Nat)
    (h14 : 0 ≤ env.cfg_read_status 0x14) (h10 : 0 ≤ env.cfg_read_status 0x10)
    (hcss : Ctl_cap.css (u64 env.cap) % 2 = 1)
    (hmps : Ctl.mps_supported ps (Ctl_cap.mpsmin (u64 env.cap)) (Ctl_cap.mpsmax (u64 env.cap))
      = false) :
    Ctl.bring_up env ps use_sgls fuel = Bringup.failed (- L4_ENOSYS)
      [(Regs.Ctl.Cc, 0), (Regs.Ctl.Aqa, 0x10001),
       (Regs.Ctl.Acq, u32 (u64 env.acq_phys % 2 ^ 32)),
       (Regs.Ctl.Acq + 4, u32 (u64 env.acq_phys / 2 ^ 32)),
       (Regs.Ctl.Asq, u32 (u64 env.asq_phys % 2 ^ 32)),
       (Regs.Ctl.Asq + 4, u32 (u64 env.asq_phys / 2 ^ 32))] := by
  unfold Ctl.bring_up
  rw [if_neg (by omega), if_neg (by omega)]
  simp only [hcss, hmps, if_true, aqa_two_entries.1]
  rfl

theorem Ctl.bring_up_enabled (env : Pci_env) (ps : Nat) (use_sgls : Bool) (fuel : Nat)
    (h14 : 0 ≤ env.cfg_read_status 0x14) (h10 : 0 ≤ env.cfg_read_status 0x10)
    (hcss : Ctl_cap.css (u64 env.cap) % 2 = 1)
    (hmps : Ctl.mps_supported ps (Ctl_cap.mpsmin (u64 env.cap)) (Ctl_cap.mpsmax (u64 env.cap))
      = true) (h04 : 0 ≤ env.cfg_read_status 0x04) (hw04 : 0 ≤ env.cfg_write_status 0x04) :
    (Ctl.wait_ready env.csts fuel 0 = none →
      ∃ regs, Ctl.bring_up env ps use_sgls fuel = Bringup.spinning regs) ∧
    (∀ j, Ctl.wait_ready env.csts fuel 0 = some j →
      ∃ c w, Ctl.bring_up env ps use_sgls fuel = Bringup.ready c w ∧
        c.asq = (Ctl.init (Ctl_cap.dstrd (u64 env.cap)) use_sgls env.asq_raw).asq ∧
        c.acq = (Ctl.init (Ctl_cap.dstrd (u64 env.cap)) use_sgls env.asq_raw).acq ∧
        c.fault = false ∧
        c.regs.getLast? = some (Regs.Ctl.Cc, Ctl_cc.enabled (Ctl_cc.configured (ps - 12)))) := by
  have h1 := aqa_two_entries.2.1
  have h2 := aqa_two_entries.2.2
  refine ⟨?_, ?_⟩
  · intro hw
    unfold Ctl.bring_up
    rw [if_neg (by omega), if_neg (by omega)]
    simp only [hcss, hmps, hw]
    exact ⟨_, rfl⟩
  · intro j hw
    unfold Ctl.bring_up
    rw [if_neg (by omega), if_neg (by omega)]
    simp only [hcss, hmps, hw, h1, h2]
    rw [if_neg (show ¬ (true = false) by simp),
      if_neg (show ¬ env.cfg_read_status 4 < 0 by omega)]
    by_cases hcmd : u16 (env.cfg 4) / 4 % 2 = 0
    · rw [if_pos hcmd, if_neg (show ¬ env.cfg_write_status 4 < 0 by omega)]
      exact ⟨_, _, rfl, rfl, rfl, rfl, by simp⟩
    · rw [if_neg hcmd]
      exact ⟨_, _, rfl, rfl, rfl, rfl, by simp⟩

/-- C24 (as amended): for a host page shift `ps` with `12 <= ps <= 27` (so that
`ps - 12` fits the four-bit field `CC.MPS`). Provided that every access to the
PCI configuration space made by the constructor succeeds, bring-up fails if
and only if bit 0 of `CAP.CSS` is clear or `ps - 12` lies outside
`[CAP.MPSMIN, CAP.MPSMAX]`. In the `CSS` case it fails with `-L4_ENOSYS` before
any controller register is written; in the page-size case it fails with
`-L4_ENOSYS` after `CC := 0`, `AQA` and the four words of the admin queue base
addresses were written, before the controller is enabled. When neither
condition holds and some read of `CSTS` finds `RDY` set, the constructor
completes, with the admin queue pair of two entries each and the enabling
write to `CC` as its last register write. When one of the two reads of the
configuration space for the BAR (registers `0x14` and `0x10`) fails, bring-up
fails with the error of such an access before any register write, whatever
`CAP` holds. -/
theorem bring_up_fails_iff (env : Pci_env) (ps : Nat) (use_sgls : Bool) (fuel : Nat)
    (hps : 12 ≤ ps) (hps2 : ps < 28) :
    ((∀ r, 0 ≤ env.cfg_read_status r ∧ 0 ≤ env.cfg_write_status r) →
      ((∃ err regs, Ctl.bring_up env ps use_sgls fuel = Bringup.failed err regs) ↔
        (Ctl_cap.css (u64 env.cap) % 2 = 0 ∨ ps - 12 < Ctl_cap.mpsmin (u64 env.cap) ∨
          Ctl_cap.mpsmax (u64 env.cap) < ps - 12)) ∧
      (Ctl_cap.css (u64 env.cap) % 2 = 0 →
        Ctl.bring_up env ps use_sgls fuel = Bringup.failed (- L4_ENOSYS) []) ∧
      (Ctl_cap.css (u64 env.cap) % 2 = 1 →
        (ps - 12 < Ctl_cap.mpsmin (u64 env.cap) ∨ Ctl_cap.mpsmax (u64 env.cap) < ps - 12) →
        Ctl.bring_up env ps use_sgls fuel = Bringup.failed (- L4_ENOSYS)
          [(Regs.Ctl.Cc, 0), (Regs.Ctl.Aqa, 0x10001),
           (Regs.Ctl.Acq, u32 (u64 env.acq_phys % 2 ^ 32)),
           (Regs.Ctl.Acq + 4, u32 (u64 env.acq_phys / 2 ^ 32)),
           (Regs.Ctl.Asq, u32 (u64 env.asq_phys % 2 ^ 32)),
           (Regs.Ctl.Asq + 4, u32 (u64 env.asq_phys / 2 ^ 32))]) ∧
      (¬ (Ctl_cap.css (u64 env.cap) % 2 = 0 ∨ ps - 12 < Ctl_cap.mpsmin (u64 env.cap) ∨
          Ctl_cap.mpsmax (u64 env.cap) < ps - 12) →
        (∃ k, k < fuel ∧ bf_get 0 0 (u32 (env.csts k)) = 1) →
        ∃ c w, Ctl.bring_up env ps use_sgls fuel = Bringup.ready c w ∧
          c.asq = (Ctl.init (Ctl_cap.dstrd (u64 env.cap)) use_sgls env.asq_raw).asq ∧
          c.acq = (Ctl.init (Ctl_cap.dstrd (u64 env.cap)) use_sgls env.asq_raw).acq ∧
          c.fault = false ∧
          c.regs.getLast?
            = some (Regs.Ctl.Cc, Ctl_cc.enabled (Ctl_cc.configured (ps - 12))))) ∧
    ((env.cfg_read_status 0x14 < 0 ∨ env.cfg_read_status 0x10 < 0) →
      ∃ err, err < 0 ∧ Ctl.bring_up env ps use_sgls fuel = Bringup.failed err []) := by
  have hmi := mps_supported_false_iff ps (Ctl_cap.mpsmin (u64 env.cap))
    (Ctl_cap.mpsmax (u64 env.cap)) (by omega)
  refine ⟨?_, ?_⟩
  · intro hcfg
    have h14 := (hcfg 0x14).1
    have h10 := (hcfg 0x10).1
    have h04 := (hcfg 0x04).1
    have hw04 := (hcfg 0x04).2
    have hA : Ctl_cap.css (u64 env.cap) % 2 = 0 →
        Ctl.bring_up env ps use_sgls fuel = Bringup.failed (- L4_ENOSYS) [] :=
      Ctl.bring_up_css env ps use_sgls fuel h14 h10
    have hB : Ctl_cap.css (u64 env.cap) % 2 = 1 →
        (ps - 12 < Ctl_cap.mpsmin (u64 env.cap) ∨ Ctl_cap.mpsmax (u64 env.cap) < ps - 12) →
        Ctl.bring_up env ps use_sgls fuel = Bringup.failed (- L4_ENOSYS)
          [(Regs.Ctl.Cc, 0), (Regs.Ctl.Aqa, 0x10001),
           (Regs.Ctl.Acq, u32 (u64 env.acq_phys % 2 ^ 32)),
           (Regs.Ctl.Acq + 4, u32 (u64 env.acq_phys / 2 ^ 32)),
           (Regs.Ctl.Asq, u32 (u64 env.asq_phys % 2 ^ 32)),
           (Regs.Ctl.Asq + 4, u32 (u64 env.asq_phys / 2 ^ 32))] :=
      fun hc hm => Ctl.bring_up_mps env ps use_sgls fuel h14 h10 hc (hmi.mpr hm)
    refine ⟨?_, hA, hB, ?_⟩
    · constructor
      · rintro ⟨err, regs, hfail⟩
        by_contra hcond
        have hc1 : Ctl_cap.css (u64 env.cap) % 2 = 1 := by
          have : ¬ Ctl_cap.css (u64 env.cap) % 2 = 0 := fun h => hcond (Or.inl h)
          omega
        have hm : Ctl.mps_supported ps (Ctl_cap.mpsmin (u64 env.cap))
            (Ctl_cap.mpsmax (u64 env.cap)) = true := by
          cases hb : Ctl.mps_supported ps (Ctl_cap.mpsmin (u64 env.cap))
            (Ctl_cap.mpsmax (u64 env.cap))
          · exact absurd (Or.inr (hmi.mp hb)) hcond
          · rfl
        obtain ⟨e1, e2⟩ := Ctl.bring_up_enabled env ps use_sgls fuel h14 h10 hc1 hm h04 hw04
        cases hw : Ctl.wait_ready env.csts fuel 0 with
        | none =>
          obtain ⟨r, hr⟩ := e1 hw
          rw [hr] at hfail
          cases hfail
        | some j =>
          obtain ⟨c, cw, hr, _⟩ := e2 j hw
          rw [hr] at hfail
          cases hfail
      · intro hcond
        by_cases hc0 : Ctl_cap.css (u64 env.cap) % 2 = 0
        · exact ⟨_, _, hA hc0⟩
        · rcases hcond with h | h
          · exact absurd h hc0
          · exact ⟨_, _, hB (by omega) h⟩
    · intro hcond hrdy
      have hc1 : Ctl_cap.css (u64 env.cap) % 2 = 1 := by
        have : ¬ Ctl_cap.css (u64 env.cap) % 2 = 0 := fun h => hcond (Or.inl h)
        omega
      have hm : Ctl.mps_supported ps (Ctl_cap.mpsmin (u64 env.cap))
          (Ctl_cap.mpsmax (u64 env.cap)) = true := by
        cases hb : Ctl.mps_supported ps (Ctl_cap.mpsmin (u64 env.cap))
          (Ctl_cap.mpsmax (u64 env.cap))
        · exact absurd (Or.inr (hmi.mp hb)) hcond
        · rfl
      obtain ⟨k, hk, hr⟩ := hrdy
      obtain ⟨j, hj⟩ := Ctl.wait_ready_some env.csts fuel 0 k (Nat.zero_le _) (by omega) hr
      exact (Ctl.bring_up_enabled env ps use_sgls fuel h14 h10 hc1 hm h04 hw04).2 j hj
  · intro h
    unfold Ctl.bring_up
    by_cases h14 : env.cfg_read_status 0x14 < 0
    · exact ⟨_, h14, by rw [if_pos h14]⟩
    · rcases h with h | h
      · exact absurd h h14
      · exact ⟨_, h, by rw [if_neg h14, if_pos h]⟩

/-- Witness of C24 (as amended): with 4 KiB pages (`ps = 12`) the controller
of `Pci_env.example_env` (`CSS` bit 0 set, `MPSMIN = MPSMAX = 0`, ready at the
third read of `CSTS`) is brought up; the same controller with `CAP = 0`
(`CSS` bit 0 clear) fails before any register write; and with 64 KiB host
pages (`ps = 16`) it fails after six register writes. -/
theorem bring_up_fails_iff_witness :
    (∃ c w, Ctl.bring_up Pci_env.example_env 12 false 8 = Bringup.ready c w ∧
      c.asq = (Ctl.init (Ctl_cap.dstrd (u64 Pci_env.example_env.cap)) false
        Pci_env.example_env.asq_raw).asq ∧
      c.acq = (Ctl.init (Ctl_cap.dstrd (u64 Pci_env.example_env.cap)) false
        Pci_env.example_env.asq_raw).acq ∧
      c.fault = false ∧
      c.regs.getLast? = some (Regs.Ctl.Cc, Ctl_cc.enabled (Ctl_cc.configured (12 - 12)))) ∧
    Ctl.bring_up { Pci_env.example_env with cap := 0 } 12 false 8
      = Bringup.failed (- L4_ENOSYS) [] ∧
    Ctl.bring_up Pci_env.example_env 16 false 8 = Bringup.failed (- L4_ENOSYS)
      [(Regs.Ctl.Cc, 0), (Regs.Ctl.Aqa, 0x10001),
       (Regs.Ctl.Acq, u32 (u64 Pci_env.example_env.acq_phys % 2 ^ 32)),
       (Regs.Ctl.Acq + 4, u32 (u64 Pci_env.example_env.acq_phys / 2 ^ 32)),
       (Regs.Ctl.Asq, u32 (u64 Pci_env.example_env.asq_phys % 2 ^ 32)),
       (Regs.Ctl.Asq + 4, u32 (u64 Pci_env.example_env.asq_phys / 2 ^ 32))] :=
  ⟨((bring_up_fails_iff Pci_env.example_env 12 false 8 (by decide) (by decide)).1
      (fun _ => ⟨Int.le_refl 0, Int.le_refl 0⟩)).2.2.2 (by decide) ⟨2, by decide, by decide⟩,
   ((bring_up_fails_iff { Pci_env.example_env with cap := 0 } 12 false 8 (by decide)
      (by decide)).1 (fun _ => ⟨Int.le_refl 0, Int.le_refl 0⟩)).2.1 (by decide),
   ((bring_up_fails_iff Pci_env.example_env 16 false 8 (by decide) (by decide)).1
      (fun _ => ⟨Int.le_refl 0, Int.le_refl 0⟩)).2.2.1 (by decide) (by decide)⟩

/-- Counterexample to C24 as stated: the controller of `Pci_env.cfg_fails`
supports the NVM command set (bit 0 of `CAP.CSS` is set) and 4 KiB pages
(`MPSMIN = 0 <= 12 - 12 <= MPSMAX = 0`), yet bring-up with 4 KiB host pages
fails: the read of configuration space register `0x10` returns `-L4_EIO`,
which `cfg_read` passes to `L4Re::chksys`. -/
theorem bring_up_fails_iff_counterexample :
    Ctl.bring_up Pci_env.cfg_fails 12 false 8 = Bringup.failed (- L4_EIO) [] ∧
    Ctl_cap.css (u64 Pci_env.cfg_fails.cap) % 2 = 1 ∧
    Ctl_cap.mpsmin (u64 Pci_env.cfg_fails.cap) ≤ 12 - 12 ∧
    12 - 12 ≤ Ctl_cap.mpsmax (u64 Pci_env.cfg_fails.cap) ∧
    ¬ (Ctl_cap.css (u64 Pci_env.cfg_fails.cap) % 2 = 0 ∨
      12 - 12 < Ctl_cap.mpsmin (u64 Pci_env.cfg_fails.cap) ∨
      Ctl_cap.mpsmax (u64 Pci_env.cfg_fails.cap) < 12 - 12) := by
  refine ⟨?_, by decide, by decide, by decide, by decide⟩
  unfold Ctl.bring_up
  rw [if_neg (show ¬ Pci_env.cfg_fails.cfg_read_status 0x14 < 0 by decide),
    if_pos (show Pci_env.cfg_fails.cfg_read_status 0x10 < 0 by decide)]
  rfl

/-! ## The discovery chain: one admin command at a time -/

theorem Submission_queue.cid_inv_produced {κ : Type} (N : Nat) (hN : 1 ≤ N)
    (q : Submission_queue κ) (h : q.cid_inv N) : q.produced.cid_inv N := by
  have hm := Submission_queue.cid_inv_modify N q q.tail Submission_queue.clear_entry
    cid_clear_entry h
  obtain ⟨h1, h2, _, h4⟩ := hm
  refine ⟨h1, h2, ?_, h4⟩
  show q.wrap_around (q.tail + 1) < N
  have := q.wrap_around_lt (q.tail + 1) (by rw [h.1]; exact hN)
  rw [h.1] at this
  exact this

theorem Ctl.issued_refl (c : Ctl) (h : c.Idle) : Ctl.Issued c c :=
  ⟨h.2.2.2, rfl, h.1, Or.inl ⟨rfl, h.2.1⟩⟩

theorem Ctl.idle_free (c : Ctl) (h : c.Idle) :
    c.asq.is_full = false ∧ c.asq.callbacks.getD c.asq.tail none = none ∧
    c.asq.wrap_around (c.asq.tail + 1) = (c.asq.tail + 1) % 2 := by
  obtain ⟨⟨hs, _, ht, _⟩, hcb, hh, _⟩ := h
  have hw : c.asq.wrap_around (c.asq.tail + 1) = (c.asq.tail + 1) % 2 := by
    rw [c.asq.sq_wrap_around_eq _ (by omega) (by omega), hs]
  refine ⟨?_, ?_, hw⟩
  · unfold Submission_queue.is_full
    rw [hw, hh]
    apply beq_false_of_ne
    omega
  · rw [hcb]
    have : c.asq.tail = 0 ∨ c.asq.tail = 1 := by omega
    rcases this with h0 | h0 <;> rw [h0] <;> rfl

theorem Ctl.issued_admin (c : Ctl) (h : c.Idle) (fill : Sqe → Sqe) (cb : Admin_cb)
    (ev : Event) (hfill : ∀ e, (fill e).cid = e.cid) :
    Ctl.Issued c (c.admin_command fill cb ev) := by
  obtain ⟨hf, hc, hw⟩ := c.idle_free h
  obtain ⟨hcid, hcb, hh, hfault⟩ := h
  have hp : c.asq.produced.cid_inv 2 :=
    Submission_queue.cid_inv_produced 2 (by decide) c.asq hcid
  have hm : (c.asq.produced.modify c.asq.tail fill).cid_inv 2 :=
    Submission_queue.cid_inv_modify 2 _ _ fill hfill hp
  rw [Ctl.admin_command_free c fill cb ev hf hc]
  have hcidt : ((c.asq.produced.modify c.asq.tail fill).entry c.asq.tail).cid = c.asq.tail :=
    hm.2.2.2 _ hcid.2.2.1
  refine ⟨hfault, rfl, ?_, Or.inr ⟨hw, cb, ?_⟩⟩
  · exact hm
  · show (c.asq.produced.modify c.asq.tail fill).callbacks.set _ (some cb) = _
    rw [hcidt]
    show c.asq.callbacks.set _ _ = _
    rw [hcb]

theorem Ctl.issued_identify_namespace (w : World) (c c2 : Ctl) (nn n : Nat)
    (h : c2.Idle) (hacq : c2.acq = c.acq) (hasq : c2.asq.tail = c.asq.tail) :
    Ctl.Issued c (c2.identify_namespace w nn n) := by
  have := Ctl.issued_admin c2 h (Ctl.fill_identify_namespace w.buf_phys n)
    (Admin_cb.identify_namespace (u32 nn) (u32 n)) (Event.identify_namespace (u32 n))
    (fun e => (fill_admin_cid 0 0 0 _ e).2.2.1)
  unfold Ctl.Issued at this ⊢
  rw [hacq, hasq] at this
  exact this

theorem Ctl.run_cb_issued (w : World) (c : Ctl) (cb : Admin_cb) (s : Nat) (h : c.Idle) :
    Ctl.Issued c (Ctl.run_cb w c cb s) := by
  have hin : ∀ (nn n : Nat), Ctl.Issued c (c.identify_namespace w nn n) :=
    fun nn n => Ctl.issued_identify_namespace w c c nn n h rfl rfl
  cases cb with
  | identify =>
    simp only [Ctl.run_cb]
    split
    · exact c.issued_refl h
    · split
      · exact c.issued_refl h
      · exact Ctl.issued_identify_namespace w c _ _ _ h rfl rfl
  | identify_namespace nn n =>
    simp only [Ctl.run_cb]
    repeat' split
    all_goals first
      | exact c.issued_refl h
      | exact hin _ _
      | exact Ctl.issued_admin c h _ _ _ (fun e => (fill_admin_cid _ _ _ 0 e).1)
  | create_iocq nsids nsid lba_sz =>
    simp only [Ctl.run_cb]
    repeat' split
    all_goals first
      | exact c.issued_refl h
      | exact hin _ _
      | exact Ctl.issued_admin c h _ _ _ (fun e => (fill_admin_cid _ _ _ 0 e).2.1)
  | create_iosq nsids nsid lba_sz =>
    simp only [Ctl.run_cb]
    repeat' split
    all_goals first
      | exact c.issued_refl h
      | exact hin _ _

theorem posted_cqe_fields (sqhd cid st : Nat) (ph : Bool) (h1 : sqhd < 2) (h2 : cid < 2 ^ 16)
    (h3 : st < 2 ^ 15) :
    Cqe.p { dw0 := 0, dw1 := 0, dw2 := sqhd + Aq_id * 2 ^ 16
            dw3 := bf_set 16 16 (cid + st * 2 ^ 17) (if ph then 1 else 0) }
      = (if ph then 1 else 0) ∧
    Cqe.sqid { dw0 := 0, dw1 := 0, dw2 := sqhd + Aq_id * 2 ^ 16
               dw3 := bf_set 16 16 (cid + st * 2 ^ 17) (if ph then 1 else 0) } = Aq_id ∧
    Cqe.sqhd { dw0 := 0, dw1 := 0, dw2 := sqhd + Aq_id * 2 ^ 16
               dw3 := bf_set 16 16 (cid + st * 2 ^ 17) (if ph then 1 else 0) } = sqhd ∧
    Cqe.cid { dw0 := 0, dw1 := 0, dw2 := sqhd + Aq_id * 2 ^ 16
              dw3 := bf_set 16 16 (cid + st * 2 ^ 17) (if ph then 1 else 0) } = cid ∧
    Cqe.sf { dw0 := 0, dw1 := 0, dw2 := sqhd + Aq_id * 2 ^ 16
             dw3 := bf_set 16 16 (cid + st * 2 ^ 17) (if ph then 1 else 0) } = st := by
  refine ⟨phase_get_set _ _, ?_, ?_, ?_, ?_⟩
  · unfold Cqe.sqid bf_get Aq_id
    norm_num
    omega
  · unfold Cqe.sqhd bf_get Aq_id
    norm_num
    omega
  · unfold Cqe.cid bf_set bf_get
    cases ph
    all_goals norm_num at h2 h3 ⊢
    all_goals omega
  · unfold Cqe.sf bf_set bf_get
    cases ph
    all_goals norm_num at h2 h3 ⊢
    all_goals omega

theorem Machine.device_step_busy (w : World) (m : Machine) (hinv : m.Inv)
    (hne : m.ctl.asq.tail ≠ m.dev_sq_head) :
    ∃ m1, m.device_step w = some m1 ∧ m1.dev_sq_head = m.ctl.asq.tail ∧
      m1.ctl = { m.ctl with acq := m1.ctl.acq } ∧
      m1.ctl.acq.size = 2 ∧ m1.ctl.acq.entries.length = 2 ∧
      m1.ctl.acq.head = m.ctl.acq.head ∧ m1.ctl.acq.p = m.ctl.acq.p ∧
      m1.dev_cq.tail = (m.dev_cq.tail + 1) % 2 ∧
      m1.dev_cq.phase = (if (m.dev_cq.tail + 1) % 2 = 0 then !m.dev_cq.phase
        else m.dev_cq.phase) ∧
      m1.ctl.head_cqe.p = (if m.ctl.acq.p then 1 else 0) ∧
      m1.ctl.head_cqe.sqid = Aq_id ∧
      m1.ctl.head_cqe.sqhd = m.ctl.asq.tail ∧
      m1.ctl.head_cqe.cid = m.dev_sq_head ∧
      m1.ctl.head_cqe.sf = m.status w := by
  obtain ⟨hcid, hqs, hql, hqh, hqp, hdt, hfault, hh, hcase⟩ := hinv
  have htail : m.ctl.asq.tail = (m.dev_sq_head + 1) % 2 := by
    rcases hcase with ⟨ht, _⟩ | ⟨ht, _⟩
    · exact absurd ht hne
    · exact ht
  have hsz : m.ctl.asq.size = 2 := hcid.1
  have hecid : (m.ctl.asq.entry m.dev_sq_head).cid = m.dev_sq_head := hcid.2.2.2 _ hh
  have hfields := posted_cqe_fields ((m.dev_sq_head + 1) % 2)
    (m.ctl.asq.entry m.dev_sq_head).cid
    (w.command_status (m.ctl.asq.entry m.dev_sq_head) % 2 ^ 15) m.dev_cq.phase
    (Nat.mod_lt _ (by decide)) (by rw [hecid]; omega) (Nat.mod_lt _ (by norm_num))
  refine ⟨{ ctl := { m.ctl with acq := (m.dev_cq.post m.ctl.acq
          { dw0 := 0, dw1 := 0
            dw2 := ((m.dev_sq_head + 1) % m.ctl.asq.size + Aq_id * 2 ^ 16)
            dw3 := ((m.ctl.asq.entry m.dev_sq_head).cid +
              (w.command_status (m.ctl.asq.entry m.dev_sq_head) % 2 ^ 15) * 2 ^ 17) }).2 },
            dev_sq_head := (m.dev_sq_head + 1) % m.ctl.asq.size,
            dev_cq := (m.dev_cq.post m.ctl.acq
          { dw0 := 0, dw1 := 0
            dw2 := ((m.dev_sq_head + 1) % m.ctl.asq.size + Aq_id * 2 ^ 16)
            dw3 := ((m.ctl.asq.entry m.dev_sq_head).cid +
              (w.command_status (m.ctl.asq.entry m.dev_sq_head) % 2 ^ 15) * 2 ^ 17) }).1 },
    ?_, ?_, ?_, ?_, ?_, ?_, ?_, ?_, ?_, ?_⟩
  · unfold Machine.device_step
    rw [if_neg (by simp [hfault]), if_neg (fun h => hne h.symm)]
  · show (m.dev_sq_head + 1) % m.ctl.asq.size = _
    rw [hsz, htail]
  · rfl
  · exact hqs
  · show (m.ctl.acq.entries.set _ _).length = 2
    rw [List.length_set, hql]
  · rfl
  · rfl
  · show (m.dev_cq.tail + 1) % m.ctl.acq.size = _
    rw [hqs]
  · show (if (m.dev_cq.tail + 1) % m.ctl.acq.size = 0 then !m.dev_cq.phase
      else m.dev_cq.phase) = _
    rw [hqs]
  · have hhead : Ctl.head_cqe
        { m.ctl with acq := (m.dev_cq.post m.ctl.acq
          { dw0 := 0, dw1 := 0
            dw2 := ((m.dev_sq_head + 1) % m.ctl.asq.size + Aq_id * 2 ^ 16)
            dw3 := ((m.ctl.asq.entry m.dev_sq_head).cid +
              (w.command_status (m.ctl.asq.entry m.dev_sq_head) % 2 ^ 15) * 2 ^ 17) }).2 }
        = { dw0 := 0, dw1 := 0, dw2 := (m.dev_sq_head + 1) % 2 + Aq_id * 2 ^ 16
            dw3 := (bf_set 16 16 ((m.ctl.asq.entry m.dev_sq_head).cid +
              (w.command_status (m.ctl.asq.entry m.dev_sq_head) % 2 ^ 15) * 2 ^ 17)
              (if m.dev_cq.phase then 1 else 0)) } := by
      unfold Ctl.head_cqe Cq_device.post
      show (m.ctl.acq.entries.set m.dev_cq.tail _).getD m.ctl.acq.head default = _
      rw [hqh, getD_set_same _ _ _ _ (by rw [hql]; exact hdt), hsz]
    show Cqe.p (Ctl.head_cqe _) = _ ∧ _
    rw [hhead, hqp, htail]
    exact ⟨hfields.1, hfields.2.1, hfields.2.2.1, hfields.2.2.2.1.trans hecid,
      hfields.2.2.2.2⟩

theorem Machine.inv_busy (m : Machine) (cb : Admin_cb) (hinv : m.Inv)
    (hcb : m.ctl.asq.callbacks.getD m.dev_sq_head none = some cb) :
    m.ctl.asq.tail = (m.dev_sq_head + 1) % 2 ∧ m.ctl.asq.tail ≠ m.dev_sq_head ∧
    m.ctl.asq.callbacks = ([none, none] : List (Option Admin_cb)).set m.dev_sq_head (some cb) ∧
    m.ctl.asq.callbacks.set m.dev_sq_head none = [none, none] := by
  obtain ⟨_, _, _, _, _, _, _, hh, hcase⟩ := hinv
  have h01 : m.dev_sq_head = 0 ∨ m.dev_sq_head = 1 := by omega
  rcases hcase with ⟨_, hc⟩ | ⟨ht, cb2, hc⟩
  · rw [hc] at hcb
    rcases h01 with h0 | h0 <;> rw [h0] at hcb <;> simp at hcb
  · rw [hc] at hcb
    have hcb2 : cb2 = cb := by
      rcases h01 with h0 | h0 <;> rw [h0] at hcb <;> simpa using hcb
    subst hcb2
    refine ⟨ht, by omega, hc, ?_⟩
    rw [hc]
    rcases h01 with h0 | h0 <;> rw [h0] <;> rfl

theorem Machine.round_busy (w : World) (m : Machine) (cb : Admin_cb) (hinv : m.Inv)
    (hcb : m.ctl.asq.callbacks.getD m.dev_sq_head none = some cb) :
    ((m.irq_ctl w).Idle ∧ (m.irq_ctl w).asq.tail = m.ctl.asq.tail ∧
      (m.irq_ctl w).asq.entries = m.ctl.asq.entries ∧
      (m.irq_ctl w).trace = m.ctl.trace ∧ (m.irq_ctl w).nss = m.ctl.nss ∧
      (m.irq_ctl w).sgls = m.ctl.sgls ∧ (m.irq_ctl w).use_sgls = m.ctl.use_sgls) ∧
    ∃ m2, m.round w = some m2 ∧ m2.Inv ∧ m2.dev_sq_head = m.ctl.asq.tail ∧
      m2.ctl.asq = (Ctl.run_cb w (m.irq_ctl w) cb (m.status w)).asq ∧
      m2.ctl.trace = (Ctl.run_cb w (m.irq_ctl w) cb (m.status w)).trace ∧
      m2.ctl.nss = (Ctl.run_cb w (m.irq_ctl w) cb (m.status w)).nss ∧
      m2.ctl.thrown = (Ctl.run_cb w (m.irq_ctl w) cb (m.status w)).thrown ∧
      m2.ctl.sgls = (Ctl.run_cb w (m.irq_ctl w) cb (m.status w)).sgls ∧
      m2.ctl.use_sgls = (Ctl.run_cb w (m.irq_ctl w) cb (m.status w)).use_sgls := by
  obtain ⟨htail, hne, _, hcbs⟩ := m.inv_busy cb hinv hcb
  obtain ⟨m1, hm1, hsq1, hctl, hqs1, hql1, hqh1, hqp1, hdt1, hdp1, hp, hq, hsqhd, hcid1, hsf⟩ :=
    m.device_step_busy w hinv hne
  obtain ⟨hcid, hqs, hql, hqh, hqp, hdt, hfault, hh, _⟩ := hinv
  have hasq : m1.ctl.asq = m.ctl.asq := by rw [hctl]
  have hp1 : m1.ctl.head_cqe.p = (if m1.ctl.acq.p then 1 else 0) := by rw [hqp1]; exact hp
  have hcb1 : m1.ctl.asq.callbacks.getD m1.ctl.head_cqe.cid none = some cb := by
    rw [hcid1, hasq]; exact hcb
  have hirq := Ctl.handle_irq_valid w m1.ctl cb hp1 hq hcb1
  have hic : m.irq_ctl w = m1.ctl.detached := by
    unfold Machine.irq_ctl
    rw [hm1]
  have htl16 : u16 m.ctl.asq.tail = m.ctl.asq.tail :=
    Nat.mod_eq_of_lt (by have := hcid.2.2.1; omega)
  have hdasq : m1.ctl.detached.asq
      = ({ m.ctl.asq with head := m.ctl.asq.tail }).set_callback m.dev_sq_head none := by
    unfold Ctl.detached
    show ({ m1.ctl.asq with head := u16 m1.ctl.head_cqe.sqhd }).set_callback
      m1.ctl.head_cqe.cid none = _
    rw [hsqhd, hcid1, hasq, htl16]
  have hidle : m1.ctl.detached.Idle := by
    refine ⟨?_, ?_, ?_, ?_⟩
    · rw [hdasq]; exact hcid
    · rw [hdasq]; exact hcbs
    · rw [hdasq]; rfl
    · show m1.ctl.fault = false
      rw [hctl]; exact hfault
  have hiss := Ctl.run_cb_issued w m1.ctl.detached cb m1.ctl.head_cqe.sf hidle
  rw [hsf] at hiss hirq
  have hdtail : m1.ctl.detached.asq.tail = m.ctl.asq.tail := by rw [hdasq]; rfl
  have hfin : (m1.ctl.handle_irq w).asq
        = (Ctl.run_cb w m1.ctl.detached cb (m.status w)).asq ∧
      (m1.ctl.handle_irq w).acq = (Ctl.run_cb w m1.ctl.detached cb (m.status w)).acq ∧
      (m1.ctl.handle_irq w).fault = (Ctl.run_cb w m1.ctl.detached cb (m.status w)).fault ∧
      (m1.ctl.handle_irq w).trace = (Ctl.run_cb w m1.ctl.detached cb (m.status w)).trace ∧
      (m1.ctl.handle_irq w).nss = (Ctl.run_cb w m1.ctl.detached cb (m.status w)).nss ∧
      (m1.ctl.handle_irq w).thrown = (Ctl.run_cb w m1.ctl.detached cb (m.status w)).thrown ∧
      (m1.ctl.handle_irq w).sgls = (Ctl.run_cb w m1.ctl.detached cb (m.status w)).sgls ∧
      (m1.ctl.handle_irq w).use_sgls
        = (Ctl.run_cb w m1.ctl.detached cb (m.status w)).use_sgls := by
    rw [hirq]
    split <;> exact ⟨rfl, rfl, rfl, rfl, rfl, rfl, rfl, rfl⟩
  obtain ⟨f1, f2, f3, f4, f5, f6, f7, f8⟩ := hfin
  obtain ⟨i1, i2, i3, i4⟩ := hiss
  have hcons := Completion_queue.consume_valid m1.ctl.acq hp1
  have hacq2 : (Ctl.run_cb w m1.ctl.detached cb (m.status w)).acq
      = { m1.ctl.acq with
          head := m1.ctl.acq.wrap_around (m1.ctl.acq.head + 1)
          p := if m1.ctl.acq.wrap_around (m1.ctl.acq.head + 1) = 0 then !m1.ctl.acq.p
            else m1.ctl.acq.p } := by
    rw [i2]
    show m1.ctl.acq.consume.2 = _
    rw [hcons]
  have hwrap : m1.ctl.acq.wrap_around (m1.ctl.acq.head + 1) = (m.dev_cq.tail + 1) % 2 := by
    rw [Completion_queue.cq_wrap_around_eq _ _ (by rw [hqh1, hqh]; omega) (by omega), hqs1,
      hqh1, hqh]
  rw [hic]
  refine ⟨⟨hidle, hdtail, by rw [hdasq]; rfl, by rw [hctl]; rfl, by rw [hctl]; rfl,
    by rw [hctl]; rfl, by rw [hctl]; rfl⟩, ?_⟩
  refine ⟨{ m1 with ctl := m1.ctl.handle_irq w }, ?_, ?_, hsq1, f1, f4, f5, f6, f7, f8⟩
  · unfold Machine.round
    rw [hm1]
  · refine ⟨?_, ?_, ?_, ?_, ?_, ?_, ?_, ?_, ?_⟩
    · show (m1.ctl.handle_irq w).asq.cid_inv 2
      rw [f1]; exact i3
    · show (m1.ctl.handle_irq w).acq.size = 2
      rw [f2, hacq2]; exact hqs1
    · show (m1.ctl.handle_irq w).acq.entries.length = 2
      rw [f2, hacq2]; exact hql1
    · show (m1.ctl.handle_irq w).acq.head = m1.dev_cq.tail
      rw [f2, hacq2, hdt1]; exact hwrap
    · show (m1.ctl.handle_irq w).acq.p = m1.dev_cq.phase
      rw [f2, hacq2, hdp1]
      show (if m1.ctl.acq.wrap_around (m1.ctl.acq.head + 1) = 0 then !m1.ctl.acq.p
        else m1.ctl.acq.p) = _
      rw [hwrap, hqp1, hqp]
    · show m1.dev_cq.tail < 2
      rw [hdt1]; exact Nat.mod_lt _ (by decide)
    · show (m1.ctl.handle_irq w).fault = false
      rw [f3]; exact i1
    · show m1.dev_sq_head < 2
      rw [hsq1]; exact hcid.2.2.1
    · show ((m1.ctl.handle_irq w).asq.tail = m1.dev_sq_head ∧ _) ∨
        ((m1.ctl.handle_irq w).asq.tail = (m1.dev_sq_head + 1) % 2 ∧ _)
      rw [f1, hsq1]
      rw [hdtail] at i4
      exact i4

theorem Machine.run_succ (w : World) (fuel : Nat) (m : Machine) :
    Machine.run w (fuel + 1) m
      = match m.round w with
        | none => m
        | some m2 => Machine.run w fuel m2 := by
  unfold Machine.round
  rw [Machine.run]
  cases m.device_step w <;> rfl

theorem Machine.round_idle (w : World) (m : Machine) (h : m.dev_sq_head = m.ctl.asq.tail) :
    m.round w = none ∧ m.device_step w = none ∧ ∀ fuel, Machine.run w fuel m = m := by
  have hds : m.device_step w = none := by
    unfold Machine.device_step
    rw [if_pos h]
    simp
  have hr : m.round w = none := by
    unfold Machine.round
    rw [hds]
  refine ⟨hr, hds, ?_⟩
  intro fuel
  cases fuel with
  | zero => rfl
  | succ fuel => rw [Machine.run_succ, hr]

theorem Machine.inv_round (w : World) (m : Machine) (hinv : m.Inv) :
    (m.round w = none ∧ m.ctl.asq.tail = m.dev_sq_head) ∨
    (∃ m2, m.round w = some m2 ∧ m2.Inv) := by
  have hcase := hinv.2.2.2.2.2.2.2.2
  have hh := hinv.2.2.2.2.2.2.2.1
  rcases hcase with ⟨ht, _⟩ | ⟨_, cb, hc⟩
  · exact Or.inl ⟨(m.round_idle w ht.symm).1, ht⟩
  · have hcb : m.ctl.asq.callbacks.getD m.dev_sq_head none = some cb := by
      rw [hc]
      have h01 : m.dev_sq_head = 0 ∨ m.dev_sq_head = 1 := by omega
      rcases h01 with h0 | h0 <;> rw [h0] <;> rfl
    obtain ⟨_, m2, hr, hi, _⟩ := m.round_busy w cb hinv hcb
    exact Or.inr ⟨m2, hr, hi⟩

theorem Machine.inv_run (w : World) (fuel : Nat) :
    ∀ m : Machine, m.Inv → (Machine.run w fuel m).Inv := by
  induction fuel with
  | zero => intro m h; exact h
  | succ fuel ih =>
    intro m h
    rw [Machine.run_succ]
    rcases m.inv_round w h with ⟨hr, _⟩ | ⟨m2, hr, hi⟩
    · rw [hr]; exact h
    · rw [hr]; exact ih m2 hi

theorem Ctl.idle_init (dstrd : Nat) (use_sgls : Bool) (raw : Nat → Option Admin_cb)
    (h0 : raw 0 = none) (h1 : raw 1 = none) : (Ctl.init dstrd use_sgls raw).Idle := by
  refine ⟨Submission_queue.cid_inv_mk_queue 2 Aq_id dstrd 0 0 raw (by decide) (by decide), ?_,
    rfl, rfl⟩
  show [raw 0, raw 1] = [none, none]
  rw [h0, h1]

theorem Machine.inv_discover (w : World) (dstrd : Nat) (use_sgls : Bool) (fuel : Nat)
    (h0 : w.asq_raw 0 = none) (h1 : w.asq_raw 1 = none) :
    (Machine.discover w dstrd use_sgls fuel).Inv := by
  unfold Machine.discover
  apply Machine.inv_run
  obtain ⟨i1, i2, i3, i4⟩ := Ctl.issued_admin (Ctl.init dstrd use_sgls w.asq_raw)
    (Ctl.idle_init dstrd use_sgls w.asq_raw h0 h1) (Ctl.fill_identify w.buf_phys)
    Admin_cb.identify
    Event.identify_controller (fun e => (fill_admin_cid 0 0 0 0 e).2.2.2)
  refine ⟨i3, ?_, ?_, ?_, ?_, (by decide : (0 : Nat) < 2), i1, (by decide : (0 : Nat) < 2), ?_⟩
  · show ((Ctl.init dstrd use_sgls w.asq_raw).identify w).acq.size = 2
    unfold Ctl.identify
    rw [i2]
    rfl
  · show ((Ctl.init dstrd use_sgls w.asq_raw).identify w).acq.entries.length = 2
    unfold Ctl.identify
    rw [i2]
    rfl
  · show ((Ctl.init dstrd use_sgls w.asq_raw).identify w).acq.head = 0
    unfold Ctl.identify
    rw [i2]
    rfl
  · show ((Ctl.init dstrd use_sgls w.asq_raw).identify w).acq.p = true
    unfold Ctl.identify
    rw [i2]
    rfl
  · exact i4

theorem Machine.inv_outstanding (m : Machine) (hinv : m.Inv) :
    m.ctl.asq.outstanding ≤ 1 ∧
    (m.ctl.asq.outstanding = 0 ↔ m.ctl.asq.tail = m.dev_sq_head) := by
  have hh := hinv.2.2.2.2.2.2.2.1
  have h01 : m.dev_sq_head = 0 ∨ m.dev_sq_head = 1 := by omega
  unfold Submission_queue.outstanding
  rcases hinv.2.2.2.2.2.2.2.2 with ⟨ht, hc⟩ | ⟨ht, cb, hc⟩
  · rw [hc]
    simp [ht]
  · rw [hc, ht]
    rcases h01 with h0 | h0 <;> rw [h0] <;> simp

theorem Ctl.admin_command_fault_mono (c : Ctl) (fill : Sqe → Sqe) (cb : Admin_cb) (ev : Event) :
    (c.asq.produce.1 = none → (c.admin_command fill cb ev).fault = true) ∧
    (c.fault = true → (c.admin_command fill cb ev).fault = true) := by
  unfold Ctl.admin_command
  rcases h : c.asq.produce with ⟨_ | i, q⟩
  · exact ⟨fun _ => rfl, fun _ => rfl⟩
  · refine ⟨fun h2 => ?_, fun h2 => h2⟩
    simp at h2

theorem Ctl.run_cb_fault_mono (w : World) (c : Ctl) (cb : Admin_cb) (s : Nat)
    (h : c.fault = true) : (Ctl.run_cb w c cb s).fault = true := by
  cases cb with
  | identify =>
    simp only [Ctl.run_cb]
    split
    · exact h
    · split
      · exact h
      · exact (Ctl.admin_command_fault_mono _ _ _ _).2 h
  | identify_namespace nn n =>
    simp only [Ctl.run_cb]
    repeat' split
    all_goals first
      | exact h
      | exact (Ctl.admin_command_fault_mono _ _ _ _).2 h
  | create_iocq nsids nsid lba_sz =>
    simp only [Ctl.run_cb]
    repeat' split
    all_goals first
      | exact h
      | exact (Ctl.admin_command_fault_mono _ _ _ _).2 h
  | create_iosq nsids nsid lba_sz =>
    simp only [Ctl.run_cb]
    repeat' split
    all_goals first
      | exact h
      | exact (Ctl.admin_command_fault_mono _ _ _ _).2 h

theorem Ctl.handle_irq_fault_mono (w : World) (c : Ctl) (h : c.fault = true) :
    (Ctl.handle_irq w c).fault = true := by
  unfold Ctl.handle_irq
  split
  · exact h
  · simp only []
    split
    · rfl
    · split
      · rfl
      · split
        · exact Ctl.run_cb_fault_mono w _ _ _ h
        · exact Ctl.run_cb_fault_mono w _ _ _ h

theorem Machine.run_add (w : World) (a b : Nat) :
    ∀ m : Machine, Machine.run w (a + b) m = Machine.run w b (Machine.run w a m) := by
  induction a with
  | zero => intro m; rw [Nat.zero_add]; rfl
  | succ a ih =>
    intro m
    rw [show a + 1 + b = (a + b) + 1 by omega, Machine.run_succ, Machine.run_succ]
    cases hr : m.round w with
    | none =>
      simp only []
      cases b with
      | zero => rfl
      | succ b => rw [Machine.run_succ, hr]
    | some m2 => exact ih m2

theorem Machine.discover_add (w : World) (dstrd : Nat) (use_sgls : Bool) (a b : Nat) :
    Machine.discover w dstrd use_sgls (a + b)
      = Machine.run w b (Machine.discover w dstrd use_sgls a) :=
  Machine.run_add w a b _

theorem Machine.run_fault (w : World) (m : Machine) (k : Nat) (h : m.ctl.fault = true) :
    Machine.run w k m = m := by
  cases k with
  | zero => rfl
  | succ k =>
    have hds : m.device_step w = none := by
      unfold Machine.device_step
      rw [if_pos h]
    rw [Machine.run, hds]

/-- C30 (behaviour of the code): the discovery chain started by
`Ctl::identify` on a controller fresh from bring-up, against a device that
completes each admin command once with `SQHD` the index following the slot of
the command, for every device behaviour (statuses and Identify data) and after
any number of interrupts. The constructor of the admin submission queue
reserves the storage of the two continuation slots and constructs nothing in
it. If both slots read as empty, nothing has faulted, so no `produce()` of
`identify`, `identify_namespace`, `create_iocq` or `create_iosq` has returned
none (a none result sets the fault flag, and the flag once set survives every
continuation and interrupt and stops the chain); at most one admin command is
outstanding, and none exactly when the device has fetched up to the tail; and
whenever a command is outstanding, the state in which its continuation will
run has the admin submission queue idle, `produce()` returning the slot at the
tail, and the continuation issues at most one command. If slot 0 reads as
non-empty, the very first `produce()`, the one of `Ctl::identify`, returns
none on the queue that is not full, the null entry is dereferenced and no
command is ever issued. -/
theorem discover_one_outstanding (w : World) (dstrd : Nat) (use_sgls : Bool) (fuel : Nat) :
    (w.asq_raw 0 = none → w.asq_raw 1 = none →
      (Machine.discover w dstrd use_sgls fuel).ctl.fault = false ∧
      (Machine.discover w dstrd use_sgls fuel).ctl.asq.outstanding ≤ 1 ∧
      ((Machine.discover w dstrd use_sgls fuel).ctl.asq.outstanding = 0 ↔
        (Machine.discover w dstrd use_sgls fuel).ctl.asq.tail
          = (Machine.discover w dstrd use_sgls fuel).dev_sq_head) ∧
      (∀ cb, (Machine.discover w dstrd use_sgls fuel).ctl.asq.callbacks.getD
          (Machine.discover w dstrd use_sgls fuel).dev_sq_head none = some cb →
        ((Machine.discover w dstrd use_sgls fuel).irq_ctl w).asq.produce.1
          = some ((Machine.discover w dstrd use_sgls fuel).irq_ctl w).asq.tail ∧
        Ctl.Issued ((Machine.discover w dstrd use_sgls fuel).irq_ctl w)
          (Ctl.run_cb w ((Machine.discover w dstrd use_sgls fuel).irq_ctl w) cb
            ((Machine.discover w dstrd use_sgls fuel).status w)))) ∧
    (∀ (c : Ctl) (fill : Sqe → Sqe) (cb : Admin_cb) (ev : Event),
      c.asq.produce.1 = none → (c.admin_command fill cb ev).fault = true) ∧
    (∀ (c : Ctl) (cb : Admin_cb) (s : Nat),
      c.fault = true → (Ctl.run_cb w c cb s).fault = true) ∧
    (∀ c : Ctl, c.fault = true → (Ctl.handle_irq w c).fault = true) ∧
    (∀ (m : Machine) (k : Nat), m.ctl.fault = true → Machine.run w k m = m) ∧
    (∀ cb, w.asq_raw 0 = some cb →
      (Ctl.init dstrd use_sgls w.asq_raw).asq.is_full = false ∧
      (Ctl.init dstrd use_sgls w.asq_raw).asq.produce.1 = none ∧
      (Machine.discover w dstrd use_sgls fuel).ctl.fault = true ∧
      (Machine.discover w dstrd use_sgls fuel).ctl.trace = [] ∧
      (Machine.discover w dstrd use_sgls fuel).ctl.regs = []) := by
  refine ⟨?_,
    fun c fill cb ev => (Ctl.admin_command_fault_mono c fill cb ev).1,
    fun c cb s => Ctl.run_cb_fault_mono w c cb s,
    fun c => Ctl.handle_irq_fault_mono w c,
    fun m k => Machine.run_fault w m k, ?_⟩
  · intro hr0 hr1
    have hinv := Machine.inv_discover w dstrd use_sgls fuel hr0 hr1
    have hout := (Machine.discover w dstrd use_sgls fuel).inv_outstanding hinv
    refine ⟨hinv.2.2.2.2.2.2.1, hout.1, hout.2, ?_⟩
    intro cb hcb
    obtain ⟨⟨hidle, _⟩, _⟩ := (Machine.discover w dstrd use_sgls fuel).round_busy w cb hinv hcb
    obtain ⟨hf, hc, _⟩ := Ctl.idle_free _ hidle
    refine ⟨?_, Ctl.run_cb_issued w _ cb _ hidle⟩
    rw [Submission_queue.produce_free_produced _ hf hc]
  · intro cb hcb
    have hfull : (Ctl.init dstrd use_sgls w.asq_raw).asq.is_full = false := rfl
    have hget : (Ctl.init dstrd use_sgls w.asq_raw).asq.callbacks.getD
        (Ctl.init dstrd use_sgls w.asq_raw).asq.tail none = some cb := by
      show w.asq_raw 0 = some cb
      exact hcb
    have hp : (Ctl.init dstrd use_sgls w.asq_raw).asq.produce
        = (none, (Ctl.init dstrd use_sgls w.asq_raw).asq) := by
      unfold Submission_queue.produce
      rw [if_neg (by rw [hfull]; simp), if_pos (by rw [hget]; rfl)]
    have hid : (Ctl.init dstrd use_sgls w.asq_raw).identify w
        = { Ctl.init dstrd use_sgls w.asq_raw with fault := true } := by
      unfold Ctl.identify Ctl.admin_command
      rw [hp]
    have hm : Machine.discover w dstrd use_sgls fuel
        = { ctl := (Ctl.init dstrd use_sgls w.asq_raw).identify w, dev_sq_head := 0
            dev_cq := Cq_device.init } := by
      unfold Machine.discover
      apply Machine.run_fault
      rw [hid]
    refine ⟨hfull, ?_, ?_, ?_, ?_⟩
    · rw [hp]
    · rw [hm, hid]
    · rw [hm, hid]
      rfl
    · rw [hm, hid]
      rfl

/-- Witness of C30. The discovery of scenario S6, where both continuation
slots read as empty, after three interrupts (Identify Controller, Identify
Namespace 1 and Create I/O CQ 1 completed): nothing has faulted, exactly one
command (Create I/O SQ 1) is outstanding, and the state in which its
continuation will run has slot 1 free. The same device with slot 0 reading as
non-empty: `Ctl::identify` dereferences a null entry and issues nothing. With
slot 1 reading as non-empty: Identify Controller is issued and completes, and
the `produce()` of `identify_namespace` in its continuation returns none. -/
theorem discover_one_outstanding_witness :
    ((Machine.discover World.s6 0 false 3).ctl.fault = false ∧
      (Machine.discover World.s6 0 false 3).ctl.asq.outstanding ≤ 1 ∧
      ((Machine.discover World.s6 0 false 3).irq_ctl World.s6).asq.produce.1
        = some ((Machine.discover World.s6 0 false 3).irq_ctl World.s6).asq.tail) ∧
    ((Machine.discover (World.s6_raw 0) 0 false 16).ctl.fault = true ∧
      (Machine.discover (World.s6_raw 0) 0 false 16).ctl.trace = []) ∧
    ((Machine.discover (World.s6_raw 1) 0 false 16).ctl.fault = true ∧
      (Machine.discover (World.s6_raw 1) 0 false 16).ctl.trace
        = [Event.identify_controller]) :=
  have h := (discover_one_outstanding World.s6 0 false 3).1 rfl rfl
  have hb := (discover_one_outstanding (World.s6_raw 0) 0 false 16).2.2.2.2.2
    Admin_cb.identify rfl
  ⟨⟨h.1, h.2.1, (h.2.2.2 (Admin_cb.create_iosq 3 1 512) (by decide)).1⟩,
   ⟨hb.2.2.1, hb.2.2.2.1⟩, by decide⟩

/-! ## The discovery chain: failure of Identify Namespace ends it -/

/-- C27: at any point of a discovery, for every device behaviour, on a
controller whose two reserved continuation slots read as empty after
construction (`asq_raw`; otherwise the chain faults at its first or second
command): if the outstanding admin command is the Identify Namespace command
for namespace `n` and the device completes it with a nonzero status, then the interrupt that
delivers the completion issues no admin command (the tail of the admin
submission queue does not move and no event is recorded) and constructs and
publishes no namespace, and the chain has stopped: no command is outstanding,
the device has nothing to complete, and any number of further rounds leaves
the events and the published namespaces as they were; nothing faults. -/
theorem identify_namespace_failure_stops (w : World) (dstrd : Nat) (use_sgls : Bool)
    (k nn n : Nat)
    (hcb : (Machine.discover w dstrd use_sgls k).ctl.asq.callbacks.getD
        (Machine.discover w dstrd use_sgls k).dev_sq_head none
          = some (Admin_cb.identify_namespace nn n))
    (hs : (Machine.discover w dstrd use_sgls k).status w ≠ 0)
    (h0 : w.asq_raw 0 = none) (h1 : w.asq_raw 1 = none) :
    ∀ f, (Machine.discover w dstrd use_sgls (k + (f + 1))).ctl.trace
        = (Machine.discover w dstrd use_sgls k).ctl.trace ∧
      (Machine.discover w dstrd use_sgls (k + (f + 1))).ctl.nss
        = (Machine.discover w dstrd use_sgls k).ctl.nss ∧
      (Machine.discover w dstrd use_sgls (k + (f + 1))).ctl.asq.tail
        = (Machine.discover w dstrd use_sgls k).ctl.asq.tail ∧
      (Machine.discover w dstrd use_sgls (k + (f + 1))).ctl.asq.outstanding = 0 ∧
      (Machine.discover w dstrd use_sgls (k + (f + 1))).ctl.fault = false ∧
      (Machine.discover w dstrd use_sgls (k + (f + 1))).device_step w = none := by
  intro f
  have hinv := Machine.inv_discover w dstrd use_sgls k h0 h1
  obtain ⟨⟨_, htl, _, htr, hns, _⟩, m2, hr, hi2, hsq2, hasq, htrace, hnss, _⟩ :=
    (Machine.discover w dstrd use_sgls k).round_busy w _ hinv hcb
  have hrun : Ctl.run_cb w ((Machine.discover w dstrd use_sgls k).irq_ctl w)
      (Admin_cb.identify_namespace nn n) ((Machine.discover w dstrd use_sgls k).status w)
      = (Machine.discover w dstrd use_sgls k).irq_ctl w := by
    simp [Ctl.run_cb, hs]
  rw [hrun] at hasq htrace hnss
  have htail2 : m2.ctl.asq.tail = (Machine.discover w dstrd use_sgls k).ctl.asq.tail := by
    rw [hasq, htl]
  have hidle2 : m2.dev_sq_head = m2.ctl.asq.tail := by rw [hsq2, htail2]
  obtain ⟨_, hds, hstay⟩ := m2.round_idle w hidle2
  have hm2 : Machine.discover w dstrd use_sgls (k + (f + 1)) = m2 := by
    rw [Machine.discover_add, show f + 1 = 1 + f by omega, Machine.run_add,
      show (1 : Nat) = 0 + 1 by rfl, Machine.run_succ, hr]
    exact hstay f
  rw [hm2]
  exact ⟨htrace.trans htr, hnss.trans hns, htail2,
    (m2.inv_outstanding hi2).2.mpr hidle2.symm, hi2.2.2.2.2.2.2.1, hds⟩

/-- Witness of C27: in the world where Identify Namespace 1 fails with status
1 (`NN = 3`, all namespaces healthy), after the first interrupt the
outstanding command is Identify Namespace 1; from the second interrupt on the
events are Identify Controller and Identify Namespace 1 only, nothing is
published and no command is outstanding. -/
theorem identify_namespace_failure_stops_witness :
    (Machine.discover World.ns1_fails 0 false (1 + (5 + 1))).ctl.trace
      = [Event.identify_controller, Event.identify_namespace 1] ∧
    (Machine.discover World.ns1_fails 0 false (1 + (5 + 1))).ctl.nss = [] ∧
    (Machine.discover World.ns1_fails 0 false (1 + (5 + 1))).ctl.asq.outstanding = 0 :=
  have h := identify_namespace_failure_stops World.ns1_fails 0 false 1 3 1 (by decide)
    (by decide) rfl rfl 5
  ⟨h.1.trans (by decide), h.2.1.trans (by decide), h.2.2.2.1⟩

/-! ## The discovery chain: one Identify Namespace per namespace -/

theorem Ctl.admin_command_flags (c : Ctl) (fill : Sqe → Sqe) (cb : Admin_cb) (ev : Event) :
    (c.admin_command fill cb ev).sgls = c.sgls ∧
    (c.admin_command fill cb ev).use_sgls = c.use_sgls := by
  unfold Ctl.admin_command
  rcases h : c.asq.produce with ⟨_ | i, q⟩ <;> exact ⟨rfl, rfl⟩

theorem Ctl.admin_idle (c : Ctl) (h : c.Idle) (fill : Sqe → Sqe) (cb : Admin_cb) (ev : Event)
    (hfill : ∀ e, (fill e).cid = e.cid) :
    (c.admin_command fill cb ev).trace = c.trace ++ [ev] ∧
    (c.admin_command fill cb ev).nss = c.nss ∧
    (c.admin_command fill cb ev).sgls = c.sgls ∧
    (c.admin_command fill cb ev).use_sgls = c.use_sgls ∧
    (c.admin_command fill cb ev).asq.callbacks.getD c.asq.tail none = some cb ∧
    (c.admin_command fill cb ev).asq.entry c.asq.tail
      = fill (Submission_queue.clear_entry (c.asq.entry c.asq.tail)) := by
  obtain ⟨hf, hc, _⟩ := c.idle_free h
  obtain ⟨hcid, hcb, _, _⟩ := h
  have ht : c.asq.tail < c.asq.entries.length := by rw [hcid.2.1]; exact hcid.2.2.1
  have hcidt : (c.asq.entry c.asq.tail).cid = c.asq.tail := hcid.2.2.2 _ hcid.2.2.1
  have hinst := Ctl.admin_command_installed c fill cb ev hf hc ht hfill
    (by rw [hcidt, hcb]; exact hcid.2.2.1)
  rw [hcidt] at hinst
  exact ⟨(Ctl.admin_command_trace_free c fill cb ev hf hc).1, Ctl.admin_command_nss c fill cb ev,
    (Ctl.admin_command_flags c fill cb ev).1, (Ctl.admin_command_flags c fill cb ev).2, hinst,
    (Ctl.admin_command_entry c fill cb ev hf hc ht).1⟩

theorem command_status_create (w : World) (phys id : Nat) (e : Sqe) :
    w.command_status (Ctl.fill_create_iocq phys (u16 id) Ioq_size
      (Submission_queue.clear_entry e)) = w.iocq_status (u16 id) ∧
    w.command_status (Ctl.fill_create_iosq phys (u16 id) Ioq_size
      (Submission_queue.clear_entry e)) = w.iosq_status (u16 id) := by
  have h16 : u16 id < 2 ^ 16 := Nat.mod_lt _ (by norm_num)
  obtain ⟨a1, _, a3, _⟩ := fill_create_iocq_fields phys (u16 id) Ioq_size e h16 (by decide)
    (by decide)
  obtain ⟨b1, _, b3, _⟩ := fill_create_iosq_fields phys (u16 id) Ioq_size e h16 (by decide)
    (by decide)
  unfold Sqe.qid at a3 b3
  unfold World.command_status
  rw [a1, b1, a3, b3]
  simp [Acs.Create_iocq, Acs.Create_iosq, Acs.Identify]

theorem Ctl.run_cb_identify_namespace_zero (w : World) (c : Ctl) (nn n : Nat) :
    Ctl.run_cb w c (Admin_cb.identify_namespace nn n) 0 =
      if (w.ns_data n).skipped = false then c.async_loop_init w nn n (w.ns_data n).lba_sz
      else if u32 (n + 1) < nn then c.identify_namespace w nn (u32 (n + 1)) else c := by
  rw [Ctl.run_cb_identify_namespace_ok]
  have hiff : (w.ns_data n).skipped = false ↔
      (u64 (w.ns_data n).nsze ≠ 0 ∧
        (w.ns_data n).flbas % 2 ^ 8 % 16 ≤ (w.ns_data n).nlbaf % 2 ^ 8 ∧
        u32 ((w.ns_data n).lbaf.getD ((w.ns_data n).flbas % 2 ^ 8 % 16) 0) % 2 ^ 16 = 0) := by
    unfold Identify_ns.skipped
    simp only [Bool.not_eq_false', Bool.and_eq_true, decide_eq_true_eq]
    constructor
    · rintro ⟨⟨a, b⟩, c⟩
      exact ⟨a, b, c⟩
    · rintro ⟨a, b, c⟩
      exact ⟨⟨a, b⟩, c⟩
  by_cases hA : u64 (w.ns_data n).nsze ≠ 0 ∧
      (w.ns_data n).flbas % 2 ^ 8 % 16 ≤ (w.ns_data n).nlbaf % 2 ^ 8 ∧
      u32 ((w.ns_data n).lbaf.getD ((w.ns_data n).flbas % 2 ^ 8 % 16) 0) % 2 ^ 16 = 0
  · rw [if_pos hA, if_pos (hiff.mpr hA)]
    rfl
  · rw [if_neg hA, if_neg (fun h => hA (hiff.mp h))]

theorem Machine.discover_succ (w : World) (dstrd : Nat) (use_sgls : Bool) (k : Nat)
    (m2 : Machine) (h : (Machine.discover w dstrd use_sgls k).round w = some m2) :
    Machine.discover w dstrd use_sgls (k + 1) = m2 := by
  rw [Machine.discover_add, show (1 : Nat) = 0 + 1 by rfl, Machine.run_succ, h]
  rfl

theorem Machine.discover_step (w : World) (dstrd : Nat) (use_sgls : Bool) (k : Nat)
    (cb : Admin_cb)
    (hcb : (Machine.discover w dstrd use_sgls k).ctl.asq.callbacks.getD
      (Machine.discover w dstrd use_sgls k).dev_sq_head none = some cb)
    (hr0 : w.asq_raw 0 = none) (hr1 : w.asq_raw 1 = none) :
    (((Machine.discover w dstrd use_sgls k).irq_ctl w).Idle ∧
      ((Machine.discover w dstrd use_sgls k).irq_ctl w).asq.tail
        = (Machine.discover w dstrd use_sgls k).ctl.asq.tail ∧
      ((Machine.discover w dstrd use_sgls k).irq_ctl w).asq.entries
        = (Machine.discover w dstrd use_sgls k).ctl.asq.entries ∧
      ((Machine.discover w dstrd use_sgls k).irq_ctl w).trace
        = (Machine.discover w dstrd use_sgls k).ctl.trace ∧
      ((Machine.discover w dstrd use_sgls k).irq_ctl w).nss
        = (Machine.discover w dstrd use_sgls k).ctl.nss ∧
      ((Machine.discover w dstrd use_sgls k).irq_ctl w).sgls
        = (Machine.discover w dstrd use_sgls k).ctl.sgls ∧
      ((Machine.discover w dstrd use_sgls k).irq_ctl w).use_sgls
        = (Machine.discover w dstrd use_sgls k).ctl.use_sgls) ∧
    (Machine.discover w dstrd use_sgls (k + 1)).dev_sq_head
      = (Machine.discover w dstrd use_sgls k).ctl.asq.tail ∧
    (Machine.discover w dstrd use_sgls (k + 1)).ctl.asq
      = (Ctl.run_cb w ((Machine.discover w dstrd use_sgls k).irq_ctl w) cb
          ((Machine.discover w dstrd use_sgls k).status w)).asq ∧
    (Machine.discover w dstrd use_sgls (k + 1)).ctl.trace
      = (Ctl.run_cb w ((Machine.discover w dstrd use_sgls k).irq_ctl w) cb
          ((Machine.discover w dstrd use_sgls k).status w)).trace ∧
    (Machine.discover w dstrd use_sgls (k + 1)).ctl.nss
      = (Ctl.run_cb w ((Machine.discover w dstrd use_sgls k).irq_ctl w) cb
          ((Machine.discover w dstrd use_sgls k).status w)).nss ∧
    (Machine.discover w dstrd use_sgls (k + 1)).ctl.sgls
      = (Ctl.run_cb w ((Machine.discover w dstrd use_sgls k).irq_ctl w) cb
          ((Machine.discover w dstrd use_sgls k).status w)).sgls ∧
    (Machine.discover w dstrd use_sgls (k + 1)).ctl.use_sgls
      = (Ctl.run_cb w ((Machine.discover w dstrd use_sgls k).irq_ctl w) cb
          ((Machine.discover w dstrd use_sgls k).status w)).use_sgls := by
  obtain ⟨h0, m2, hr, _, hsq, hasq, htr, hns, _, hsg, hus⟩ :=
    (Machine.discover w dstrd use_sgls k).round_busy w cb
      (Machine.inv_discover w dstrd use_sgls k hr0 hr1) hcb
  rw [Machine.discover_succ w dstrd use_sgls k m2 hr]
  exact ⟨h0, hsq, hasq, htr, hns, hsg, hus⟩

theorem identified_append (l1 l2 : List Event) :
    identified (l1 ++ l2) = identified l1 ++ identified l2 := by
  induction l1 with
  | nil => rfl
  | cons e l ih =>
    cases e <;> simp [identified, ih]

theorem Ctl.run_cb_create_iocq_fail (w : World) (c : Ctl) (nsids nsid lba_sz s : Nat)
    (hs : s ≠ 0) (hn : u32 (nsid + 1) < nsids) :
    Ctl.run_cb w c (Admin_cb.create_iocq nsids nsid lba_sz) s
      = (c.identify_namespace w nsids (u32 (nsid + 1))).destroy nsid := by
  simp [Ctl.run_cb, hs, hn]

theorem Ctl.run_cb_create_iocq_ok (w : World) (c : Ctl) (nsids nsid lba_sz : Nat) :
    Ctl.run_cb w c (Admin_cb.create_iocq nsids nsid lba_sz) 0
      = c.create_iosq w nsid Ioq_size (if c.supports_sgl then Ioq_sgls else 0)
          (Admin_cb.create_iosq nsids nsid lba_sz) := by
  simp [Ctl.run_cb]

theorem Ctl.run_cb_create_iosq_next (w : World) (c : Ctl) (nsids nsid lba_sz s : Nat)
    (hn : u32 (nsid + 1) < nsids) :
    Ctl.run_cb w c (Admin_cb.create_iosq nsids nsid lba_sz) s
      = if s ≠ 0 then (c.identify_namespace w nsids (u32 (nsid + 1))).destroy nsid
        else (c.identify_namespace w nsids (u32 (nsid + 1))).publish nsid lba_sz := by
  simp [Ctl.run_cb, hn]

theorem Ctl.identify_namespace_idle (w : World) (c : Ctl) (h : c.Idle) (nn n : Nat) :
    (c.identify_namespace w nn (u32 (n + 1))).trace
      = c.trace ++ [Event.identify_namespace (u32 (n + 1))] ∧
    (c.identify_namespace w nn (u32 (n + 1))).nss = c.nss ∧
    (c.identify_namespace w nn (u32 (n + 1))).asq.callbacks.getD c.asq.tail none
      = some (Admin_cb.identify_namespace (u32 nn) (u32 (n + 1))) := by
  have hu : u32 (u32 (n + 1)) = u32 (n + 1) := Nat.mod_mod _ _
  obtain ⟨a1, a2, _, _, a5, _⟩ := Ctl.admin_idle c h
    (Ctl.fill_identify_namespace w.buf_phys (u32 (n + 1)))
    (Admin_cb.identify_namespace (u32 nn) (u32 (u32 (n + 1))))
    (Event.identify_namespace (u32 (u32 (n + 1))))
    (fun e => (fill_admin_cid 0 0 0 _ e).2.2.1)
  have b1 : (c.identify_namespace w nn (u32 (n + 1))).trace
      = c.trace ++ [Event.identify_namespace (u32 (u32 (n + 1)))] := a1
  have b5 : (c.identify_namespace w nn (u32 (n + 1))).asq.callbacks.getD c.asq.tail none
      = some (Admin_cb.identify_namespace (u32 nn) (u32 (u32 (n + 1)))) := a5
  rw [hu] at b1 b5
  exact ⟨b1, a2, b5⟩

/-- C28 (behaviour of the code): at any point of a discovery, for every device
behaviour, on a controller whose two reserved continuation slots read as empty
after construction (`asq_raw`): let the outstanding admin command be Identify
Namespace for namespace `n`, completing with status 0, and let the test `n + 1 < nn` that
the three sites make hold (it fails for the successor `n + 1 = nn`, the last
namespace, for which no site issues anything). Then, for each of the four
outcomes, Identify Namespace for `n + 1` is issued exactly once, and the events
added to those before are:
after a skip, the Identify Namespace command alone, issued by the controller;
when I/O CQ creation fails, Create I/O CQ, then Identify Namespace and the
destruction of the namespace, both by the I/O CQ continuation, and no Create
I/O SQ; otherwise Create I/O CQ, Create I/O SQ, and then, by the I/O SQ
continuation, Identify Namespace followed by the publication (status 0) or the
destruction of the namespace. In every case the list of namespaces identified
grows by `n + 1` only, and the command outstanding afterwards is that
Identify Namespace. -/
theorem chain_advances_once (w : World) (dstrd : Nat) (use_sgls : Bool) (k nn n : Nat)
    (hcb : (Machine.discover w dstrd use_sgls k).ctl.asq.callbacks.getD (Machine.discover w dstrd use_sgls k).dev_sq_head none
      = some (Admin_cb.identify_namespace nn n))
    (hs : (Machine.discover w dstrd use_sgls k).status w = 0)
    (hnext : u32 (n + 1) < nn)
    (hr0 : w.asq_raw 0 = none) (hr1 : w.asq_raw 1 = none) :
    ((w.ns_data n).skipped = true →
      (Machine.discover w dstrd use_sgls (k + 1)).ctl.trace
        = (Machine.discover w dstrd use_sgls k).ctl.trace ++ [Event.identify_namespace (u32 (n + 1))] ∧
      identified (Machine.discover w dstrd use_sgls (k + 1)).ctl.trace
        = identified (Machine.discover w dstrd use_sgls k).ctl.trace ++ [u32 (n + 1)] ∧
      (Machine.discover w dstrd use_sgls (k + 1)).ctl.asq.callbacks.getD (Machine.discover w dstrd use_sgls (k + 1)).dev_sq_head none
        = some (Admin_cb.identify_namespace (u32 nn) (u32 (n + 1)))) ∧
    ((w.ns_data n).skipped = false →
      (Machine.discover w dstrd use_sgls (k + 1)).ctl.trace
        = (Machine.discover w dstrd use_sgls k).ctl.trace ++ [Event.create_iocq (u16 n) Ioq_size] ∧
      (w.iocq_status (u16 n) % 2 ^ 15 ≠ 0 →
        (Machine.discover w dstrd use_sgls (k + 2)).ctl.trace
          = (Machine.discover w dstrd use_sgls k).ctl.trace ++
            [Event.create_iocq (u16 n) Ioq_size, Event.identify_namespace (u32 (n + 1)),
              Event.destroy n] ∧
        identified (Machine.discover w dstrd use_sgls (k + 2)).ctl.trace
          = identified (Machine.discover w dstrd use_sgls k).ctl.trace ++ [u32 (n + 1)] ∧
        (Machine.discover w dstrd use_sgls (k + 2)).ctl.asq.callbacks.getD (Machine.discover w dstrd use_sgls (k + 2)).dev_sq_head none
          = some (Admin_cb.identify_namespace (u32 nn) (u32 (n + 1)))) ∧
      (w.iocq_status (u16 n) % 2 ^ 15 = 0 →
        (Machine.discover w dstrd use_sgls (k + 2)).ctl.trace
          = (Machine.discover w dstrd use_sgls k).ctl.trace ++
            [Event.create_iocq (u16 n) Ioq_size,
              Event.create_iosq (u16 n) Ioq_size
                (if (Machine.discover w dstrd use_sgls k).ctl.supports_sgl then Ioq_sgls else 0)] ∧
        (Machine.discover w dstrd use_sgls (k + 3)).ctl.trace
          = (Machine.discover w dstrd use_sgls k).ctl.trace ++
            [Event.create_iocq (u16 n) Ioq_size,
              Event.create_iosq (u16 n) Ioq_size
                (if (Machine.discover w dstrd use_sgls k).ctl.supports_sgl then Ioq_sgls else 0),
              Event.identify_namespace (u32 (n + 1)),
              (if w.iosq_status (u16 n) % 2 ^ 15 = 0 then Event.publish n (w.ns_data n).lba_sz
                else Event.destroy n)] ∧
        identified (Machine.discover w dstrd use_sgls (k + 3)).ctl.trace
          = identified (Machine.discover w dstrd use_sgls k).ctl.trace ++ [u32 (n + 1)] ∧
        (Machine.discover w dstrd use_sgls (k + 3)).ctl.asq.callbacks.getD (Machine.discover w dstrd use_sgls (k + 3)).dev_sq_head none
          = some (Admin_cb.identify_namespace (u32 nn) (u32 (n + 1))))) := by
  obtain ⟨⟨hid0, htl0, _, htr0, _, hsg0, hus0⟩, hsq1, hasq1, htr1, _, hsg1, hus1⟩ :=
    Machine.discover_step w dstrd use_sgls k _ hcb hr0 hr1
  rw [hs, Ctl.run_cb_identify_namespace_zero] at hasq1 htr1 hsg1 hus1
  refine ⟨?_, ?_⟩
  · intro hsk
    rw [if_neg (by rw [hsk]; simp), if_pos hnext] at hasq1 htr1
    obtain ⟨a1, _, a5⟩ := Ctl.identify_namespace_idle w _ hid0 nn n
    have ht : (Machine.discover w dstrd use_sgls (k + 1)).ctl.trace = (Machine.discover w dstrd use_sgls k).ctl.trace ++ [Event.identify_namespace (u32 (n + 1))] := by
      rw [htr1, a1, htr0]
    refine ⟨ht, ?_, ?_⟩
    · rw [ht, identified_append]
      rfl
    · rw [hasq1, hsq1, ← htl0]
      exact a5
  · intro hsk
    rw [if_pos hsk] at hasq1 htr1 hsg1 hus1
    obtain ⟨a1, _, a3, a4, a5, a6⟩ := Ctl.admin_idle _ hid0
      (Ctl.fill_create_iocq (w.cq_phys (u16 n)) (u16 n) Ioq_size)
      (Admin_cb.create_iocq nn n (w.ns_data n).lba_sz) (Event.create_iocq (u16 n) Ioq_size)
      (fun e => (fill_admin_cid _ _ _ 0 e).1)
    have ht1 : (Machine.discover w dstrd use_sgls (k + 1)).ctl.trace = (Machine.discover w dstrd use_sgls k).ctl.trace ++ [Event.create_iocq (u16 n) Ioq_size] := by
      rw [htr1]
      show (Ctl.admin_command _ _ _ _).trace = _
      rw [a1, htr0]
    have hcb1 : (Machine.discover w dstrd use_sgls (k + 1)).ctl.asq.callbacks.getD (Machine.discover w dstrd use_sgls (k + 1)).dev_sq_head none
        = some (Admin_cb.create_iocq nn n (w.ns_data n).lba_sz) := by
      rw [hasq1, hsq1, ← htl0]
      exact a5
    have hst1 : (Machine.discover w dstrd use_sgls (k + 1)).status w = w.iocq_status (u16 n) % 2 ^ 15 := by
      unfold Machine.status
      rw [hasq1, hsq1, ← htl0]
      show w.command_status ((Ctl.admin_command _ _ _ _).asq.entry _) % 2 ^ 15 = _
      rw [a6, (command_status_create w _ n _).1]
    have hsgl1 : (Machine.discover w dstrd use_sgls (k + 1)).ctl.sgls = (Machine.discover w dstrd use_sgls k).ctl.sgls := by
      rw [hsg1]
      show (Ctl.admin_command _ _ _ _).sgls = _
      rw [a3, hsg0]
    have husl1 : (Machine.discover w dstrd use_sgls (k + 1)).ctl.use_sgls = (Machine.discover w dstrd use_sgls k).ctl.use_sgls := by
      rw [hus1]
      show (Ctl.admin_command _ _ _ _).use_sgls = _
      rw [a4, hus0]
    obtain ⟨⟨hid1, htl1, _, htrc1, _, hsgc1, husc1⟩, hsq2, hasq2, htr2, _, hsg2, hus2⟩ :=
      Machine.discover_step w dstrd use_sgls (k + 1) _ hcb1 hr0 hr1
    rw [hst1] at hasq2 htr2 hsg2 hus2
    refine ⟨ht1, ?_, ?_⟩
    · intro hfail
      rw [Ctl.run_cb_create_iocq_fail w _ nn n _ _ hfail hnext] at hasq2 htr2
      obtain ⟨b1, _, b5⟩ := Ctl.identify_namespace_idle w _ hid1 nn n
      have ht2 : (Machine.discover w dstrd use_sgls (k + 2)).ctl.trace = (Machine.discover w dstrd use_sgls k).ctl.trace ++
          [Event.create_iocq (u16 n) Ioq_size, Event.identify_namespace (u32 (n + 1)),
            Event.destroy n] := by
        show (Machine.discover w dstrd use_sgls (k + 1 + 1)).ctl.trace = _
        rw [htr2]
        show (Ctl.identify_namespace _ _ _ _).trace ++ [Event.destroy n] = _
        rw [b1, htrc1, ht1]
        simp
      refine ⟨ht2, ?_, ?_⟩
      · rw [ht2, identified_append]
        rfl
      · show (Machine.discover w dstrd use_sgls (k + 1 + 1)).ctl.asq.callbacks.getD (Machine.discover w dstrd use_sgls (k + 1 + 1)).dev_sq_head none = _
        rw [hasq2, hsq2, ← htl1]
        exact b5
    · intro hok
      rw [hok, Ctl.run_cb_create_iocq_ok] at hasq2 htr2 hsg2 hus2
      have hsup : ((Machine.discover w dstrd use_sgls (k + 1)).irq_ctl w).supports_sgl = (Machine.discover w dstrd use_sgls k).ctl.supports_sgl := by
        unfold Ctl.supports_sgl
        rw [hsgc1, husc1, hsgl1, husl1]
      rw [hsup] at hasq2 htr2 hsg2 hus2
      obtain ⟨c1, _, _, _, c5, c6⟩ := Ctl.admin_idle _ hid1
        (Ctl.fill_create_iosq (w.sq_phys (u16 n)) (u16 n) Ioq_size)
        (Admin_cb.create_iosq nn n (w.ns_data n).lba_sz)
        (Event.create_iosq (u16 n) Ioq_size (if (Machine.discover w dstrd use_sgls k).ctl.supports_sgl then Ioq_sgls else 0))
        (fun e => (fill_admin_cid _ _ _ 0 e).2.1)
      have ht2 : (Machine.discover w dstrd use_sgls (k + 2)).ctl.trace = (Machine.discover w dstrd use_sgls k).ctl.trace ++
          [Event.create_iocq (u16 n) Ioq_size, Event.create_iosq (u16 n) Ioq_size (if (Machine.discover w dstrd use_sgls k).ctl.supports_sgl then Ioq_sgls else 0)] := by
        show (Machine.discover w dstrd use_sgls (k + 1 + 1)).ctl.trace = _
        rw [htr2]
        show (Ctl.admin_command _ _ _ _).trace = _
        rw [c1, htrc1, ht1]
        simp
      have hcb2 : (Machine.discover w dstrd use_sgls (k + 1 + 1)).ctl.asq.callbacks.getD (Machine.discover w dstrd use_sgls (k + 1 + 1)).dev_sq_head none
          = some (Admin_cb.create_iosq nn n (w.ns_data n).lba_sz) := by
        rw [hasq2, hsq2, ← htl1]
        exact c5
      have hst2 : (Machine.discover w dstrd use_sgls (k + 1 + 1)).status w = w.iosq_status (u16 n) % 2 ^ 15 := by
        unfold Machine.status
        rw [hasq2, hsq2, ← htl1]
        show w.command_status ((Ctl.admin_command _ _ _ _).asq.entry _) % 2 ^ 15 = _
        rw [c6, (command_status_create w _ n _).2]
      obtain ⟨⟨hid2, htl2, _, htrc2, _⟩, hsq3, hasq3, htr3, _⟩ :=
        Machine.discover_step w dstrd use_sgls (k + 1 + 1) _ hcb2 hr0 hr1
      rw [hst2, Ctl.run_cb_create_iosq_next w _ nn n _ _ hnext] at hasq3 htr3
      obtain ⟨d1, _, d5⟩ := Ctl.identify_namespace_idle w _ hid2 nn n
      have ht3 : (Machine.discover w dstrd use_sgls (k + 3)).ctl.trace = (Machine.discover w dstrd use_sgls k).ctl.trace ++
          [Event.create_iocq (u16 n) Ioq_size, Event.create_iosq (u16 n) Ioq_size (if (Machine.discover w dstrd use_sgls k).ctl.supports_sgl then Ioq_sgls else 0),
            Event.identify_namespace (u32 (n + 1)),
            (if w.iosq_status (u16 n) % 2 ^ 15 = 0 then Event.publish n (w.ns_data n).lba_sz
              else Event.destroy n)] := by
        show (Machine.discover w dstrd use_sgls (k + 1 + 1 + 1)).ctl.trace = _
        rw [htr3]
        have ht2b : (Machine.discover w dstrd use_sgls (k + 1 + 1)).ctl.trace = (Machine.discover w dstrd use_sgls k).ctl.trace ++
            [Event.create_iocq (u16 n) Ioq_size, Event.create_iosq (u16 n) Ioq_size (if (Machine.discover w dstrd use_sgls k).ctl.supports_sgl then Ioq_sgls else 0)] := ht2
        by_cases hz : w.iosq_status (u16 n) % 2 ^ 15 = 0
        · rw [if_neg (by rw [hz]; simp), if_pos hz]
          show (Ctl.identify_namespace _ _ _ _).trace ++ [Event.publish n _] = _
          rw [d1, htrc2, ht2b]
          simp
        · rw [if_pos hz, if_neg hz]
          show (Ctl.identify_namespace _ _ _ _).trace ++ [Event.destroy n] = _
          rw [d1, htrc2, ht2b]
          simp
      refine ⟨ht2, ht3, ?_, ?_⟩
      · rw [ht3, identified_append]
        by_cases hz : w.iosq_status (u16 n) % 2 ^ 15 = 0
        · rw [if_pos hz]
          rfl
        · rw [if_neg hz]
          rfl
      · show (Machine.discover w dstrd use_sgls (k + 1 + 1 + 1)).ctl.asq.callbacks.getD (Machine.discover w dstrd use_sgls (k + 1 + 1 + 1)).dev_sq_head none = _
        rw [hasq3, hsq3, ← htl2]
        by_cases hz : w.iosq_status (u16 n) % 2 ^ 15 = 0
        · rw [if_neg (by rw [hz]; simp)]
          exact d5
        · rw [if_pos hz]
          exact d5

/-- Witness of C28: with `NN = 3`, after the first interrupt the outstanding
command is Identify Namespace 1 and `1 + 1 < 3`. If namespace 1 is inactive,
the controller issues Identify Namespace 2 at once; if it is healthy and both
queue creations succeed, Identify Namespace 2 is issued by the I/O SQ
continuation, before the publication. With `NN = 2`, however, namespace 1 has
the successor 2 but the test `1 + 1 < 2` fails at all three sites: in each of
the four outcomes (skipped, I/O CQ creation failed, I/O SQ creation failed,
both succeeded) the only namespace ever identified is namespace 1. -/
theorem chain_advances_once_witness :
    ((Machine.discover (World.outcome 3 Identify_ns.inactive 0 0) 0 false (1 + 1)).ctl.trace
        = [Event.identify_controller, Event.identify_namespace 1, Event.identify_namespace 2] ∧
      (Machine.discover (World.outcome 3 Identify_ns.healthy 0 0) 0 false (1 + 3)).ctl.trace
        = [Event.identify_controller, Event.identify_namespace 1, Event.create_iocq 1 32,
            Event.create_iosq 1 32 0, Event.identify_namespace 2, Event.publish 1 512]) ∧
    (identified (Machine.discover (World.outcome 2 Identify_ns.inactive 0 0) 0 false
        16).ctl.trace = [1] ∧
      identified (Machine.discover (World.outcome 2 Identify_ns.healthy 1 0) 0 false
        16).ctl.trace = [1] ∧
      identified (Machine.discover (World.outcome 2 Identify_ns.healthy 0 1) 0 false
        16).ctl.trace = [1] ∧
      identified (Machine.discover (World.outcome 2 Identify_ns.healthy 0 0) 0 false
        16).ctl.trace = [1]) :=
  ⟨⟨(((chain_advances_once (World.outcome 3 Identify_ns.inactive 0 0) 0 false 1 3 1
        (by decide) (by decide) (by decide) rfl rfl).1 (by decide)).1).trans (by decide),
    ((((chain_advances_once (World.outcome 3 Identify_ns.healthy 0 0) 0 false 1 3 1
        (by decide) (by decide) (by decide) rfl rfl).2 (by decide)).2.2 (by decide)).2.1).trans
        (by decide)⟩,
   by decide⟩

/-! ## Doorbell offsets are pairwise distinct (`tdbl`, `hdbl`) -/

theorem mul_stride_aligned (k d : Nat) : (0x1000 + k * (4 <<< d)) % 4 = 0 ∧
    0x1000 ≤ 0x1000 + k * (4 <<< d) := by
  rw [Nat.shiftLeft_eq]
  have h : k * (4 * 2 ^ d) = 4 * (k * 2 ^ d) := by ring
  rw [h]
  omega

theorem stride_pos (d : Nat) : 0 < 4 <<< d := by
  rw [Nat.shiftLeft_eq]
  have : 0 < 2 ^ d := Nat.pos_of_ne_zero (by positivity)
  omega

/-- C33: for submission queues `sq1`, `sq2` and completion queues `cq1`, `cq2`
with one and the same doorbell stride field `DSTRD` and queue indices for
which the offsets do not overflow 32 bits: equal tail doorbell offsets
`tdbl()` imply equal queue indices, equal head doorbell offsets `hdbl()` imply
equal queue indices, the tail doorbell offset of a submission queue differs
from the head doorbell offset of every completion queue, and every doorbell
offset is at least `0x1000` and a multiple of 4. -/
theorem doorbells_distinct {κ : Type} (sq1 sq2 : Submission_queue κ)
    (cq1 cq2 : Completion_queue) (d : Nat)
    (hd1 : sq1.dstrd = d) (hd2 : sq2.dstrd = d) (hd3 : cq1.dstrd = d) (hd4 : cq2.dstrd = d)
    (hs1 : 0x1000 + 2 * sq1.y * (4 <<< d) < 2 ^ 32)
    (hs2 : 0x1000 + 2 * sq2.y * (4 <<< d) < 2 ^ 32)
    (hc1 : 0x1000 + (2 * cq1.y + 1) * (4 <<< d) < 2 ^ 32)
    (hc2 : 0x1000 + (2 * cq2.y + 1) * (4 <<< d) < 2 ^ 32) :
    (sq1.tdbl = sq2.tdbl → sq1.y = sq2.y) ∧
    (cq1.hdbl = cq2.hdbl → cq1.y = cq2.y) ∧
    sq1.tdbl ≠ cq1.hdbl ∧ sq1.tdbl ≠ cq2.hdbl ∧ sq2.tdbl ≠ cq1.hdbl ∧ sq2.tdbl ≠ cq2.hdbl ∧
    (0x1000 ≤ sq1.tdbl ∧ sq1.tdbl % 4 = 0) ∧ (0x1000 ≤ sq2.tdbl ∧ sq2.tdbl % 4 = 0) ∧
    (0x1000 ≤ cq1.hdbl ∧ cq1.hdbl % 4 = 0) ∧ (0x1000 ≤ cq2.hdbl ∧ cq2.hdbl % 4 = 0) := by
  have hpos := stride_pos d
  have e1 : sq1.tdbl = 0x1000 + 2 * sq1.y * (4 <<< d) := by
    have := tdbl_eq sq1 (by rw [hd1]; exact hs1)
    rw [hd1] at this
    exact this
  have e2 : sq2.tdbl = 0x1000 + 2 * sq2.y * (4 <<< d) := by
    have := tdbl_eq sq2 (by rw [hd2]; exact hs2)
    rw [hd2] at this
    exact this
  have e3 : cq1.hdbl = 0x1000 + (2 * cq1.y + 1) * (4 <<< d) := by
    have := hdbl_eq cq1 (by rw [hd3]; exact hc1)
    rw [hd3] at this
    exact this
  have e4 : cq2.hdbl = 0x1000 + (2 * cq2.y + 1) * (4 <<< d) := by
    have := hdbl_eq cq2 (by rw [hd4]; exact hc2)
    rw [hd4] at this
    exact this
  have hne : ∀ a b : Nat, 0x1000 + 2 * a * (4 <<< d) ≠ 0x1000 + (2 * b + 1) * (4 <<< d) := by
    intro a b h
    have h2 : 2 * a * (4 <<< d) = (2 * b + 1) * (4 <<< d) := by omega
    have h3 := Nat.eq_of_mul_eq_mul_right hpos h2
    omega
  rw [e1, e2, e3, e4]
  refine ⟨?_, ?_, hne _ _, hne _ _, hne _ _, hne _ _,
    ⟨(mul_stride_aligned _ d).2, (mul_stride_aligned _ d).1⟩,
    ⟨(mul_stride_aligned _ d).2, (mul_stride_aligned _ d).1⟩,
    ⟨(mul_stride_aligned _ d).2, (mul_stride_aligned _ d).1⟩,
    ⟨(mul_stride_aligned _ d).2, (mul_stride_aligned _ d).1⟩⟩
  · intro h
    have h2 : 2 * sq1.y * (4 <<< d) = 2 * sq2.y * (4 <<< d) := by omega
    have h3 := Nat.eq_of_mul_eq_mul_right hpos h2
    omega
  · intro h
    have h2 : (2 * cq1.y + 1) * (4 <<< d) = (2 * cq2.y + 1) * (4 <<< d) := by omega
    have h3 := Nat.eq_of_mul_eq_mul_right hpos h2
    omega

/-- Witness of C33: the admin queue pair (index 0) and the I/O queue pair of
namespace 1 (index 1) with `DSTRD = 0`: the four doorbell offsets `0x1000`,
`0x1004`, `0x1008`, `0x100c` are pairwise distinct. -/
theorem doorbells_distinct_witness :
    let sq1 : Submission_queue Nat := Submission_queue.mk_queue 2 0 0 0 0 (fun _ => none)
    let sq2 : Submission_queue Nat := Submission_queue.mk_queue 32 1 0 0 0 (fun _ => none)
    let cq1 : Completion_queue := Completion_queue.mk_queue 2 0 0
    let cq2 : Completion_queue := Completion_queue.mk_queue 32 1 0
    (sq1.tdbl = sq2.tdbl → sq1.y = sq2.y) ∧
    (cq1.hdbl = cq2.hdbl → cq1.y = cq2.y) ∧
    sq1.tdbl ≠ cq1.hdbl ∧ sq1.tdbl ≠ cq2.hdbl ∧ sq2.tdbl ≠ cq1.hdbl ∧ sq2.tdbl ≠ cq2.hdbl ∧
    (0x1000 ≤ sq1.tdbl ∧ sq1.tdbl % 4 = 0) ∧ (0x1000 ≤ sq2.tdbl ∧ sq2.tdbl % 4 = 0) ∧
    (0x1000 ≤ cq1.hdbl ∧ cq1.hdbl % 4 = 0) ∧ (0x1000 ≤ cq2.hdbl ∧ cq2.hdbl % 4 = 0) :=
  doorbells_distinct (Submission_queue.mk_queue 2 0 0 0 0 (fun _ => none)) (Submission_queue.mk_queue 32 1 0 0 0 (fun _ => none))
    (Completion_queue.mk_queue 2 0 0) (Completion_queue.mk_queue 32 1 0) 0
    rfl rfl rfl rfl (by decide) (by decide) (by decide) (by decide)

/-! ## The SGL gate is never opened (`Ctl::use_sgls`) -/

theorem parse_args_false_or_same (opts : List Getopt) :
    ∀ u : Bool, parse_args opts u = false ∨ parse_args opts u = u := by
  induction opts with
  | nil => intro u; exact Or.inr rfl
  | cons o opts ih =>
    intro u
    cases o with
    | nosgl =>
      rcases ih false with h | h
      · exact Or.inl h
      · exact Or.inl h
    | client added => cases added <;> first | exact Or.inr rfl | exact ih u
    | register_ds found => cases found <;> first | exact Or.inr rfl | exact ih u
    | other => exact Or.inr rfl
    | verbose => exact ih u
    | quiet => exact ih u
    | device => exact ih u
    | ds_max => exact ih u
    | readonly => exact ih u

theorem Ctl.run_cb_use_sgls (w : World) (c : Ctl) (cb : Admin_cb) (s : Nat) :
    (Ctl.run_cb w c cb s).use_sgls = c.use_sgls := by
  cases cb with
  | identify =>
    simp only [Ctl.run_cb]
    split
    · rfl
    · split
      · rfl
      · exact (Ctl.admin_command_flags _ _ _ _).2
  | identify_namespace nn n =>
    simp only [Ctl.run_cb]
    repeat' split
    all_goals first
      | rfl
      | exact (Ctl.admin_command_flags _ _ _ _).2
  | create_iocq nsids nsid lba_sz =>
    simp only [Ctl.run_cb]
    repeat' split
    all_goals first
      | rfl
      | exact (Ctl.admin_command_flags _ _ _ _).2
  | create_iosq nsids nsid lba_sz =>
    simp only [Ctl.run_cb]
    repeat' split
    all_goals first
      | rfl
      | exact (Ctl.admin_command_flags _ _ _ _).2

theorem Ctl.handle_irq_use_sgls (w : World) (c : Ctl) :
    (Ctl.handle_irq w c).use_sgls = c.use_sgls := by
  unfold Ctl.handle_irq
  split
  · rfl
  · simp only []
    split
    · rfl
    · split
      · rfl
      · split
        · exact Ctl.run_cb_use_sgls w _ _ _
        · exact Ctl.run_cb_use_sgls w _ _ _

theorem Machine.run_use_sgls (w : World) (fuel : Nat) :
    ∀ m : Machine, (Machine.run w fuel m).ctl.use_sgls = m.ctl.use_sgls := by
  induction fuel with
  | zero => intro m; rfl
  | succ fuel ih =>
    intro m
    rw [Machine.run]
    cases hds : m.device_step w with
    | none => rfl
    | some m1 =>
      simp only []
      rw [ih]
      show (m1.ctl.handle_irq w).use_sgls = _
      rw [Ctl.handle_irq_use_sgls]
      unfold Machine.device_step at hds
      split at hds
      · cases hds
      · split at hds
        · cases hds
        · cases hds
          rfl

/-- C32: the static gate `Ctl::use_sgls` is false initially and the one
assignment to it in the program (`OPT_NOSGL` in `parse_args`) assigns false:
whatever the command line, `parse_args` leaves it unchanged or false, so it is
false when the command line has been parsed. Hence, for every controller
(whatever its flag `_sgls`, which Identify Controller sets from `SGLS`) and
every namespace of it, `supports_sgl()` is false; `inout_data` is its PRP
branch (`readwrite_prepare_prp` on the first block, one block per command);
`max_segments()` is 1 and `max_size()` is one host page; the continuation of
Create I/O CQ requests the I/O submission queue with `sgls = 0`, and a
submission queue constructed with `sgls = 0` has no SGL scratch table;
throughout a discovery the controller never supports SGLs. -/
theorem use_sgls_always_false (opts : List Getopt) (ps : Nat) (ns : Namespace) (regs : Mmio)
    (sector : Nat) (block : Inout_block) (rest : List Inout_block) (cb : Nat) (read : Bool)
    (w : World) (c : Ctl) (nsids nsid lba_sz dstrd fuel : Nat)
    (hns : ns.ctl.use_sgls = parse_args opts Ctl.use_sgls_init)
    (hc : c.use_sgls = parse_args opts Ctl.use_sgls_init) :
    (Ctl.use_sgls_init = false ∧ (∀ u, parse_args opts u = false ∨ parse_args opts u = u) ∧
      parse_args opts Ctl.use_sgls_init = false) ∧
    (ns.ctl.supports_sgl = false ∧ c.supports_sgl = false) ∧
    Nvme_device.inout_data ps ns regs sector block rest cb read
      = (match ns.readwrite_prepare_prp ps read sector block.dma_addr
            (u64 (min (u64 block.num_sectors)
              (Nvme_device.max_size ps ns / Nvme_device.sector_size ns)
                * Nvme_device.sector_size ns)) with
        | (none, ns1) => (- L4_EBUSY, ns1, regs)
        | (some i, ns1) =>
          (L4_EOK,
            (ns1.readwrite_submit regs i
              (u64 (min (u64 block.num_sectors)
                (Nvme_device.max_size ps ns / Nvme_device.sector_size ns) + (2 ^ 64 - 1))) 1
              (Callback.inout cb (u64 (min (u64 block.num_sectors)
                (Nvme_device.max_size ps ns / Nvme_device.sector_size ns)
                  * Nvme_device.sector_size ns1)))).1,
            (ns1.readwrite_submit regs i
              (u64 (min (u64 block.num_sectors)
                (Nvme_device.max_size ps ns / Nvme_device.sector_size ns) + (2 ^ 64 - 1))) 1
              (Callback.inout cb (u64 (min (u64 block.num_sectors)
                (Nvme_device.max_size ps ns / Nvme_device.sector_size ns)
                  * Nvme_device.sector_size ns1)))).2)) ∧
    (Nvme_device.max_segments ns = 1 ∧ Nvme_device.max_size ps ns = L4_PAGESIZE ps) ∧
    (Ctl.run_cb w c (Admin_cb.create_iocq nsids nsid lba_sz) 0
        = c.create_iosq w nsid Ioq_size 0 (Admin_cb.create_iosq nsids nsid lba_sz) ∧
      (∀ (id d phys : Nat) (raw : Nat → Option Callback),
        (Submission_queue.mk_queue Ioq_size id d 0 phys raw : Submission_queue Callback).has_sgls
          = false)) ∧
    (Machine.discover w dstrd (parse_args opts Ctl.use_sgls_init) fuel).ctl.supports_sgl
      = false := by
  have hfs := parse_args_false_or_same opts
  have hp : parse_args opts Ctl.use_sgls_init = false := by
    rcases hfs Ctl.use_sgls_init with h | h
    · exact h
    · rw [h]; rfl
  rw [hp] at hns hc
  have hsup : ns.ctl.supports_sgl = false := by
    unfold Ctl_info.supports_sgl
    rw [hns]
    rfl
  have hsupc : c.supports_sgl = false := by
    unfold Ctl.supports_sgl
    rw [hc]
    rfl
  refine ⟨⟨rfl, hfs, hp⟩, ⟨hsup, hsupc⟩, ?_, ⟨?_, ?_⟩, ⟨?_, ?_⟩, ?_⟩
  · unfold Nvme_device.inout_data
    rw [if_neg (by rw [hsup]; simp)]
  · unfold Nvme_device.max_segments
    rw [if_neg (by rw [hsup]; simp)]
  · unfold Nvme_device.max_size
    rw [if_neg (by rw [hsup]; simp)]
  · rw [Ctl.run_cb_create_iocq_ok, hsupc]
    rfl
  · intro id d phys raw
    simp [Submission_queue.mk_queue]
  · rw [hp]
    unfold Ctl.supports_sgl
    have h1 : (Machine.discover w dstrd false fuel).ctl.use_sgls = false := by
      unfold Machine.discover
      rw [Machine.run_use_sgls]
      show ((Ctl.init dstrd false w.asq_raw).identify w).use_sgls = false
      unfold Ctl.identify
      rw [(Ctl.admin_command_flags _ _ _ _).2]
      rfl
    rw [h1]
    rfl

/-- Witness of C32: the command line `--nosgl` and the empty command line
both leave the gate false; a namespace on a controller that reports SGL
support (`_sgls` true) then still does not support SGLs, has `max_segments()`
1 and `max_size()` of 4096 bytes with 4 KiB pages, and the I/O submission
queue is requested with `sgls = 0`. -/
theorem use_sgls_always_false_witness :
    (parse_args [Getopt.nosgl] Ctl.use_sgls_init = false ∧
      parse_args [] Ctl.use_sgls_init = false) ∧
    (({ Namespace.example_ns with
        ctl := { use_sgls := false, sgls := true, mdts := 5, mpsmin := 0 } } :
        Namespace).ctl.supports_sgl = false ∧
      Nvme_device.max_segments ({ Namespace.example_ns with
        ctl := { use_sgls := false, sgls := true, mdts := 5, mpsmin := 0 } } : Namespace) = 1 ∧
      Nvme_device.max_size 12 ({ Namespace.example_ns with
        ctl := { use_sgls := false, sgls := true, mdts := 5, mpsmin := 0 } } : Namespace)
        = L4_PAGESIZE 12) ∧
    Ctl.run_cb World.s6 ({ Ctl.init 0 false (fun _ => none) with sgls := true })
        (Admin_cb.create_iocq 3 1 512) 0
      = ({ Ctl.init 0 false (fun _ => none) with sgls := true } : Ctl).create_iosq World.s6 1
          Ioq_size 0 (Admin_cb.create_iosq 3 1 512) :=
  have h := use_sgls_always_false [Getopt.nosgl] 12
    ({ Namespace.example_ns with
      ctl := { use_sgls := false, sgls := true, mdts := 5, mpsmin := 0 } })
    [] 0 ⟨0, 0x400000100, 1, false⟩ [] 7 true World.s6
    ({ Ctl.init 0 false (fun _ => none) with sgls := true }) 3 1 512 0 16 (by decide) (by decide)
  have h0 := use_sgls_always_false [] 12 Namespace.example_ns [] 0
    ⟨0, 0x400000100, 1, false⟩ [] 7 true World.s6 (Ctl.init 0 false (fun _ => none)) 3 1 512 0 16
    (by decide) (by decide)
  ⟨⟨h.1.2.2, h0.1.2.2⟩, ⟨h.2.1.1, h.2.2.2.1.1, h.2.2.2.1.2⟩, h.2.2.2.2.1.1⟩

/-! ## The byte size of a PRP request (`Nvme_device::inout_data`, PRP branch) -/

theorem trunc_page_two (ps a s : Nat) (hs : 0 < s) (hsp : s ≤ 2 ^ ps) :
    l4_trunc_page ps (a + s - 1) = l4_trunc_page ps a ∨
    l4_trunc_page ps (a + s - 1) = l4_trunc_page ps a + 2 ^ ps := by
  unfold l4_trunc_page
  have hP : 0 < 2 ^ ps := Nat.pos_of_ne_zero (by positivity)
  have h1 : a / 2 ^ ps ≤ (a + s - 1) / 2 ^ ps := Nat.div_le_div_right (by omega)
  have h2 : (a + s - 1) / 2 ^ ps ≤ (a + 2 ^ ps) / 2 ^ ps := Nat.div_le_div_right (by omega)
  rw [Nat.add_div_right a hP] at h2
  have h3 : (a + s - 1) / 2 ^ ps = a / 2 ^ ps ∨ (a + s - 1) / 2 ^ ps = a / 2 ^ ps + 1 := by
    omega
  rcases h3 with h | h
  · left; rw [h]
  · right; rw [h, Nat.add_mul, Nat.one_mul]

theorem inout_sectors_prp_bounds (ps : Nat) (ns : Namespace) (block : Inout_block)
    (rest : List Inout_block) (hprp : ns.ctl.supports_sgl = false) (hps64 : ps < 64)
    (hn1 : 1 ≤ block.num_sectors) (hn64 : block.num_sectors < 2 ^ 64)
    (hl0 : 0 < ns.lba_sz) (hl : ns.lba_sz ≤ L4_PAGESIZE ps) :
    0 < u64 (Nvme_device.inout_sectors ps ns block rest * Nvme_device.sector_size ns) ∧
    u64 (Nvme_device.inout_sectors ps ns block rest * Nvme_device.sector_size ns)
      ≤ L4_PAGESIZE ps := by
  unfold Nvme_device.inout_sectors Nvme_device.max_size Nvme_device.sector_size
  rw [if_neg (by rw [hprp]; simp), if_neg (by rw [hprp]; simp)]
  unfold L4_PAGESIZE at hl ⊢
  have hu : u64 block.num_sectors = block.num_sectors := Nat.mod_eq_of_lt hn64
  rw [hu]
  have hq1 : 1 ≤ 2 ^ ps / ns.lba_sz := (Nat.one_le_div_iff hl0).mpr hl
  have hm1 : 1 ≤ min block.num_sectors (2 ^ ps / ns.lba_sz) := le_min hn1 hq1
  have hle : min block.num_sectors (2 ^ ps / ns.lba_sz) * ns.lba_sz ≤ 2 ^ ps :=
    le_trans (Nat.mul_le_mul_right _ (min_le_right _ _)) (Nat.div_mul_le_self _ _)
  have hpos : 0 < min block.num_sectors (2 ^ ps / ns.lba_sz) * ns.lba_sz :=
    Nat.mul_pos hm1 hl0
  have hp64 : 2 ^ ps < 2 ^ 64 := Nat.pow_lt_pow_right (by norm_num) hps64
  have hu2 : u64 (min block.num_sectors (2 ^ ps / ns.lba_sz) * ns.lba_sz)
      = min block.num_sectors (2 ^ ps / ns.lba_sz) * ns.lba_sz :=
    Nat.mod_eq_of_lt (by omega)
  rw [hu2]
  exact ⟨hpos, hle⟩

/-- C31: in PRP mode, for every request whose first block has
`num_sectors >= 1` on a namespace with an LBA size of at least one byte and at
most the host page size (`2^ps` bytes, `ps < 64`), `inout_data` is the call of
`readwrite_prepare_prp` with the byte size `sz = sectors * sector_size()`
followed by the submission, and this size satisfies `0 < sz <= page_size`.
Hence the last byte of the buffer lies in the page of the first byte or in the
page after it, and for a buffer that ends within the 64-bit address space the
local `prp2` of the classifier (the page of the last byte) is the page of
`paddr` or the page following it: no request of the adapter has a buffer of
more than two pages. -/
theorem inout_data_prp_size (ps : Nat) (ns : Namespace) (regs : Mmio) (sector : Nat)
    (block : Inout_block) (rest : List Inout_block) (cb : Nat) (read : Bool)
    (hprp : ns.ctl.supports_sgl = false) (hps64 : ps < 64)
    (hn1 : 1 ≤ block.num_sectors) (hn64 : block.num_sectors < 2 ^ 64)
    (hl0 : 0 < ns.lba_sz) (hl : ns.lba_sz ≤ L4_PAGESIZE ps) :
    Nvme_device.inout_data ps ns regs sector block rest cb read
      = (match ns.readwrite_prepare_prp ps read sector block.dma_addr
            (u64 (Nvme_device.inout_sectors ps ns block rest
              * Nvme_device.sector_size ns)) with
        | (none, ns1) => (- L4_EBUSY, ns1, regs)
        | (some i, ns1) =>
          (L4_EOK,
            (ns1.readwrite_submit regs i
              (u64 (Nvme_device.inout_sectors ps ns block rest + (2 ^ 64 - 1))) 1
              (Callback.inout cb (u64 (Nvme_device.inout_sectors ps ns block rest
                * Nvme_device.sector_size ns1)))).1,
            (ns1.readwrite_submit regs i
              (u64 (Nvme_device.inout_sectors ps ns block rest + (2 ^ 64 - 1))) 1
              (Callback.inout cb (u64 (Nvme_device.inout_sectors ps ns block rest
                * Nvme_device.sector_size ns1)))).2)) ∧
    (0 < u64 (Nvme_device.inout_sectors ps ns block rest * Nvme_device.sector_size ns) ∧
      u64 (Nvme_device.inout_sectors ps ns block rest * Nvme_device.sector_size ns)
        ≤ L4_PAGESIZE ps) ∧
    (l4_trunc_page ps (block.dma_addr
        + u64 (Nvme_device.inout_sectors ps ns block rest * Nvme_device.sector_size ns) - 1)
        = l4_trunc_page ps block.dma_addr ∨
      l4_trunc_page ps (block.dma_addr
        + u64 (Nvme_device.inout_sectors ps ns block rest * Nvme_device.sector_size ns) - 1)
        = l4_trunc_page ps block.dma_addr + L4_PAGESIZE ps) ∧
    (block.dma_addr
        + u64 (Nvme_device.inout_sectors ps ns block rest * Nvme_device.sector_size ns)
        ≤ 2 ^ 64 →
      l4_trunc_page ps (u64 (block.dma_addr
          + u64 (Nvme_device.inout_sectors ps ns block rest * Nvme_device.sector_size ns)
          + (2 ^ 64 - 1)))
        = l4_trunc_page ps block.dma_addr ∨
      l4_trunc_page ps (u64 (block.dma_addr
          + u64 (Nvme_device.inout_sectors ps ns block rest * Nvme_device.sector_size ns)
          + (2 ^ 64 - 1)))
        = l4_trunc_page ps block.dma_addr + L4_PAGESIZE ps) := by
  obtain ⟨h1, h2⟩ := inout_sectors_prp_bounds ps ns block rest hprp hps64 hn1 hn64 hl0 hl
  have hgeo := trunc_page_two ps block.dma_addr _ h1 h2
  refine ⟨?_, ⟨h1, h2⟩, hgeo, ?_⟩
  · have hs : Nvme_device.inout_sectors ps ns block rest
        = min (u64 block.num_sectors)
            (Nvme_device.max_size ps ns / Nvme_device.sector_size ns) := by
      unfold Nvme_device.inout_sectors
      rw [if_neg (by rw [hprp]; simp)]
    rw [hs]
    unfold Nvme_device.inout_data
    rw [if_neg (by rw [hprp]; simp)]
  · intro hend
    have hw : u64 (block.dma_addr
        + u64 (Nvme_device.inout_sectors ps ns block rest * Nvme_device.sector_size ns)
        + (2 ^ 64 - 1))
        = block.dma_addr
          + u64 (Nvme_device.inout_sectors ps ns block rest * Nvme_device.sector_size ns)
          - 1 := by
      unfold u64 at hend h1 ⊢
      omega
    rw [hw]
    exact hgeo

/-- Witness of C31: with 4 KiB pages, on the scenario namespace (512-byte
blocks), for a one-sector read of a buffer at `0x4_0000_0F00`: the size passed
is 512 bytes and the last byte `0x4_0000_10FF` lies in the page after the
first; for a request of 64 sectors at the page-aligned address
`0x4_0000_0000` the size passed is the 4096 bytes of one page. -/
theorem inout_data_prp_size_witness :
    (0 < u64 (Nvme_device.inout_sectors 12 Namespace.example_ns ⟨0, 0x400000F00, 1, false⟩ []
        * Nvme_device.sector_size Namespace.example_ns) ∧
      u64 (Nvme_device.inout_sectors 12 Namespace.example_ns ⟨0, 0x400000F00, 1, false⟩ []
        * Nvme_device.sector_size Namespace.example_ns) ≤ L4_PAGESIZE 12) ∧
    u64 (Nvme_device.inout_sectors 12 Namespace.example_ns ⟨0, 0x400000F00, 1, false⟩ []
      * Nvme_device.sector_size Namespace.example_ns) = 512 ∧
    l4_trunc_page 12 (0x400000F00 + 512 - 1) = l4_trunc_page 12 0x400000F00 + L4_PAGESIZE 12 ∧
    u64 (Nvme_device.inout_sectors 12 Namespace.example_ns ⟨0, 0x400000000, 64, false⟩ []
      * Nvme_device.sector_size Namespace.example_ns) = 4096 :=
  ⟨(inout_data_prp_size 12 Namespace.example_ns [] 0 ⟨0, 0x400000F00, 1, false⟩ [] 7
      true (by decide) (by decide) (by decide) (by decide) (by decide) (by decide)).2.1,
    by decide, by decide, by decide⟩

end Nvme
